import Mathlib

/-!
# dex: authorization and token endpoints, cross-client trust and the Kubernetes storage

A shallow embedding of `server/handlers.go`, `server/oauth2.go`,
`storage/kubernetes/{storage,types}.go` and `connector/oidc/oidc.go`.

Conventions of the embedding.

* Go `string` is `String`: a text, which stands for the Go string of its UTF-8 bytes;
  `[]string` is `List String`; `[]byte` is `List Nat`. Where the sources decode bytes
  (`url.QueryUnescape`), the bytes are read as UTF-8.
* The functions of `net/url`, `net/http` and `path` that the sources call are embedded
  from the standard library as of Go 1.21.
* `time.Time` is an `Int` (an instant on a linear clock), `time.Duration` an `Int`;
  `t.After(u)` is `u < t`.
* A Go `(T, error)` result is an `Except Error T`; a bare `error` is an `Option Error`.
* The handlers run against a `World`: the objects held by the Kubernetes API server,
  the outcome schedule of the API calls still to come (`faults`), the log of API
  calls made so far (`trace`) and the random source read by `storage.NewID`.
* `http.ResponseWriter` is the record of what has been written to it.
* Logging is not modelled; neither is the `Content-Length` header, which is a
  function of the serialised bytes.
-/

set_option autoImplicit false
set_option linter.dupNamespace false

namespace Dex

/-! ## Errors and time -/

/-- Go `error` values met in the sources: the two sentinels of package `storage` and
every other error (transport failures, `fmt.Errorf`, `errors.New`). -/
inductive Error where
  | ErrNotFound
  | ErrAlreadyExists
  | other (msg : String)
  deriving DecidableEq, Repr

/-- Rendering of an error with the `%v` verb. -/
def Error.toString : Error → String
  | .ErrNotFound => "not found"
  | .ErrAlreadyExists => "ID already exists"
  | .other msg => msg

/-- Instants (`time.Time`). -/
abbrev Time := Int

/-- Go `t.After(u)`. -/
def Time.After (t u : Time) : Bool := decide (u < t)

/-- Go `time.Minute`, in seconds: the clock of the model ticks in seconds. -/
def Minute : Int := 60

/-! ## Standard-library helpers used by the sources -/

namespace strings

/-- Go `unicode.IsSpace`. -/
def isSpace (c : Char) : Bool :=
  let n := c.toNat
  n == 0x09 || n == 0x0A || n == 0x0B || n == 0x0C || n == 0x0D || n == 0x20 ||
  n == 0x85 || n == 0xA0 || n == 0x1680 || (0x2000 ≤ n && n ≤ 0x200A) ||
  n == 0x2028 || n == 0x2029 || n == 0x202F || n == 0x205F || n == 0x3000

/-- Worker of `Fields`: `cur` is the field being read, reversed. -/
def fieldsAux : List Char → List Char → List String
  | [], cur => if cur.isEmpty then [] else [String.mk cur.reverse]
  | c :: cs, cur =>
    if isSpace c then
      (if cur.isEmpty then fieldsAux cs [] else String.mk cur.reverse :: fieldsAux cs [])
    else fieldsAux cs (c :: cur)

/-- Go `strings.Fields`: the maximal runs of non-space characters. -/
def Fields (s : String) : List String := fieldsAux s.data []

/-- Worker of `Split` on a single separator character. -/
def splitAux (sep : Char) : List Char → List Char → List String
  | [], cur => [String.mk cur.reverse]
  | c :: cs, cur =>
    if c = sep then String.mk cur.reverse :: splitAux sep cs [] else splitAux sep cs (c :: cur)

/-- Go `strings.Split(s, " ")`: the pieces between the separators, empty pieces kept. -/
def SplitSpace (s : String) : List String := splitAux (Char.ofNat 32) s.data []

/-- Go `strings.HasPrefix`. -/
def HasPrefix (s p : String) : Bool := p.data.isPrefixOf s.data

/-- Go `strings.HasSuffix`. -/
def HasSuffix (s p : String) : Bool := p.data.reverse.isPrefixOf s.data.reverse

/-- Go `strings.TrimPrefix`. -/
def TrimPrefix (s p : String) : String :=
  if HasPrefix s p then String.mk (s.data.drop p.data.length) else s

/-- Go `strings.Contains`. -/
def Contains (s sub : String) : Bool := s.data.tails.any (fun t => sub.data.isPrefixOf t)

/-- Whether every character of a string is an ASCII character. -/
def isASCII (s : String) : Bool := s.data.all (fun c => c.toNat < 128)

/-- Lower case of a character, for the letters of ASCII. -/
def toLower (c : Char) : Char :=
  if 65 ≤ c.toNat ∧ c.toNat ≤ 90 then Char.ofNat (c.toNat + 32) else c

/-- Go `strings.ToLower`, for the letters of ASCII: the other characters are left as
they are. -/
def ToLower (s : String) : String := String.mk (s.data.map toLower)

/-- Worker of `Less`. -/
def lessAux : List Char → List Char → Bool
  | _, [] => false
  | [], _ :: _ => true
  | a :: as, b :: bs =>
    if a.toNat < b.toNat then true
    else if b.toNat < a.toNat then false
    else lessAux as bs

/-- Go `a < b` on strings: the lexicographic order of the bytes, which is that of the
characters. -/
def Less (a b : String) : Bool := lessAux a.data b.data

end strings

namespace strconv

/-- Value of a decimal digit. -/
def digit? (c : Char) : Option Nat :=
  if 48 ≤ c.toNat ∧ c.toNat ≤ 57 then some (c.toNat - 48) else none

/-- Value of a non-empty run of decimal digits. -/
def digits? : List Char → Nat → Option Nat
  | [], acc => some acc
  | c :: cs, acc =>
    match digit? c with
    | some d => digits? cs (10 * acc + d)
    | none => none

/-- Go `strconv.Atoi` on a 64-bit platform: an optional sign, then decimal digits;
`none` stands for a syntax or range error. -/
def Atoi (s : String) : Option Int :=
  let body (cs : List Char) : Option Nat := if cs.isEmpty then none else digits? cs 0
  match s.data with
  | [] => none
  | c :: cs =>
    if c = Char.ofNat 45 then
      match body cs with
      | some n => if n ≤ 2 ^ 63 then some (-(n : Int)) else none
      | none => none
    else
      match body (if c = Char.ofNat 43 then cs else c :: cs) with
      | some n => if n < 2 ^ 63 then some (n : Int) else none
      | none => none

/-- Go `strconv.Itoa`. -/
def Itoa (n : Int) : String :=
  if n < 0 then "-" ++ Nat.repr n.natAbs else Nat.repr n.toNat

end strconv

namespace path

/-- Go `path.Split`: the path up to and with its last slash, and what follows it. -/
def Split (p : String) : String × String :=
  (String.mk (p.data.reverse.dropWhile (fun c => c != Char.ofNat 47)).reverse,
   String.mk (p.data.reverse.takeWhile (fun c => c != Char.ofNat 47)).reverse)

/-- One element of a path read by `Clean`; `out` holds the elements written so far, the
last one first. An empty element and `.` are skipped; `..` removes the last element
written, is dropped at the root, and is written itself where a path that is not rooted
has nothing left to remove. -/
def cleanElem (rooted : Bool) (out : List String) (elem : String) : List String :=
  if elem = "" ∨ elem = "." then out
  else if elem = ".." then
    match out with
    | top :: rest => if top = ".." then elem :: out else rest
    | [] => if rooted then [] else [elem]
  else elem :: out

/-- Go `path.Clean`: the shortest path equivalent to `p` by purely lexical processing. -/
def Clean (p : String) : String :=
  if p = "" then "."
  else
    let rooted := p.data.head? == some (Char.ofNat 47)
    let out := (strings.splitAux (Char.ofNat 47) p.data []).foldl (cleanElem rooted) []
    let s := (if rooted then "/" else "") ++ "/".intercalate out.reverse
    if s = "" then "." else s

end path

namespace url

/-- Value of a hexadecimal digit (`ishex`/`unhex`). -/
def unhex? (c : Char) : Option Nat :=
  let n := c.toNat
  if 48 ≤ n ∧ n ≤ 57 then some (n - 48)
  else if 97 ≤ n ∧ n ≤ 102 then some (n - 97 + 10)
  else if 65 ≤ n ∧ n ≤ 70 then some (n - 65 + 10)
  else none

/-- The UTF-8 bytes of a character: a Go string is a sequence of bytes. -/
def utf8 (c : Char) : List Nat :=
  let n := c.toNat
  if n < 128 then [n]
  else if n < 2048 then [192 + n / 64, 128 + n % 64]
  else if n < 65536 then [224 + n / 4096, 128 + n / 64 % 64, 128 + n % 64]
  else [240 + n / 262144, 128 + n / 4096 % 64, 128 + n / 64 % 64, 128 + n % 64]

/-- The bytes of a text. -/
def bytes (cs : List Char) : List Nat := (cs.map utf8).flatten

/-- Go `utf8.DecodeRune`: the character that the bytes begin with, and its width. A byte
that does not begin a well-formed UTF-8 sequence gives U+FFFD and the width 1. -/
def decodeRune (p : List Nat) : Char × Nat :=
  let runeError := Char.ofNat 65533
  match p with
  | [] => (runeError, 0)
  | p0 :: rest =>
    if p0 < 128 then (Char.ofNat p0, 1)
    else
      let lo := if p0 = 224 then 160 else if p0 = 240 then 144 else 128
      let hi := if p0 = 237 then 159 else if p0 = 244 then 143 else 191
      let cont (b : Nat) : Bool := 128 ≤ b && b ≤ 191
      if 194 ≤ p0 ∧ p0 ≤ 223 then
        match rest with
        | b1 :: _ =>
          if lo ≤ b1 ∧ b1 ≤ hi then (Char.ofNat (p0 % 32 * 64 + b1 % 64), 2)
          else (runeError, 1)
        | _ => (runeError, 1)
      else if 224 ≤ p0 ∧ p0 ≤ 239 then
        match rest with
        | b1 :: b2 :: _ =>
          if lo ≤ b1 ∧ b1 ≤ hi ∧ cont b2 then
            (Char.ofNat (p0 % 16 * 4096 + b1 % 64 * 64 + b2 % 64), 3)
          else (runeError, 1)
        | _ => (runeError, 1)
      else if 240 ≤ p0 ∧ p0 ≤ 244 then
        match rest with
        | b1 :: b2 :: b3 :: _ =>
          if lo ≤ b1 ∧ b1 ≤ hi ∧ cont b2 ∧ cont b3 then
            (Char.ofNat (p0 % 8 * 262144 + b1 % 64 * 4096 + b2 % 64 * 64 + b3 % 64), 4)
          else (runeError, 1)
        | _ => (runeError, 1)
      else (runeError, 1)

/-- Worker of `runes`: at most `fuel` characters are read. -/
def runesAux : Nat → List Nat → List Char
  | 0, _ => []
  | fuel + 1, p =>
    if p.isEmpty then [] else (decodeRune p).1 :: runesAux fuel (p.drop (decodeRune p).2)

/-- The text that Go reads in a string of the given bytes, as in the conversion
`[]rune(s)`: the bytes that are not UTF-8 are read as U+FFFD each. -/
def runes (p : List Nat) : List Char := runesAux p.length p

/-- Worker of `QueryUnescape`: the bytes of the unescaped string. -/
def unescape : List Char → Option (List Nat)
  | [] => some []
  | c :: cs =>
    if c = Char.ofNat 37 then
      match cs with
      | a :: b :: rest =>
        match unhex? a, unhex? b with
        | some x, some y => (unescape rest).map (fun t => (16 * x + y) :: t)
        | _, _ => none
      | _ => none
    else if c = Char.ofNat 43 then (unescape cs).map (fun t => 32 :: t)
    else (unescape cs).map (fun t => utf8 c ++ t)

/-- Go `url.QueryUnescape`: `%XX` is decoded to the byte `XX`, `+` becomes a space, a
malformed escape is an error. A `String` is a text, so the unescaped bytes are returned
as the text Go reads in them (`runes`); `unescapesToText` tells whether they are UTF-8,
in which case that text is the very string Go returns. -/
def QueryUnescape (s : String) : Except Error String :=
  match unescape s.data with
  | some bs => .ok (String.mk (runes bs))
  | none => .error (.other "invalid URL escape")

/-- Whether the bytes that `s` unescapes to are UTF-8: the bytes of the text read in
them are those bytes. It holds as well when `s` has a malformed escape, which is an
error here as it is in Go. -/
def unescapesToText (s : String) : Bool :=
  match unescape s.data with
  | some bs => bytes (runes bs) == bs
  | none => true


/-- Go `url.Values`, as the list of its key/value pairs. -/
abbrev Values := List (String × String)

/-- Go `Values.Get`: the first value of the key, or the empty string. -/
def Values.Get (v : Values) (key : String) : String :=
  match v.find? (fun kv => kv.1 == key) with
  | some kv => kv.2
  | none => ""

/-- Go `shouldEscape` in the mode `encodeQueryComponent`: every byte but the letters,
the digits and `-`, `_`, `.`, `~` is escaped. -/
def shouldEscape (b : Nat) : Bool :=
  !((97 ≤ b && b ≤ 122) || (65 ≤ b && b ≤ 90) || (48 ≤ b && b ≤ 57) ||
    b == 45 || b == 95 || b == 46 || b == 126)

/-- The digit of `"0123456789ABCDEF"` for a value below 16. -/
def upperhex (n : Nat) : Char :=
  if n < 10 then Char.ofNat (48 + n) else Char.ofNat (55 + n)

/-- Go `escape` in the mode `encodeQueryComponent`, for one byte: a space becomes `+`,
an escaped byte becomes `%XX`. -/
def escapeByte (b : Nat) : List Char :=
  if b = 32 then [Char.ofNat 43]
  else if shouldEscape b then [Char.ofNat 37, upperhex (b / 16), upperhex (b % 16)]
  else [Char.ofNat b]

/-- Go `url.QueryEscape`. -/
def QueryEscape (s : String) : String :=
  String.mk ((s.data.map (fun c => ((utf8 c).map escapeByte).flatten)).flatten)

/-- Go `Values.Add`: the value is appended to the values of the key. -/
def Values.Add (v : Values) (key value : String) : Values := v ++ [(key, value)]

/-- Insertion of a pair into pairs sorted by key, after the pairs of the same key. -/
def insertByKey (kv : String × String) : List (String × String) → List (String × String)
  | [] => [kv]
  | x :: xs => if strings.Less kv.1 x.1 then kv :: x :: xs else x :: insertByKey kv xs

/-- The pairs sorted by key, the values of a key in the order they were added. -/
def sortByKey (v : Values) : List (String × String) :=
  v.foldl (fun acc kv => insertByKey kv acc) []

/-- Go `Values.Encode`: `key=value` pairs joined by `&`, sorted by key, both escaped. -/
def Values.Encode (v : Values) : String :=
  "&".intercalate ((sortByKey v).map (fun kv => QueryEscape kv.1 ++ "=" ++ QueryEscape kv.2))

/-- Go `Values.Set`: the value replaces the values of the key. -/
def Values.Set (v : Values) (key value : String) : Values :=
  v.filter (fun kv => !(kv.1 == key)) ++ [(key, value)]

/-- The part of a string before the first `sep`, and the part after it. -/
def cut (sep : Char) (cs : List Char) : List Char × List Char :=
  (cs.takeWhile (fun c => c != sep), (cs.dropWhile (fun c => c != sep)).drop 1)

/-- The part of a string before the last `sep` and the part after it, when there is one. -/
def cutLast (sep : Char) (cs : List Char) : Option (List Char × List Char) :=
  if cs.contains sep then
    some (((cs.reverse.dropWhile (fun c => c != sep)).drop 1).reverse,
      (cs.reverse.takeWhile (fun c => c != sep)).reverse)
  else none

/-- Go `url.ParseQuery`, as `URL.Query` uses it: the `key=value` pairs between the `&`,
unescaped; a pair with a malformed escape is left out. -/
def ParseQuery (query : String) : Values :=
  (strings.splitAux (Char.ofNat 38) query.data []).filterMap (fun kv =>
    if kv = "" then none
    else
      match QueryUnescape (String.mk (cut (Char.ofNat 61) kv.data).1),
          QueryUnescape (String.mk (cut (Char.ofNat 61) kv.data).2) with
      | .ok k, .ok v => some (k, v)
      | _, _ => none)

/-- Go `url.URL`: what precedes the query (scheme, host and path, as they are written),
the query and the fragment; the scheme and the host are also kept apart. -/
structure URL where
  Base : String := ""
  RawQuery : String := ""
  Fragment : String := ""
  Scheme : String := ""
  Host : String := ""
  deriving DecidableEq, Repr

/-- Go `stringContainsCTLByte`. -/
def stringContainsCTLByte (s : List Char) : Bool :=
  s.any (fun c => c.toNat < 32 || c.toNat == 127)

/-- Worker of `getScheme`: `seen` is what was read of `rawurl`. -/
def getSchemeAux (rawurl : List Char) : List Char → List Char → Option (List Char × List Char)
  | _, [] => some ([], rawurl)
  | seen, c :: cs =>
    if (97 ≤ c.toNat ∧ c.toNat ≤ 122) ∨ (65 ≤ c.toNat ∧ c.toNat ≤ 90) then
      getSchemeAux rawurl (seen ++ [c]) cs
    else if (48 ≤ c.toNat ∧ c.toNat ≤ 57) ∨ c.toNat = 43 ∨ c.toNat = 45 ∨ c.toNat = 46 then
      if seen = [] then some ([], rawurl) else getSchemeAux rawurl (seen ++ [c]) cs
    else if c.toNat = 58 then
      if seen = [] then none else some (seen, cs)
    else some ([], rawurl)

/-- Go `getScheme`: the scheme that `rawurl` begins with and what follows its colon, or
no scheme and all of `rawurl`; `none` is the error "missing protocol scheme". -/
def getScheme (rawurl : List Char) : Option (List Char × List Char) :=
  getSchemeAux rawurl [] rawurl

/-- Whether a URL begins with a scheme, as `getScheme` reads it: a letter, then letters,
digits, `+`, `-` and `.`, then a colon. -/
def hasScheme (rawurl : String) : Bool :=
  match getScheme rawurl.data with
  | some (scheme, _) => !scheme.isEmpty
  | none => false

/-- Go `shouldEscape` in the modes `encodeHost` and `encodeZone`. -/
def shouldEscapeHost (b : Nat) : Bool :=
  !((97 ≤ b && b ≤ 122) || (65 ≤ b && b ≤ 90) || (48 ≤ b && b ≤ 57) ||
    [33, 36, 38, 39, 40, 41, 42, 43, 44, 59, 61, 58, 91, 93, 60, 62, 34].contains b ||
    b == 45 || b == 95 || b == 46 || b == 126)

/-- Go `unescape` in the mode `encodeHost` (`zone` false) or `encodeZone`: the bytes of
the unescaped host, or `none` for an error. -/
def unescapeHost (zone : Bool) : List Char → Option (List Nat)
  | [] => some []
  | c :: cs =>
    if c = Char.ofNat 37 then
      match cs with
      | a :: b :: rest =>
        match unhex? a, unhex? b with
        | some x, some y =>
          if !zone ∧ x < 8 ∧ ¬ (a = Char.ofNat 50 ∧ b = Char.ofNat 53) then none
          else if zone ∧ ¬ (a = Char.ofNat 50 ∧ b = Char.ofNat 53) ∧ 16 * x + y ≠ 32 ∧
              shouldEscapeHost (16 * x + y) then none
          else (unescapeHost zone rest).map (fun t => (16 * x + y) :: t)
        | _, _ => none
      | _ => none
    else if c.toNat < 128 ∧ shouldEscapeHost c.toNat then none
    else (unescapeHost zone cs).map (fun t => utf8 c ++ t)

/-- Go `validOptionalPort`. -/
def validOptionalPort (port : List Char) : Bool :=
  match port with
  | [] => true
  | c :: ds => c == Char.ofNat 58 && ds.all (fun d => 48 ≤ d.toNat && d.toNat ≤ 57)

/-- The part of a host before the first `%25`, and the part from it on. -/
def cutZone : List Char → Option (List Char × List Char)
  | [] => none
  | c :: cs =>
    if [Char.ofNat 37, Char.ofNat 50, Char.ofNat 53].isPrefixOf (c :: cs) then some ([], c :: cs)
    else (cutZone cs).map (fun p => (c :: p.1, p.2))

/-- Go `parseHost`: the bytes of the host, or `none` for an error. -/
def parseHost (host : List Char) : Option (List Nat) :=
  if host.head? = some (Char.ofNat 91) then
    match cutLast (Char.ofNat 93) host with
    | none => none
    | some (inner, colonPort) =>
      if !validOptionalPort colonPort then none
      else
        match cutZone inner with
        | some (host1, host2) =>
          match unescapeHost false host1, unescapeHost true host2,
              unescapeHost false (Char.ofNat 93 :: colonPort) with
          | some b1, some b2, some b3 => some (b1 ++ b2 ++ b3)
          | _, _, _ => none
        | none => unescapeHost false host
  else
    match cutLast (Char.ofNat 58) host with
    | some (_, port) =>
      if !validOptionalPort (Char.ofNat 58 :: port) then none else unescapeHost false host
    | none => unescapeHost false host

/-- Go `validUserinfo`. -/
def validUserinfo (s : List Char) : Bool :=
  s.all (fun c =>
    (97 ≤ c.toNat && c.toNat ≤ 122) || (65 ≤ c.toNat && c.toNat ≤ 90) ||
    (48 ≤ c.toNat && c.toNat ≤ 57) ||
    [45, 46, 95, 58, 126, 33, 36, 38, 39, 40, 41, 42, 43, 44, 59, 61, 37, 64].contains c.toNat)

/-- Go `parseAuthority`: the bytes of the host, or `none` for an error in the user
information or in the host. -/
def parseAuthority (authority : List Char) : Option (List Nat) :=
  match cutLast (Char.ofNat 64) authority with
  | none => parseHost authority
  | some (userinfo, host) =>
    match parseHost host with
    | none => none
    | some h =>
      if !validUserinfo userinfo then none
      else if (unescape (cut (Char.ofNat 58) userinfo).1).isNone ∨
          (unescape (cut (Char.ofNat 58) userinfo).2).isNone then none
      else some h

/-- Go `url.Parse`. The string is cut at the first `#` and what precedes it at the first
`?`. What precedes the query is read as a scheme, a host and a path, with the checks of
the library (as of Go 1.21) on control characters, on the scheme, on the first segment
of a path without a scheme, on the user information, on the host and on the escapes of
the path and of the fragment; it is kept as it is written in `Base`. -/
def Parse (rawurl : String) : Except Error URL :=
  let u := (cut (Char.ofNat 35) rawurl.data).1
  let frag := (cut (Char.ofNat 35) rawurl.data).2
  if stringContainsCTLByte u then .error (.other "net/url: invalid control character in URL")
  else
    match getScheme u with
    | none => .error (.other "missing protocol scheme")
    | some (scheme, afterScheme) =>
      let rest := (cut (Char.ofNat 63) afterScheme).1
      let parsed : URL :=
        { Base := String.mk (cut (Char.ofNat 63) u).1
          RawQuery := String.mk (cut (Char.ofNat 63) afterScheme).2
          Fragment := String.mk frag
          Scheme := strings.ToLower (String.mk scheme) }
      let checked : Except Error URL :=
        if rest.head? ≠ some (Char.ofNat 47) ∧ scheme ≠ [] then .ok parsed
        else if rest.head? ≠ some (Char.ofNat 47) ∧
            (cut (Char.ofNat 47) rest).1.contains (Char.ofNat 58) then
          .error (.other "first path segment in URL cannot contain colon")
        else if (scheme ≠ [] ∨ ¬ [Char.ofNat 47, Char.ofNat 47, Char.ofNat 47].isPrefixOf rest) ∧
            [Char.ofNat 47, Char.ofNat 47].isPrefixOf rest then
          match parseAuthority ((rest.drop 2).takeWhile (fun c => c != Char.ofNat 47)) with
          | none => .error (.other "invalid authority")
          | some host =>
            if (unescape ((rest.drop 2).dropWhile (fun c => c != Char.ofNat 47))).isNone then
              .error (.other "invalid URL escape")
            else .ok { parsed with Host := String.mk (runes host) }
        else if (unescape rest).isNone then .error (.other "invalid URL escape")
        else .ok parsed
      match checked with
      | .error err => .error err
      | .ok v =>
        if (unescape frag).isNone then .error (.other "invalid URL escape") else .ok v

/-- Go `URL.Query`. -/
def URL.Query (u : URL) : Values := ParseQuery u.RawQuery

/-- Go `URL.String`: the query follows a `?` and the fragment a `#`, when they are not
empty. The escaping of the fragment is not modelled. -/
def URL.String (u : URL) : String :=
  u.Base ++ (if u.RawQuery = "" then "" else "?" ++ u.RawQuery) ++
    (if u.Fragment = "" then "" else "#" ++ u.Fragment)

end url

/-! ## Package `storage`: the entities handled by the server

Only the type declarations of package `storage` are used by the sources; they are
reproduced with the field names the sources use. -/

namespace jose

/-- A JSON Web Key (`jose.JSONWebKey`), kept as its identifier and key material. -/
structure JSONWebKey where
  KeyID : String
  Key : String
  deriving DecidableEq, Repr

end jose

namespace storage

/-- Go `storage.Claims`. -/
structure Claims where
  UserID : String := ""
  Username : String := ""
  Email : String := ""
  EmailVerified : Bool := false
  Groups : List String := []
  deriving DecidableEq, Repr

/-- Go `storage.Client`. -/
structure Client where
  ID : String := ""
  Secret : String := ""
  RedirectURIs : List String := []
  TrustedPeers : List String := []
  Public : Bool := false
  Name : String := ""
  LogoURL : String := ""
  deriving DecidableEq, Repr

/-- Go `storage.AuthRequest`. -/
structure AuthRequest where
  ID : String := ""
  ClientID : String := ""
  ResponseTypes : List String := []
  Scopes : List String := []
  RedirectURI : String := ""
  Nonce : String := ""
  State : String := ""
  ForceApprovalPrompt : Bool := false
  Expiry : Time := 0
  LoggedIn : Bool := false
  Claims : Claims := {}
  ConnectorID : String := ""
  ConnectorData : List Nat := []
  deriving DecidableEq, Repr

/-- Go `storage.AuthCode`. -/
structure AuthCode where
  ID : String := ""
  ClientID : String := ""
  RedirectURI : String := ""
  ConnectorID : String := ""
  ConnectorData : List Nat := []
  Nonce : String := ""
  Scopes : List String := []
  Claims : Claims := {}
  Expiry : Time := 0
  deriving DecidableEq, Repr

/-- Go `storage.RefreshToken`. -/
structure RefreshToken where
  RefreshToken : String := ""
  ClientID : String := ""
  ConnectorID : String := ""
  ConnectorData : List Nat := []
  Scopes : List String := []
  Nonce : String := ""
  Claims : Claims := {}
  deriving DecidableEq, Repr

/-- Go `storage.VerificationKey`. -/
structure VerificationKey where
  PublicKey : Option jose.JSONWebKey := none
  Expiry : Time := 0
  deriving DecidableEq, Repr

/-- Go `storage.Keys`. -/
structure Keys where
  SigningKey : Option jose.JSONWebKey := none
  SigningKeyPub : Option jose.JSONWebKey := none
  VerificationKeys : List VerificationKey := []
  NextRotation : Time := 0
  deriving DecidableEq, Repr

/-- Go `storage.Password`. -/
structure Password where
  Email : String := ""
  Hash : List Nat := []
  Username : String := ""
  UserID : String := ""
  deriving DecidableEq, Repr

/-- Go `storage.GCResult`. -/
structure GCResult where
  AuthRequests : Int := 0
  AuthCodes : Int := 0
  deriving DecidableEq, Repr

/-- Digit of the base-32 alphabet `abcdefghijklmnopqrstuvwxyz234567`. -/
def encodingDigit (n : Nat) : Char :=
  if n < 26 then Char.ofNat (97 + n) else Char.ofNat (50 + (n - 26))

/-- The `k` low base-32 digits of `n`. -/
def encode : Nat → Nat → List Char
  | 0, _ => []
  | k + 1, n => encodingDigit (n % 32) :: encode k (n / 32)

/-- Modelled from the spec: `storage.NewID`, which is not among the sources. The spec
asks for identifiers that are random, URL-safe and sized for at least 128 bits of
entropy: the identifier is the 26-digit base-32 rendering of a 128-bit number drawn
from the random source. -/
def NewIDOf (seed : Nat) : String := String.mk (encode 26 (seed % 2 ^ 128))

end storage

/-! ## Package `kubernetes`: mirrored types (`types.go`) -/

namespace k8sapi

/-- Go `k8sapi.TypeMeta`. -/
structure TypeMeta where
  Kind : String := ""
  APIVersion : String := ""
  deriving DecidableEq, Repr

/-- Go `k8sapi.ObjectMeta`, with the two fields the sources set. -/
structure ObjectMeta where
  Name : String := ""
  Namespace : String := ""
  deriving DecidableEq, Repr

end k8sapi

namespace kubernetes

def kindAuthCode : String := "AuthCode"
def kindAuthRequest : String := "AuthRequest"
def kindClient : String := "OAuth2Client"
def kindRefreshToken : String := "RefreshToken"
def kindKeys : String := "SigningKey"
def kindPassword : String := "Password"

/-- The single name under which the keys resource is kept. -/
def keysName : String := "openid-connect-keys"

/-- Go `kubernetes.Client`. -/
structure Client where
  TypeMeta : k8sapi.TypeMeta := {}
  ObjectMeta : k8sapi.ObjectMeta := {}
  ID : String := ""
  Secret : String := ""
  RedirectURIs : List String := []
  TrustedPeers : List String := []
  Public : Bool := false
  Name : String := ""
  LogoURL : String := ""
  deriving DecidableEq, Repr

/-- Go `kubernetes.Claims`. -/
structure Claims where
  UserID : String := ""
  Username : String := ""
  Email : String := ""
  EmailVerified : Bool := false
  Groups : List String := []
  deriving DecidableEq, Repr

/-- Go `kubernetes.AuthRequest`. -/
structure AuthRequest where
  TypeMeta : k8sapi.TypeMeta := {}
  ObjectMeta : k8sapi.ObjectMeta := {}
  ClientID : String := ""
  ResponseTypes : List String := []
  Scopes : List String := []
  RedirectURI : String := ""
  Nonce : String := ""
  State : String := ""
  ForceApprovalPrompt : Bool := false
  LoggedIn : Bool := false
  Claims : Claims := {}
  ConnectorID : String := ""
  ConnectorData : List Nat := []
  Expiry : Time := 0
  deriving DecidableEq, Repr

/-- Go `kubernetes.Password`. -/
structure Password where
  TypeMeta : k8sapi.TypeMeta := {}
  ObjectMeta : k8sapi.ObjectMeta := {}
  Email : String := ""
  Hash : List Nat := []
  Username : String := ""
  UserID : String := ""
  deriving DecidableEq, Repr

/-- Go `kubernetes.AuthCode`. -/
structure AuthCode where
  TypeMeta : k8sapi.TypeMeta := {}
  ObjectMeta : k8sapi.ObjectMeta := {}
  ClientID : String := ""
  Scopes : List String := []
  RedirectURI : String := ""
  Nonce : String := ""
  State : String := ""
  Claims : Claims := {}
  ConnectorID : String := ""
  ConnectorData : List Nat := []
  Expiry : Time := 0
  deriving DecidableEq, Repr

/-- Go `kubernetes.RefreshToken`: the mirrored struct has no connector data field. -/
structure RefreshToken where
  TypeMeta : k8sapi.TypeMeta := {}
  ObjectMeta : k8sapi.ObjectMeta := {}
  ClientID : String := ""
  Scopes : List String := []
  Nonce : String := ""
  Claims : Claims := {}
  ConnectorID : String := ""
  deriving DecidableEq, Repr

/-- Go `kubernetes.Keys`. -/
structure Keys where
  TypeMeta : k8sapi.TypeMeta := {}
  ObjectMeta : k8sapi.ObjectMeta := {}
  SigningKey : Option jose.JSONWebKey := none
  SigningKeyPub : Option jose.JSONWebKey := none
  VerificationKeys : List storage.VerificationKey := []
  NextRotation : Time := 0
  deriving DecidableEq, Repr

/-! ### The API server and the world the handlers run in -/

/-- The objects held by the Kubernetes API server, one list per resource. -/
structure Cluster where
  authcodes : List AuthCode := []
  authrequests : List AuthRequest := []
  oauth2clients : List Client := []
  refreshtokens : List RefreshToken := []
  signingkeies : List Keys := []
  passwords : List Password := []
  deriving DecidableEq, Repr

/-- The verbs of the API calls issued by the client. -/
inductive Verb where
  | get | post | put | delete | list
  deriving DecidableEq, Repr

/-- One API call, as logged: what was asked and the error it returned, if any. -/
structure Event where
  verb : Verb
  resource : String
  name : String
  err : Option Error
  deriving DecidableEq, Repr

/-- Everything outside the server that a handler reads or changes.
`faults` schedules the API calls to come: the next call fails with `e` when the head
is `some e`, and is served from `cluster` otherwise (also when the schedule is empty). -/
structure World where
  cluster : Cluster := {}
  faults : List (Option Error) := []
  trace : List Event := []
  entropy : List Nat := []
  deriving DecidableEq, Repr

/-- The error scheduled for the next API call. -/
def World.fault (σ : World) : Option Error := σ.faults.head?.join

/-- The world after an API call that is logged as `ev` and leaves `c` on the server. -/
def World.step (σ : World) (ev : Event) (c : Cluster) : World :=
  { σ with cluster := c, faults := σ.faults.tail, trace := σ.trace ++ [ev] }

/-- A resource of the API: its path and how its objects sit in the cluster. -/
structure Resource (α : Type) where
  path : String
  items : Cluster → List α
  setItems : List α → Cluster → Cluster
  name : α → String

def resourceAuthCode : Resource AuthCode :=
  ⟨"authcodes", fun c => c.authcodes, fun l c => { c with authcodes := l },
    fun o => o.ObjectMeta.Name⟩

def resourceAuthRequest : Resource AuthRequest :=
  ⟨"authrequests", fun c => c.authrequests, fun l c => { c with authrequests := l },
    fun o => o.ObjectMeta.Name⟩

def resourceClient : Resource Client :=
  ⟨"oauth2clients", fun c => c.oauth2clients, fun l c => { c with oauth2clients := l },
    fun o => o.ObjectMeta.Name⟩

def resourceRefreshToken : Resource RefreshToken :=
  ⟨"refreshtokens", fun c => c.refreshtokens, fun l c => { c with refreshtokens := l },
    fun o => o.ObjectMeta.Name⟩

def resourceKeys : Resource Keys :=
  ⟨"signingkeies", fun c => c.signingkeies, fun l c => { c with signingkeies := l },
    fun o => o.ObjectMeta.Name⟩

def resourcePassword : Resource Password :=
  ⟨"passwords", fun c => c.passwords, fun l c => { c with passwords := l },
    fun o => o.ObjectMeta.Name⟩

/-- Go `kubernetes.client`: the fields the storage methods read. `idToName` stands for
the method of that name (a hash of the id fit for an object name), which is not among
the sources and is taken as a parameter. -/
structure client where
  apiVersion : String := "oidc.coreos.com/v1"
  namespaceName : String := "default"
  idToName : String → String := fun id => id

variable {α : Type}

/-- Modelled from the spec: `client.get`, which is not among the sources. The storage
is "a mapping per entity kind keyed by the entity's id" and `Get` "fails with
`NotFound`". -/
def client.get (_cli : client) (r : Resource α) (name : String) (σ : World) :
    Except Error α × World :=
  match σ.fault with
  | some e => (.error e, σ.step ⟨.get, r.path, name, some e⟩ σ.cluster)
  | none =>
    match (r.items σ.cluster).find? (fun o => r.name o == name) with
    | some o => (.ok o, σ.step ⟨.get, r.path, name, none⟩ σ.cluster)
    | none => (.error .ErrNotFound, σ.step ⟨.get, r.path, name, some .ErrNotFound⟩ σ.cluster)

/-- Modelled from the spec: `client.list`, which is not among the sources: all the
objects of a resource. -/
def client.list (_cli : client) (r : Resource α) (σ : World) :
    Except Error (List α) × World :=
  match σ.fault with
  | some e => (.error e, σ.step ⟨.list, r.path, "", some e⟩ σ.cluster)
  | none => (.ok (r.items σ.cluster), σ.step ⟨.list, r.path, "", none⟩ σ.cluster)

/-- Modelled from the spec: `client.post`, which is not among the sources. `Create`
"fails with `AlreadyExists` if the id is taken". -/
def client.post (_cli : client) (r : Resource α) (o : α) (σ : World) :
    Option Error × World :=
  match σ.fault with
  | some e => (some e, σ.step ⟨.post, r.path, r.name o, some e⟩ σ.cluster)
  | none =>
    if (r.items σ.cluster).any (fun x => r.name x == r.name o) then
      (some .ErrAlreadyExists,
        σ.step ⟨.post, r.path, r.name o, some .ErrAlreadyExists⟩ σ.cluster)
    else
      (none, σ.step ⟨.post, r.path, r.name o, none⟩
        (r.setItems (r.items σ.cluster ++ [o]) σ.cluster))

/-- Modelled from the spec: `client.delete`, which is not among the sources. `Delete`
"fails with `NotFound`". -/
def client.delete (_cli : client) (r : Resource α) (name : String) (σ : World) :
    Option Error × World :=
  match σ.fault with
  | some e => (some e, σ.step ⟨.delete, r.path, name, some e⟩ σ.cluster)
  | none =>
    if (r.items σ.cluster).any (fun x => r.name x == name) then
      (none, σ.step ⟨.delete, r.path, name, none⟩
        (r.setItems ((r.items σ.cluster).filter (fun x => !(r.name x == name))) σ.cluster))
    else
      (some .ErrNotFound, σ.step ⟨.delete, r.path, name, some .ErrNotFound⟩ σ.cluster)

/-- Modelled from the spec: `client.put`, which is not among the sources: the object
kept under `name` is replaced. -/
def client.put (_cli : client) (r : Resource α) (name : String) (o : α) (σ : World) :
    Option Error × World :=
  match σ.fault with
  | some e => (some e, σ.step ⟨.put, r.path, name, some e⟩ σ.cluster)
  | none =>
    if (r.items σ.cluster).any (fun x => r.name x == name) then
      (none, σ.step ⟨.put, r.path, name, none⟩
        (r.setItems ((r.items σ.cluster).map (fun x => if r.name x == name then o else x))
          σ.cluster))
    else
      (some .ErrNotFound, σ.step ⟨.put, r.path, name, some .ErrNotFound⟩ σ.cluster)

/-! ### Conversions (`types.go`) -/

/-- Rendering of a string with the `%q` verb (without escapes). -/
def quote (s : String) : String := "\"" ++ s ++ "\""

def client.fromStorageClient (cli : client) (c : storage.Client) : Client :=
  { TypeMeta := { Kind := kindClient, APIVersion := cli.apiVersion }
    ObjectMeta := { Name := cli.idToName c.ID, Namespace := cli.namespaceName }
    ID := c.ID
    Secret := c.Secret
    RedirectURIs := c.RedirectURIs
    TrustedPeers := c.TrustedPeers
    Public := c.Public
    Name := c.Name
    LogoURL := c.LogoURL }

def toStorageClient (c : Client) : storage.Client :=
  { ID := c.ID
    Secret := c.Secret
    RedirectURIs := c.RedirectURIs
    TrustedPeers := c.TrustedPeers
    Public := c.Public
    Name := c.Name
    LogoURL := c.LogoURL }

def fromStorageClaims (i : storage.Claims) : Claims :=
  { UserID := i.UserID
    Username := i.Username
    Email := i.Email
    EmailVerified := i.EmailVerified
    Groups := i.Groups }

def toStorageClaims (i : Claims) : storage.Claims :=
  { UserID := i.UserID
    Username := i.Username
    Email := i.Email
    EmailVerified := i.EmailVerified
    Groups := i.Groups }

def toStorageAuthRequest (req : AuthRequest) : storage.AuthRequest :=
  { ID := req.ObjectMeta.Name
    ClientID := req.ClientID
    ResponseTypes := req.ResponseTypes
    Scopes := req.Scopes
    RedirectURI := req.RedirectURI
    Nonce := req.Nonce
    State := req.State
    ForceApprovalPrompt := req.ForceApprovalPrompt
    LoggedIn := req.LoggedIn
    ConnectorID := req.ConnectorID
    ConnectorData := req.ConnectorData
    Expiry := req.Expiry
    Claims := toStorageClaims req.Claims }

def client.fromStorageAuthRequest (cli : client) (a : storage.AuthRequest) : AuthRequest :=
  { TypeMeta := { Kind := kindAuthRequest, APIVersion := cli.apiVersion }
    ObjectMeta := { Name := a.ID, Namespace := cli.namespaceName }
    ClientID := a.ClientID
    ResponseTypes := a.ResponseTypes
    Scopes := a.Scopes
    RedirectURI := a.RedirectURI
    Nonce := a.Nonce
    State := a.State
    LoggedIn := a.LoggedIn
    ForceApprovalPrompt := a.ForceApprovalPrompt
    ConnectorID := a.ConnectorID
    ConnectorData := a.ConnectorData
    Expiry := a.Expiry
    Claims := fromStorageClaims a.Claims }

def client.fromStorageAuthCode (cli : client) (a : storage.AuthCode) : AuthCode :=
  { TypeMeta := { Kind := kindAuthCode, APIVersion := cli.apiVersion }
    ObjectMeta := { Name := a.ID, Namespace := cli.namespaceName }
    ClientID := a.ClientID
    RedirectURI := a.RedirectURI
    ConnectorID := a.ConnectorID
    ConnectorData := a.ConnectorData
    Nonce := a.Nonce
    Scopes := a.Scopes
    Claims := fromStorageClaims a.Claims
    Expiry := a.Expiry }

def toStorageAuthCode (a : AuthCode) : storage.AuthCode :=
  { ID := a.ObjectMeta.Name
    ClientID := a.ClientID
    RedirectURI := a.RedirectURI
    ConnectorID := a.ConnectorID
    ConnectorData := a.ConnectorData
    Nonce := a.Nonce
    Scopes := a.Scopes
    Claims := toStorageClaims a.Claims
    Expiry := a.Expiry }

def client.fromStorageKeys (cli : client) (keys : storage.Keys) : Keys :=
  { TypeMeta := { Kind := kindKeys, APIVersion := cli.apiVersion }
    ObjectMeta := { Name := keysName, Namespace := cli.namespaceName }
    SigningKey := keys.SigningKey
    SigningKeyPub := keys.SigningKeyPub
    VerificationKeys := keys.VerificationKeys
    NextRotation := keys.NextRotation }

def toStorageKeys (keys : Keys) : storage.Keys :=
  { SigningKey := keys.SigningKey
    SigningKeyPub := keys.SigningKeyPub
    VerificationKeys := keys.VerificationKeys
    NextRotation := keys.NextRotation }

/-! ### The storage methods (`storage.go`) -/

def client.CreateAuthRequest (cli : client) (a : storage.AuthRequest) (σ : World) :
    Option Error × World :=
  cli.post resourceAuthRequest (cli.fromStorageAuthRequest a) σ

def client.CreateClient (cli : client) (c : storage.Client) (σ : World) :
    Option Error × World :=
  cli.post resourceClient (cli.fromStorageClient c) σ

def client.CreateAuthCode (cli : client) (c : storage.AuthCode) (σ : World) :
    Option Error × World :=
  cli.post resourceAuthCode (cli.fromStorageAuthCode c) σ

def client.CreateRefresh (cli : client) (r : storage.RefreshToken) (σ : World) :
    Option Error × World :=
  let refresh : RefreshToken :=
    { TypeMeta := { Kind := kindRefreshToken, APIVersion := cli.apiVersion }
      ObjectMeta := { Name := r.RefreshToken, Namespace := cli.namespaceName }
      ClientID := r.ClientID
      ConnectorID := r.ConnectorID
      Scopes := r.Scopes
      Nonce := r.Nonce
      Claims := fromStorageClaims r.Claims }
  cli.post resourceRefreshToken refresh σ

def client.GetAuthRequest (cli : client) (id : String) (σ : World) :
    Except Error storage.AuthRequest × World :=
  match cli.get resourceAuthRequest id σ with
  | (.error err, σ1) => (.error err, σ1)
  | (.ok req, σ1) => (.ok (toStorageAuthRequest req), σ1)

def client.GetAuthCode (cli : client) (id : String) (σ : World) :
    Except Error storage.AuthCode × World :=
  match cli.get resourceAuthCode id σ with
  | (.error err, σ1) => (.error err, σ1)
  | (.ok code, σ1) => (.ok (toStorageAuthCode code), σ1)

def client.getClient (cli : client) (id : String) (σ : World) :
    Except Error Client × World :=
  let name := cli.idToName id
  match cli.get resourceClient name σ with
  | (.error err, σ1) => (.error err, σ1)
  | (.ok c, σ1) =>
    if c.ID ≠ id then
      (.error (.other ("get client: ID " ++ quote id ++ " mapped to client with ID " ++
        quote c.ID)), σ1)
    else (.ok c, σ1)

def client.GetClient (cli : client) (id : String) (σ : World) :
    Except Error storage.Client × World :=
  match cli.getClient id σ with
  | (.error err, σ1) => (.error err, σ1)
  | (.ok c, σ1) => (.ok (toStorageClient c), σ1)

def client.GetKeys (cli : client) (σ : World) : Except Error storage.Keys × World :=
  match cli.get resourceKeys keysName σ with
  | (.error err, σ1) => (.error err, σ1)
  | (.ok keys, σ1) => (.ok (toStorageKeys keys), σ1)

def client.GetRefresh (cli : client) (id : String) (σ : World) :
    Except Error storage.RefreshToken × World :=
  match cli.get resourceRefreshToken id σ with
  | (.error err, σ1) => (.error err, σ1)
  | (.ok r, σ1) =>
    (.ok { RefreshToken := r.ObjectMeta.Name
           ClientID := r.ClientID
           ConnectorID := r.ConnectorID
           Scopes := r.Scopes
           Nonce := r.Nonce
           Claims := toStorageClaims r.Claims }, σ1)

def client.DeleteAuthRequest (cli : client) (id : String) (σ : World) :
    Option Error × World :=
  cli.delete resourceAuthRequest id σ

def client.DeleteAuthCode (cli : client) (code : String) (σ : World) :
    Option Error × World :=
  cli.delete resourceAuthCode code σ

def client.DeleteClient (cli : client) (id : String) (σ : World) : Option Error × World :=
  match cli.getClient id σ with
  | (.error err, σ1) => (some err, σ1)
  | (.ok c, σ1) => cli.delete resourceClient c.ObjectMeta.Name σ1

def client.DeleteRefresh (cli : client) (id : String) (σ : World) : Option Error × World :=
  cli.delete resourceRefreshToken id σ

/-- The first loop of `GarbageCollect`: the expired auth requests of the listing are
deleted one by one; a failed delete is remembered in `delErr` and the loop goes on. -/
def client.GarbageCollectAuthRequests (cli : client) (now : Time) :
    List AuthRequest → storage.GCResult × Option Error → World →
      (storage.GCResult × Option Error) × World
  | [], acc, σ => (acc, σ)
  | authRequest :: rest, (result, delErr), σ =>
    if now.After authRequest.Expiry then
      match cli.delete resourceAuthRequest authRequest.ObjectMeta.Name σ with
      | (some err, σ1) =>
        cli.GarbageCollectAuthRequests now rest
          ({ result with AuthRequests := result.AuthRequests + 1 },
            some (.other ("failed to delete auth request: " ++ err.toString))) σ1
      | (none, σ1) =>
        cli.GarbageCollectAuthRequests now rest
          ({ result with AuthRequests := result.AuthRequests + 1 }, delErr) σ1
    else cli.GarbageCollectAuthRequests now rest (result, delErr) σ

/-- The second loop of `GarbageCollect`, over the listed auth codes. -/
def client.GarbageCollectAuthCodes (cli : client) (now : Time) :
    List AuthCode → storage.GCResult × Option Error → World →
      (storage.GCResult × Option Error) × World
  | [], acc, σ => (acc, σ)
  | authCode :: rest, (result, delErr), σ =>
    if now.After authCode.Expiry then
      match cli.delete resourceAuthCode authCode.ObjectMeta.Name σ with
      | (some err, σ1) =>
        cli.GarbageCollectAuthCodes now rest
          ({ result with AuthCodes := result.AuthCodes + 1 },
            some (.other ("failed to delete auth code: " ++ err.toString))) σ1
      | (none, σ1) =>
        cli.GarbageCollectAuthCodes now rest
          ({ result with AuthCodes := result.AuthCodes + 1 }, delErr) σ1
    else cli.GarbageCollectAuthCodes now rest (result, delErr) σ

/-- Go `client.GarbageCollect`: the result and the error returned. -/
def client.GarbageCollect (cli : client) (now : Time) (σ : World) :
    (storage.GCResult × Option Error) × World :=
  match cli.list resourceAuthRequest σ with
  | (.error err, σ1) =>
    (({}, some (.other ("failed to list auth requests: " ++ err.toString))), σ1)
  | (.ok authRequests, σ1) =>
    match cli.GarbageCollectAuthRequests now authRequests ({}, none) σ1 with
    | ((result, some delErr), σ2) => ((result, some delErr), σ2)
    | ((result, none), σ2) =>
      match cli.list resourceAuthCode σ2 with
      | (.error err, σ3) =>
        ((result, some (.other ("failed to list auth codes: " ++ err.toString))), σ3)
      | (.ok authCodes, σ3) => cli.GarbageCollectAuthCodes now authCodes (result, none) σ3

/-! ### Passwords and the update methods (`types.go`, `storage.go`) -/

def client.fromStoragePassword (cli : client) (p : storage.Password) : Password :=
  let email := strings.ToLower p.Email
  { TypeMeta := { Kind := kindPassword, APIVersion := cli.apiVersion }
    ObjectMeta := { Name := cli.idToName email, Namespace := cli.namespaceName }
    Email := email
    Hash := p.Hash
    Username := p.Username
    UserID := p.UserID }

def toStoragePassword (p : Password) : storage.Password :=
  { Email := p.Email
    Hash := p.Hash
    Username := p.Username
    UserID := p.UserID }

def client.CreatePassword (cli : client) (p : storage.Password) (σ : World) :
    Option Error × World :=
  cli.post resourcePassword (cli.fromStoragePassword p) σ

def client.getPassword (cli : client) (email : String) (σ : World) :
    Except Error Password × World :=
  let email := strings.ToLower email
  let name := cli.idToName email
  match cli.get resourcePassword name σ with
  | (.error err, σ1) => (.error err, σ1)
  | (.ok p, σ1) =>
    if email ≠ p.Email then
      (.error (.other ("get email: email " ++ quote email ++
        " mapped to password with email " ++ quote p.Email)), σ1)
    else (.ok p, σ1)

def client.GetPassword (cli : client) (email : String) (σ : World) :
    Except Error storage.Password × World :=
  match cli.getPassword email σ with
  | (.error err, σ1) => (.error err, σ1)
  | (.ok p, σ1) => (.ok (toStoragePassword p), σ1)

def client.UpdateClient (cli : client) (id : String)
    (updater : storage.Client → Except Error storage.Client) (σ : World) :
    Option Error × World :=
  match cli.getClient id σ with
  | (.error err, σ1) => (some err, σ1)
  | (.ok c, σ1) =>
    match updater (toStorageClient c) with
    | .error err => (some err, σ1)
    | .ok updated =>
      let updated := { updated with ID := c.ID }
      let newClient := { cli.fromStorageClient updated with ObjectMeta := c.ObjectMeta }
      cli.put resourceClient c.ObjectMeta.Name newClient σ1

def client.UpdatePassword (cli : client) (email : String)
    (updater : storage.Password → Except Error storage.Password) (σ : World) :
    Option Error × World :=
  match cli.getPassword email σ with
  | (.error err, σ1) => (some err, σ1)
  | (.ok p, σ1) =>
    match updater (toStoragePassword p) with
    | .error err => (some err, σ1)
    | .ok updated =>
      let updated := { updated with Email := p.Email }
      let newPassword := { cli.fromStoragePassword updated with ObjectMeta := p.ObjectMeta }
      cli.put resourcePassword p.ObjectMeta.Name newPassword σ1

def client.UpdateAuthRequest (cli : client) (id : String)
    (updater : storage.AuthRequest → Except Error storage.AuthRequest) (σ : World) :
    Option Error × World :=
  match cli.get resourceAuthRequest id σ with
  | (.error err, σ1) => (some err, σ1)
  | (.ok req, σ1) =>
    match updater (toStorageAuthRequest req) with
    | .error err => (some err, σ1)
    | .ok updated =>
      let newReq := { cli.fromStorageAuthRequest updated with ObjectMeta := req.ObjectMeta }
      cli.put resourceAuthRequest id newReq σ1

end kubernetes

/-- Go `storage.NewID()`: the next number of the random source, rendered as an id. -/
def storage.NewID (σ : kubernetes.World) : String × kubernetes.World :=
  (storage.NewIDOf (σ.entropy.head?.getD 0), { σ with entropy := σ.entropy.tail })

/-! ## Package `connector`: the contract the server requires of a connector -/

namespace http

/-- The parts of an `http.Request` read by the handlers. -/
structure Request where
  Method : String := "GET"
  /-- Result of `r.BasicAuth()`: user name and password when the header is present. -/
  BasicAuth : Option (String × String) := none
  /-- Error of `r.ParseForm()`, if any. -/
  ParseFormErr : Option Error := none
  /-- Go `r.Form`: the parameters of the URL query and of the body. -/
  Form : url.Values := []
  /-- Go `r.PostForm`: the parameters of the body. -/
  PostForm : url.Values := []
  /-- Go `r.URL.Query()`. -/
  Query : url.Values := []
  /-- Go `r.URL.String()`. -/
  URL : String := ""
  /-- Go `r.URL.Path`. -/
  Path : String := ""
  /-- Go `mux.Vars(r)`. -/
  Vars : url.Values := []
  deriving DecidableEq, Repr

/-- Go `r.FormValue`. -/
def Request.FormValue (r : Request) (key : String) : String := url.Values.Get r.Form key

/-- Go `r.PostFormValue`. -/
def Request.PostFormValue (r : Request) (key : String) : String :=
  url.Values.Get r.PostForm key

def StatusOK : Nat := 200
def StatusFound : Nat := 302
def StatusSeeOther : Nat := 303
def StatusBadRequest : Nat := 400
def StatusUnauthorized : Nat := 401
def StatusInternalServerError : Nat := 500

end http

namespace json

/-- The JSON values that occur in the bodies written by the server. -/
inductive Value where
  | str (s : String)
  | num (n : Int)
  | bool (b : Bool)
  | strs (l : List String)
  deriving DecidableEq, Repr

/-- A marshalled struct: its fields in declaration order, omitted fields left out. -/
abbrev Object := List (String × Value)

/-- The value of a field of an object, if the field is present. -/
def Object.field (o : Object) (key : String) : Option Value :=
  (o.find? (fun kv => kv.1 == key)).map (fun kv => kv.2)

/-- A string field tagged `omitempty`. -/
def omitemptyStr (key : String) (v : String) : Object :=
  if v = "" then [] else [(key, .str v)]

end json

namespace http

/-- What a handler wrote with one call of `w.Write` or of a template. -/
inductive Content where
  | json (o : json.Object)
  | html (template : String) (args : List String)
  deriving DecidableEq, Repr

/-- Go `http.ResponseWriter`, as the record of the calls made on it. `StatusCode` is
`0` until the header is written. -/
structure ResponseWriter where
  Header : List (String × String) := []
  StatusCode : Nat := 0
  Body : List Content := []
  deriving DecidableEq, Repr

/-- Go `w.Header().Set`. -/
def ResponseWriter.SetHeader (w : ResponseWriter) (key value : String) : ResponseWriter :=
  { w with Header := w.Header.filter (fun kv => !(kv.1 == key)) ++ [(key, value)] }

/-- Go `w.WriteHeader`: only the first call counts. -/
def ResponseWriter.WriteHeader (w : ResponseWriter) (statusCode : Nat) : ResponseWriter :=
  if w.StatusCode = 0 then { w with StatusCode := statusCode } else w

/-- Go `w.Write`: writes the header with status 200 first if it is not written yet. -/
def ResponseWriter.Write (w : ResponseWriter) (c : Content) : ResponseWriter :=
  let w1 := w.WriteHeader StatusOK
  { w1 with Body := w1.Body ++ [c] }

/-- Go `w.Header().Get`: the value of a header, or the empty string. -/
def ResponseWriter.HeaderGet (w : ResponseWriter) (key : String) : String :=
  match w.Header.find? (fun kv => kv.1 == key) with
  | some kv => kv.2
  | none => ""

/-- Go `http.StatusText`, for the statuses the server writes. -/
def StatusText (code : Nat) : String :=
  if code = 200 then "OK"
  else if code = 302 then "Found"
  else if code = 303 then "See Other"
  else if code = 400 then "Bad Request"
  else if code = 401 then "Unauthorized"
  else if code = 500 then "Internal Server Error"
  else ""

/-- A digit of `"0123456789abcdef"`. -/
def lowerhex (n : Nat) : Char :=
  if n < 10 then Char.ofNat (48 + n) else Char.ofNat (87 + n)

/-- Go `hexEscapeNonASCII`: every byte that is not ASCII is written `%xx`. -/
def hexEscapeNonASCII (s : String) : String :=
  String.mk ((s.data.map (fun c =>
    if c.toNat < 128 then [c]
    else ((url.utf8 c).map (fun b =>
      [Char.ofNat 37, lowerhex (b / 16), lowerhex (b % 16)])).flatten)).flatten)

/-- What `http.Redirect` makes of a URL in which `url.Parse` finds neither a scheme nor
a host: a path relative to `oldpath`, the path of the request, is made absolute, and the
path is cleaned, its trailing slash and the query kept. -/
def absolutePath (oldpath urlStr : String) : String :=
  let oldpath := if oldpath = "" then "/" else oldpath
  let urlStr := if urlStr = "" ∨ urlStr.data.head? ≠ some (Char.ofNat 47) then
    (path.Split oldpath).1 ++ urlStr else urlStr
  let p := String.mk (urlStr.data.takeWhile (fun c => c != Char.ofNat 63))
  let query := String.mk (urlStr.data.dropWhile (fun c => c != Char.ofNat 63))
  let cleaned := path.Clean p
  (if strings.HasSuffix p "/" ∧ ¬ strings.HasSuffix cleaned "/" then cleaned ++ "/"
   else cleaned) ++ query

/-- The URL that `http.Redirect` sends: `urlStr`, unless `url.Parse` accepts it and
finds neither a scheme nor a host in it. -/
def redirectURL (oldpath urlStr : String) : String :=
  match url.Parse urlStr with
  | .ok u => if u.Scheme = "" ∧ u.Host = "" then absolutePath oldpath urlStr else urlStr
  | .error _ => urlStr

/-- Go `http.Redirect` (as of Go 1.21). It sets the header `Location` to the URL,
made an absolute path where `url.Parse` finds neither a scheme nor a host in it, with
the bytes that are not ASCII escaped, and writes the status. When no `Content-Type` was
set, it sets one for a `GET` or a `HEAD` and, for a `GET`, writes a short note with the
link. -/
def Redirect (w : ResponseWriter) (r : Request) (urlStr : String) (code : Nat) :
    ResponseWriter :=
  let hadCT := w.Header.any (fun kv => kv.1 == "Content-Type")
  let w1 := w.SetHeader "Location" (hexEscapeNonASCII (redirectURL r.Path urlStr))
  let w2 :=
    if !hadCT ∧ (r.Method = "GET" ∨ r.Method = "HEAD") then
      w1.SetHeader "Content-Type" "text/html; charset=utf-8"
    else w1
  let w3 := w2.WriteHeader code
  if !hadCT ∧ r.Method = "GET" then
    w3.Write (.html "redirect" [redirectURL r.Path urlStr, StatusText code])
  else w3

end http

namespace connector

/-- Go `connector.Scopes`. -/
structure Scopes where
  OfflineAccess : Bool := false
  Groups : Bool := false
  deriving DecidableEq, Repr

/-- Go `connector.Identity`. -/
structure Identity where
  UserID : String := ""
  Username : String := ""
  Email : String := ""
  EmailVerified : Bool := false
  Groups : List String := []
  ConnectorData : List Nat := []
  deriving DecidableEq, Repr

/-- Go `connector.CallbackConnector`. -/
structure CallbackConnector where
  LoginURL : Scopes → String → String → Except Error String
  HandleCallback : Scopes → http.Request → Except Error Identity

/-- Go `connector.PasswordConnector`: `Login` returns the identity and whether the
credentials were valid. -/
structure PasswordConnector where
  Login : Scopes → String → String → Except Error (Identity × Bool)

/-- Go `connector.RefreshConnector`. -/
structure RefreshConnector where
  Refresh : Scopes → Identity → Except Error Identity

/-- Go `connector.Connector`: a value that may implement each of the three interfaces;
a type assertion to an interface succeeds when the implementation is present. -/
structure Connector where
  callback : Option CallbackConnector := none
  password : Option PasswordConnector := none
  refresh : Option RefreshConnector := none

end connector

/-! ## Package `oidc` (`connector/oidc/oidc.go`) -/

/-- How a Go call ends: it returns a value, or it panics. -/
inductive Outcome (α : Type) where
  | returned (value : α)
  | panicked (msg : String)
  deriving DecidableEq, Repr

namespace oidc

/-- Go `oidc.Config`. -/
structure Config where
  Issuer : String := ""
  ClientID : String := ""
  ClientSecret : String := ""
  RedirectURI : String := ""
  Scopes : List String := []
  deriving DecidableEq, Repr

/-- What the source reads of the `*oidc.Provider` of the library `go-oidc`: its
endpoint. -/
structure Provider where
  Endpoint : String := ""
  deriving DecidableEq, Repr

/-- Go `oauth2.Config`. -/
structure oauth2Config where
  ClientID : String := ""
  ClientSecret : String := ""
  Endpoint : String := ""
  Scopes : List String := []
  RedirectURL : String := ""
  deriving DecidableEq, Repr

/-- A `context.CancelFunc` obtained from `context.WithCancel`. -/
structure CancelFunc where
  deriving DecidableEq, Repr

/-- Go `oidcConnector`. The verifier is kept as the audience it verifies. A field of
pointer, interface or function type that a struct literal does not set is `nil`, here
`none`. -/
structure oidcConnector where
  redirectURI : String := ""
  oauth2Config : Option oauth2Config := none
  verifier : Option String := none
  ctx : Option Unit := none
  cancel : Option CancelFunc := none
  deriving DecidableEq, Repr

/-- Go `Config.Open`. `newProvider` stands for `oidc.NewProvider` of the library
`go-oidc`, which discovers the provider over the network. The logger is not modelled. -/
def Config.Open (c : Config) (newProvider : String → Except Error Provider) :
    Except Error oidcConnector :=
  let _cancel : CancelFunc := {}
  match newProvider c.Issuer with
  | .error err => .error (.other ("failed to get provider: " ++ err.toString))
  | .ok provider =>
    let scopes := ["openid"]
    let scopes := if c.Scopes.length > 0 then scopes ++ c.Scopes else scopes ++ ["profile", "email"]
    let clientID := c.ClientID
    .ok { redirectURI := c.RedirectURI
          oauth2Config := some
            { ClientID := clientID
              ClientSecret := c.ClientSecret
              Endpoint := provider.Endpoint
              Scopes := scopes
              RedirectURL := c.RedirectURI }
          verifier := some clientID }

/-- Go `oidcConnector.Close`: the call of a `nil` function value panics. -/
def oidcConnector.Close (c : oidcConnector) : Outcome (Option Error) :=
  match c.cancel with
  | none => .panicked "invalid memory address or nil pointer dereference"
  | some _ => .returned none

end oidc

/-! ## Package `server` (`oauth2.go`) -/

namespace server

open kubernetes (World)

/-- Go `server.Connector`. -/
structure Connector where
  DisplayName : String := ""
  Connector : connector.Connector := {}

/-- Go `server.Server`, with the fields the handlers read. The clock `now` is read as
one instant during a request. `sign` stands for the method `storage.Keys.Sign`, which
is not among the sources and is taken as a parameter: it turns a payload into a compact
signed token under the signing key. -/
structure Server where
  issuerURL : String := ""
  connectors : List (String × Connector) := []
  storage : kubernetes.client := {}
  skipApproval : Bool := false
  supportedResponseTypes : List String := []
  now : Time := 0
  idTokensValidFor : Int := 0
  sign : Dex.storage.Keys → json.Object → Except Error String := fun _ _ => .ok ""

/-- Go `authErr`; `Typ` is its field `Type`. -/
structure authErr where
  State : String
  RedirectURI : String
  Typ : String
  Description : String
  deriving DecidableEq, Repr

/-- Go `tokenErr`: the JSON error object, written with the given status. -/
def tokenErr (w : http.ResponseWriter) (typ description : String) (statusCode : Nat) :
    http.ResponseWriter :=
  let body : json.Object := [("error", .str typ)] ++
    json.omitemptyStr "error_description" description
  ((w.SetHeader "Content-Type" "application/json").WriteHeader statusCode).Write (.json body)

def errInvalidRequest : String := "invalid_request"
def errUnauthorizedClient : String := "unauthorized_client"
def errAccessDenied : String := "access_denied"
def errUnsupportedResponseType : String := "unsupported_response_type"
def errInvalidScope : String := "invalid_scope"
def errServerError : String := "server_error"
def errTemporarilyUnavailable : String := "temporarily_unavailable"
def errUnsupportedGrantType : String := "unsupported_grant_type"
def errInvalidGrant : String := "invalid_grant"
def errInvalidClient : String := "invalid_client"

def scopeOfflineAccess : String := "offline_access"
def scopeOpenID : String := "openid"
def scopeGroups : String := "groups"
def scopeEmail : String := "email"
def scopeProfile : String := "profile"
def scopeCrossClientPrefix : String := "audience:server:client_id:"

def redirectURIOOB : String := "urn:ietf:wg:oauth:2.0:oob"

def grantTypeAuthorizationCode : String := "authorization_code"
def grantTypeRefreshToken : String := "refresh_token"

def responseTypeCode : String := "code"
def responseTypeToken : String := "token"
def responseTypeIDToken : String := "id_token"

/-- Go `parseScopes`. -/
def parseScopes (scopes : List String) : connector.Scopes :=
  scopes.foldl (fun s scope =>
    if scope = scopeOfflineAccess then { s with OfflineAccess := true }
    else if scope = scopeGroups then { s with Groups := true }
    else s) {}

/-- Go `idTokenClaims`. -/
structure idTokenClaims where
  Issuer : String := ""
  Subject : String := ""
  Audience : List String := []
  Expiry : Int := 0
  IssuedAt : Int := 0
  AuthorizingParty : String := ""
  Nonce : String := ""
  Email : String := ""
  EmailVerified : Option Bool := none
  Groups : List String := []
  Name : String := ""
  deriving DecidableEq, Repr

/-- Go `audience.MarshalJSON`: a single audience is marshalled as a bare string. -/
def audience.MarshalJSON (a : List String) : json.Value :=
  match a with
  | [x] => .str x
  | _ => .strs a

/-- Go `json.Marshal` of an `idTokenClaims`, following its struct tags. -/
def idTokenClaims.Marshal (tok : idTokenClaims) : json.Object :=
  [("iss", .str tok.Issuer), ("sub", .str tok.Subject),
   ("aud", audience.MarshalJSON tok.Audience),
   ("exp", .num tok.Expiry), ("iat", .num tok.IssuedAt)] ++
  json.omitemptyStr "azp" tok.AuthorizingParty ++
  json.omitemptyStr "nonce" tok.Nonce ++
  json.omitemptyStr "email" tok.Email ++
  (match tok.EmailVerified with
   | some b => [("email_verified", .bool b)]
   | none => []) ++
  (if tok.Groups.isEmpty then [] else [("groups", .strs tok.Groups)]) ++
  json.omitemptyStr "name" tok.Name

/-- Go `parseCrossClientScope`. -/
def parseCrossClientScope (scope : String) : String × Bool :=
  if strings.HasPrefix scope scopeCrossClientPrefix then
    (String.mk (scope.data.drop scopeCrossClientPrefix.data.length), true)
  else ("", false)

/-- Go `Server.validateCrossClientTrust`. -/
def Server.validateCrossClientTrust (s : Server) (clientID peerID : String) (σ : World) :
    Except Error Bool × World :=
  if peerID = clientID then (.ok true, σ)
  else
    match s.storage.GetClient peerID σ with
    | (.error err, σ1) =>
      if err ≠ .ErrNotFound then (.error err, σ1) else (.ok false, σ1)
    | (.ok peer, σ1) => (.ok (peer.TrustedPeers.any (fun id => id == clientID)), σ1)

/-- The loop of `newIDToken` over the scopes, from the claims built so far. -/
def Server.newIDTokenScopes (s : Server) (clientID : String) (claims : storage.Claims) :
    List String → idTokenClaims → World → Except Error idTokenClaims × World
  | [], tok, σ => (.ok tok, σ)
  | scope :: scopes, tok, σ =>
    if scope = scopeEmail then
      s.newIDTokenScopes clientID claims scopes
        { tok with Email := claims.Email, EmailVerified := some claims.EmailVerified } σ
    else if scope = scopeGroups then
      s.newIDTokenScopes clientID claims scopes { tok with Groups := claims.Groups } σ
    else if scope = scopeProfile then
      s.newIDTokenScopes clientID claims scopes { tok with Name := claims.Username } σ
    else
      match parseCrossClientScope scope with
      | (_, false) => s.newIDTokenScopes clientID claims scopes tok σ
      | (peerID, true) =>
        match s.validateCrossClientTrust clientID peerID σ with
        | (.error err, σ1) => (.error err, σ1)
        | (.ok false, σ1) =>
          (.error (.other ("peer (" ++ peerID ++ ") does not trust client")), σ1)
        | (.ok true, σ1) =>
          s.newIDTokenScopes clientID claims scopes
            { tok with Audience := tok.Audience ++ [peerID] } σ1

/-- The claim set of `newIDToken`: the value of `tok` when it is marshalled. -/
def Server.newIDTokenClaims (s : Server) (clientID : String) (claims : storage.Claims)
    (scopes : List String) (nonce : String) (σ : World) :
    Except Error idTokenClaims × World :=
  let issuedAt := s.now
  let expiry := issuedAt + s.idTokensValidFor
  let tok : idTokenClaims :=
    { Issuer := s.issuerURL
      Subject := claims.UserID
      Nonce := nonce
      Expiry := expiry
      IssuedAt := issuedAt }
  match s.newIDTokenScopes clientID claims scopes tok σ with
  | (.error err, σ1) => (.error err, σ1)
  | (.ok tok, σ1) =>
    if tok.Audience.length = 0 then (.ok { tok with Audience := [clientID] }, σ1)
    else (.ok { tok with AuthorizingParty := clientID }, σ1)

/-- Go `Server.newIDToken`: the signed token and its expiry. -/
def Server.newIDToken (s : Server) (clientID : String) (claims : storage.Claims)
    (scopes : List String) (nonce : String) (σ : World) :
    Except Error (String × Time) × World :=
  let expiry := s.now + s.idTokensValidFor
  match s.newIDTokenClaims clientID claims scopes nonce σ with
  | (.error err, σ1) => (.error err, σ1)
  | (.ok tok, σ1) =>
    let payload := tok.Marshal
    match s.storage.GetKeys σ1 with
    | (.error err, σ2) => (.error err, σ2)
    | (.ok keys, σ2) =>
      match s.sign keys payload with
      | .error err => (.error (.other ("failed to sign payload: " ++ err.toString)), σ2)
      | .ok idToken => (.ok (idToken, expiry), σ2)

/-- Go `validateRedirectURI`. -/
def validateRedirectURI (client : storage.Client) (redirectURI : String) : Bool :=
  if !client.Public then
    client.RedirectURIs.any (fun uri => redirectURI == uri)
  else if redirectURI = redirectURIOOB then true
  else if !strings.HasPrefix redirectURI "http://localhost:" then false
  else
    match strconv.Atoi (strings.TrimPrefix redirectURI "https://localhost:") with
    | some n => decide (n ≤ 0)
    | none => false

/-- Rendering of a list of strings with the `%q` verb. -/
def quoteList (l : List String) : String :=
  "[" ++ " ".intercalate (l.map kubernetes.quote) ++ "]"

/-- The three variables filled by the scope loop of `parseAuthorizationRequest`. -/
structure scopeCheck where
  hasOpenIDScope : Bool := false
  unrecognized : List String := []
  invalidScopes : List String := []
  deriving DecidableEq, Repr

/-- The loop of `parseAuthorizationRequest` over the scopes; an error is a failure of
the trust lookup, on which the function returns at once. -/
def Server.parseAuthorizationRequestScopes (s : Server) (clientID : String) :
    List String → scopeCheck → World → Except Error scopeCheck × World
  | [], acc, σ => (.ok acc, σ)
  | scope :: scopes, acc, σ =>
    if scope = scopeOpenID then
      s.parseAuthorizationRequestScopes clientID scopes { acc with hasOpenIDScope := true } σ
    else if scope = scopeOfflineAccess ∨ scope = scopeEmail ∨ scope = scopeProfile ∨
        scope = scopeGroups then
      s.parseAuthorizationRequestScopes clientID scopes acc σ
    else
      match parseCrossClientScope scope with
      | (_, false) =>
        s.parseAuthorizationRequestScopes clientID scopes
          { acc with unrecognized := acc.unrecognized ++ [scope] } σ
      | (peerID, true) =>
        match s.validateCrossClientTrust clientID peerID σ with
        | (.error err, σ1) => (.error err, σ1)
        | (.ok isTrusted, σ1) =>
          if !isTrusted then
            s.parseAuthorizationRequestScopes clientID scopes
              { acc with invalidScopes := acc.invalidScopes ++ [scope] } σ1
          else s.parseAuthorizationRequestScopes clientID scopes acc σ1

/-- The loop of `parseAuthorizationRequest` over the response types: the error it
returns, if any. -/
def parseAuthorizationRequestResponseTypes (supportedResponseTypes : List String)
    (nonce redirectURI : String) (newErr : String → String → authErr) :
    List String → Option authErr
  | [] => none
  | responseType :: responseTypes =>
    if !supportedResponseTypes.contains responseType then
      some (newErr "invalid_request" ("Invalid response type " ++ kubernetes.quote responseType))
    else if responseType = responseTypeCode then
      parseAuthorizationRequestResponseTypes supportedResponseTypes nonce redirectURI newErr
        responseTypes
    else if responseType = responseTypeToken then
      if nonce = "" then
        some (newErr "invalid_request" "Response type 'token' requires a 'nonce' value.")
      else if redirectURI = redirectURIOOB then
        some (newErr "invalid_request" ("Cannot use response type 'token' with redirect_uri '" ++
          redirectURIOOB ++ "'."))
      else
        parseAuthorizationRequestResponseTypes supportedResponseTypes nonce redirectURI newErr
          responseTypes
    else
      some (newErr "invalid_request" ("Invalid response type " ++ kubernetes.quote responseType))

/-- Go `Server.parseAuthorizationRequest`. -/
def Server.parseAuthorizationRequest (s : Server) (supportedResponseTypes : List String)
    (r : http.Request) (σ : World) : Except authErr storage.AuthRequest × World :=
  match r.ParseFormErr with
  | some _ => (.error ⟨"", "", errInvalidRequest, "Failed to parse request."⟩, σ)
  | none =>
    match url.QueryUnescape (url.Values.Get r.Form "redirect_uri") with
    | .error _ => (.error ⟨"", "", errInvalidRequest, "No redirect_uri provided."⟩, σ)
    | .ok redirectURI =>
      let state := r.FormValue "state"
      let clientID := url.Values.Get r.Form "client_id"
      match s.storage.GetClient clientID σ with
      | (.error err, σ1) =>
        if err = .ErrNotFound then
          (.error ⟨"", "", errUnauthorizedClient,
            "Invalid client_id (" ++ kubernetes.quote clientID ++ ")."⟩, σ1)
        else (.error ⟨"", "", errServerError, ""⟩, σ1)
      | (.ok client, σ1) =>
        if !validateRedirectURI client redirectURI then
          (.error ⟨"", "", errInvalidRequest,
            "Unregistered redirect_uri (" ++ kubernetes.quote redirectURI ++ ")."⟩, σ1)
        else
          let newErr : String → String → authErr :=
            fun typ description => ⟨state, redirectURI, typ, description⟩
          let scopes := strings.Fields (url.Values.Get r.Form "scope")
          match s.parseAuthorizationRequestScopes clientID scopes {} σ1 with
          | (.error _, σ2) => (.error (newErr errServerError ""), σ2)
          | (.ok chk, σ2) =>
            if !chk.hasOpenIDScope then
              (.error (newErr "invalid_scope" "Missing required scope(s) [\"openid\"]."), σ2)
            else if chk.unrecognized.length > 0 then
              (.error (newErr "invalid_scope"
                ("Unrecognized scope(s) " ++ quoteList chk.unrecognized)), σ2)
            else if chk.invalidScopes.length > 0 then
              (.error (newErr "invalid_scope"
                ("Client can't request scope(s) " ++ quoteList chk.invalidScopes)), σ2)
            else
              let nonce := url.Values.Get r.Form "nonce"
              let responseTypes := strings.SplitSpace (url.Values.Get r.Form "response_type")
              match parseAuthorizationRequestResponseTypes supportedResponseTypes nonce
                  redirectURI newErr responseTypes with
              | some e => (.error e, σ2)
              | none =>
                match storage.NewID σ2 with
                | (id, σ3) =>
                  (.ok { ID := id
                         ClientID := client.ID
                         State := url.Values.Get r.Form "state"
                         Nonce := nonce
                         ForceApprovalPrompt :=
                           decide (url.Values.Get r.Form "approval_prompt" = "force")
                         Scopes := scopes
                         RedirectURI := redirectURI
                         ResponseTypes := responseTypes }, σ3)

/-- Go `authErr.ServeHTTP`. -/
def authErr.ServeHTTP (err : authErr) (w : http.ResponseWriter) (r : http.Request) :
    http.ResponseWriter :=
  let v : url.Values := []
  let v := v.Add "state" err.State
  let v := v.Add "error" err.Typ
  let v := if err.Description ≠ "" then v.Add "error_description" err.Description else v
  let redirectURI :=
    if strings.Contains err.RedirectURI "?" then err.RedirectURI ++ "&" ++ v.Encode
    else err.RedirectURI ++ "?" ++ v.Encode
  http.Redirect w r redirectURI http.StatusSeeOther

/-! ## Package `server` (`handlers.go`): the token endpoint -/

/-- Go `Server.tokenErrHelper`. -/
def Server.tokenErrHelper (_s : Server) (w : http.ResponseWriter) (typ description : String)
    (statusCode : Nat) : http.ResponseWriter :=
  tokenErr w typ description statusCode

/-- Go `Server.writeAccessToken`. The access token is a fresh random id. -/
def Server.writeAccessToken (s : Server) (w : http.ResponseWriter)
    (idToken refreshToken : String) (expiry : Time) (σ : World) :
    http.ResponseWriter × World :=
  match storage.NewID σ with
  | (accessToken, σ1) =>
    let data : json.Object :=
      [("access_token", .str accessToken), ("token_type", .str "bearer"),
       ("expires_in", .num (expiry - s.now))] ++
      json.omitemptyStr "refresh_token" refreshToken ++
      [("id_token", .str idToken)]
    (((w.SetHeader "Content-Type" "application/json").Write (.json data)), σ1)

/-- The error of a Go `(T, error)` result. -/
def errOf {α : Type} : Except Error α → Option Error
  | .error err => some err
  | .ok _ => none

/-- The value of a Go `(T, error)` result: the zero value when there is an error. -/
def valOf {α : Type} (zero : α) : Except Error α → α
  | .error _ => zero
  | .ok v => v

/-- Go `Server.handleAuthCode`. -/
def Server.handleAuthCode (s : Server) (w : http.ResponseWriter) (r : http.Request)
    (client : storage.Client) (σ : World) : http.ResponseWriter × World :=
  let code := r.PostFormValue "code"
  let redirectURI := r.PostFormValue "redirect_uri"
  match s.storage.GetAuthCode code σ with
  | (res, σ1) =>
    let authCode := valOf {} res
    let err := errOf res
    if err ≠ none ∨ s.now.After authCode.Expiry ∨ authCode.ClientID ≠ client.ID then
      if err ≠ some .ErrNotFound then
        (s.tokenErrHelper w errServerError "" http.StatusInternalServerError, σ1)
      else
        (s.tokenErrHelper w errInvalidRequest "Invalid or expired code parameter."
          http.StatusBadRequest, σ1)
    else if authCode.RedirectURI ≠ redirectURI then
      (s.tokenErrHelper w errInvalidRequest
        "redirect_uri did not match URI from initial request." http.StatusBadRequest, σ1)
    else
      match s.newIDToken client.ID authCode.Claims authCode.Scopes authCode.Nonce σ1 with
      | (.error _, σ2) =>
        (s.tokenErrHelper w errServerError "" http.StatusInternalServerError, σ2)
      | (.ok (idToken, expiry), σ2) =>
        match s.storage.DeleteAuthCode code σ2 with
        | (some _, σ3) =>
          (s.tokenErrHelper w errServerError "" http.StatusInternalServerError, σ3)
        | (none, σ3) =>
          let reqRefresh := authCode.Scopes.any (fun scope => scope == scopeOfflineAccess)
          if reqRefresh then
            match storage.NewID σ3 with
            | (id, σ4) =>
              let refresh : storage.RefreshToken :=
                { RefreshToken := id
                  ClientID := authCode.ClientID
                  ConnectorID := authCode.ConnectorID
                  Scopes := authCode.Scopes
                  Claims := authCode.Claims
                  Nonce := authCode.Nonce
                  ConnectorData := authCode.ConnectorData }
              match s.storage.CreateRefresh refresh σ4 with
              | (some _, σ5) =>
                (s.tokenErrHelper w errServerError "" http.StatusInternalServerError, σ5)
              | (none, σ5) => s.writeAccessToken w idToken refresh.RefreshToken expiry σ5
          else s.writeAccessToken w idToken "" expiry σ3

/-- Go `s.connectors[id]`. -/
def Server.connector? (s : Server) (id : String) : Option Connector :=
  (s.connectors.find? (fun kv => kv.1 == id)).map (fun kv => kv.2)

/-- Go `Server.handleRefreshToken`. -/
def Server.handleRefreshToken (s : Server) (w : http.ResponseWriter) (r : http.Request)
    (client : storage.Client) (σ : World) : http.ResponseWriter × World :=
  let code := r.PostFormValue "refresh_token"
  let scope := r.PostFormValue "scope"
  if code = "" then
    (s.tokenErrHelper w errInvalidRequest "No refresh token in request."
      http.StatusBadRequest, σ)
  else
    match s.storage.GetRefresh code σ with
    | (res, σ1) =>
      let refresh := valOf {} res
      let err := errOf res
      if err ≠ none ∨ refresh.ClientID ≠ client.ID then
        if err ≠ some .ErrNotFound then
          (s.tokenErrHelper w errServerError "" http.StatusInternalServerError, σ1)
        else
          (s.tokenErrHelper w errInvalidRequest
            "Refresh token is invalid or has already been claimed by another client."
            http.StatusBadRequest, σ1)
      else
        let requestedScopes := strings.Fields scope
        let unauthorizedScopes := requestedScopes.filter
          (fun s => !(refresh.Scopes.any (fun scope => s == scope)))
        if scope ≠ "" ∧ unauthorizedScopes.length > 0 then
          (s.tokenErrHelper w errInvalidRequest
            ("Requested scopes contain unauthorized scope(s): " ++
              quoteList unauthorizedScopes ++ ".") http.StatusBadRequest, σ1)
        else
          let scopes := if scope ≠ "" then requestedScopes else refresh.Scopes
          match s.connector? refresh.ConnectorID with
          | none => (s.tokenErrHelper w errServerError "" http.StatusInternalServerError, σ1)
          | some conn =>
            let refreshed : Except Error storage.RefreshToken :=
              match conn.Connector.refresh with
              | some refreshConn =>
                let ident : connector.Identity :=
                  { UserID := refresh.Claims.UserID
                    Username := refresh.Claims.Username
                    Email := refresh.Claims.Email
                    EmailVerified := refresh.Claims.EmailVerified
                    Groups := refresh.Claims.Groups
                    ConnectorData := refresh.ConnectorData }
                match refreshConn.Refresh (parseScopes scopes) ident with
                | .error err => .error err
                | .ok ident =>
                  .ok { refresh with
                    Claims := { refresh.Claims with
                      Username := ident.Username
                      Email := ident.Email
                      EmailVerified := ident.EmailVerified
                      Groups := ident.Groups }
                    ConnectorData := ident.ConnectorData }
              | none => .ok refresh
            match refreshed with
            | .error _ =>
              (s.tokenErrHelper w errServerError "" http.StatusInternalServerError, σ1)
            | .ok refresh =>
              match s.newIDToken client.ID refresh.Claims scopes refresh.Nonce σ1 with
              | (.error _, σ2) =>
                (s.tokenErrHelper w errServerError "" http.StatusInternalServerError, σ2)
              | (.ok (idToken, expiry), σ2) =>
                match s.storage.DeleteRefresh code σ2 with
                | (some _, σ3) =>
                  (s.tokenErrHelper w errServerError "" http.StatusInternalServerError, σ3)
                | (none, σ3) =>
                  match storage.NewID σ3 with
                  | (id, σ4) =>
                    let refresh := { refresh with RefreshToken := id }
                    match s.storage.CreateRefresh refresh σ4 with
                    | (some _, σ5) =>
                      (s.tokenErrHelper w errServerError "" http.StatusInternalServerError,
                        σ5)
                    | (none, σ5) =>
                      s.writeAccessToken w idToken refresh.RefreshToken expiry σ5

/-- The part of `handleToken` that follows the reading of the client credentials. -/
def Server.handleTokenAs (s : Server) (w : http.ResponseWriter) (r : http.Request)
    (clientID clientSecret : String) (σ : World) : http.ResponseWriter × World :=
  match s.storage.GetClient clientID σ with
  | (.error err, σ1) =>
    if err ≠ .ErrNotFound then
      (s.tokenErrHelper w errServerError "" http.StatusInternalServerError, σ1)
    else
      (s.tokenErrHelper w errInvalidClient "Invalid client credentials."
        http.StatusUnauthorized, σ1)
  | (.ok client, σ1) =>
    if client.Secret ≠ clientSecret then
      (s.tokenErrHelper w errInvalidClient "Invalid client credentials."
        http.StatusUnauthorized, σ1)
    else
      let grantType := r.PostFormValue "grant_type"
      if grantType = grantTypeAuthorizationCode then s.handleAuthCode w r client σ1
      else if grantType = grantTypeRefreshToken then s.handleRefreshToken w r client σ1
      else (s.tokenErrHelper w errInvalidGrant "" http.StatusBadRequest, σ1)

/-- Go `Server.handleToken`. -/
def Server.handleToken (s : Server) (w : http.ResponseWriter) (r : http.Request)
    (σ : World) : http.ResponseWriter × World :=
  match r.BasicAuth with
  | some (clientID, clientSecret) =>
    match url.QueryUnescape clientID with
    | .error _ =>
      (s.tokenErrHelper w errInvalidRequest "client_id improperly encoded"
        http.StatusBadRequest, σ)
    | .ok clientID =>
      match url.QueryUnescape clientSecret with
      | .error _ =>
        (s.tokenErrHelper w errInvalidRequest "client_secret improperly encoded"
          http.StatusBadRequest, σ)
      | .ok clientSecret => s.handleTokenAs w r clientID clientSecret σ
  | none =>
    s.handleTokenAs w r (r.PostFormValue "client_id") (r.PostFormValue "client_secret") σ

/-! ## Package `server` (`handlers.go`): the authorization endpoint -/

/-- Go `connectorInfo`. -/
structure connectorInfo where
  ID : String
  Name : String
  URL : String
  deriving DecidableEq, Repr

/-- Modelled from the spec: `templates.err`, which is not among the sources: it "renders
an error page", here the template `error` with its two arguments. -/
def templates.err (w : http.ResponseWriter) (errType errMsg : String) : http.ResponseWriter :=
  w.Write (.html "error" [errType, errMsg])

/-- Modelled from the spec: `templates.login`, which is not among the sources: it
"renders a connector-chooser page", here the template `login` with the id of the
authorization request and the connectors. -/
def templates.login (w : http.ResponseWriter) (connectors : List connectorInfo)
    (authReqID : String) : http.ResponseWriter :=
  w.Write (.html "login" (authReqID :: (connectors.map (fun c => [c.ID, c.Name, c.URL])).flatten))

/-- Go `Server.renderError`. -/
def Server.renderError (_s : Server) (w : http.ResponseWriter) (status : Nat)
    (description : String) : http.ResponseWriter :=
  templates.err w (http.StatusText status) description

/-- Modelled from the spec: `Server.absPath`, which is not among the sources: the path of
an endpoint of the server, as in "redirect directly to `/auth/{id}?req=<aid>`". -/
def Server.absPath (_s : Server) (pathItems : List String) : String :=
  "/".intercalate pathItems

/-- Go `Server.handleAuthorization`. The map of connectors is a list here; with one
connector the loop over the map redirects to that connector. -/
def Server.handleAuthorization (s : Server) (w : http.ResponseWriter) (r : http.Request)
    (σ : World) : http.ResponseWriter × World :=
  match s.parseAuthorizationRequest s.supportedResponseTypes r σ with
  | (.error _, σ1) =>
    (s.renderError w http.StatusInternalServerError "Failed to connect to the database.", σ1)
  | (.ok authReq, σ1) =>
    let authReq := { authReq with Expiry := s.now + Minute * 30 }
    match s.storage.CreateAuthRequest authReq σ1 with
    | (some _, σ2) =>
      (s.renderError w http.StatusInternalServerError "Failed to connect to the database.",
        σ2)
    | (none, σ2) =>
      match s.connectors with
      | [(id, _)] =>
        (http.Redirect w r (s.absPath ["/auth", id] ++ "?req=" ++ authReq.ID)
          http.StatusFound, σ2)
      | connectors =>
        let connectorInfos := connectors.map (fun kv =>
          { ID := kv.1, Name := kv.2.DisplayName, URL := s.absPath ["/auth", kv.1] })
        (templates.login w connectorInfos authReq.ID, σ2)

/-- Modelled from the spec: `templates.password`, which is not among the sources: it
"renders the password prompt", with an "invalid" flag when the last login failed. -/
def templates.password (w : http.ResponseWriter) (authReqID callback lastUsername : String)
    (lastWasInvalid : Bool) : http.ResponseWriter :=
  w.Write (.html "password" [authReqID, callback, lastUsername, toString lastWasInvalid])

/-- Modelled from the spec: `templates.approval`, which is not among the sources: it
"renders the consent page". -/
def templates.approval (w : http.ResponseWriter) (authReqID username clientName : String)
    (scopes : List String) : http.ResponseWriter :=
  w.Write (.html "approval" (authReqID :: username :: clientName :: scopes))

/-- Modelled from the spec: `templates.oob`, which is not among the sources: it "renders
the code in an HTML page instead of redirecting". -/
def templates.oob (w : http.ResponseWriter) (code : String) : http.ResponseWriter :=
  w.Write (.html "oob" [code])

/-- Modelled from the spec: `Server.absURL`, which is not among the sources: the
"absolute" URL of an endpoint of the server, under the issuer URL. -/
def Server.absURL (s : Server) (pathItems : List String) : String :=
  s.issuerURL ++ "/".intercalate pathItems

/-- Go `Server.finalizeLogin`: the URL to redirect to. `path.Join(s.issuerURL.Path,
"/approval")` is the path of the approval endpoint. -/
def Server.finalizeLogin (s : Server) (identity : connector.Identity)
    (authReq : storage.AuthRequest) (_conn : connector.Connector) (σ : World) :
    Except Error String × World :=
  let claims : Dex.storage.Claims :=
    { UserID := identity.UserID
      Username := identity.Username
      Email := identity.Email
      EmailVerified := identity.EmailVerified
      Groups := identity.Groups }
  let updater : Dex.storage.AuthRequest → Except Error Dex.storage.AuthRequest := fun a =>
    .ok { a with LoggedIn := true, Claims := claims, ConnectorData := identity.ConnectorData }
  match s.storage.UpdateAuthRequest authReq.ID updater σ with
  | (some err, σ1) =>
    (.error (.other ("failed to update auth request: " ++ err.toString)), σ1)
  | (none, σ1) => (.ok (s.absPath ["/approval"] ++ "?req=" ++ authReq.ID), σ1)

/-- Go `Server.handleConnectorLogin`. -/
def Server.handleConnectorLogin (s : Server) (w : http.ResponseWriter) (r : http.Request)
    (σ : World) : http.ResponseWriter × World :=
  let connID := url.Values.Get r.Vars "connector"
  match s.connector? connID with
  | none => (s.renderError w http.StatusBadRequest "Requested resource does not exist.", σ)
  | some conn =>
    let authReqID := r.FormValue "req"
    match s.storage.GetAuthRequest authReqID σ with
    | (.error _, σ1) => (s.renderError w http.StatusInternalServerError "Database error.", σ1)
    | (.ok authReq, σ1) =>
      let scopes := parseScopes authReq.Scopes
      if r.Method = "GET" then
        let updater : Dex.storage.AuthRequest → Except Error Dex.storage.AuthRequest :=
          fun a => .ok { a with ConnectorID := connID }
        match s.storage.UpdateAuthRequest authReqID updater σ1 with
        | (some _, σ2) =>
          (s.renderError w http.StatusInternalServerError "Database error.", σ2)
        | (none, σ2) =>
          match conn.Connector.callback, conn.Connector.password with
          | some callbackConn, _ =>
            match callbackConn.LoginURL scopes (s.absURL ["/callback"]) authReqID with
            | .error _ =>
              (s.renderError w http.StatusInternalServerError "Login error.", σ2)
            | .ok callbackURL => (http.Redirect w r callbackURL http.StatusFound, σ2)
          | none, some _ => (templates.password w authReqID r.URL "" false, σ2)
          | none, none =>
            (s.renderError w http.StatusBadRequest "Requested resource does not exist.", σ2)
      else if r.Method = "POST" then
        match conn.Connector.password with
        | none =>
          (s.renderError w http.StatusBadRequest "Requested resource does not exist.", σ1)
        | some passwordConnector =>
          let username := r.FormValue "login"
          let password := r.FormValue "password"
          match passwordConnector.Login scopes username password with
          | .error _ => (s.renderError w http.StatusInternalServerError "Login error.", σ1)
          | .ok (identity, ok) =>
            if !ok then (templates.password w authReqID r.URL username true, σ1)
            else
              match s.finalizeLogin identity authReq conn.Connector σ1 with
              | (.error _, σ2) =>
                (s.renderError w http.StatusInternalServerError "Login error.", σ2)
              | (.ok redirectURL, σ2) =>
                (http.Redirect w r redirectURL http.StatusSeeOther, σ2)
      else (s.renderError w http.StatusBadRequest "Unsupported request method.", σ1)

/-- Go `Server.handleConnectorCallback`. -/
def Server.handleConnectorCallback (s : Server) (w : http.ResponseWriter) (r : http.Request)
    (σ : World) : http.ResponseWriter × World :=
  let state := url.Values.Get r.Query "state"
  if state = "" then (s.renderError w http.StatusBadRequest "User session error.", σ)
  else
    match s.storage.GetAuthRequest state σ with
    | (.error err, σ1) =>
      if err = .ErrNotFound then
        (s.renderError w http.StatusInternalServerError "Requested resource does not exist.",
          σ1)
      else (s.renderError w http.StatusInternalServerError "Database error.", σ1)
    | (.ok authReq, σ1) =>
      match s.connector? authReq.ConnectorID with
      | none =>
        (s.renderError w http.StatusInternalServerError "Requested resource does not exist.",
          σ1)
      | some conn =>
        match conn.Connector.callback with
        | none =>
          (s.renderError w http.StatusInternalServerError
            "Requested resource does not exist.", σ1)
        | some callbackConnector =>
          match callbackConnector.HandleCallback (parseScopes authReq.Scopes) r with
          | .error _ =>
            (s.renderError w http.StatusInternalServerError
              "Failed to return user's identity.", σ1)
          | .ok identity =>
            match s.finalizeLogin identity authReq conn.Connector σ1 with
            | (.error _, σ2) =>
              (s.renderError w http.StatusInternalServerError "Login error.", σ2)
            | (.ok redirectURL, σ2) =>
              (http.Redirect w r redirectURL http.StatusSeeOther, σ2)

/-- The loop of `sendCodeResponse` over the response types: either the handler has
returned, with the response it wrote, or the loop has ended, with the query and the
fragment of the redirect. -/
def Server.sendCodeResponseLoop (s : Server) (w : http.ResponseWriter)
    (authReq : Dex.storage.AuthRequest) :
    List String → url.Values → String → World →
      Except http.ResponseWriter (url.Values × String) × World
  | [], q, fragment, σ => (.ok (q, fragment), σ)
  | responseType :: rest, q, fragment, σ =>
    if responseType = responseTypeCode then
      match storage.NewID σ with
      | (id, σ1) =>
        let code : Dex.storage.AuthCode :=
          { ID := id
            ClientID := authReq.ClientID
            ConnectorID := authReq.ConnectorID
            Nonce := authReq.Nonce
            Scopes := authReq.Scopes
            Claims := authReq.Claims
            Expiry := s.now + Minute * 30
            RedirectURI := authReq.RedirectURI
            ConnectorData := authReq.ConnectorData }
        match s.storage.CreateAuthCode code σ1 with
        | (some _, σ2) =>
          (.error (s.renderError w http.StatusInternalServerError "Internal server error."),
            σ2)
        | (none, σ2) =>
          if authReq.RedirectURI = redirectURIOOB then (.error (templates.oob w code.ID), σ2)
          else s.sendCodeResponseLoop w authReq rest (q.Set "code" code.ID) fragment σ2
    else if responseType = responseTypeToken then
      match s.newIDToken authReq.ClientID authReq.Claims authReq.Scopes authReq.Nonce σ with
      | (.error _, σ1) =>
        (.error (s.tokenErrHelper w errServerError "" http.StatusInternalServerError), σ1)
      | (.ok (idToken, expiry), σ1) =>
        match storage.NewID σ1 with
        | (accessToken, σ2) =>
          let v : url.Values := []
          let v := v.Set "access_token" accessToken
          let v := v.Set "token_type" "bearer"
          let v := v.Set "id_token" idToken
          let v := v.Set "state" authReq.State
          let v := v.Set "expires_in" (strconv.Itoa (expiry - s.now))
          s.sendCodeResponseLoop w authReq rest q v.Encode σ2
    else s.sendCodeResponseLoop w authReq rest q fragment σ

/-- Go `Server.sendCodeResponse`. -/
def Server.sendCodeResponse (s : Server) (w : http.ResponseWriter) (r : http.Request)
    (authReq : Dex.storage.AuthRequest) (σ : World) : http.ResponseWriter × World :=
  if s.now.After authReq.Expiry then
    (s.renderError w http.StatusBadRequest "User session has expired.", σ)
  else
    match s.storage.DeleteAuthRequest authReq.ID σ with
    | (some err, σ1) =>
      if err ≠ .ErrNotFound then
        (s.renderError w http.StatusInternalServerError "Internal server error.", σ1)
      else (s.renderError w http.StatusBadRequest "User session error.", σ1)
    | (none, σ1) =>
      match url.Parse authReq.RedirectURI with
      | .error _ =>
        (s.renderError w http.StatusInternalServerError "Invalid redirect URI.", σ1)
      | .ok u =>
        match s.sendCodeResponseLoop w authReq authReq.ResponseTypes u.Query u.Fragment σ1 with
        | (.error w1, σ2) => (w1, σ2)
        | (.ok (q, fragment), σ2) =>
          let q := q.Set "state" authReq.State
          let u := { u with RawQuery := q.Encode, Fragment := fragment }
          (http.Redirect w r u.String http.StatusSeeOther, σ2)

/-- Go `Server.handleApproval`. -/
def Server.handleApproval (s : Server) (w : http.ResponseWriter) (r : http.Request)
    (σ : World) : http.ResponseWriter × World :=
  match s.storage.GetAuthRequest (r.FormValue "req") σ with
  | (.error _, σ1) => (s.renderError w http.StatusInternalServerError "Database error.", σ1)
  | (.ok authReq, σ1) =>
    if !authReq.LoggedIn then
      (s.renderError w http.StatusInternalServerError "Login process not yet finalized.", σ1)
    else if r.Method = "GET" then
      if s.skipApproval then s.sendCodeResponse w r authReq σ1
      else
        match s.storage.GetClient authReq.ClientID σ1 with
        | (.error _, σ2) =>
          (s.renderError w http.StatusInternalServerError "Failed to retrieve client.", σ2)
        | (.ok client, σ2) =>
          (templates.approval w authReq.ID authReq.Claims.Username client.Name authReq.Scopes,
            σ2)
    else if r.Method = "POST" then
      if r.FormValue "approval" ≠ "approve" then
        (s.renderError w http.StatusInternalServerError "Approval rejected.", σ1)
      else s.sendCodeResponse w r authReq σ1
    else (w, σ1)

/-! ## Reading a response -/

/-- The token response written last to `w`, if the last thing written is one: a JSON
object with an `id_token` field. -/
def tokenResponse? (w : http.ResponseWriter) : Option json.Object :=
  match w.Body.getLast? with
  | some (.json o) => if (o.field "id_token").isSome then some o else none
  | _ => none

/-- An API call of the given verb on the given resource that returned an error. -/
def failed (verb : kubernetes.Verb) (resource : String) (e : kubernetes.Event) : Prop :=
  e.verb = verb ∧ e.resource = resource ∧ e.err ≠ none

/-- The API calls logged in `σ1` after those already logged in `σ`. -/
def callsSince (σ σ1 : World) : List kubernetes.Event := σ1.trace.drop σ.trace.length

/-- The refresh token that `handleAuthCode` creates for an auth code, under `id`. -/
def refreshOf (authCode : storage.AuthCode) (id : String) : storage.RefreshToken :=
  { RefreshToken := id
    ClientID := authCode.ClientID
    ConnectorID := authCode.ConnectorID
    Scopes := authCode.Scopes
    Claims := authCode.Claims
    Nonce := authCode.Nonce
    ConnectorData := authCode.ConnectorData }

/-- The object that `CreateRefresh` posts for a refresh token. -/
def refreshObject (cli : kubernetes.client) (r : storage.RefreshToken) :
    kubernetes.RefreshToken :=
  { TypeMeta := { Kind := kubernetes.kindRefreshToken, APIVersion := cli.apiVersion }
    ObjectMeta := { Name := r.RefreshToken, Namespace := cli.namespaceName }
    ClientID := r.ClientID
    ConnectorID := r.ConnectorID
    Scopes := r.Scopes
    Nonce := r.Nonce
    Claims := kubernetes.fromStorageClaims r.Claims }

/-- From `σ` to `σ1` only `get` calls were made: the server and the random source are
as they were. -/
def readsOnly (σ σ1 : World) : Prop :=
  σ1.cluster = σ.cluster ∧ σ1.entropy = σ.entropy ∧
    ∃ evs, σ1.trace = σ.trace ++ evs ∧ ∀ e ∈ evs, e.verb = kubernetes.Verb.get

/-- The credentials `handleToken` reads from a request: those of the `Authorization`
header, unescaped, and else those of the form. -/
def credentials (r : http.Request) (clientID clientSecret : String) : Prop :=
  (∃ u p, r.BasicAuth = some (u, p) ∧ url.QueryUnescape u = .ok clientID ∧
      url.QueryUnescape p = .ok clientSecret) ∨
  (r.BasicAuth = none ∧ clientID = r.PostFormValue "client_id" ∧
    clientSecret = r.PostFormValue "client_secret")

/-- Whether the credentials of the `Authorization` header, when the request has one,
unescape to texts: to bytes that are UTF-8. The strings of the embedding are texts, and
for such a request the credentials read by `credentials` are, byte for byte, the strings
that `handleToken` reads. -/
def textCredentials (r : http.Request) : Bool :=
  match r.BasicAuth with
  | some (u, p) => url.unescapesToText u && url.unescapesToText p
  | none => true

/-- The refresh token as `handleRefreshToken` holds it after asking the connector:
when the connector implements `Refresh`, the claims other than the user id and the
connector data are those of the identity it returned. -/
def refreshedBy (conn : Connector) (scopes : List String) (refresh : storage.RefreshToken) :
    Except Error storage.RefreshToken :=
  match conn.Connector.refresh with
  | some refreshConn =>
    let ident : connector.Identity :=
      { UserID := refresh.Claims.UserID
        Username := refresh.Claims.Username
        Email := refresh.Claims.Email
        EmailVerified := refresh.Claims.EmailVerified
        Groups := refresh.Claims.Groups
        ConnectorData := refresh.ConnectorData }
    match refreshConn.Refresh (parseScopes scopes) ident with
    | .error err => .error err
    | .ok ident =>
      .ok { refresh with
        Claims := { refresh.Claims with
          Username := ident.Username
          Email := ident.Email
          EmailVerified := ident.EmailVerified
          Groups := ident.Groups }
        ConnectorData := ident.ConnectorData }
  | none => .ok refresh

/-- The scopes a refresh is made with: those of the `scope` parameter when it is not
empty, and else those of the stored refresh token. -/
def refreshScopes (scope : String) (refresh : storage.RefreshToken) : List String :=
  if scope ≠ "" then strings.Fields scope else refresh.Scopes

/-- The requested scopes that the stored refresh token does not have. -/
def unauthorizedScopes (scope : String) (refresh : storage.RefreshToken) : List String :=
  (strings.Fields scope).filter (fun s => !(refresh.Scopes.any (fun scope => s == scope)))

/-- A world in which every API call still to come is served. -/
def served (σ : World) : Prop := ∀ f ∈ σ.faults, f = none

/-- The scopes that `parseAuthorizationRequest` recognizes by name. -/
def standardScope (scope : String) : Prop :=
  scope = scopeOpenID ∨ scope = scopeOfflineAccess ∨ scope = scopeEmail ∨
    scope = scopeProfile ∨ scope = scopeGroups

instance (σ : World) : Decidable (served σ) := by
  unfold served
  infer_instance

instance (scope : String) : Decidable (standardScope scope) := by
  unfold standardScope
  infer_instance

/-- The peer ids of the cross-client scopes of a scope list, in scope order. -/
def crossClientPeers (scopes : List String) : List String :=
  scopes.filterMap (fun scope =>
    if (parseCrossClientScope scope).2 then some (parseCrossClientScope scope).1 else none)

/-- Whether, by the clients the cluster holds, the peer `peerID` trusts the client
`clientID`: they are the same client, or the object stored under the name of `peerID`
is the client `peerID` and has `clientID` among its trusted peers. -/
def trusts (cli : kubernetes.client) (c : kubernetes.Cluster) (clientID peerID : String) :
    Bool :=
  peerID == clientID ||
    match c.oauth2clients.find? (fun o => o.ObjectMeta.Name == cli.idToName peerID) with
    | some o => o.ID == peerID && o.TrustedPeers.any (fun id => id == clientID)
    | none => false

/-- A scope that `parseAuthorizationRequest` does not recognize: not one of the scopes
known by name, and not a cross-client scope. -/
def unrecognizedScope (scope : String) : Bool :=
  !decide (standardScope scope) && !(parseCrossClientScope scope).2

/-- A cross-client scope whose peer, by the clients the cluster holds, does not trust
the client. -/
def untrustedScope (cli : kubernetes.client) (c : kubernetes.Cluster) (clientID scope : String) :
    Bool :=
  (parseCrossClientScope scope).2 && !trusts cli c clientID (parseCrossClientScope scope).1

/-- The responses of the token endpoint to a request, from the writer `w`: the token
response of `writeAccessToken`, or the error object of `tokenErr` with one of four error
types and the status that goes with it. -/
def tokenEndpointResponse (s : Server) (w w1 : http.ResponseWriter) : Prop :=
  (∃ idToken refreshToken expiry σ,
    w1 = (s.writeAccessToken w idToken refreshToken expiry σ).1) ∨
  ∃ typ description statusCode, w1 = tokenErr w typ description statusCode ∧
    ((typ = errInvalidRequest ∧ statusCode = 400) ∨
     (typ = errInvalidGrant ∧ statusCode = 400) ∨
     (typ = errInvalidClient ∧ statusCode = 401) ∨
     (typ = errServerError ∧ statusCode = 500))

/-! ## A small deployment, used to run the handlers -/

namespace example1

def signer (_keys : storage.Keys) (payload : json.Object) : Except Error String :=
  match payload.field "sub" with
  | some (.str sub) => .ok ("jws:" ++ sub)
  | _ => .error (.other "no subject")

def srv : Server :=
  { issuerURL := "https://dex"
    connectors := [("mock", {})]
    now := 10
    idTokensValidFor := 3600
    supportedResponseTypes := ["code"]
    sign := signer }

def c1 : storage.Client :=
  { ID := "C1", Secret := "s", RedirectURIs := ["https://app/cb"], TrustedPeers := ["C2"] }

def c2 : storage.Client :=
  { ID := "C2", Secret := "t", RedirectURIs := ["https://other/cb"] }

def code : storage.AuthCode :=
  { ID := "K"
    ClientID := "C1"
    RedirectURI := "https://app/cb"
    ConnectorID := "mock"
    Scopes := ["openid", "email", "offline_access"]
    Claims := { UserID := "u1", Email := "a@b" }
    Expiry := 100 }

def refresh : storage.RefreshToken :=
  { RefreshToken := "R1"
    ClientID := "C1"
    ConnectorID := "mock"
    Scopes := ["openid", "email", "offline_access"]
    Claims := { UserID := "u1", Email := "a@b" } }

def cluster : kubernetes.Cluster :=
  { authcodes := [srv.storage.fromStorageAuthCode code]
    oauth2clients := [srv.storage.fromStorageClient c1, srv.storage.fromStorageClient c2]
    refreshtokens :=
      [{ ObjectMeta := { Name := "R1" }, ClientID := "C1", ConnectorID := "mock",
         Scopes := ["openid", "email", "offline_access"],
         Claims := { UserID := "u1", Email := "a@b" } }]
    signingkeies := [srv.storage.fromStorageKeys {}] }

def world : World := { cluster := cluster, entropy := [5, 6, 7, 8] }

/-- The code exchange of client `C1`. -/
def exchange : http.Request :=
  { Method := "POST"
    BasicAuth := some ("C1", "s")
    PostForm := [("grant_type", "authorization_code"), ("code", "K"),
      ("redirect_uri", "https://app/cb")] }

/-- A refresh of client `C1`, with the given `scope` parameter. -/
def refreshRequest (scope : String) : http.Request :=
  { Method := "POST"
    BasicAuth := some ("C1", "s")
    PostForm := [("grant_type", "refresh_token"), ("refresh_token", "R1"),
      ("scope", scope)] }

/-- The example deployment with the third API call failing. -/
def failingWorld : World := { world with faults := [none, none, some (.other "timeout")] }

/-- The example deployment half an hour later, when the code `K` has expired. -/
def lateSrv : Server := { srv with now := 2000 }

/-- The example deployment after the code `K` was collected. -/
def collectedWorld : World := { world with cluster := { cluster with authcodes := [] } }

/-- The code exchange of client `C1` with another redirect URI. -/
def otherRedirect : http.Request :=
  { Method := "POST"
    BasicAuth := some ("C1", "s")
    PostForm := [("grant_type", "authorization_code"), ("code", "K"),
      ("redirect_uri", "https://evil/cb")] }

/-- A client whose id is not written in ASCII. -/
def accented : storage.Client := { ID := "é", Secret := "s" }

/-- The example deployment with the client `é` added. -/
def accentedWorld : World :=
  { world with
    cluster := { cluster with
      oauth2clients := cluster.oauth2clients ++ [srv.storage.fromStorageClient accented] } }

/-- A token request of the client `é`, its id escaped in the `Authorization` header,
with the given secret. -/
def accentedRequest (secret : String) : http.Request :=
  { Method := "POST"
    BasicAuth := some ("%C3%A9", secret)
    PostForm := [("grant_type", "authorization_code"), ("code", "K"),
      ("redirect_uri", "https://app/cb")] }

/-- The code exchange of client `C1` with a wrong secret. -/
def wrongSecret : http.Request :=
  { Method := "POST"
    BasicAuth := some ("C1", "guess")
    PostForm := [("grant_type", "authorization_code"), ("code", "K"),
      ("redirect_uri", "https://app/cb")] }

/-- An authorization request of client `C2` for an ID token whose audience is its
peer `C1`, which trusts `C2`. -/
def crossClient : http.Request :=
  { Method := "GET"
    Form := [("client_id", "C2"), ("redirect_uri", "https://other/cb"),
      ("scope", "openid audience:server:client_id:C1"), ("response_type", "code"),
      ("state", "xyz")] }

/-- An authorization request of client `C1` for the audience `C2`, which does not
trust `C1`. -/
def crossClientUntrusted : http.Request :=
  { Method := "GET"
    Form := [("client_id", "C1"), ("redirect_uri", "https://app/cb"),
      ("scope", "openid audience:server:client_id:C2"), ("response_type", "code"),
      ("state", "xyz")] }

/-- A public client that has registered a redirect URI. -/
def publicClient : storage.Client :=
  { ID := "native", Public := true, RedirectURIs := ["https://native/cb"] }

/-- An authorization request of client `C2` for the implicit flow, without a nonce. -/
def implicit : http.Request :=
  { Method := "GET"
    Form := [("client_id", "C2"), ("redirect_uri", "https://other/cb"),
      ("scope", "openid"), ("response_type", "code token"), ("state", "xyz")] }

/-- A connector that implements `Refresh`: the upstream reports a new name, address and
groups, and also another user id. -/
def refresher : Connector :=
  { Connector :=
      { refresh := some
          { Refresh := fun _ ident =>
              .ok { ident with
                UserID := "u2", Username := "Jane", Email := "jane@b", EmailVerified := true,
                Groups := ["dev"] } } } }

/-- The example deployment with the refreshing connector. -/
def refreshingSrv : Server := { srv with connectors := [("mock", refresher)] }

/-- A refresh token whose connector stashed three bytes in the grant. -/
def refreshWithData : storage.RefreshToken :=
  { RefreshToken := "R2"
    ClientID := "C1"
    ConnectorID := "mock"
    Scopes := ["openid", "offline_access"]
    Claims := { UserID := "u1", Email := "a@b" }
    ConnectorData := [1, 2, 3] }

/-- An authorization request that is still open, not logged in. -/
def authReq : storage.AuthRequest :=
  { ID := "A"
    ClientID := "C1"
    ResponseTypes := ["code"]
    Scopes := ["openid", "email"]
    RedirectURI := "https://app/cb"
    State := "xyz"
    Expiry := 50 }

/-- The example deployment with the authorization request `A`, at a time when `A` and the
code `K` have expired and `A` was deleted by a handler after it was listed: the API server
answers the first delete with `NotFound`. -/
def raceWorld : World :=
  { world with
    cluster := { cluster with authrequests := [srv.storage.fromStorageAuthRequest authReq] }
    faults := [none, some .ErrNotFound] }

/-- A mutator of clients that also changes the id. -/
def rename (c : storage.Client) : Except Error storage.Client :=
  .ok { c with ID := "evil", Name := "renamed" }

/-- A connector that logs users in through an upstream provider. -/
def callbackConn : Connector :=
  { Connector :=
      { callback := some
          { LoginURL := fun _ _ state => .ok ("https://upstream/auth?state=" ++ state)
            HandleCallback := fun _ _ => .ok { UserID := "u1", Email := "a@b" } } } }

/-- A connector that checks a password itself. -/
def passwordConn : Connector :=
  { Connector :=
      { password := some
          { Login := fun _ username password =>
              .ok ({ UserID := username, Email := "l@b" }, password == "pw") } } }

/-- The example deployment with the two connectors `mock` and `ldap`, without a consent
page. -/
def loginSrv : Server :=
  { srv with connectors := [("mock", callbackConn), ("ldap", passwordConn)], skipApproval := true }

/-- The example deployment with the open authorization request `A`. -/
def loginWorld : World :=
  { world with
    cluster := { cluster with authrequests := [srv.storage.fromStorageAuthRequest authReq] } }

/-- The password form of the connector `ldap`, posted for the authorization request `A`. -/
def passwordLogin : http.Request :=
  { Method := "POST"
    Form := [("req", "A"), ("login", "jane"), ("password", "pw")]
    URL := "/auth/ldap?req=A"
    Vars := [("connector", "ldap")] }

/-- The approval of the authorization request `A`. -/
def approve : http.Request :=
  { Method := "POST", Form := [("req", "A"), ("approval", "approve")] }

/-- The example deployment with the authorization request `A` after a login, when the
third API call to come fails. -/
def approvalWorld : World :=
  { world with
    cluster := { cluster with
      authrequests := [srv.storage.fromStorageAuthRequest
        { authReq with LoggedIn := true, ConnectorID := "mock",
                       Claims := { UserID := "u1", Email := "a@b" } }] }
    faults := [none, none, some (.other "timeout")] }

/-- The authorization request `A` after a login through the connector `mock`. -/
def loggedIn : storage.AuthRequest :=
  { authReq with LoggedIn := true, ConnectorID := "mock",
                 Claims := { UserID := "u1", Email := "a@b" } }

/-- The configuration of an upstream provider whose discovery succeeds. -/
def upstream : oidc.Config :=
  { Issuer := "https://accounts.example.com", ClientID := "dex", ClientSecret := "x",
    RedirectURI := "https://dex/callback" }

/-- A discovery that finds the provider. -/
def discovery (issuer : String) : Except Error oidc.Provider :=
  .ok { Endpoint := issuer ++ "/auth" }

end example1

end server

end Dex

namespace Dex

/-! ## Facts about the API calls -/

namespace kubernetes

variable {α : Type}

@[simp] theorem World.step_cluster (σ : World) (ev : Event) (c : Cluster) :
    (σ.step ev c).cluster = c := rfl

@[simp] theorem World.step_trace (σ : World) (ev : Event) (c : Cluster) :
    (σ.step ev c).trace = σ.trace ++ [ev] := rfl

@[simp] theorem World.step_entropy (σ : World) (ev : Event) (c : Cluster) :
    (σ.step ev c).entropy = σ.entropy := rfl

@[simp] theorem World.step_faults (σ : World) (ev : Event) (c : Cluster) :
    (σ.step ev c).faults = σ.faults.tail := rfl

/-- A `get` leaves the server as it is, and logs one `get` call with its outcome. -/
theorem client.get_spec (cli : client) (r : Resource α) (name : String) (σ : World) :
    (cli.get r name σ).2 =
      σ.step ⟨.get, r.path, name, server.errOf (cli.get r name σ).1⟩ σ.cluster := by
  unfold client.get
  split
  · rfl
  · split <;> rfl

/-- A `get` that is served returns the first object of that name, or `ErrNotFound`. -/
theorem client.get_served (cli : client) (r : Resource α) (name : String) (σ : World)
    (h : σ.fault = none) :
    (cli.get r name σ).1 =
      match (r.items σ.cluster).find? (fun o => r.name o == name) with
      | some o => .ok o
      | none => .error .ErrNotFound := by
  unfold client.get
  rw [h]
  simp only
  split <;> simp_all

/-- A `get` that succeeds returns an object of the resource, with the name asked for. -/
theorem client.get_ok (cli : client) (r : Resource α) (name : String) (σ : World) (o : α)
    (h : (cli.get r name σ).1 = .ok o) :
    σ.fault = none ∧ (r.items σ.cluster).find? (fun o => r.name o == name) = some o := by
  unfold client.get at h
  split at h
  · simp at h
  · rename_i hf
    split at h
    · rename_i x hx
      simp at h
      subst h
      exact ⟨hf, hx⟩
    · simp at h

/-- The world after a `delete`: on success the objects of that name are gone, on
failure the server is as it was. -/
theorem client.delete_spec (cli : client) (r : Resource α) (name : String) (σ : World) :
    (cli.delete r name σ).2 =
      σ.step ⟨.delete, r.path, name, (cli.delete r name σ).1⟩
        (if (cli.delete r name σ).1 = none then
          r.setItems ((r.items σ.cluster).filter (fun x => !(r.name x == name))) σ.cluster
         else σ.cluster) := by
  unfold client.delete
  split
  · simp
  · split <;> simp

/-- The world after a `post`: on success the object is added, on failure the server
is as it was. -/
theorem client.post_spec (cli : client) (r : Resource α) (o : α) (σ : World) :
    (cli.post r o σ).2 =
      σ.step ⟨.post, r.path, r.name o, (cli.post r o σ).1⟩
        (if (cli.post r o σ).1 = none then r.setItems (r.items σ.cluster ++ [o]) σ.cluster
         else σ.cluster) := by
  unfold client.post
  split
  · simp
  · split <;> simp

/-- A `post` succeeds only when the name is free. -/
theorem client.post_ok (cli : client) (r : Resource α) (o : α) (σ : World)
    (h : (cli.post r o σ).1 = none) :
    (r.items σ.cluster).any (fun x => r.name x == r.name o) = false := by
  unfold client.post at h
  split at h
  · simp at h
  · split at h
    · simp at h
    · rename_i hn
      exact Bool.eq_false_iff.mpr hn

end kubernetes

end Dex

namespace Dex

namespace server

open kubernetes

/-! ## Frame facts: what an operation may change -/

theorem readsOnly.refl (σ : World) : readsOnly σ σ :=
  ⟨rfl, rfl, [], by simp, by simp⟩

theorem readsOnly.trans {σ σ1 σ2 : World} (h1 : readsOnly σ σ1) (h2 : readsOnly σ1 σ2) :
    readsOnly σ σ2 := by
  obtain ⟨hc1, he1, evs1, ht1, hv1⟩ := h1
  obtain ⟨hc2, he2, evs2, ht2, hv2⟩ := h2
  refine ⟨hc2.trans hc1, he2.trans he1, evs1 ++ evs2, ?_, ?_⟩
  · rw [ht2, ht1, List.append_assoc]
  · intro e he
    rcases List.mem_append.mp he with h | h
    · exact hv1 e h
    · exact hv2 e h

theorem readsOnly_get {α : Type} (cli : client) (r : Resource α) (name : String) (σ : World) :
    readsOnly σ (cli.get r name σ).2 := by
  rw [client.get_spec]
  exact ⟨rfl, rfl, [_], rfl, by simp⟩

theorem readsOnly_GetAuthCode (cli : client) (id : String) (σ : World) :
    readsOnly σ (cli.GetAuthCode id σ).2 := by
  have h := readsOnly_get cli resourceAuthCode id σ
  unfold client.GetAuthCode
  split <;> simp_all

theorem readsOnly_GetRefresh (cli : client) (id : String) (σ : World) :
    readsOnly σ (cli.GetRefresh id σ).2 := by
  have h := readsOnly_get cli resourceRefreshToken id σ
  unfold client.GetRefresh
  split <;> simp_all

theorem readsOnly_GetKeys (cli : client) (σ : World) : readsOnly σ (cli.GetKeys σ).2 := by
  have h := readsOnly_get cli resourceKeys keysName σ
  unfold client.GetKeys
  split <;> simp_all

theorem readsOnly_getClient (cli : client) (id : String) (σ : World) :
    readsOnly σ (cli.getClient id σ).2 := by
  have h := readsOnly_get cli resourceClient (cli.idToName id) σ
  unfold client.getClient
  simp only
  split
  · simp_all
  · split <;> simp_all

theorem readsOnly_GetClient (cli : client) (id : String) (σ : World) :
    readsOnly σ (cli.GetClient id σ).2 := by
  have h := readsOnly_getClient cli id σ
  unfold client.GetClient
  split <;> simp_all

theorem readsOnly_validateCrossClientTrust (s : Server) (clientID peerID : String)
    (σ : World) : readsOnly σ (s.validateCrossClientTrust clientID peerID σ).2 := by
  have h := readsOnly_GetClient s.storage peerID σ
  unfold Server.validateCrossClientTrust
  split
  · exact readsOnly.refl σ
  · split
    · split <;> simp_all
    · simp_all

theorem readsOnly_newIDTokenScopes (s : Server) (clientID : String) (claims : storage.Claims)
    (scopes : List String) :
    ∀ (tok : idTokenClaims) (σ : World),
      readsOnly σ (s.newIDTokenScopes clientID claims scopes tok σ).2 := by
  induction scopes with
  | nil => intro tok σ; exact readsOnly.refl σ
  | cons scope scopes ih =>
    intro tok σ
    unfold Server.newIDTokenScopes
    split
    · exact ih _ _
    · split
      · exact ih _ _
      · split
        · exact ih _ _
        · split
          · exact ih _ _
          · have h := readsOnly_validateCrossClientTrust s clientID ‹String› σ
            split
            · simp_all
            · simp_all
            · rename_i hv
              rw [hv] at h
              exact h.trans (ih _ _)

theorem readsOnly_newIDTokenClaims (s : Server) (clientID : String) (claims : storage.Claims)
    (scopes : List String) (nonce : String) (σ : World) :
    readsOnly σ (s.newIDTokenClaims clientID claims scopes nonce σ).2 := by
  have h := readsOnly_newIDTokenScopes s clientID claims scopes
    { Issuer := s.issuerURL, Subject := claims.UserID, Nonce := nonce,
      Expiry := s.now + s.idTokensValidFor, IssuedAt := s.now } σ
  unfold Server.newIDTokenClaims
  simp only
  split
  · simp_all
  · split <;> simp_all

theorem readsOnly_newIDToken (s : Server) (clientID : String) (claims : storage.Claims)
    (scopes : List String) (nonce : String) (σ : World) :
    readsOnly σ (s.newIDToken clientID claims scopes nonce σ).2 := by
  have h := readsOnly_newIDTokenClaims s clientID claims scopes nonce σ
  unfold Server.newIDToken
  simp only
  split
  · simp_all
  · rename_i tok σ1 hc
    rw [hc] at h
    have h2 := readsOnly_GetKeys s.storage σ1
    split
    · rename_i hk
      rw [hk] at h2
      exact h.trans h2
    · rename_i hk
      rw [hk] at h2
      split
      · exact h.trans h2
      · exact h.trans h2

end server

end Dex

namespace Dex

namespace server

open kubernetes

/-! ## The two kinds of response of the token endpoint -/

theorem tokenResponse?_tokenErr (w : http.ResponseWriter) (typ description : String)
    (statusCode : Nat) : tokenResponse? (tokenErr w typ description statusCode) = none := by
  unfold tokenResponse? tokenErr http.ResponseWriter.Write
  by_cases hd : description = "" <;>
    simp [json.omitemptyStr, hd, json.Object.field, List.find?]

theorem tokenResponse?_tokenErrHelper (s : Server) (w : http.ResponseWriter)
    (typ description : String) (statusCode : Nat) :
    tokenResponse? (s.tokenErrHelper w typ description statusCode) = none :=
  tokenResponse?_tokenErr w typ description statusCode

/-- The JSON object written by `writeAccessToken`. -/
theorem tokenResponse?_writeAccessToken (s : Server) (w : http.ResponseWriter)
    (idToken refreshToken : String) (expiry : Time) (σ : World) :
    tokenResponse? (s.writeAccessToken w idToken refreshToken expiry σ).1 =
      some ([("access_token", .str (storage.NewID σ).1), ("token_type", .str "bearer"),
        ("expires_in", .num (expiry - s.now))] ++
        json.omitemptyStr "refresh_token" refreshToken ++ [("id_token", .str idToken)]) := by
  unfold tokenResponse? Server.writeAccessToken http.ResponseWriter.Write
  by_cases hd : refreshToken = "" <;>
    simp [json.omitemptyStr, hd, json.Object.field, List.find?]

theorem writeAccessToken_world (s : Server) (w : http.ResponseWriter)
    (idToken refreshToken : String) (expiry : Time) (σ : World) :
    (s.writeAccessToken w idToken refreshToken expiry σ).2 = (storage.NewID σ).2 := rfl

@[simp] theorem NewID_cluster (σ : World) : (storage.NewID σ).2.cluster = σ.cluster := rfl

@[simp] theorem NewID_trace (σ : World) : (storage.NewID σ).2.trace = σ.trace := rfl

@[simp] theorem NewID_faults (σ : World) : (storage.NewID σ).2.faults = σ.faults := rfl

end server

end Dex

namespace Dex

namespace server

open kubernetes

/-! ## The code exchange -/

/-- What has happened when `handleAuthCode` answers with a token response: every step
of the exchange succeeded, in the order of the source. -/
theorem handleAuthCode_token (s : Server) (w : http.ResponseWriter) (r : http.Request)
    (client : storage.Client) (σ : World) (o : json.Object)
    (h : tokenResponse? (s.handleAuthCode w r client σ).1 = some o) :
    ∃ authCode σ1 idToken expiry σ2 σ3,
      s.storage.GetAuthCode (r.PostFormValue "code") σ = (.ok authCode, σ1) ∧
      s.now.After authCode.Expiry = false ∧
      authCode.ClientID = client.ID ∧
      authCode.RedirectURI = r.PostFormValue "redirect_uri" ∧
      s.newIDToken client.ID authCode.Claims authCode.Scopes authCode.Nonce σ1 =
        (.ok (idToken, expiry), σ2) ∧
      s.storage.DeleteAuthCode (r.PostFormValue "code") σ2 = (none, σ3) ∧
      ((authCode.Scopes.any (fun scope => scope == scopeOfflineAccess) = true ∧
          ∃ σ5, s.storage.CreateRefresh (refreshOf authCode (storage.NewID σ3).1)
              (storage.NewID σ3).2 = (none, σ5) ∧
            s.handleAuthCode w r client σ =
              s.writeAccessToken w idToken (storage.NewID σ3).1 expiry σ5) ∨
       (authCode.Scopes.any (fun scope => scope == scopeOfflineAccess) = false ∧
          s.handleAuthCode w r client σ = s.writeAccessToken w idToken "" expiry σ3)) := by
  unfold Server.handleAuthCode at h ⊢
  simp only at h ⊢
  rcases hres : s.storage.GetAuthCode (r.PostFormValue "code") σ with ⟨res, σ1⟩
  rw [hres] at h
  simp only at h ⊢
  cases res with
  | error e =>
    simp only [errOf, valOf] at h
    split at h
    · split at h <;> simp [tokenResponse?_tokenErrHelper] at h
    · rename_i hc
      simp at hc
  | ok authCode =>
    simp only [errOf, valOf] at h ⊢
    split at h
    · split at h <;> simp [tokenResponse?_tokenErrHelper] at h
    · rename_i hc
      simp only [ne_eq, not_true_eq_false, false_or, not_or, Bool.not_eq_true,
        Decidable.not_not] at hc
      obtain ⟨hexp, hcl⟩ := hc
      split at h
      · simp [tokenResponse?_tokenErrHelper] at h
      · rename_i hred
        simp only [ne_eq, Decidable.not_not] at hred
        rcases hnew : s.newIDToken client.ID authCode.Claims authCode.Scopes authCode.Nonce σ1
          with ⟨res2, σ2⟩
        rw [hnew] at h
        cases res2 with
        | error e => simp [tokenResponse?_tokenErrHelper] at h
        | ok pr =>
          obtain ⟨idToken, expiry⟩ := pr
          simp only at h
          rcases hdel : s.storage.DeleteAuthCode (r.PostFormValue "code") σ2 with ⟨d, σ3⟩
          rw [hdel] at h
          cases d with
          | some e => simp [tokenResponse?_tokenErrHelper] at h
          | none =>
            simp only at h
            refine ⟨authCode, σ1, idToken, expiry, σ2, σ3, rfl, hexp, hcl, hred, hnew, hdel, ?_⟩
            by_cases hoff : authCode.Scopes.any (fun scope => scope == scopeOfflineAccess) = true
            · left
              refine ⟨hoff, ?_⟩
              simp only [hoff, if_true] at h
              rcases hcr : s.storage.CreateRefresh (refreshOf authCode (storage.NewID σ3).1)
                (storage.NewID σ3).2 with ⟨c, σ5⟩
              unfold refreshOf at hcr
              rw [hcr] at h
              cases c with
              | some e => simp [tokenResponse?_tokenErrHelper] at h
              | none =>
                refine ⟨σ5, rfl, ?_⟩
                rw [hcl] at hcr
                simp [hoff, hcr, hexp, hcl, hred, hnew, hdel]
            · right
              simp only [Bool.not_eq_true] at hoff
              refine ⟨hoff, ?_⟩
              simp [hoff, hexp, hcl, hred, hnew, hdel]

end server

end Dex

namespace Dex

namespace server

open kubernetes

theorem NewID_fst_congr (σa σb : World) (h : σa.entropy = σb.entropy) :
    (storage.NewID σa).1 = (storage.NewID σb).1 := by
  simp [storage.NewID, h]

theorem NewID_entropy_congr (σa σb : World) (h : σa.entropy = σb.entropy) :
    (storage.NewID σa).2.entropy = (storage.NewID σb).2.entropy := by
  simp [storage.NewID, h]

theorem DeleteAuthCode_ok (cli : kubernetes.client) (code : String) (σ σ1 : World)
    (h : cli.DeleteAuthCode code σ = (none, σ1)) :
    σ1.cluster = { σ.cluster with
      authcodes := σ.cluster.authcodes.filter (fun x => !(x.ObjectMeta.Name == code)) } ∧
    σ1.entropy = σ.entropy := by
  have hs := kubernetes.client.delete_spec cli resourceAuthCode code σ
  unfold kubernetes.client.DeleteAuthCode at h
  rw [h] at hs
  simp only [if_true] at hs
  rw [hs]
  exact ⟨rfl, rfl⟩

theorem DeleteRefresh_ok (cli : kubernetes.client) (id : String) (σ σ1 : World)
    (h : cli.DeleteRefresh id σ = (none, σ1)) :
    σ1.cluster = { σ.cluster with
      refreshtokens :=
        σ.cluster.refreshtokens.filter (fun x => !(x.ObjectMeta.Name == id)) } ∧
    σ1.entropy = σ.entropy := by
  have hs := kubernetes.client.delete_spec cli resourceRefreshToken id σ
  unfold kubernetes.client.DeleteRefresh at h
  rw [h] at hs
  simp only [if_true] at hs
  rw [hs]
  exact ⟨rfl, rfl⟩

theorem CreateRefresh_eq (cli : kubernetes.client) (t : storage.RefreshToken) (σ : World) :
    cli.CreateRefresh t σ = cli.post resourceRefreshToken (refreshObject cli t) σ := rfl

theorem CreateRefresh_ok (cli : kubernetes.client) (t : storage.RefreshToken) (σ σ1 : World)
    (h : cli.CreateRefresh t σ = (none, σ1)) :
    σ1.cluster = { σ.cluster with
      refreshtokens := σ.cluster.refreshtokens ++ [refreshObject cli t] } ∧
    σ1.entropy = σ.entropy ∧
    σ.cluster.refreshtokens.any (fun x => x.ObjectMeta.Name == t.RefreshToken) = false := by
  have hs := kubernetes.client.post_spec cli resourceRefreshToken (refreshObject cli t) σ
  have hf := kubernetes.client.post_ok cli resourceRefreshToken (refreshObject cli t) σ
  rw [CreateRefresh_eq] at h
  rw [h] at hs hf
  simp only [if_true] at hs
  refine ⟨?_, ?_, hf rfl⟩
  · rw [hs]; rfl
  · rw [hs]; rfl

/-- The storage after a code exchange that was answered with a token response: the
code is gone, and a refresh token is added when `offline_access` was granted. -/
theorem handleAuthCode_token_cluster (s : Server) (w : http.ResponseWriter) (r : http.Request)
    (client : storage.Client) (σ : World) (o : json.Object)
    (h : tokenResponse? (s.handleAuthCode w r client σ).1 = some o) :
    ∃ authCode σ1 idToken expiry accessToken,
      s.storage.GetAuthCode (r.PostFormValue "code") σ = (.ok authCode, σ1) ∧
      authCode.ClientID = client.ID ∧
      (s.handleAuthCode w r client σ).2.cluster =
        { σ.cluster with
          authcodes :=
            σ.cluster.authcodes.filter
              (fun x => !(x.ObjectMeta.Name == r.PostFormValue "code"))
          refreshtokens :=
            if authCode.Scopes.any (fun scope => scope == scopeOfflineAccess) then
              σ.cluster.refreshtokens ++
                [refreshObject s.storage (refreshOf authCode (storage.NewID σ).1)]
            else σ.cluster.refreshtokens } ∧
      o = [("access_token", .str accessToken),
            ("token_type", .str "bearer"), ("expires_in", .num (expiry - s.now))] ++
          (if authCode.Scopes.any (fun scope => scope == scopeOfflineAccess) then
            json.omitemptyStr "refresh_token" (storage.NewID σ).1 else []) ++
          [("id_token", .str idToken)] := by
  obtain ⟨authCode, σ1, idToken, expiry, σ2, σ3, hget, -, hcl, -, hnew, hdel, hrest⟩ :=
    handleAuthCode_token s w r client σ o h
  have h1 : readsOnly σ σ1 := by
    have := readsOnly_GetAuthCode s.storage (r.PostFormValue "code") σ
    rwa [hget] at this
  have h2 : readsOnly σ1 σ2 := by
    have := readsOnly_newIDToken s client.ID authCode.Claims authCode.Scopes authCode.Nonce σ1
    rwa [hnew] at this
  have h12 := h1.trans h2
  obtain ⟨h3, he3⟩ := DeleteAuthCode_ok s.storage _ σ2 σ3 hdel
  rw [h12.1] at h3
  rw [h12.2.1] at he3
  rcases hrest with ⟨hoff, σ5, hcr, hout⟩ | ⟨hoff, hout⟩
  · obtain ⟨h5, -, -⟩ := CreateRefresh_ok s.storage _ _ σ5 hcr
    rw [hout] at h
    rw [tokenResponse?_writeAccessToken] at h
    rw [NewID_fst_congr σ3 σ he3] at h h5
    refine ⟨authCode, σ1, idToken, expiry, (storage.NewID σ5).1, hget, hcl, ?_, ?_⟩
    · rw [hout, writeAccessToken_world, NewID_cluster, h5, NewID_cluster, h3]
      simp only [hoff, if_true]
    · simp only [hoff, if_true]
      exact (Option.some.inj h).symm
  · rw [hout] at h
    rw [tokenResponse?_writeAccessToken] at h
    refine ⟨authCode, σ1, idToken, expiry, (storage.NewID σ3).1, hget, hcl, ?_, ?_⟩
    · rw [hout, writeAccessToken_world, NewID_cluster, h3]
      simp only [hoff, Bool.false_eq_true, if_false]
    · simp only [hoff, Bool.false_eq_true, if_false]
      rw [← Option.some.inj h]
      simp [json.omitemptyStr]

end server

end Dex

namespace Dex

namespace server

open kubernetes

theorem NewIDOf_ne_empty (seed : Nat) : storage.NewIDOf seed ≠ "" := by
  unfold storage.NewIDOf
  intro h
  have h2 := congrArg String.data h
  simp [storage.encode] at h2

theorem NewID_ne_empty (σ : World) : (storage.NewID σ).1 ≠ "" :=
  NewIDOf_ne_empty _

theorem GetAuthCode_fst (cli : kubernetes.client) (id : String) (σ : World) :
    (cli.GetAuthCode id σ).1 =
      match (cli.get resourceAuthCode id σ).1 with
      | .error err => .error err
      | .ok code => .ok (toStorageAuthCode code) := by
  unfold kubernetes.client.GetAuthCode
  split <;> simp_all

theorem GetRefresh_fst (cli : kubernetes.client) (id : String) (σ : World) :
    (cli.GetRefresh id σ).1 =
      match (cli.get resourceRefreshToken id σ).1 with
      | .error err => .error err
      | .ok r => .ok { RefreshToken := r.ObjectMeta.Name
                       ClientID := r.ClientID
                       ConnectorID := r.ConnectorID
                       Scopes := r.Scopes
                       Nonce := r.Nonce
                       Claims := toStorageClaims r.Claims } := by
  unfold kubernetes.client.GetRefresh
  split <;> simp_all

/-- No object of a name is found among the objects that do not have that name. -/
theorem find?_filter_name {α : Type} (name : α → String) (n : String) (l : List α) :
    (l.filter (fun x => !(name x == n))).find? (fun x => name x == n) = none := by
  rw [List.find?_eq_none]
  intro x hx
  have := (List.mem_filter.mp hx).2
  simpa using this

/-- After a code exchange answered with a token response, a served `GetAuthCode` of the
code does not find it. -/
theorem GetAuthCode_after_token (s : Server) (w : http.ResponseWriter)
    (r : http.Request) (client : storage.Client) (σ : World) (o : json.Object)
    (h : tokenResponse? (s.handleAuthCode w r client σ).1 = some o)
    (σ' : World) (hc : σ'.cluster = (s.handleAuthCode w r client σ).2.cluster)
    (hf : σ'.fault = none) :
    (s.storage.GetAuthCode (r.PostFormValue "code") σ').1 = .error .ErrNotFound := by
  obtain ⟨authCode, σ1, idToken, expiry, accessToken, -, -, hcl, -⟩ :=
    handleAuthCode_token_cluster s w r client σ o h
  rw [GetAuthCode_fst, kubernetes.client.get_served _ _ _ _ hf, hc, hcl]
  have := find?_filter_name (fun x : kubernetes.AuthCode => x.ObjectMeta.Name)
    (r.PostFormValue "code") σ.cluster.authcodes
  simp only [resourceAuthCode]
  rw [this]

/-- C1. When `handleAuthCode` answers an exchange with a token response, the redeemed
auth code is no longer retrievable: in every world holding the resulting storage state,
a `GetAuthCode` of the same code id that is served returns `ErrNotFound`. -/
theorem handleAuthCode_consumes_code (s : Server) (w : http.ResponseWriter)
    (r : http.Request) (client : storage.Client) (σ : World) (o : json.Object)
    (h : tokenResponse? (s.handleAuthCode w r client σ).1 = some o)
    (σ' : World) (hc : σ'.cluster = (s.handleAuthCode w r client σ).2.cluster)
    (hf : σ'.fault = none) :
    (s.storage.GetAuthCode (r.PostFormValue "code") σ').1 = .error .ErrNotFound := by
  obtain ⟨authCode, σ1, idToken, expiry, accessToken, -, -, hcl, -⟩ :=
    handleAuthCode_token_cluster s w r client σ o h
  rw [GetAuthCode_fst, kubernetes.client.get_served _ _ _ _ hf, hc, hcl]
  have hgone := find?_filter_name (fun x : kubernetes.AuthCode => x.ObjectMeta.Name)
    (r.PostFormValue "code") σ.cluster.authcodes
  simp only [resourceAuthCode]
  rw [hgone]

/-- Witness of C1: the exchange of the example deployment is answered with a token
response, and the code `K` is then not found. -/
theorem handleAuthCode_consumes_code_witness :
    tokenResponse? (example1.srv.handleAuthCode {} example1.exchange example1.c1
        example1.world).1 =
      some [("access_token", .str "gaaaaaaaaaaaaaaaaaaaaaaaaa"), ("token_type", .str "bearer"),
        ("expires_in", .num 3600), ("refresh_token", .str "faaaaaaaaaaaaaaaaaaaaaaaaa"),
        ("id_token", .str "jws:u1")] ∧
    (example1.srv.storage.GetAuthCode "K"
      (example1.srv.handleAuthCode {} example1.exchange example1.c1 example1.world).2).1 =
      .error .ErrNotFound :=
  ⟨by decide,
   handleAuthCode_consumes_code example1.srv {} example1.exchange example1.c1 example1.world
     [("access_token", .str "gaaaaaaaaaaaaaaaaaaaaaaaaa"), ("token_type", .str "bearer"),
        ("expires_in", .num 3600), ("refresh_token", .str "faaaaaaaaaaaaaaaaaaaaaaaaa"),
        ("id_token", .str "jws:u1")] (by decide) _ rfl (by decide)⟩

/-- C4. In a code exchange answered with a token response, the response has a
`refresh_token` field exactly when the scopes of the auth code contain
`offline_access`; in that case exactly one refresh token is added to the storage,
under the id returned in the response and for the client of the exchange, and
otherwise the stored refresh tokens are unchanged. -/
theorem handleAuthCode_refresh_iff_offline_access (s : Server) (w : http.ResponseWriter)
    (r : http.Request) (client : storage.Client) (σ : World) (o : json.Object)
    (h : tokenResponse? (s.handleAuthCode w r client σ).1 = some o) :
    ∃ authCode,
      (s.storage.GetAuthCode (r.PostFormValue "code") σ).1 = .ok authCode ∧
      ((o.field "refresh_token").isSome ↔ scopeOfflineAccess ∈ authCode.Scopes) ∧
      (scopeOfflineAccess ∈ authCode.Scopes →
        ∃ t : kubernetes.RefreshToken,
          (s.handleAuthCode w r client σ).2.cluster.refreshtokens =
            σ.cluster.refreshtokens ++ [t] ∧
          o.field "refresh_token" = some (.str t.ObjectMeta.Name) ∧
          t.ClientID = client.ID) ∧
      (scopeOfflineAccess ∉ authCode.Scopes →
        (s.handleAuthCode w r client σ).2.cluster.refreshtokens =
          σ.cluster.refreshtokens) := by
  obtain ⟨authCode, σ1, idToken, expiry, accessToken, hget, hcid, hcl, ho⟩ :=
    handleAuthCode_token_cluster s w r client σ o h
  have hany : authCode.Scopes.any (fun scope => scope == scopeOfflineAccess) = true ↔
      scopeOfflineAccess ∈ authCode.Scopes := by
    simp [List.any_eq_true]
  have hne := NewID_ne_empty σ
  refine ⟨authCode, by rw [hget], ?_, ?_, ?_⟩
  · by_cases hoff : scopeOfflineAccess ∈ authCode.Scopes
    · have := hany.mpr hoff
      simp [ho, this, hoff, json.omitemptyStr, hne, json.Object.field, List.find?]
    · have : authCode.Scopes.any (fun scope => scope == scopeOfflineAccess) = false := by
        rw [Bool.eq_false_iff]; exact fun hh => hoff (hany.mp hh)
      simp [ho, this, hoff, json.Object.field, List.find?]
  · intro hoff
    have := hany.mpr hoff
    refine ⟨refreshObject s.storage (refreshOf authCode (storage.NewID σ).1), ?_, ?_, ?_⟩
    · rw [hcl]; simp [this]
    · simp [ho, this, json.omitemptyStr, hne, json.Object.field, List.find?, refreshObject,
        refreshOf]
    · simp [refreshObject, refreshOf, hcid]
  · intro hoff
    have : authCode.Scopes.any (fun scope => scope == scopeOfflineAccess) = false := by
      rw [Bool.eq_false_iff]; exact fun hh => hoff (hany.mp hh)
    rw [hcl]; simp [this]

/-- Witness of C4: the exchange of the example deployment, whose code was granted
`offline_access`. -/
theorem handleAuthCode_refresh_iff_offline_access_witness :
    ∃ authCode,
      (example1.srv.storage.GetAuthCode "K" example1.world).1 = .ok authCode ∧
      (((tokenResponse? (example1.srv.handleAuthCode {} example1.exchange example1.c1
          example1.world).1).getD []).field "refresh_token" |>.isSome) = true ∧
      scopeOfflineAccess ∈ authCode.Scopes := by
  obtain ⟨authCode, h1, h2, -, -⟩ :=
    handleAuthCode_refresh_iff_offline_access example1.srv {} example1.exchange example1.c1
      example1.world
      [("access_token", .str "gaaaaaaaaaaaaaaaaaaaaaaaaa"), ("token_type", .str "bearer"),
        ("expires_in", .num 3600), ("refresh_token", .str "faaaaaaaaaaaaaaaaaaaaaaaaa"),
        ("id_token", .str "jws:u1")] (by decide)
  exact ⟨authCode, h1, by decide, h2.mp (by decide)⟩

end server

end Dex

namespace Dex

namespace server

open kubernetes

/-! ## Replaying an exchange -/

theorem handleToken_credentials (s : Server) (w : http.ResponseWriter) (r : http.Request)
    (σ : World) (clientID clientSecret : String) (h : credentials r clientID clientSecret) :
    s.handleToken w r σ = s.handleTokenAs w r clientID clientSecret σ := by
  unfold Server.handleToken
  rcases h with ⟨u, p, hb, hu, hp⟩ | ⟨hb, hu, hp⟩
  · simp [hb, hu, hp]
  · simp [hb, hu, hp]

/-- A token response of `handleToken` comes from a grant handler run for the
authenticated client. -/
theorem handleToken_token (s : Server) (w : http.ResponseWriter) (r : http.Request)
    (σ : World) (o : json.Object) (h : tokenResponse? (s.handleToken w r σ).1 = some o) :
    ∃ clientID clientSecret client σ1,
      credentials r clientID clientSecret ∧
      s.storage.GetClient clientID σ = (.ok client, σ1) ∧
      client.Secret = clientSecret ∧
      ((r.PostFormValue "grant_type" = grantTypeAuthorizationCode ∧
          s.handleToken w r σ = s.handleAuthCode w r client σ1) ∨
       (r.PostFormValue "grant_type" = grantTypeRefreshToken ∧
          s.handleToken w r σ = s.handleRefreshToken w r client σ1)) := by
  have key : ∀ clientID clientSecret, credentials r clientID clientSecret →
      tokenResponse? (s.handleTokenAs w r clientID clientSecret σ).1 = some o →
      ∃ client σ1, s.storage.GetClient clientID σ = (.ok client, σ1) ∧
        client.Secret = clientSecret ∧
        ((r.PostFormValue "grant_type" = grantTypeAuthorizationCode ∧
            s.handleTokenAs w r clientID clientSecret σ = s.handleAuthCode w r client σ1) ∨
         (r.PostFormValue "grant_type" = grantTypeRefreshToken ∧
            s.handleTokenAs w r clientID clientSecret σ =
              s.handleRefreshToken w r client σ1)) := by
    intro clientID clientSecret _ h
    unfold Server.handleTokenAs at h ⊢
    rcases hg : s.storage.GetClient clientID σ with ⟨res, σ1⟩
    rw [hg] at h
    cases res with
    | error e =>
      simp only at h
      split at h <;> simp [tokenResponse?_tokenErrHelper] at h
    | ok client =>
      simp only at h ⊢
      by_cases hs : client.Secret = clientSecret
      · refine ⟨client, σ1, rfl, hs, ?_⟩
        simp only [hs, ne_eq, not_true_eq_false, if_false] at h ⊢
        by_cases h1 : r.PostFormValue "grant_type" = grantTypeAuthorizationCode
        · left
          exact ⟨h1, by rw [if_pos h1]⟩
        · by_cases h2 : r.PostFormValue "grant_type" = grantTypeRefreshToken
          · right
            exact ⟨h2, by rw [if_neg h1, if_pos h2]⟩
          · simp [h1, h2, tokenResponse?_tokenErrHelper] at h
      · simp [hs, tokenResponse?_tokenErrHelper] at h
  unfold Server.handleToken at h
  split at h
  · rename_i u p hb
    split at h
    · simp [tokenResponse?_tokenErrHelper] at h
    · rename_i clientID hu
      split at h
      · simp [tokenResponse?_tokenErrHelper] at h
      · rename_i clientSecret hp
        have hc : credentials r clientID clientSecret := Or.inl ⟨u, p, hb, hu, hp⟩
        obtain ⟨client, σ1, h1, h2, h3⟩ := key _ _ hc h
        rw [handleToken_credentials s w r σ _ _ hc]
        exact ⟨clientID, clientSecret, client, σ1, hc, h1, h2, h3⟩
  · rename_i hb
    have hc : credentials r (r.PostFormValue "client_id") (r.PostFormValue "client_secret") :=
      Or.inr ⟨hb, rfl, rfl⟩
    obtain ⟨client, σ1, h1, h2, h3⟩ := key _ _ hc h
    rw [handleToken_credentials s w r σ _ _ hc]
    exact ⟨_, _, client, σ1, hc, h1, h2, h3⟩

end server

end Dex

namespace Dex

namespace server

open kubernetes

theorem fault_none_of_served (σ : World) (h : ∀ f ∈ σ.faults, f = none) : σ.fault = none := by
  unfold World.fault
  cases hl : σ.faults with
  | nil => rfl
  | cons a l =>
    have := h a (by rw [hl]; exact List.mem_cons_self a l)
    simp [this]

theorem get_faults {α : Type} (cli : kubernetes.client) (r : Resource α) (name : String)
    (σ : World) : (cli.get r name σ).2.faults = σ.faults.tail := by
  rw [kubernetes.client.get_spec]
  rfl

theorem GetClient_fst (cli : kubernetes.client) (id : String) (σ : World) :
    (cli.GetClient id σ).1 =
      match (cli.get resourceClient (cli.idToName id) σ).1 with
      | .error err => .error err
      | .ok c =>
        if c.ID ≠ id then
          .error (.other ("get client: ID " ++ quote id ++ " mapped to client with ID " ++
            quote c.ID))
        else .ok (toStorageClient c) := by
  unfold kubernetes.client.GetClient kubernetes.client.getClient
  simp only
  rcases cli.get resourceClient (cli.idToName id) σ with ⟨res, σ1⟩
  cases res with
  | error e => rfl
  | ok c =>
    simp only
    by_cases hc : c.ID = id <;> simp [hc]

theorem GetClient_snd (cli : kubernetes.client) (id : String) (σ : World) :
    (cli.GetClient id σ).2 = (cli.get resourceClient (cli.idToName id) σ).2 := by
  unfold kubernetes.client.GetClient kubernetes.client.getClient
  simp only
  rcases cli.get resourceClient (cli.idToName id) σ with ⟨res, σ1⟩
  cases res with
  | error e => rfl
  | ok c =>
    simp only
    by_cases hc : c.ID = id <;> simp [hc]

/-- A `GetClient` that succeeds was served. -/
theorem GetClient_ok_served (cli : kubernetes.client) (id : String) (σ : World)
    (c : storage.Client) (h : (cli.GetClient id σ).1 = .ok c) : σ.fault = none := by
  rw [GetClient_fst] at h
  split at h
  · simp at h
  · rename_i x hx
    exact (kubernetes.client.get_ok _ _ _ _ _ hx).1

/-- Served `GetClient` calls on the same clients give the same result. -/
theorem GetClient_fst_congr (cli : kubernetes.client) (id : String) (σ σ1 : World)
    (hf : σ.fault = none) (hf1 : σ1.fault = none)
    (hc : σ1.cluster.oauth2clients = σ.cluster.oauth2clients) :
    (cli.GetClient id σ1).1 = (cli.GetClient id σ).1 := by
  rw [GetClient_fst, GetClient_fst, kubernetes.client.get_served _ _ _ _ hf,
    kubernetes.client.get_served _ _ _ _ hf1]
  simp only [resourceClient, hc]

/-- A code that is not found is answered with `invalid_request` and status 400. -/
theorem handleAuthCode_notFound (s : Server) (w : http.ResponseWriter) (r : http.Request)
    (client : storage.Client) (σ : World)
    (h : (s.storage.GetAuthCode (r.PostFormValue "code") σ).1 = .error .ErrNotFound) :
    (s.handleAuthCode w r client σ).1 =
      tokenErr w errInvalidRequest "Invalid or expired code parameter."
        http.StatusBadRequest := by
  unfold Server.handleAuthCode
  simp only
  rcases hres : s.storage.GetAuthCode (r.PostFormValue "code") σ with ⟨res, σ1⟩
  rw [hres] at h
  simp only at h
  subst h
  simp [errOf, valOf, Server.tokenErrHelper]

/-- C2, as amended. When a code exchange through `handleToken` was answered with a
token response, the same request made again, with the storage as the first call left
it and every API call served, is answered with HTTP 400 and the JSON error
`invalid_request`. -/
theorem handleToken_replay_invalid_request (s : Server) (w : http.ResponseWriter)
    (r : http.Request) (σ : World) (o : json.Object)
    (h : tokenResponse? (s.handleToken w r σ).1 = some o)
    (hg : r.PostFormValue "grant_type" = grantTypeAuthorizationCode)
    (σ' : World) (hc : σ'.cluster = (s.handleToken w r σ).2.cluster)
    (hf : ∀ f ∈ σ'.faults, f = none) :
    (s.handleToken {} r σ').1 =
      { Header := [("Content-Type", "application/json")]
        StatusCode := 400
        Body := [.json [("error", .str "invalid_request"),
          ("error_description", .str "Invalid or expired code parameter.")]] } := by
  obtain ⟨clientID, clientSecret, client, σ1, hcred, hget, hsec, hrest⟩ :=
    handleToken_token s w r σ o h
  have hne : grantTypeAuthorizationCode ≠ grantTypeRefreshToken := by decide
  rcases hrest with ⟨-, hout⟩ | ⟨hg2, -⟩
  swap
  · exact absurd (hg.symm.trans hg2) hne
  rw [hout] at h hc
  have hro : readsOnly σ σ1 := by
    have := readsOnly_GetClient s.storage clientID σ
    rwa [hget] at this
  obtain ⟨authCode, σ2, idToken, expiry, accessToken, -, -, hcl, -⟩ :=
    handleAuthCode_token_cluster s w r client σ1 o h
  have hfσ : σ.fault = none := GetClient_ok_served s.storage clientID σ client (by rw [hget])
  have hfσ' : σ'.fault = none := fault_none_of_served σ' hf
  have hcli : (s.storage.GetClient clientID σ').1 = .ok client := by
    rw [GetClient_fst_congr s.storage clientID σ σ' hfσ hfσ' (by rw [hc, hcl, hro.1]), hget]
  rw [handleToken_credentials s {} r σ' _ _ hcred]
  unfold Server.handleTokenAs
  rcases hget' : s.storage.GetClient clientID σ' with ⟨res, σ1'⟩
  rw [hget'] at hcli
  simp only at hcli
  subst hcli
  simp only [hsec, ne_eq, not_true_eq_false, if_false, hg, if_true]
  have hσ1' : σ1' = (s.storage.GetClient clientID σ').2 := by rw [hget']
  have hro' : readsOnly σ' σ1' := by
    rw [hσ1']; exact readsOnly_GetClient s.storage clientID σ'
  have hf1' : σ1'.fault = none := by
    apply fault_none_of_served
    rw [hσ1', GetClient_snd, get_faults]
    intro f hfm
    exact hf f (List.mem_of_mem_tail hfm)
  have hnf := GetAuthCode_after_token s w r client σ1 o h σ1' (by rw [hro'.1, hc]) hf1'
  rw [handleAuthCode_notFound s {} r client σ1' hnf]
  rfl

/-- Counterexample to C2 as stated: in the example deployment the exchange succeeds, the
code is then not found, and the replay is answered with status 400 and the error
`invalid_request`, not `invalid_grant`. -/
theorem handleToken_replay_not_invalid_grant :
    (tokenResponse? (example1.srv.handleToken {} example1.exchange example1.world).1).isSome
      = true ∧
    (example1.srv.storage.GetAuthCode "K"
      (example1.srv.handleToken {} example1.exchange example1.world).2).1 =
        .error .ErrNotFound ∧
    (example1.srv.handleToken {} example1.exchange
      (example1.srv.handleToken {} example1.exchange example1.world).2).1 =
      { Header := [("Content-Type", "application/json")]
        StatusCode := 400
        Body := [.json [("error", .str "invalid_request"),
          ("error_description", .str "Invalid or expired code parameter.")]] } ∧
    json.Object.field [("error", .str "invalid_request"),
        ("error_description", .str "Invalid or expired code parameter.")] "error" ≠
      some (.str errInvalidGrant) :=
  ⟨by decide, rfl, by decide, by decide⟩

/-- Witness of C2 as amended: the replay in the example deployment. -/
theorem handleToken_replay_invalid_request_witness :
    (example1.srv.handleToken {} example1.exchange
      (example1.srv.handleToken {} example1.exchange example1.world).2).1 =
      { Header := [("Content-Type", "application/json")]
        StatusCode := 400
        Body := [.json [("error", .str "invalid_request"),
          ("error_description", .str "Invalid or expired code parameter.")]] } :=
  handleToken_replay_invalid_request example1.srv {} example1.exchange example1.world
    [("access_token", .str "gaaaaaaaaaaaaaaaaaaaaaaaaa"), ("token_type", .str "bearer"),
      ("expires_in", .num 3600), ("refresh_token", .str "faaaaaaaaaaaaaaaaaaaaaaaaa"),
      ("id_token", .str "jws:u1")] (by decide) (by decide) _ rfl (by decide)

end server

end Dex

namespace Dex

namespace server

open kubernetes

/-! ## Every run of the code exchange -/

/-- The runs of `handleAuthCode`: it either answers with an error before it deletes
anything, having only read the storage, or it reaches `DeleteAuthCode` after a
successful lookup and a successful `newIDToken`; from there it fails on the delete,
fails on the creation of the refresh token, or writes the token response. -/
theorem handleAuthCode_cases (s : Server) (w : http.ResponseWriter) (r : http.Request)
    (client : storage.Client) (σ : World) :
    (∃ typ description statusCode,
      (s.handleAuthCode w r client σ).1 = tokenErr w typ description statusCode ∧
      readsOnly σ (s.handleAuthCode w r client σ).2) ∨
    (∃ authCode σ1 idToken expiry σ2,
      s.storage.GetAuthCode (r.PostFormValue "code") σ = (.ok authCode, σ1) ∧
      s.now.After authCode.Expiry = false ∧
      authCode.ClientID = client.ID ∧
      authCode.RedirectURI = r.PostFormValue "redirect_uri" ∧
      s.newIDToken client.ID authCode.Claims authCode.Scopes authCode.Nonce σ1 =
        (.ok (idToken, expiry), σ2) ∧
      ((∃ e, s.storage.DeleteAuthCode (r.PostFormValue "code") σ2 =
            (some e, (s.handleAuthCode w r client σ).2) ∧
          (s.handleAuthCode w r client σ).1 =
            tokenErr w errServerError "" http.StatusInternalServerError) ∨
       (∃ σ3, s.storage.DeleteAuthCode (r.PostFormValue "code") σ2 = (none, σ3) ∧
          ((∃ e, s.storage.CreateRefresh (refreshOf authCode (storage.NewID σ3).1)
                (storage.NewID σ3).2 = (some e, (s.handleAuthCode w r client σ).2) ∧
              (s.handleAuthCode w r client σ).1 =
                tokenErr w errServerError "" http.StatusInternalServerError) ∨
           (∃ σ5, s.storage.CreateRefresh (refreshOf authCode (storage.NewID σ3).1)
                (storage.NewID σ3).2 = (none, σ5) ∧
              s.handleAuthCode w r client σ =
                s.writeAccessToken w idToken (storage.NewID σ3).1 expiry σ5) ∨
           s.handleAuthCode w r client σ = s.writeAccessToken w idToken "" expiry σ3)))) := by
  have hget := readsOnly_GetAuthCode s.storage (r.PostFormValue "code") σ
  unfold Server.handleAuthCode
  simp only
  rcases hres : s.storage.GetAuthCode (r.PostFormValue "code") σ with ⟨res, σ1⟩
  rw [hres] at hget
  simp only at hget ⊢
  cases res with
  | error e =>
    left
    simp only [errOf, valOf, Server.tokenErrHelper]
    split
    · split
      · exact ⟨_, _, _, rfl, hget⟩
      · exact ⟨_, _, _, rfl, hget⟩
    · rename_i hc
      simp at hc
  | ok authCode =>
    simp only [errOf, valOf, Server.tokenErrHelper]
    split
    · left
      split
      · exact ⟨_, _, _, rfl, hget⟩
      · exact ⟨_, _, _, rfl, hget⟩
    · rename_i hc
      simp only [ne_eq, not_true_eq_false, false_or, not_or, Bool.not_eq_true,
        Decidable.not_not] at hc
      obtain ⟨hexp, hcl⟩ := hc
      split
      · left
        exact ⟨_, _, _, rfl, hget⟩
      · rename_i hred
        simp only [ne_eq, Decidable.not_not] at hred
        have hnew := readsOnly_newIDToken s client.ID authCode.Claims authCode.Scopes
          authCode.Nonce σ1
        rcases hn : s.newIDToken client.ID authCode.Claims authCode.Scopes authCode.Nonce σ1
          with ⟨res2, σ2⟩
        rw [hn] at hnew
        cases res2 with
        | error e =>
          left
          exact ⟨_, _, _, rfl, hget.trans hnew⟩
        | ok pr =>
          obtain ⟨idToken, expiry⟩ := pr
          right
          refine ⟨authCode, σ1, idToken, expiry, σ2, rfl, hexp, hcl, hred, hn, ?_⟩
          simp only [hn]
          rcases hdel : s.storage.DeleteAuthCode (r.PostFormValue "code") σ2 with ⟨d, σ3⟩
          cases d with
          | some e =>
            left
            exact ⟨e, rfl, rfl⟩
          | none =>
            right
            refine ⟨σ3, rfl, ?_⟩
            simp only
            by_cases hoff :
                authCode.Scopes.any (fun scope => scope == scopeOfflineAccess) = true
            · simp only [hoff, if_true]
              rcases hcr : s.storage.CreateRefresh (refreshOf authCode (storage.NewID σ3).1)
                (storage.NewID σ3).2 with ⟨c, σ5⟩
              have hcr2 := hcr
              unfold refreshOf at hcr2
              rw [hcl] at hcr2
              simp only [hcl] at hcr2 ⊢
              rw [hcr2]
              cases c with
              | some e => left; exact ⟨e, rfl, rfl⟩
              | none => right; left; exact ⟨σ5, rfl, rfl⟩
            · simp only [hoff, Bool.false_eq_true, if_false]
              right; right; trivial

end server

end Dex

namespace Dex

namespace server

open kubernetes

/-! ## Every run of the refresh -/

/-- The runs of `handleRefreshToken`: it either answers with an error before it
deletes anything, having only read the storage, or it reaches `DeleteRefresh` after a
successful lookup, scope check, connector refresh and `newIDToken`; from there it
fails on the delete, fails on the creation of the new refresh token, or writes the
token response. -/
theorem handleRefreshToken_cases (s : Server) (w : http.ResponseWriter) (r : http.Request)
    (client : storage.Client) (σ : World) :
    (∃ typ description statusCode,
      (s.handleRefreshToken w r client σ).1 = tokenErr w typ description statusCode ∧
      readsOnly σ (s.handleRefreshToken w r client σ).2) ∨
    (∃ stored σ1 conn refresh idToken expiry σ2,
      r.PostFormValue "refresh_token" ≠ "" ∧
      s.storage.GetRefresh (r.PostFormValue "refresh_token") σ = (.ok stored, σ1) ∧
      stored.ClientID = client.ID ∧
      (r.PostFormValue "scope" ≠ "" → unauthorizedScopes (r.PostFormValue "scope") stored = []) ∧
      s.connector? stored.ConnectorID = some conn ∧
      refreshedBy conn (refreshScopes (r.PostFormValue "scope") stored) stored = .ok refresh ∧
      s.newIDToken client.ID refresh.Claims (refreshScopes (r.PostFormValue "scope") stored)
        refresh.Nonce σ1 = (.ok (idToken, expiry), σ2) ∧
      ((∃ e, s.storage.DeleteRefresh (r.PostFormValue "refresh_token") σ2 =
            (some e, (s.handleRefreshToken w r client σ).2) ∧
          (s.handleRefreshToken w r client σ).1 =
            tokenErr w errServerError "" http.StatusInternalServerError) ∨
       (∃ σ3, s.storage.DeleteRefresh (r.PostFormValue "refresh_token") σ2 = (none, σ3) ∧
          ((∃ e, s.storage.CreateRefresh
                { refresh with RefreshToken := (storage.NewID σ3).1 } (storage.NewID σ3).2 =
                  (some e, (s.handleRefreshToken w r client σ).2) ∧
              (s.handleRefreshToken w r client σ).1 =
                tokenErr w errServerError "" http.StatusInternalServerError) ∨
           (∃ σ5, s.storage.CreateRefresh
                { refresh with RefreshToken := (storage.NewID σ3).1 } (storage.NewID σ3).2 =
                  (none, σ5) ∧
              s.handleRefreshToken w r client σ =
                s.writeAccessToken w idToken (storage.NewID σ3).1 expiry σ5))))) := by
  have hget := readsOnly_GetRefresh s.storage (r.PostFormValue "refresh_token") σ
  unfold Server.handleRefreshToken
  simp only
  by_cases hcode : r.PostFormValue "refresh_token" = ""
  · left
    simp only [hcode, if_true, Server.tokenErrHelper]
    exact ⟨_, _, _, rfl, readsOnly.refl σ⟩
  simp only [hcode, if_false]
  rcases hres : s.storage.GetRefresh (r.PostFormValue "refresh_token") σ with ⟨res, σ1⟩
  rw [hres] at hget
  simp only at hget ⊢
  cases res with
  | error e =>
    left
    simp only [errOf, valOf, Server.tokenErrHelper]
    split
    · split
      · exact ⟨_, _, _, rfl, hget⟩
      · exact ⟨_, _, _, rfl, hget⟩
    · rename_i hc
      simp at hc
  | ok stored =>
    simp only [errOf, valOf, Server.tokenErrHelper]
    split
    · left
      split
      · exact ⟨_, _, _, rfl, hget⟩
      · exact ⟨_, _, _, rfl, hget⟩
    · rename_i hc
      simp only [ne_eq, not_true_eq_false, false_or, Decidable.not_not] at hc
      split
      · left
        exact ⟨_, _, _, rfl, hget⟩
      · rename_i hun
        have hun2 : r.PostFormValue "scope" ≠ "" →
            unauthorizedScopes (r.PostFormValue "scope") stored = [] := by
          intro hs
          unfold unauthorizedScopes
          by_contra hne
          apply hun
          refine ⟨hs, ?_⟩
          exact List.length_pos.mpr hne
        cases hconn : s.connector? stored.ConnectorID with
        | none =>
          left
          exact ⟨_, _, _, rfl, hget⟩
        | some conn =>
          simp only
          have hsc : (if r.PostFormValue "scope" ≠ "" then
              strings.Fields (r.PostFormValue "scope") else stored.Scopes) =
              refreshScopes (r.PostFormValue "scope") stored := rfl
          rw [hsc]
          cases href : refreshedBy conn (refreshScopes (r.PostFormValue "scope") stored) stored
            with
          | error e =>
            left
            unfold refreshedBy at href
            simp only [href]
            exact ⟨_, _, _, rfl, hget⟩
          | ok refresh =>
            have href2 := href
            unfold refreshedBy at href2
            simp only [href2]
            have hnew := readsOnly_newIDToken s client.ID refresh.Claims
              (refreshScopes (r.PostFormValue "scope") stored) refresh.Nonce σ1
            rcases hn : s.newIDToken client.ID refresh.Claims
              (refreshScopes (r.PostFormValue "scope") stored) refresh.Nonce σ1
              with ⟨res2, σ2⟩
            rw [hn] at hnew
            cases res2 with
            | error e =>
              left
              exact ⟨_, _, _, rfl, hget.trans hnew⟩
            | ok pr =>
              obtain ⟨idToken, expiry⟩ := pr
              right
              refine ⟨stored, σ1, conn, refresh, idToken, expiry, σ2, hcode, rfl, hc, hun2,
                hconn, href, hn, ?_⟩
              simp only
              rcases hdel : s.storage.DeleteRefresh (r.PostFormValue "refresh_token") σ2
                with ⟨d, σ3⟩
              cases d with
              | some e =>
                left
                exact ⟨e, rfl, rfl⟩
              | none =>
                right
                refine ⟨σ3, rfl, ?_⟩
                simp only
                rcases hcr : s.storage.CreateRefresh
                  { refresh with RefreshToken := (storage.NewID σ3).1 } (storage.NewID σ3).2
                  with ⟨c, σ5⟩
                cases c with
                | some e => left; exact ⟨e, rfl, rfl⟩
                | none => right; exact ⟨σ5, rfl, rfl⟩

end server

end Dex

namespace Dex

namespace server

open kubernetes

/-! ## The log of API calls -/

theorem callsSince_of_append (σ σ1 : World) (evs : List Event)
    (h : σ1.trace = σ.trace ++ evs) : callsSince σ σ1 = evs := by
  unfold callsSince
  rw [h]
  simp

theorem DeleteAuthCode_world (cli : kubernetes.client) (code : String) (σ : World) :
    (cli.DeleteAuthCode code σ).2.trace =
      σ.trace ++ [⟨.delete, "authcodes", code, (cli.DeleteAuthCode code σ).1⟩] ∧
    ((cli.DeleteAuthCode code σ).1 ≠ none → (cli.DeleteAuthCode code σ).2.cluster = σ.cluster) := by
  have hs := kubernetes.client.delete_spec cli resourceAuthCode code σ
  unfold kubernetes.client.DeleteAuthCode
  rw [hs]
  refine ⟨rfl, ?_⟩
  intro hne
  simp [hne]

theorem DeleteRefresh_world (cli : kubernetes.client) (id : String) (σ : World) :
    (cli.DeleteRefresh id σ).2.trace =
      σ.trace ++ [⟨.delete, "refreshtokens", id, (cli.DeleteRefresh id σ).1⟩] ∧
    ((cli.DeleteRefresh id σ).1 ≠ none → (cli.DeleteRefresh id σ).2.cluster = σ.cluster) := by
  have hs := kubernetes.client.delete_spec cli resourceRefreshToken id σ
  unfold kubernetes.client.DeleteRefresh
  rw [hs]
  refine ⟨rfl, ?_⟩
  intro hne
  simp [hne]

theorem CreateRefresh_world (cli : kubernetes.client) (t : storage.RefreshToken) (σ : World) :
    (cli.CreateRefresh t σ).2.trace =
      σ.trace ++ [⟨.post, "refreshtokens", t.RefreshToken, (cli.CreateRefresh t σ).1⟩] ∧
    ((cli.CreateRefresh t σ).1 ≠ none → (cli.CreateRefresh t σ).2.cluster = σ.cluster) := by
  have hs := kubernetes.client.post_spec cli resourceRefreshToken (refreshObject cli t) σ
  rw [CreateRefresh_eq, hs]
  refine ⟨rfl, ?_⟩
  intro hne
  simp [hne]

/-- Reads, then a delete that succeeded, then posts: no delete failed. -/
theorem no_failed_delete (resource : String) (evs rest : List Event) (d : Event)
    (hv : ∀ e ∈ evs, e.verb = Verb.get) (hd : d.err = none)
    (hp : ∀ e ∈ rest, e.verb = Verb.post) :
    ∀ e ∈ evs ++ [d] ++ rest, ¬ failed Verb.delete resource e := by
  intro e he hfail
  obtain ⟨hverb, -, herr⟩ := hfail
  simp only [List.append_assoc, List.mem_append, List.mem_singleton] at he
  rcases he with h | h | h
  · have := hv e h
    rw [hverb] at this
    exact Verb.noConfusion this
  · rw [h] at herr
    exact herr hd
  · have := hp e h
    rw [hverb] at this
    exact Verb.noConfusion this

/-- C8. If the `DeleteAuthCode` call of a code exchange fails, `handleAuthCode` answers
with `server_error` and status 500, writes no token response and leaves the storage as
it was, so that no refresh token is created; and if the `DeleteRefresh` call of a
refresh fails, `handleRefreshToken` does the same: no new refresh token is created and
no token is returned. -/
theorem delete_failure_is_fatal (s : Server) (w : http.ResponseWriter) (r : http.Request)
    (client : storage.Client) (σ : World) :
    ((∃ e ∈ callsSince σ (s.handleAuthCode w r client σ).2,
        failed Verb.delete "authcodes" e) →
      (s.handleAuthCode w r client σ).1 =
        tokenErr w errServerError "" http.StatusInternalServerError ∧
      tokenResponse? (s.handleAuthCode w r client σ).1 = none ∧
      (s.handleAuthCode w r client σ).2.cluster = σ.cluster) ∧
    ((∃ e ∈ callsSince σ (s.handleRefreshToken w r client σ).2,
        failed Verb.delete "refreshtokens" e) →
      (s.handleRefreshToken w r client σ).1 =
        tokenErr w errServerError "" http.StatusInternalServerError ∧
      tokenResponse? (s.handleRefreshToken w r client σ).1 = none ∧
      (s.handleRefreshToken w r client σ).2.cluster = σ.cluster) := by
  constructor
  · rintro ⟨e, he, hfail⟩
    rcases handleAuthCode_cases s w r client σ with
      ⟨typ, d, c, -, hro⟩ |
      ⟨authCode, σ1, idToken, expiry, σ2, hget, -, -, -, hnew, hrest⟩
    · obtain ⟨-, -, evs, ht, hv⟩ := hro
      rw [callsSince_of_append _ _ _ ht] at he
      have := hv e he
      rw [hfail.1] at this
      exact Verb.noConfusion this
    · have h1 : readsOnly σ σ1 := by
        have := readsOnly_GetAuthCode s.storage (r.PostFormValue "code") σ
        rwa [hget] at this
      have h2 : readsOnly σ1 σ2 := by
        have := readsOnly_newIDToken s client.ID authCode.Claims authCode.Scopes
          authCode.Nonce σ1
        rwa [hnew] at this
      obtain ⟨hc12, -, evs, ht, hv⟩ := h1.trans h2
      have hdw := DeleteAuthCode_world s.storage (r.PostFormValue "code") σ2
      rcases hrest with ⟨e1, hdel, hout⟩ | ⟨σ3, hdel, hrest⟩
      · rw [hdel] at hdw
        refine ⟨hout, ?_, ?_⟩
        · rw [hout]; exact tokenResponse?_tokenErr _ _ _ _
        · rw [hdw.2 (by simp), hc12]
      · exfalso
        rw [hdel] at hdw
        simp only at hdw
        have hcw := CreateRefresh_world s.storage (refreshOf authCode (storage.NewID σ3).1)
          (storage.NewID σ3).2
        rcases hrest with ⟨e1, hcr, -⟩ | ⟨σ5, hcr, hout⟩ | hout
        · rw [hcr] at hcw
          simp only [NewID_trace] at hcw
          have ht2 : (s.handleAuthCode w r client σ).2.trace =
              σ.trace ++ (evs ++ [⟨Verb.delete, "authcodes", r.PostFormValue "code", none⟩] ++
                [⟨Verb.post, "refreshtokens", (storage.NewID σ3).1, some e1⟩]) := by
            rw [hcw.1, hdw.1, ht]; simp [refreshOf]
          rw [callsSince_of_append _ _ _ ht2] at he
          exact no_failed_delete "authcodes" evs _ _ hv rfl (by simp) e he hfail
        · rw [hcr] at hcw
          simp only [NewID_trace] at hcw
          have ht2 : (s.handleAuthCode w r client σ).2.trace =
              σ.trace ++ (evs ++ [⟨Verb.delete, "authcodes", r.PostFormValue "code", none⟩] ++
                [⟨Verb.post, "refreshtokens", (storage.NewID σ3).1, none⟩]) := by
            rw [hout, writeAccessToken_world, NewID_trace, hcw.1, hdw.1, ht]; simp [refreshOf]
          rw [callsSince_of_append _ _ _ ht2] at he
          exact no_failed_delete "authcodes" evs _ _ hv rfl (by simp) e he hfail
        · have ht2 : (s.handleAuthCode w r client σ).2.trace =
              σ.trace ++ (evs ++ [⟨Verb.delete, "authcodes", r.PostFormValue "code", none⟩] ++
                []) := by
            rw [hout, writeAccessToken_world, NewID_trace, hdw.1, ht]; simp
          rw [callsSince_of_append _ _ _ ht2] at he
          exact no_failed_delete "authcodes" evs _ _ hv rfl (by simp) e he hfail
  · rintro ⟨e, he, hfail⟩
    rcases handleRefreshToken_cases s w r client σ with
      ⟨typ, d, c, -, hro⟩ |
      ⟨stored, σ1, conn, refresh, idToken, expiry, σ2, -, hget, -, -, -, -, hnew, hrest⟩
    · obtain ⟨-, -, evs, ht, hv⟩ := hro
      rw [callsSince_of_append _ _ _ ht] at he
      have := hv e he
      rw [hfail.1] at this
      exact Verb.noConfusion this
    · have h1 : readsOnly σ σ1 := by
        have := readsOnly_GetRefresh s.storage (r.PostFormValue "refresh_token") σ
        rwa [hget] at this
      have h2 : readsOnly σ1 σ2 := by
        have := readsOnly_newIDToken s client.ID refresh.Claims
          (refreshScopes (r.PostFormValue "scope") stored) refresh.Nonce σ1
        rwa [hnew] at this
      obtain ⟨hc12, -, evs, ht, hv⟩ := h1.trans h2
      have hdw := DeleteRefresh_world s.storage (r.PostFormValue "refresh_token") σ2
      rcases hrest with ⟨e1, hdel, hout⟩ | ⟨σ3, hdel, hrest⟩
      · rw [hdel] at hdw
        refine ⟨hout, ?_, ?_⟩
        · rw [hout]; exact tokenResponse?_tokenErr _ _ _ _
        · rw [hdw.2 (by simp), hc12]
      · exfalso
        rw [hdel] at hdw
        simp only at hdw
        have hcw := CreateRefresh_world s.storage
          { refresh with RefreshToken := (storage.NewID σ3).1 } (storage.NewID σ3).2
        rcases hrest with ⟨e1, hcr, -⟩ | ⟨σ5, hcr, hout⟩
        · rw [hcr] at hcw
          simp only [NewID_trace] at hcw
          have ht2 : (s.handleRefreshToken w r client σ).2.trace =
              σ.trace ++ (evs ++
                [⟨Verb.delete, "refreshtokens", r.PostFormValue "refresh_token", none⟩] ++
                [⟨Verb.post, "refreshtokens", (storage.NewID σ3).1, some e1⟩]) := by
            rw [hcw.1, hdw.1, ht]; simp
          rw [callsSince_of_append _ _ _ ht2] at he
          exact no_failed_delete "refreshtokens" evs _ _ hv rfl (by simp) e he hfail
        · rw [hcr] at hcw
          simp only [NewID_trace] at hcw
          have ht2 : (s.handleRefreshToken w r client σ).2.trace =
              σ.trace ++ (evs ++
                [⟨Verb.delete, "refreshtokens", r.PostFormValue "refresh_token", none⟩] ++
                [⟨Verb.post, "refreshtokens", (storage.NewID σ3).1, none⟩]) := by
            rw [hout, writeAccessToken_world, NewID_trace, hcw.1, hdw.1, ht]; simp
          rw [callsSince_of_append _ _ _ ht2] at he
          exact no_failed_delete "refreshtokens" evs _ _ hv rfl (by simp) e he hfail

end server

end Dex

namespace Dex

namespace server

open kubernetes

/-- Witness of C8: in the example deployment with the third API call failing, the
failed call is the delete, and both handlers answer with `server_error`. -/
theorem delete_failure_is_fatal_witness :
    ((example1.srv.handleAuthCode {} example1.exchange example1.c1 example1.failingWorld).1 =
        tokenErr {} errServerError "" http.StatusInternalServerError ∧
      tokenResponse? (example1.srv.handleAuthCode {} example1.exchange example1.c1
        example1.failingWorld).1 = none ∧
      (example1.srv.handleAuthCode {} example1.exchange example1.c1
        example1.failingWorld).2.cluster = example1.failingWorld.cluster) ∧
    ((example1.srv.handleRefreshToken {} (example1.refreshRequest "") example1.c1
        example1.failingWorld).1 =
        tokenErr {} errServerError "" http.StatusInternalServerError ∧
      tokenResponse? (example1.srv.handleRefreshToken {} (example1.refreshRequest "")
        example1.c1 example1.failingWorld).1 = none ∧
      (example1.srv.handleRefreshToken {} (example1.refreshRequest "") example1.c1
        example1.failingWorld).2.cluster = example1.failingWorld.cluster) :=
  ⟨(delete_failure_is_fatal example1.srv {} example1.exchange example1.c1
      example1.failingWorld).1
      ⟨⟨Verb.delete, "authcodes", "K", some (.other "timeout")⟩, by decide,
        ⟨rfl, rfl, by decide⟩⟩,
   (delete_failure_is_fatal example1.srv {} (example1.refreshRequest "") example1.c1
      example1.failingWorld).2
      ⟨⟨Verb.delete, "refreshtokens", "R1", some (.other "timeout")⟩, by decide,
        ⟨rfl, rfl, by decide⟩⟩⟩

/-- C6. For a stored, unexpired auth code, an exchange whose `redirect_uri` differs from
the one recorded in the code, or whose authenticated client differs from the client of
the code, is rejected: an error is written and no token response, and the storage is
left as it was, so that no refresh token is created and the code remains. When the
lookup is served, the error is `server_error` (500) for another client and
`invalid_request` (400) for another redirect URI. -/
theorem handleAuthCode_mismatch_rejected (s : Server) (w : http.ResponseWriter)
    (r : http.Request) (client : storage.Client) (σ : World) (a : kubernetes.AuthCode)
    (hst : σ.cluster.authcodes.find?
      (fun x => x.ObjectMeta.Name == r.PostFormValue "code") = some a)
    (hexp : s.now.After a.Expiry = false)
    (hm : a.RedirectURI ≠ r.PostFormValue "redirect_uri" ∨ a.ClientID ≠ client.ID) :
    (∃ typ description statusCode,
      (s.handleAuthCode w r client σ).1 = tokenErr w typ description statusCode) ∧
    tokenResponse? (s.handleAuthCode w r client σ).1 = none ∧
    (s.handleAuthCode w r client σ).2.cluster = σ.cluster ∧
    (s.handleAuthCode w r client σ).2.cluster.authcodes.find?
      (fun x => x.ObjectMeta.Name == r.PostFormValue "code") = some a ∧
    (σ.fault = none →
      (s.handleAuthCode w r client σ).1 =
        if a.ClientID ≠ client.ID then
          tokenErr w errServerError "" http.StatusInternalServerError
        else
          tokenErr w errInvalidRequest "redirect_uri did not match URI from initial request."
            http.StatusBadRequest) := by
  have hserved : σ.fault = none →
      (s.handleAuthCode w r client σ).1 =
        if a.ClientID ≠ client.ID then
          tokenErr w errServerError "" http.StatusInternalServerError
        else
          tokenErr w errInvalidRequest "redirect_uri did not match URI from initial request."
            http.StatusBadRequest := by
    intro hf
    have hg : (s.storage.GetAuthCode (r.PostFormValue "code") σ).1 =
        .ok (toStorageAuthCode a) := by
      rw [GetAuthCode_fst, kubernetes.client.get_served _ _ _ _ hf]
      simp only [resourceAuthCode, hst]
    unfold Server.handleAuthCode
    simp only
    rcases hres : s.storage.GetAuthCode (r.PostFormValue "code") σ with ⟨res, σ1⟩
    rw [hres] at hg
    simp only at hg
    subst hg
    by_cases hcl : a.ClientID = client.ID
    · have hred : a.RedirectURI ≠ r.PostFormValue "redirect_uri" := by
        rcases hm with h | h
        · exact h
        · exact absurd hcl h
      simp [errOf, valOf, toStorageAuthCode, hexp, hcl, hred, Server.tokenErrHelper]
    · simp [errOf, valOf, toStorageAuthCode, hcl, Server.tokenErrHelper]
  have hkey : ∃ typ description statusCode,
      (s.handleAuthCode w r client σ).1 = tokenErr w typ description statusCode ∧
      readsOnly σ (s.handleAuthCode w r client σ).2 := by
    rcases handleAuthCode_cases s w r client σ with
      h | ⟨authCode, σ1, idToken, expiry, σ2, hget, -, hcl, hred, -⟩
    · exact h
    · exfalso
      have hg1 : (s.storage.GetAuthCode (r.PostFormValue "code") σ).1 = .ok authCode := by
        rw [hget]
      rw [GetAuthCode_fst] at hg1
      split at hg1
      · simp at hg1
      · rename_i x hx
        have hx2 := (kubernetes.client.get_ok _ _ _ _ _ hx).2
        simp only [resourceAuthCode] at hx2
        rw [hst] at hx2
        have hxa : a = x := Option.some.inj hx2
        subst hxa
        have hac : authCode = toStorageAuthCode a := by
          simpa using hg1.symm
        subst hac
        rcases hm with h | h
        · exact h hred
        · exact h hcl
  obtain ⟨typ, d, c, hout, hro⟩ := hkey
  refine ⟨⟨typ, d, c, hout⟩, ?_, hro.1, ?_, hserved⟩
  · rw [hout]; exact tokenResponse?_tokenErr _ _ _ _
  · rw [hro.1]; exact hst

/-- Witness of C6: the exchange of the example deployment with another redirect URI. -/
theorem handleAuthCode_mismatch_rejected_witness :
    tokenResponse? (example1.srv.handleAuthCode {} example1.otherRedirect example1.c1
      example1.world).1 = none ∧
    (example1.srv.handleAuthCode {} example1.otherRedirect example1.c1
      example1.world).2.cluster = example1.world.cluster :=
  have h := handleAuthCode_mismatch_rejected example1.srv {} example1.otherRedirect
    example1.c1 example1.world (example1.srv.storage.fromStorageAuthCode example1.code)
    (by decide) (by decide) (Or.inl (by decide))
  ⟨h.2.1, h.2.2.1⟩

end server

end Dex

namespace Dex

namespace server

open kubernetes

/-! ## Garbage collection and expired codes -/

/-- The first loop of `GarbageCollect` leaves the auth codes as they are. -/
theorem GarbageCollectAuthRequests_authcodes (cli : kubernetes.client) (now : Time)
    (l : List kubernetes.AuthRequest) :
    ∀ (acc : storage.GCResult × Option Error) (σ : World),
      (cli.GarbageCollectAuthRequests now l acc σ).2.cluster.authcodes =
        σ.cluster.authcodes := by
  induction l with
  | nil => intro acc σ; rfl
  | cons a rest ih =>
    intro acc σ
    obtain ⟨result, delErr⟩ := acc
    unfold kubernetes.client.GarbageCollectAuthRequests
    split
    · have hs := kubernetes.client.delete_spec cli resourceAuthRequest a.ObjectMeta.Name σ
      split
      · rename_i err σ1 hd
        rw [hd] at hs
        simp only at hs
        rw [ih, hs]
        simp
      · rename_i σ1 hd
        rw [hd] at hs
        simp only at hs
        rw [ih, hs]
        simp [resourceAuthRequest]
    · exact ih _ _

/-- When the second loop of `GarbageCollect` ends without an error, it started without
one, only objects that were there remain, and no object remains under the name of an
expired auth code of the listing. -/
theorem GarbageCollectAuthCodes_ok (cli : kubernetes.client) (now : Time)
    (l : List kubernetes.AuthCode) :
    ∀ (acc : storage.GCResult × Option Error) (σ σ1 : World) (result : storage.GCResult),
      cli.GarbageCollectAuthCodes now l acc σ = ((result, none), σ1) →
      acc.2 = none ∧
      (∀ x ∈ σ1.cluster.authcodes, x ∈ σ.cluster.authcodes) ∧
      (∀ a ∈ l, now.After a.Expiry = true →
        ∀ x ∈ σ1.cluster.authcodes, x.ObjectMeta.Name ≠ a.ObjectMeta.Name) := by
  induction l with
  | nil =>
    intro acc σ σ1 result h
    unfold kubernetes.client.GarbageCollectAuthCodes at h
    simp only [Prod.mk.injEq] at h
    obtain ⟨h1, h2⟩ := h
    subst h2
    refine ⟨by rw [h1], fun x hx => hx, ?_⟩
    intro a ha
    simp at ha
  | cons a rest ih =>
    intro acc σ σ1 result h
    obtain ⟨res0, delErr⟩ := acc
    unfold kubernetes.client.GarbageCollectAuthCodes at h
    split at h
    · rename_i hexp
      have hs := kubernetes.client.delete_spec cli resourceAuthCode a.ObjectMeta.Name σ
      split at h
      · rename_i err σ2 hd
        have := (ih _ _ _ _ h).1
        simp at this
      · rename_i σ2 hd
        rw [hd] at hs
        simp only [if_true] at hs
        obtain ⟨hacc, hsub, hgone⟩ := ih _ _ _ _ h
        have hσ2 : σ2.cluster.authcodes =
            σ.cluster.authcodes.filter (fun x => !(x.ObjectMeta.Name == a.ObjectMeta.Name)) := by
          rw [hs]; rfl
        refine ⟨hacc, ?_, ?_⟩
        · intro x hx
          have := hsub x hx
          rw [hσ2] at this
          exact (List.mem_filter.mp this).1
        · intro b hb hbexp x hx
          rcases List.mem_cons.mp hb with hba | hbr
          · subst hba
            have := hsub x hx
            rw [hσ2] at this
            simpa using (List.mem_filter.mp this).2
          · exact hgone b hbr hbexp x hx
    · rename_i hexp
      obtain ⟨hacc, hsub, hgone⟩ := ih _ _ _ _ h
      refine ⟨hacc, hsub, ?_⟩
      intro b hb hbexp x hx
      rcases List.mem_cons.mp hb with hba | hbr
      · subst hba
        exact absurd hbexp hexp
      · exact hgone b hbr hbexp x hx

/-- After a `GarbageCollect` that returned no error, every auth code left in the
storage was there before and is not expired at the time of the collection. -/
theorem GarbageCollect_ok (cli : kubernetes.client) (now : Time) (σ σ1 : World)
    (result : storage.GCResult) (h : cli.GarbageCollect now σ = ((result, none), σ1)) :
    ∀ x ∈ σ1.cluster.authcodes, x ∈ σ.cluster.authcodes ∧ now.After x.Expiry = false := by
  unfold kubernetes.client.GarbageCollect at h
  split at h
  · simp at h
  · rename_i authRequests σa hl
    have hla : σa.cluster = σ.cluster := by
      have : (cli.list resourceAuthRequest σ).2.cluster = σ.cluster := by
        unfold kubernetes.client.list
        split <;> rfl
      rwa [hl] at this
    have hfr := GarbageCollectAuthRequests_authcodes cli now authRequests ({}, none) σa
    split at h
    · simp at h
    · rename_i res2 σb hgr
      rw [hgr] at hfr
      simp only at hfr
      split at h
      · simp at h
      · rename_i authCodes σc hlc
        have hserved : authCodes = σb.cluster.authcodes ∧ σc.cluster = σb.cluster := by
          unfold kubernetes.client.list at hlc
          split at hlc
          · simp at hlc
          · simp only [Prod.mk.injEq, Except.ok.injEq] at hlc
            obtain ⟨h1, h2⟩ := hlc
            subst h1 h2
            exact ⟨rfl, rfl⟩
        obtain ⟨-, hsub, hgone⟩ := GarbageCollectAuthCodes_ok cli now authCodes _ σc σ1 result h
        intro x hx
        have hx2 := hsub x hx
        rw [hserved.2, hfr, hla] at hx2
        refine ⟨hx2, ?_⟩
        by_contra hne
        simp only [Bool.not_eq_false] at hne
        have hxl : x ∈ authCodes := by
          rw [hserved.1, hfr, hla]; exact hx2
        exact hgone x hxl hne x hx rfl

end server

end Dex

namespace Dex

namespace server

open kubernetes

/-- C7, as amended. When an auth code whose expiry lies before the time of a garbage
collection has been collected (the collection returned no error), a served exchange of
that code by any client, the code's own included, is answered with HTTP 400 and the
JSON error `invalid_request`, and changes nothing in the storage. -/
theorem handleAuthCode_collected_invalid_request (s : Server) (r : http.Request)
    (client : storage.Client) (σ0 σ : World) (collectedAt : Time) (result : storage.GCResult)
    (hgc : s.storage.GarbageCollect collectedAt σ0 = ((result, none), σ))
    (hexp : ∀ a ∈ σ0.cluster.authcodes,
      a.ObjectMeta.Name = r.PostFormValue "code" → a.Expiry < collectedAt)
    (hf : σ.fault = none) :
    (s.handleAuthCode {} r client σ).1 =
      { Header := [("Content-Type", "application/json")]
        StatusCode := 400
        Body := [.json [("error", .str "invalid_request"),
          ("error_description", .str "Invalid or expired code parameter.")]] } ∧
    (s.handleAuthCode {} r client σ).2.cluster = σ.cluster := by
  have hgone : σ.cluster.authcodes.find?
      (fun x => x.ObjectMeta.Name == r.PostFormValue "code") = none := by
    rw [List.find?_eq_none]
    intro x hx hname
    obtain ⟨hx0, hnot⟩ := GarbageCollect_ok s.storage collectedAt σ0 σ result hgc x hx
    have := hexp x hx0 (by simpa using hname)
    simp [Time.After, this] at hnot
  have hnf : (s.storage.GetAuthCode (r.PostFormValue "code") σ).1 = .error .ErrNotFound := by
    rw [GetAuthCode_fst, kubernetes.client.get_served _ _ _ _ hf]
    simp only [resourceAuthCode, hgone]
  refine ⟨?_, ?_⟩
  · rw [handleAuthCode_notFound s {} r client σ hnf]
    rfl
  · rcases handleAuthCode_cases s {} r client σ with
      ⟨_, _, _, -, hro⟩ | ⟨authCode, σ1, _, _, _, hget, -⟩
    · exact hro.1
    · rw [hget] at hnf
      simp at hnf

/-- Counterexample to C7 as stated: half an hour later the code `K` of the example
deployment has expired; while it is still stored its exchange is answered with status
500 and `server_error`, and once it is collected with status 400 and
`invalid_request`: in neither case with `invalid_grant`. -/
theorem expired_code_not_invalid_grant :
    example1.lateSrv.now.After example1.code.Expiry = true ∧
    (example1.lateSrv.handleAuthCode {} example1.exchange example1.c1 example1.world).1 =
      { Header := [("Content-Type", "application/json")]
        StatusCode := 500
        Body := [.json [("error", .str "server_error")]] } ∧
    (example1.lateSrv.handleAuthCode {} example1.exchange example1.c1
        example1.collectedWorld).1 =
      { Header := [("Content-Type", "application/json")]
        StatusCode := 400
        Body := [.json [("error", .str "invalid_request"),
          ("error_description", .str "Invalid or expired code parameter.")]] } := by
  decide

/-- Witness of C7 as amended: the example deployment is collected at time 2000 and the
code `K`, expired since time 100, is then exchanged. -/
theorem handleAuthCode_collected_invalid_request_witness :
    (example1.lateSrv.handleAuthCode {} example1.exchange example1.c1
      (example1.lateSrv.storage.GarbageCollect 2000 example1.world).2).1 =
      { Header := [("Content-Type", "application/json")]
        StatusCode := 400
        Body := [.json [("error", .str "invalid_request"),
          ("error_description", .str "Invalid or expired code parameter.")]] } :=
  (handleAuthCode_collected_invalid_request example1.lateSrv example1.exchange example1.c1
    example1.world (example1.lateSrv.storage.GarbageCollect 2000 example1.world).2 2000
    { AuthRequests := 0, AuthCodes := 1 } rfl (by decide) (by decide)).1

end server

end Dex

namespace Dex

namespace server

open kubernetes

/-! ## Client authentication -/

/-- The bytes that a query component unescapes to, when they are UTF-8, are the bytes of
the text that `QueryUnescape` returns. -/
theorem QueryUnescape_bytes (s t : String) (h : url.QueryUnescape s = .ok t)
    (ht : url.unescapesToText s = true) : url.unescape s.data = some (url.bytes t.data) := by
  unfold url.QueryUnescape at h
  unfold url.unescapesToText at ht
  cases hu : url.unescape s.data with
  | none => rw [hu] at h; simp at h
  | some bs =>
    rw [hu] at h ht
    simp only [Except.ok.injEq] at h
    simp only [beq_iff_eq] at ht
    rw [← h, ht]

/-- C9. For every token request whose credentials, when they come from the
`Authorization` header, unescape to UTF-8 text: when the client id of the request
(unescaped, if it comes from the header) is not found among the stored clients, or the
secret supplied differs from the secret of the stored client, `handleToken` answers with
HTTP 401 and the JSON error `invalid_client`; no token response is written, the storage
is left as it was, and the lookup of the client is the only API call made: no grant
handler runs, so no auth code or refresh token is read, created or deleted. The id
looked up and the secret compared are, byte for byte, what the header unescapes to. -/
theorem handleToken_invalid_client (s : Server) (r : http.Request) (σ : World)
    (clientID clientSecret : String) (hcred : credentials r clientID clientSecret)
    (htext : textCredentials r = true)
    (hbad : (s.storage.GetClient clientID σ).1 = .error .ErrNotFound ∨
      ∃ c, (s.storage.GetClient clientID σ).1 = .ok c ∧ c.Secret ≠ clientSecret) :
    (s.handleToken {} r σ).1 =
      { Header := [("Content-Type", "application/json")]
        StatusCode := 401
        Body := [.json [("error", .str "invalid_client"),
          ("error_description", .str "Invalid client credentials.")]] } ∧
    tokenResponse? (s.handleToken {} r σ).1 = none ∧
    (s.handleToken {} r σ).2.cluster = σ.cluster ∧
    (∃ e, callsSince σ (s.handleToken {} r σ).2 = [e] ∧ e.verb = Verb.get ∧
      e.resource = "oauth2clients" ∧ e.name = s.storage.idToName clientID) ∧
    (∀ u p, r.BasicAuth = some (u, p) →
      url.unescape u.data = some (url.bytes clientID.data) ∧
      url.unescape p.data = some (url.bytes clientSecret.data)) := by
  have hout : s.handleToken {} r σ =
      (tokenErr {} errInvalidClient "Invalid client credentials." http.StatusUnauthorized,
        (s.storage.GetClient clientID σ).2) := by
    rw [handleToken_credentials s {} r σ _ _ hcred]
    unfold Server.handleTokenAs
    rcases hres : s.storage.GetClient clientID σ with ⟨res, σ1⟩
    rw [hres] at hbad
    simp only at hbad
    rcases hbad with h | ⟨c, h, hsec⟩
    · subst h
      simp [Server.tokenErrHelper]
    · subst h
      simp [Server.tokenErrHelper, hsec]
  rw [hout]
  refine ⟨rfl, tokenResponse?_tokenErr _ _ _ _, ?_, ?_, ?_⟩
  · exact (readsOnly_GetClient s.storage clientID σ).1
  · simp only
    rw [GetClient_snd, kubernetes.client.get_spec]
    exact ⟨_, callsSince_of_append _ _ _ rfl, rfl, rfl, rfl⟩
  · intro u p hb
    unfold textCredentials at htext
    rw [hb] at htext
    simp only [Bool.and_eq_true] at htext
    rcases hcred with ⟨u1, p1, hb1, hu, hp⟩ | ⟨hnone, -, -⟩
    · rw [hb] at hb1
      simp only [Option.some.injEq, Prod.mk.injEq] at hb1
      rw [← hb1.1] at hu
      rw [← hb1.2] at hp
      exact ⟨QueryUnescape_bytes _ _ hu htext.1, QueryUnescape_bytes _ _ hp htext.2⟩
    · rw [hb] at hnone
      simp at hnone

/-- Witness of C9: the exchange of the example deployment with a wrong secret, and a
request of the client `é`, whose id is sent as `%C3%A9`, with a wrong secret. -/
theorem handleToken_invalid_client_witness :
    (example1.srv.handleToken {} example1.wrongSecret example1.world).1 =
      { Header := [("Content-Type", "application/json")]
        StatusCode := 401
        Body := [.json [("error", .str "invalid_client"),
          ("error_description", .str "Invalid client credentials.")]] } ∧
    (example1.srv.handleToken {} example1.wrongSecret example1.world).2.cluster =
      example1.world.cluster ∧
    (example1.srv.handleToken {} (example1.accentedRequest "guess")
      example1.accentedWorld).1.StatusCode = 401 ∧
    url.unescape "%C3%A9".data = some (url.bytes "é".data) :=
  have h := handleToken_invalid_client example1.srv example1.wrongSecret example1.world
    "C1" "guess" (Or.inl ⟨"C1", "guess", rfl, rfl, rfl⟩) (by decide)
    (Or.inr ⟨example1.c1, rfl, by decide⟩)
  have h2 := handleToken_invalid_client example1.srv (example1.accentedRequest "guess")
    example1.accentedWorld "é" "guess" (Or.inl ⟨"%C3%A9", "guess", rfl, rfl, rfl⟩) (by decide)
    (Or.inr ⟨example1.accented, rfl, by decide⟩)
  ⟨h.1, h.2.2.1, congrArg http.ResponseWriter.StatusCode h2.1,
    (h2.2.2.2.2 "%C3%A9" "guess" rfl).1⟩

/-- The client `é` is authenticated when its id is sent as `%C3%A9` with its secret: the
code exchange that follows is refused because the code `K` belongs to another client,
not because of the credentials. -/
theorem handleToken_escaped_client_id :
    url.QueryUnescape "%C3%A9" = .ok "é" ∧
    (example1.srv.handleToken {} (example1.accentedRequest "s")
      example1.accentedWorld).1.StatusCode ≠ 401 ∧
    callsSince example1.accentedWorld
      (example1.srv.handleToken {} (example1.accentedRequest "s") example1.accentedWorld).2 =
      [⟨.get, "oauth2clients", "é", none⟩, ⟨.get, "authcodes", "K", none⟩] := by
  refine ⟨rfl, by decide, by decide⟩

end server

end Dex

namespace Dex

namespace server

open kubernetes

/-! ## The refresh -/

/-- The connector's refresh leaves the client, connector, scopes, nonce and user id of
the refresh token as they are. -/
theorem refreshedBy_ok (conn : Connector) (scopes : List String)
    (stored refresh : storage.RefreshToken) (h : refreshedBy conn scopes stored = .ok refresh) :
    refresh.RefreshToken = stored.RefreshToken ∧ refresh.ClientID = stored.ClientID ∧
    refresh.ConnectorID = stored.ConnectorID ∧ refresh.Scopes = stored.Scopes ∧
    refresh.Nonce = stored.Nonce ∧ refresh.Claims.UserID = stored.Claims.UserID := by
  unfold refreshedBy at h
  split at h
  · simp only at h
    split at h
    · simp at h
    · simp only [Except.ok.injEq] at h
      subst h
      simp
  · simp only [Except.ok.injEq] at h
    subst h
    simp

/-- What has happened when `handleRefreshToken` answers with a token response, and the
storage it leaves: the presented token is gone and the refreshed token is stored under
the id drawn from the random source, which is the id in the response. -/
theorem handleRefreshToken_token (s : Server) (w : http.ResponseWriter) (r : http.Request)
    (client : storage.Client) (σ : World) (o : json.Object)
    (h : tokenResponse? (s.handleRefreshToken w r client σ).1 = some o) :
    ∃ stored σ1 conn refresh idToken expiry σ2 accessToken,
      r.PostFormValue "refresh_token" ≠ "" ∧
      s.storage.GetRefresh (r.PostFormValue "refresh_token") σ = (.ok stored, σ1) ∧
      stored.ClientID = client.ID ∧
      (r.PostFormValue "scope" ≠ "" →
        unauthorizedScopes (r.PostFormValue "scope") stored = []) ∧
      s.connector? stored.ConnectorID = some conn ∧
      refreshedBy conn (refreshScopes (r.PostFormValue "scope") stored) stored = .ok refresh ∧
      s.newIDToken client.ID refresh.Claims (refreshScopes (r.PostFormValue "scope") stored)
        refresh.Nonce σ1 = (.ok (idToken, expiry), σ2) ∧
      (s.handleRefreshToken w r client σ).2.cluster =
        { σ.cluster with
          refreshtokens :=
            σ.cluster.refreshtokens.filter
                (fun x => !(x.ObjectMeta.Name == r.PostFormValue "refresh_token")) ++
              [refreshObject s.storage { refresh with RefreshToken := (storage.NewID σ).1 }] } ∧
      (σ.cluster.refreshtokens.filter
          (fun x => !(x.ObjectMeta.Name == r.PostFormValue "refresh_token"))).any
        (fun x => x.ObjectMeta.Name == (storage.NewID σ).1) = false ∧
      o = [("access_token", .str accessToken), ("token_type", .str "bearer"),
            ("expires_in", .num (expiry - s.now)),
            ("refresh_token", .str (storage.NewID σ).1), ("id_token", .str idToken)] := by
  rcases handleRefreshToken_cases s w r client σ with
    ⟨typ, d, c, hout, -⟩ |
    ⟨stored, σ1, conn, refresh, idToken, expiry, σ2, hcode, hget, hcl, hun, hconn, href, hnew,
      hrest⟩
  · rw [hout, tokenResponse?_tokenErr] at h
    simp at h
  · have h1 : readsOnly σ σ1 := by
      have := readsOnly_GetRefresh s.storage (r.PostFormValue "refresh_token") σ
      rwa [hget] at this
    have h2 : readsOnly σ1 σ2 := by
      have := readsOnly_newIDToken s client.ID refresh.Claims
        (refreshScopes (r.PostFormValue "scope") stored) refresh.Nonce σ1
      rwa [hnew] at this
    have h12 := h1.trans h2
    rcases hrest with ⟨e1, -, hout⟩ | ⟨σ3, hdel, hrest⟩
    · rw [hout, tokenResponse?_tokenErr] at h
      simp at h
    · obtain ⟨h3, he3⟩ := DeleteRefresh_ok s.storage _ σ2 σ3 hdel
      rw [h12.1] at h3
      rw [h12.2.1] at he3
      rcases hrest with ⟨e1, -, hout⟩ | ⟨σ5, hcr, hout⟩
      · rw [hout, tokenResponse?_tokenErr] at h
        simp at h
      · obtain ⟨h5, -, hfree⟩ := CreateRefresh_ok s.storage _ _ σ5 hcr
        rw [hout, tokenResponse?_writeAccessToken] at h
        rw [NewID_fst_congr σ3 σ he3] at h h5 hfree
        simp only [NewID_cluster] at h5 hfree
        rw [h3] at h5 hfree
        refine ⟨stored, σ1, conn, refresh, idToken, expiry, σ2, (storage.NewID σ5).1, hcode,
          hget, hcl, hun, hconn, href, hnew, ?_, hfree, ?_⟩
        · rw [hout, writeAccessToken_world, NewID_cluster, h5]
        · rw [← Option.some.inj h]
          simp [json.omitemptyStr, NewID_ne_empty]

/-- A refresh whose `scope` parameter asks for a scope that the stored token does not
have is answered with `invalid_request` and status 400, after the lookup only. -/
theorem handleRefreshToken_unauthorized (s : Server) (w : http.ResponseWriter)
    (r : http.Request) (client : storage.Client) (σ σ1 : World)
    (stored : storage.RefreshToken)
    (hcode : r.PostFormValue "refresh_token" ≠ "")
    (hget : s.storage.GetRefresh (r.PostFormValue "refresh_token") σ = (.ok stored, σ1))
    (hcl : stored.ClientID = client.ID)
    (hscope : r.PostFormValue "scope" ≠ "")
    (hun : ∃ x ∈ strings.Fields (r.PostFormValue "scope"), x ∉ stored.Scopes) :
    s.handleRefreshToken w r client σ =
      (tokenErr w errInvalidRequest
        ("Requested scopes contain unauthorized scope(s): " ++
          quoteList (unauthorizedScopes (r.PostFormValue "scope") stored) ++ ".")
        http.StatusBadRequest, σ1) := by
  have hlen : (unauthorizedScopes (r.PostFormValue "scope") stored).length > 0 := by
    obtain ⟨x, hx, hnot⟩ := hun
    apply List.length_pos.mpr
    apply List.ne_nil_of_mem (a := x)
    unfold unauthorizedScopes
    rw [List.mem_filter]
    refine ⟨hx, ?_⟩
    simp only [Bool.not_eq_true', List.any_eq_false, beq_iff_eq]
    intro y hy hxy
    exact hnot (hxy ▸ hy)
  unfold unauthorizedScopes at hlen
  unfold Server.handleRefreshToken
  simp only [hcode, if_false, hget, errOf, valOf, hcl, Server.tokenErrHelper]
  simp only [ne_eq, not_true_eq_false, or_self, if_false, hscope, not_false_eq_true, hlen,
    and_self, if_true]
  rfl

end server

end Dex

namespace Dex

namespace server

open kubernetes

/-- C3. When `handleRefreshToken` answers a refresh with a token response, and the id
that `storage.NewID` returns is not the id of a refresh token in use, then in the
resulting storage state the presented refresh token id is not found, and the
`refresh_token` of the response is a different id, under which a refresh token of the
same client is stored. -/
theorem handleRefreshToken_rotates (s : Server) (w : http.ResponseWriter) (r : http.Request)
    (client : storage.Client) (σ : World) (o : json.Object)
    (h : tokenResponse? (s.handleRefreshToken w r client σ).1 = some o)
    (hfresh : ∀ x ∈ σ.cluster.refreshtokens, x.ObjectMeta.Name ≠ (storage.NewID σ).1)
    (σ' : World) (hc : σ'.cluster = (s.handleRefreshToken w r client σ).2.cluster)
    (hf : σ'.fault = none) :
    (s.storage.GetRefresh (r.PostFormValue "refresh_token") σ').1 = .error .ErrNotFound ∧
    o.field "refresh_token" = some (.str (storage.NewID σ).1) ∧
    (storage.NewID σ).1 ≠ r.PostFormValue "refresh_token" ∧
    ∃ t, (s.storage.GetRefresh (storage.NewID σ).1 σ').1 = .ok t ∧
      t.RefreshToken = (storage.NewID σ).1 ∧ t.ClientID = client.ID := by
  obtain ⟨stored, σ1, conn, refresh, idToken, expiry, σ2, accessToken, hcode, hget, hcl, -, -,
    href, -, hcluster, hfree, ho⟩ := handleRefreshToken_token s w r client σ o h
  -- the presented token is stored, so its id is not the fresh one
  have hne : (storage.NewID σ).1 ≠ r.PostFormValue "refresh_token" := by
    have hg1 : (s.storage.GetRefresh (r.PostFormValue "refresh_token") σ).1 = .ok stored := by
      rw [hget]
    rw [GetRefresh_fst] at hg1
    split at hg1
    · simp at hg1
    · rename_i x hx
      have hx2 := (kubernetes.client.get_ok _ _ _ _ _ hx).2
      have hmem := List.mem_of_find?_eq_some hx2
      have hname := List.find?_some hx2
      simp only [resourceAuthCode, resourceRefreshToken, beq_iff_eq] at hmem hname
      intro heq
      exact hfresh x hmem (hname.trans heq.symm)
  have hold := find?_filter_name (fun x : kubernetes.RefreshToken => x.ObjectMeta.Name)
    (r.PostFormValue "refresh_token") σ.cluster.refreshtokens
  have hnew : (σ.cluster.refreshtokens.filter
      (fun x => !(x.ObjectMeta.Name == r.PostFormValue "refresh_token"))).find?
        (fun x => x.ObjectMeta.Name == (storage.NewID σ).1) = none := by
    rw [List.find?_eq_none]
    intro x hx
    have := hfresh x (List.mem_filter.mp hx).1
    simpa using this
  have hb : ((storage.NewID σ).1 == r.PostFormValue "refresh_token") = false := by
    simpa using hne
  have hgetnew : (s.storage.GetRefresh (storage.NewID σ).1 σ').1 =
      .ok { RefreshToken := (storage.NewID σ).1
            ClientID := refresh.ClientID
            ConnectorID := refresh.ConnectorID
            Scopes := refresh.Scopes
            Nonce := refresh.Nonce
            Claims := toStorageClaims (fromStorageClaims refresh.Claims) } := by
    rw [GetRefresh_fst, kubernetes.client.get_served _ _ _ _ hf, hc, hcluster]
    simp only [resourceRefreshToken, List.find?_append, hnew, Option.none_or]
    simp only [List.find?, refreshObject, beq_self_eq_true]
  refine ⟨?_, ?_, hne, ?_⟩
  · rw [GetRefresh_fst, kubernetes.client.get_served _ _ _ _ hf, hc, hcluster]
    simp only [resourceRefreshToken, List.find?_append, hold, Option.none_or]
    simp only [List.find?, refreshObject, hb]
  · rw [ho]
    simp [json.Object.field, List.find?]
  · refine ⟨_, hgetnew, rfl, ?_⟩
    simp only
    rw [(refreshedBy_ok _ _ _ _ href).2.1, hcl]

/-- Witness of C3: the refresh of the example deployment. -/
theorem handleRefreshToken_rotates_witness :
    (example1.srv.storage.GetRefresh "R1"
      (example1.srv.handleRefreshToken {} (example1.refreshRequest "") example1.c1
        example1.world).2).1 = .error .ErrNotFound ∧
    json.Object.field
      [("access_token", .str "gaaaaaaaaaaaaaaaaaaaaaaaaa"), ("token_type", .str "bearer"),
        ("expires_in", .num 3600), ("refresh_token", .str "faaaaaaaaaaaaaaaaaaaaaaaaa"),
        ("id_token", .str "jws:u1")] "refresh_token" =
      some (.str "faaaaaaaaaaaaaaaaaaaaaaaaa") :=
  have h := handleRefreshToken_rotates example1.srv {} (example1.refreshRequest "") example1.c1
    example1.world
    [("access_token", .str "gaaaaaaaaaaaaaaaaaaaaaaaaa"), ("token_type", .str "bearer"),
      ("expires_in", .num 3600), ("refresh_token", .str "faaaaaaaaaaaaaaaaaaaaaaaaa"),
      ("id_token", .str "jws:u1")] (by decide) (by decide) _ rfl (by decide)
  ⟨h.1, h.2.1⟩

end server

end Dex

namespace Dex

namespace server

open kubernetes

/-! ## Cross-client trust -/

/-- The result of `validateCrossClientTrust`, read off the result of the lookup. -/
theorem validateCrossClientTrust_fst (s : Server) (clientID peerID : String) (σ : World) :
    (s.validateCrossClientTrust clientID peerID σ).1 =
      if peerID = clientID then .ok true
      else
        match (s.storage.GetClient peerID σ).1 with
        | .error err => if err ≠ .ErrNotFound then .error err else .ok false
        | .ok peer => .ok (peer.TrustedPeers.any (fun id => id == clientID)) := by
  unfold Server.validateCrossClientTrust
  by_cases hp : peerID = clientID
  · simp [hp]
  · simp only [hp, if_false]
    rcases s.storage.GetClient peerID σ with ⟨res, σ1⟩
    cases res with
    | error e => by_cases he : e = .ErrNotFound <;> simp [he]
    | ok peer => rfl

/-- The world after `validateCrossClientTrust`: as it was, or after the lookup. -/
theorem validateCrossClientTrust_snd (s : Server) (clientID peerID : String) (σ : World) :
    (s.validateCrossClientTrust clientID peerID σ).2 =
      if peerID = clientID then σ else (s.storage.GetClient peerID σ).2 := by
  unfold Server.validateCrossClientTrust
  by_cases hp : peerID = clientID
  · simp [hp]
  · simp only [hp, if_false]
    rcases s.storage.GetClient peerID σ with ⟨res, σ1⟩
    cases res with
    | error e => by_cases he : e = .ErrNotFound <;> simp [he]
    | ok peer => rfl

/-- Served trust checks on the same clients give the same result. -/
theorem validateCrossClientTrust_congr (s : Server) (clientID peerID : String) (σ σ1 : World)
    (hf : σ.fault = none) (hf1 : σ1.fault = none)
    (hc : σ1.cluster.oauth2clients = σ.cluster.oauth2clients) :
    (s.validateCrossClientTrust clientID peerID σ1).1 =
      (s.validateCrossClientTrust clientID peerID σ).1 := by
  rw [validateCrossClientTrust_fst, validateCrossClientTrust_fst,
    GetClient_fst_congr s.storage peerID σ σ1 hf hf1 hc]

theorem served_GetClient (cli : kubernetes.client) (id : String) (σ : World) (h : served σ) :
    served (cli.GetClient id σ).2 := by
  intro f hfm
  rw [GetClient_snd, get_faults] at hfm
  exact h f (List.mem_of_mem_tail hfm)

theorem served_validateCrossClientTrust (s : Server) (clientID peerID : String) (σ : World)
    (h : served σ) : served (s.validateCrossClientTrust clientID peerID σ).2 := by
  rw [validateCrossClientTrust_snd]
  split
  · exact h
  · exact served_GetClient _ _ _ h

end server

end Dex

namespace Dex

namespace server

open kubernetes

theorem parseCrossClientScope_peer (peerID : String) :
    parseCrossClientScope (scopeCrossClientPrefix ++ peerID) = (peerID, true) := by
  unfold parseCrossClientScope strings.HasPrefix
  have h1 : (scopeCrossClientPrefix ++ peerID).data =
      scopeCrossClientPrefix.data ++ peerID.data := String.data_append _ _
  have h2 : scopeCrossClientPrefix.data.isPrefixOf
      (scopeCrossClientPrefix.data ++ peerID.data) = true := by
    rw [List.isPrefixOf_iff_prefix]
    exact List.prefix_append _ _
  rw [h1, h2]
  simp

theorem crossClientScope_not_standard (peerID : String) :
    ¬ standardScope (scopeCrossClientPrefix ++ peerID) := by
  intro h
  have hlen : (scopeCrossClientPrefix ++ peerID).length = 26 + peerID.length := by
    rw [String.length_append]
    rfl
  have e1 : scopeOpenID.length = 6 := by decide
  have e2 : scopeOfflineAccess.length = 14 := by decide
  have e3 : scopeEmail.length = 5 := by decide
  have e4 : scopeProfile.length = 7 := by decide
  have e5 : scopeGroups.length = 6 := by decide
  unfold standardScope at h
  rcases h with h | h | h | h | h <;>
  · rw [h] at hlen
    omega

end server

end Dex

namespace Dex

namespace server

open kubernetes

/-! ## The scope loop of `parseAuthorizationRequest` -/

theorem scopesLoop_openid (s : Server) (clientID : String) (scopes : List String)
    (acc : scopeCheck) (σ : World) :
    s.parseAuthorizationRequestScopes clientID (scopeOpenID :: scopes) acc σ =
      s.parseAuthorizationRequestScopes clientID scopes { acc with hasOpenIDScope := true } σ := by
  rw [Server.parseAuthorizationRequestScopes]
  simp

theorem scopesLoop_standard (s : Server) (clientID scope : String) (scopes : List String)
    (acc : scopeCheck) (σ : World) (h : standardScope scope) (hne : scope ≠ scopeOpenID) :
    s.parseAuthorizationRequestScopes clientID (scope :: scopes) acc σ =
      s.parseAuthorizationRequestScopes clientID scopes acc σ := by
  rw [Server.parseAuthorizationRequestScopes]
  unfold standardScope at h
  have h2 : scope = scopeOfflineAccess ∨ scope = scopeEmail ∨ scope = scopeProfile ∨
      scope = scopeGroups := by
    rcases h with h | h
    · exact absurd h hne
    · exact h
  simp [hne, h2]

theorem scopesLoop_peer (s : Server) (clientID peerID : String) (scopes : List String)
    (acc : scopeCheck) (σ : World) :
    s.parseAuthorizationRequestScopes clientID ((scopeCrossClientPrefix ++ peerID) :: scopes)
        acc σ =
      match s.validateCrossClientTrust clientID peerID σ with
      | (.error err, σ1) => (.error err, σ1)
      | (.ok isTrusted, σ1) =>
        if !isTrusted then
          s.parseAuthorizationRequestScopes clientID scopes
            { acc with invalidScopes := acc.invalidScopes ++ [scopeCrossClientPrefix ++ peerID] }
            σ1
        else s.parseAuthorizationRequestScopes clientID scopes acc σ1 := by
  rw [Server.parseAuthorizationRequestScopes]
  have hns := crossClientScope_not_standard peerID
  unfold standardScope at hns
  have h1 : scopeCrossClientPrefix ++ peerID ≠ scopeOpenID := fun h => hns (Or.inl h)
  have h2 : ¬ (scopeCrossClientPrefix ++ peerID = scopeOfflineAccess ∨
      scopeCrossClientPrefix ++ peerID = scopeEmail ∨
      scopeCrossClientPrefix ++ peerID = scopeProfile ∨
      scopeCrossClientPrefix ++ peerID = scopeGroups) := fun h => hns (Or.inr h)
  simp only [h1, h2, if_false, parseCrossClientScope_peer]

/-- The world after a served trust check: still served, with the same storage and
random source. -/
theorem validateCrossClientTrust_world (s : Server) (clientID peerID : String) (σ0 σ : World)
    (hs : served σ) (hc : σ.cluster = σ0.cluster) (hs0 : served σ0) :
    (s.validateCrossClientTrust clientID peerID σ).1 =
      (s.validateCrossClientTrust clientID peerID σ0).1 ∧
    served (s.validateCrossClientTrust clientID peerID σ).2 ∧
    (s.validateCrossClientTrust clientID peerID σ).2.cluster = σ0.cluster ∧
    (s.validateCrossClientTrust clientID peerID σ).2.entropy = σ.entropy := by
  have hro := readsOnly_validateCrossClientTrust s clientID peerID σ
  refine ⟨?_, served_validateCrossClientTrust s clientID peerID σ hs, by rw [hro.1, hc],
    hro.2.1⟩
  exact validateCrossClientTrust_congr s clientID peerID σ0 σ (fault_none_of_served σ0 hs0)
    (fault_none_of_served σ hs) (by rw [hc])

/-- The scope loop when the peer trusts the client: only `openid` is recorded. -/
theorem scopesLoop_trusted (s : Server) (clientID peerID : String) (σ0 : World)
    (hs0 : served σ0)
    (hT : (s.validateCrossClientTrust clientID peerID σ0).1 = .ok true)
    (scopes : List String) :
    ∀ (acc : scopeCheck) (σ : World), served σ → σ.cluster = σ0.cluster →
      (∀ x ∈ scopes, standardScope x ∨ x = scopeCrossClientPrefix ++ peerID) →
      ∃ σ1, served σ1 ∧ σ1.cluster = σ0.cluster ∧ σ1.entropy = σ.entropy ∧
        s.parseAuthorizationRequestScopes clientID scopes acc σ =
          (.ok { acc with
            hasOpenIDScope := acc.hasOpenIDScope || scopes.contains scopeOpenID }, σ1) := by
  induction scopes with
  | nil =>
    intro acc σ hs hc _
    exact ⟨σ, hs, hc, rfl, by simp [Server.parseAuthorizationRequestScopes]⟩
  | cons x rest ih =>
    intro acc σ hs hc hall
    have hrest : ∀ y ∈ rest, standardScope y ∨ y = scopeCrossClientPrefix ++ peerID :=
      fun y hy => hall y (List.mem_cons_of_mem _ hy)
    rcases hall x (List.mem_cons_self _ _) with hstd | hx
    · by_cases ho : x = scopeOpenID
      · subst ho
        rw [scopesLoop_openid]
        obtain ⟨σ1, h1, h2, h3, h4⟩ := ih { acc with hasOpenIDScope := true } σ hs hc hrest
        exact ⟨σ1, h1, h2, h3, by rw [h4]; simp⟩
      · rw [scopesLoop_standard s clientID x rest acc σ hstd ho]
        obtain ⟨σ1, h1, h2, h3, h4⟩ := ih acc σ hs hc hrest
        exact ⟨σ1, h1, h2, h3, by rw [h4]; simp [List.contains_cons, ho, Ne.symm ho]⟩
    · subst hx
      have hno : scopeCrossClientPrefix ++ peerID ≠ scopeOpenID :=
        fun h => crossClientScope_not_standard peerID (Or.inl h)
      rw [scopesLoop_peer]
      obtain ⟨hv1, hv2, hv3, hv4⟩ := validateCrossClientTrust_world s clientID peerID σ0 σ hs hc hs0
      rw [hT] at hv1
      rcases hv : s.validateCrossClientTrust clientID peerID σ with ⟨res, σa⟩
      rw [hv] at hv1 hv2 hv3 hv4
      simp only at hv1 hv2 hv3 hv4
      subst hv1
      simp only [Bool.not_true, Bool.false_eq_true, if_false]
      obtain ⟨σ1, h1, h2, h3, h4⟩ := ih acc σa hv2 hv3 hrest
      refine ⟨σ1, h1, h2, h3.trans hv4, ?_⟩
      rw [h4]
      simp [List.contains_cons, hno, Ne.symm hno]

/-- The scope loop when the lookup finds that the peer does not trust the client: the
occurrences of the cross-client scope are recorded as invalid. -/
theorem scopesLoop_untrusted (s : Server) (clientID peerID : String) (σ0 : World)
    (hs0 : served σ0)
    (hT : (s.validateCrossClientTrust clientID peerID σ0).1 = .ok false)
    (scopes : List String) :
    ∀ (acc : scopeCheck) (σ : World), served σ → σ.cluster = σ0.cluster →
      (∀ x ∈ scopes, standardScope x ∨ x = scopeCrossClientPrefix ++ peerID) →
      ∃ σ1, served σ1 ∧ σ1.cluster = σ0.cluster ∧ σ1.entropy = σ.entropy ∧
        s.parseAuthorizationRequestScopes clientID scopes acc σ =
          (.ok { hasOpenIDScope := acc.hasOpenIDScope || scopes.contains scopeOpenID
                 unrecognized := acc.unrecognized
                 invalidScopes := acc.invalidScopes ++
                   scopes.filter (fun x => x == scopeCrossClientPrefix ++ peerID) }, σ1) := by
  induction scopes with
  | nil =>
    intro acc σ hs hc _
    exact ⟨σ, hs, hc, rfl, by simp [Server.parseAuthorizationRequestScopes]⟩
  | cons x rest ih =>
    intro acc σ hs hc hall
    have hrest : ∀ y ∈ rest, standardScope y ∨ y = scopeCrossClientPrefix ++ peerID :=
      fun y hy => hall y (List.mem_cons_of_mem _ hy)
    rcases hall x (List.mem_cons_self _ _) with hstd | hx
    · have hxp : x ≠ scopeCrossClientPrefix ++ peerID :=
        fun h => crossClientScope_not_standard peerID (h ▸ hstd)
      by_cases ho : x = scopeOpenID
      · subst ho
        rw [scopesLoop_openid]
        obtain ⟨σ1, h1, h2, h3, h4⟩ := ih { acc with hasOpenIDScope := true } σ hs hc hrest
        exact ⟨σ1, h1, h2, h3, by rw [h4]; simp [List.filter_cons, hxp]⟩
      · rw [scopesLoop_standard s clientID x rest acc σ hstd ho]
        obtain ⟨σ1, h1, h2, h3, h4⟩ := ih acc σ hs hc hrest
        exact ⟨σ1, h1, h2, h3, by rw [h4]; simp [List.contains_cons, ho, Ne.symm ho, List.filter_cons, hxp]⟩
    · subst hx
      have hno : scopeCrossClientPrefix ++ peerID ≠ scopeOpenID :=
        fun h => crossClientScope_not_standard peerID (Or.inl h)
      rw [scopesLoop_peer]
      obtain ⟨hv1, hv2, hv3, hv4⟩ := validateCrossClientTrust_world s clientID peerID σ0 σ hs hc hs0
      rw [hT] at hv1
      rcases hv : s.validateCrossClientTrust clientID peerID σ with ⟨res, σa⟩
      rw [hv] at hv1 hv2 hv3 hv4
      simp only at hv1 hv2 hv3 hv4
      subst hv1
      simp only [Bool.not_false, if_true]
      obtain ⟨σ1, h1, h2, h3, h4⟩ := ih
        { acc with invalidScopes := acc.invalidScopes ++ [scopeCrossClientPrefix ++ peerID] }
        σa hv2 hv3 hrest
      refine ⟨σ1, h1, h2, h3.trans hv4, ?_⟩
      rw [h4]
      simp [List.contains_cons, hno, Ne.symm hno, List.filter_cons]

/-- The scope loop when the lookup of the peer fails: the loop stops with that error. -/
theorem scopesLoop_lookup_error (s : Server) (clientID peerID : String) (σ0 : World)
    (hs0 : served σ0) (e : Error)
    (hT : (s.validateCrossClientTrust clientID peerID σ0).1 = .error e)
    (scopes : List String) :
    ∀ (acc : scopeCheck) (σ : World), served σ → σ.cluster = σ0.cluster →
      (∀ x ∈ scopes, standardScope x ∨ x = scopeCrossClientPrefix ++ peerID) →
      scopeCrossClientPrefix ++ peerID ∈ scopes →
      ∃ σ1, s.parseAuthorizationRequestScopes clientID scopes acc σ = (.error e, σ1) := by
  induction scopes with
  | nil =>
    intro acc σ _ _ _ hmem
    simp at hmem
  | cons x rest ih =>
    intro acc σ hs hc hall hmem
    have hrest : ∀ y ∈ rest, standardScope y ∨ y = scopeCrossClientPrefix ++ peerID :=
      fun y hy => hall y (List.mem_cons_of_mem _ hy)
    rcases hall x (List.mem_cons_self _ _) with hstd | hx
    · have hxp : x ≠ scopeCrossClientPrefix ++ peerID :=
        fun h => crossClientScope_not_standard peerID (h ▸ hstd)
      have hmem2 : scopeCrossClientPrefix ++ peerID ∈ rest := by
        rcases List.mem_cons.mp hmem with h | h
        · exact absurd h.symm hxp
        · exact h
      by_cases ho : x = scopeOpenID
      · subst ho
        rw [scopesLoop_openid]
        exact ih _ σ hs hc hrest hmem2
      · rw [scopesLoop_standard s clientID x rest acc σ hstd ho]
        exact ih _ σ hs hc hrest hmem2
    · subst hx
      rw [scopesLoop_peer]
      obtain ⟨hv1, -, -, -⟩ := validateCrossClientTrust_world s clientID peerID σ0 σ hs hc hs0
      rw [hT] at hv1
      rcases hv : s.validateCrossClientTrust clientID peerID σ with ⟨res, σa⟩
      rw [hv] at hv1
      simp only at hv1
      subst hv1
      exact ⟨σa, rfl⟩

end server

end Dex

namespace Dex

namespace server

open kubernetes

/-- C10. (1) When the lookup of the peer `P` does not fail with an error other than
`ErrNotFound`, `validateCrossClientTrust C P` returns no error, and it returns
`trusted = true` exactly when `P = C` or the client `P` exists and its trusted peers
contain `C`. (2) For an authorization request of a known client with a valid redirect
URI, acceptable response types, the scope `openid` and, apart from scopes recognized by
name, only the cross-client scope `audience:server:client_id:P`, with every API call
served: `parseAuthorizationRequest` returns an `AuthRequest` exactly when the trust
check of `P` returns `true`, and when the check returns `false` it returns an error of
type `invalid_scope` for the redirect URI. -/
theorem crossClientScope_accepted_iff_trusted (s : Server) :
    (∀ (σ : World) (clientID peerID : String),
      (∀ e, (s.storage.GetClient peerID σ).1 = .error e → e = .ErrNotFound) →
      ∃ b, (s.validateCrossClientTrust clientID peerID σ).1 = .ok b ∧
        (b = true ↔
          (peerID = clientID ∨
            ∃ peer, (s.storage.GetClient peerID σ).1 = .ok peer ∧
              clientID ∈ peer.TrustedPeers))) ∧
    (∀ (r : http.Request) (σ : World) (peerID redirectURI : String) (client : storage.Client),
      r.ParseFormErr = none →
      url.QueryUnescape (url.Values.Get r.Form "redirect_uri") = .ok redirectURI →
      served σ →
      (s.storage.GetClient (url.Values.Get r.Form "client_id") σ).1 = .ok client →
      validateRedirectURI client redirectURI = true →
      scopeOpenID ∈ strings.Fields (url.Values.Get r.Form "scope") →
      (∀ x ∈ strings.Fields (url.Values.Get r.Form "scope"),
        standardScope x ∨ x = scopeCrossClientPrefix ++ peerID) →
      scopeCrossClientPrefix ++ peerID ∈ strings.Fields (url.Values.Get r.Form "scope") →
      (∀ newErr, parseAuthorizationRequestResponseTypes s.supportedResponseTypes
        (url.Values.Get r.Form "nonce") redirectURI newErr
        (strings.SplitSpace (url.Values.Get r.Form "response_type")) = none) →
      ((∃ req σ1, s.parseAuthorizationRequest s.supportedResponseTypes r σ = (.ok req, σ1)) ↔
        (s.validateCrossClientTrust (url.Values.Get r.Form "client_id") peerID
          (s.storage.GetClient (url.Values.Get r.Form "client_id") σ).2).1 = .ok true) ∧
      ((s.validateCrossClientTrust (url.Values.Get r.Form "client_id") peerID
          (s.storage.GetClient (url.Values.Get r.Form "client_id") σ).2).1 = .ok false →
        ∃ e σ1, s.parseAuthorizationRequest s.supportedResponseTypes r σ = (.error e, σ1) ∧
          e.Typ = errInvalidScope ∧ e.RedirectURI = redirectURI ∧
          e.State = r.FormValue "state")) := by
  constructor
  · intro σ clientID peerID hlookup
    rw [validateCrossClientTrust_fst]
    by_cases hp : peerID = clientID
    · exact ⟨true, by simp [hp], by simp [hp]⟩
    · simp only [hp, if_false, false_or]
      cases hg : (s.storage.GetClient peerID σ).1 with
      | error e =>
        have := hlookup e hg
        subst this
        exact ⟨false, by simp, by simp⟩
      | ok peer =>
        refine ⟨peer.TrustedPeers.any (fun id => id == clientID), rfl, ?_⟩
        simp [List.any_eq_true]
  · intro r σ peerID redirectURI client hpf hru hs hcl hvr hopen hall hP hrt
    have hs1 := served_GetClient s.storage (url.Values.Get r.Form "client_id") σ hs
    have hcontains : (strings.Fields (url.Values.Get r.Form "scope")).contains scopeOpenID
        = true := by
      simpa using hopen
    unfold Server.parseAuthorizationRequest
    simp only [hpf, hru]
    rcases hg : s.storage.GetClient (url.Values.Get r.Form "client_id") σ with ⟨res, σ1⟩
    rw [hg] at hcl hs1
    simp only at hcl hs1
    subst hcl
    simp only [hvr, Bool.not_true, Bool.false_eq_true, if_false]
    cases hT : (s.validateCrossClientTrust (url.Values.Get r.Form "client_id") peerID σ1).1 with
    | error e =>
      obtain ⟨σ2, hloop⟩ := scopesLoop_lookup_error s _ peerID σ1 hs1 e hT _ {} σ1 hs1 rfl hall hP
      rw [hloop]
      simp
    | ok b =>
      cases b with
      | true =>
        obtain ⟨σ2, -, -, -, hloop⟩ := scopesLoop_trusted s _ peerID σ1 hs1 hT _ {} σ1 hs1 rfl hall
        rw [hloop]
        simp only [hcontains, hrt, Bool.false_or, Bool.not_true, Bool.false_eq_true, if_false,
          List.length_nil, gt_iff_lt, lt_self_iff_false]
        refine ⟨⟨fun _ => ?_, fun _ => ⟨_, _, rfl⟩⟩, fun h => ?_⟩
        · trivial
        · simp at h
      | false =>
        obtain ⟨σ2, -, -, -, hloop⟩ :=
          scopesLoop_untrusted s _ peerID σ1 hs1 hT _ {} σ1 hs1 rfl hall
        have hlen : ((strings.Fields (url.Values.Get r.Form "scope")).filter
            (fun x => x == scopeCrossClientPrefix ++ peerID)).length > 0 := by
          apply List.length_pos.mpr
          apply List.ne_nil_of_mem (a := scopeCrossClientPrefix ++ peerID)
          rw [List.mem_filter]
          exact ⟨hP, by simp⟩
        rw [hloop]
        simp only [hcontains, Bool.false_or, Bool.not_true, Bool.false_eq_true, if_false,
          List.length_nil, gt_iff_lt, lt_self_iff_false, List.nil_append, hlen, if_true]
        simp [errInvalidScope, http.Request.FormValue]

end server

end Dex

namespace Dex

namespace server

open kubernetes

/-- Witness of C10: in the example deployment `C1` trusts `C2`, and the authorization
request of `C2` for the audience `C1` is accepted. -/
theorem crossClientScope_accepted_iff_trusted_witness :
    (∃ req σ1, example1.srv.parseAuthorizationRequest example1.srv.supportedResponseTypes
      example1.crossClient example1.world = (.ok req, σ1)) ∧
    (∃ b, (example1.srv.validateCrossClientTrust "C2" "C1" example1.world).1 = .ok b ∧
      (b = true ↔
        ("C1" = "C2" ∨
          ∃ peer, (example1.srv.storage.GetClient "C1" example1.world).1 = .ok peer ∧
            "C2" ∈ peer.TrustedPeers))) :=
  ⟨((crossClientScope_accepted_iff_trusted example1.srv).2 example1.crossClient example1.world
      "C1" "https://other/cb" example1.c2 rfl rfl (by decide) rfl (by decide) (by decide)
      (by decide) (by decide) (fun _ => rfl)).1.mpr rfl,
   (crossClientScope_accepted_iff_trusted example1.srv).1 example1.world "C2" "C1"
      (fun e h => by
        have h2 : (example1.srv.storage.GetClient "C1" example1.world).1 =
            .ok example1.c1 := rfl
        rw [h2] at h
        cases h)⟩

end server

end Dex

namespace Dex

namespace server

open kubernetes

/-! ## Redirect URIs -/

/-- C12. For a client that is not public, `validateRedirectURI` accepts a redirect URI
exactly when it is equal to one of the registered redirect URIs of the client; with no
registered redirect URI, none is accepted. -/
theorem validateRedirectURI_registered (client : storage.Client) (u : String)
    (h : client.Public = false) :
    (validateRedirectURI client u = true ↔ u ∈ client.RedirectURIs) ∧
    (client.RedirectURIs = [] → validateRedirectURI client u = false) := by
  unfold validateRedirectURI
  simp only [h, Bool.not_false, if_true]
  constructor
  · rw [List.any_eq_true]
    constructor
    · rintro ⟨x, hx, hux⟩
      have : u = x := by simpa using hux
      exact this ▸ hx
    · intro hu
      exact ⟨u, hu, by simp⟩
  · intro he
    simp [he]

/-- Witness of C12: client `C1` of the example deployment and its registered URI. -/
theorem validateRedirectURI_registered_witness :
    (validateRedirectURI example1.c1 "https://app/cb" = true ↔
      "https://app/cb" ∈ example1.c1.RedirectURIs) ∧
    validateRedirectURI example1.c1 "https://app/cb" = true :=
  ⟨(validateRedirectURI_registered example1.c1 "https://app/cb" rfl).1, by decide⟩

/-- C13, as amended. For a public client, `validateRedirectURI` accepts the OOB sentinel
`urn:ietf:wg:oauth:2.0:oob`, and every redirect URI it accepts is that sentinel or begins
with `http://localhost:`: the registered redirect URIs of a public client are not
consulted. -/
theorem validateRedirectURI_public (client : storage.Client) (h : client.Public = true) :
    validateRedirectURI client redirectURIOOB = true ∧
    ∀ u, validateRedirectURI client u = true →
      u = redirectURIOOB ∨ strings.HasPrefix u "http://localhost:" = true := by
  unfold validateRedirectURI
  simp only [h, Bool.not_true, Bool.false_eq_true, if_false, if_true, true_and]
  intro u hu
  by_cases h1 : u = redirectURIOOB
  · exact Or.inl h1
  · right
    simp only [h1, if_false] at hu
    by_contra h2
    simp [h2] at hu

/-- Counterexample to C13 as stated: for a public client, the redirect URI
`http://localhost:8000` is rejected, and so is the URI the client has registered; the OOB
sentinel is accepted. -/
theorem validateRedirectURI_public_rejects :
    example1.publicClient.Public = true ∧
    validateRedirectURI example1.publicClient "http://localhost:8000" = false ∧
    "https://native/cb" ∈ example1.publicClient.RedirectURIs ∧
    validateRedirectURI example1.publicClient "https://native/cb" = false ∧
    validateRedirectURI example1.publicClient "urn:ietf:wg:oauth:2.0:oob" = true := by
  decide

/-- Witness of C13 as amended: the public client of the example. -/
theorem validateRedirectURI_public_witness :
    validateRedirectURI example1.publicClient redirectURIOOB = true :=
  (validateRedirectURI_public example1.publicClient rfl).1

end server

end Dex

namespace Dex

namespace server

open kubernetes

/-! ## The audience of an ID token -/

/-- A trust check that answers `true` was decided by the clients of the cluster. -/
theorem trusts_of_validateCrossClientTrust (s : Server) (clientID peerID : String)
    (σ : World) (h : (s.validateCrossClientTrust clientID peerID σ).1 = .ok true) :
    trusts s.storage σ.cluster clientID peerID = true := by
  rw [validateCrossClientTrust_fst] at h
  unfold trusts
  by_cases hp : peerID = clientID
  · simp [hp]
  · simp only [hp, if_false] at h
    rw [GetClient_fst] at h
    cases hg : (s.storage.get resourceClient (s.storage.idToName peerID) σ).1 with
    | error e =>
      rw [hg] at h
      by_cases he : e = .ErrNotFound <;> simp [he] at h
    | ok c =>
      rw [hg] at h
      have hfind := (kubernetes.client.get_ok _ _ _ _ _ hg).2
      simp only [resourceClient] at hfind
      rw [hfind]
      by_cases hc : c.ID = peerID
      · simp only [hc, ne_eq, not_true_eq_false, if_false, Except.ok.injEq] at h
        simp only [toStorageClient] at h
        simp [hc, h]
      · simp [hc] at h

theorem crossClientPeers_cons (scope : String) (scopes : List String) :
    crossClientPeers (scope :: scopes) =
      (if (parseCrossClientScope scope).2 then [(parseCrossClientScope scope).1] else []) ++
        crossClientPeers scopes := by
  unfold crossClientPeers
  rw [List.filterMap_cons]
  by_cases h : (parseCrossClientScope scope).2 = true <;> simp [h]

/-- The scope loop of `newIDToken`, when it ends without an error: the peers of the
cross-client scopes were added to the audience in scope order, each of them trusts the
client, and the authorized party was not set. -/
theorem newIDTokenScopes_ok (s : Server) (clientID : String) (claims : storage.Claims)
    (scopes : List String) :
    ∀ (tok tok1 : idTokenClaims) (σ σ1 : World),
      s.newIDTokenScopes clientID claims scopes tok σ = (.ok tok1, σ1) →
      tok1.Audience = tok.Audience ++ crossClientPeers scopes ∧
      tok1.AuthorizingParty = tok.AuthorizingParty ∧
      ∀ p ∈ crossClientPeers scopes, trusts s.storage σ.cluster clientID p = true := by
  induction scopes with
  | nil =>
    intro tok tok1 σ σ1 h
    simp only [Server.newIDTokenScopes, Prod.mk.injEq, Except.ok.injEq] at h
    rw [← h.1]
    simp [crossClientPeers]
  | cons scope scopes ih =>
    intro tok tok1 σ σ1 h
    rw [crossClientPeers_cons]
    unfold Server.newIDTokenScopes at h
    by_cases h1 : scope = scopeEmail
    · have hp : (parseCrossClientScope scope).2 = false := by rw [h1]; decide
      simp only [h1, if_true] at h
      have := ih _ _ _ _ h
      simpa [hp] using this
    by_cases h2 : scope = scopeGroups
    · have hp : (parseCrossClientScope scope).2 = false := by rw [h2]; decide
      simp only [h1, h2, if_true, if_false] at h
      have := ih _ _ _ _ h
      simpa [hp] using this
    by_cases h3 : scope = scopeProfile
    · have hp : (parseCrossClientScope scope).2 = false := by rw [h3]; decide
      simp only [h1, h2, h3, if_true, if_false] at h
      have := ih _ _ _ _ h
      simpa [hp] using this
    simp only [h1, h2, h3, if_false] at h
    rcases hpc : parseCrossClientScope scope with ⟨peerID, ok⟩
    rw [hpc] at h
    cases ok with
    | false =>
      simp only at h
      have := ih _ _ _ _ h
      simpa using this
    | true =>
      simp only at h
      have hro := readsOnly_validateCrossClientTrust s clientID peerID σ
      rcases hv : s.validateCrossClientTrust clientID peerID σ with ⟨res, σa⟩
      rw [hv] at h hro
      cases res with
      | error e => simp at h
      | ok b =>
        cases b with
        | false => simp at h
        | true =>
          simp only at h
          have ht := trusts_of_validateCrossClientTrust s clientID peerID σ (by rw [hv])
          obtain ⟨ha, hz, hall⟩ := ih _ _ _ _ h
          rw [hro.1] at hall
          refine ⟨by simp [ha], hz, ?_⟩
          intro p hp
          simp only [if_true, List.singleton_append, List.mem_cons] at hp
          rcases hp with hp | hp
          · rw [hp]; exact ht
          · exact hall p hp

end server

end Dex

namespace Dex

namespace server

open kubernetes

/-- The claim set of `newIDToken`, when it is built without an error. -/
theorem newIDTokenClaims_ok (s : Server) (clientID : String) (claims : storage.Claims)
    (scopes : List String) (nonce : String) (σ σ1 : World) (tok : idTokenClaims)
    (h : s.newIDTokenClaims clientID claims scopes nonce σ = (.ok tok, σ1)) :
    (crossClientPeers scopes = [] → tok.Audience = [clientID] ∧ tok.AuthorizingParty = "") ∧
    (crossClientPeers scopes ≠ [] →
      tok.Audience = crossClientPeers scopes ∧ tok.AuthorizingParty = clientID) ∧
    ∀ p ∈ crossClientPeers scopes, trusts s.storage σ.cluster clientID p = true := by
  unfold Server.newIDTokenClaims at h
  simp only at h
  split at h
  · simp at h
  · rename_i tok0 σa hl
    obtain ⟨ha, hz, hall⟩ := newIDTokenScopes_ok s clientID claims scopes _ _ _ _ hl
    simp only [List.nil_append] at ha
    simp only at hz
    by_cases hp : crossClientPeers scopes = []
    · have hlen : tok0.Audience.length = 0 := by rw [ha, hp]; rfl
      simp only [hlen, if_true, Prod.mk.injEq, Except.ok.injEq] at h
      rw [← h.1]
      exact ⟨fun _ => ⟨rfl, hz⟩, fun hne => absurd hp hne, hall⟩
    · have hlen : ¬ tok0.Audience.length = 0 := by
        rw [ha]
        intro h0
        exact hp (List.length_eq_zero.mp h0)
      simp only [hlen, if_false, Prod.mk.injEq, Except.ok.injEq] at h
      rw [← h.1]
      exact ⟨fun he => absurd he hp, fun _ => ⟨ha, rfl⟩, hall⟩

/-- A claim set without an authorized party is marshalled without the field `azp`. -/
theorem Marshal_azp_absent (tok : idTokenClaims) (h : tok.AuthorizingParty = "") :
    tok.Marshal.field "azp" = none := by
  unfold idTokenClaims.Marshal json.Object.field json.omitemptyStr
  rw [h]
  simp only [if_true, List.append_nil, Option.map_eq_none', List.find?_eq_none,
    List.mem_append]
  intro kv hkv
  have hne : kv.1 ≠ "azp" := by
    rcases hkv with (((hkv | hkv) | hkv) | hkv) | hkv
    · rcases hkv with hkv | hkv
      · simp only [List.mem_cons, List.mem_nil_iff, or_false] at hkv
        rcases hkv with h | h | h | h | h <;> (rw [h]; dsimp only; decide)
      · split at hkv
        · simp at hkv
        · simp only [List.mem_singleton] at hkv
          rw [hkv]; dsimp only; decide
    · split at hkv
      · simp at hkv
      · simp only [List.mem_singleton] at hkv
        rw [hkv]; dsimp only; decide
    · split at hkv
      · simp only [List.mem_singleton] at hkv
        rw [hkv]; dsimp only; decide
      · simp at hkv
    · split at hkv
      · simp at hkv
      · simp only [List.mem_singleton] at hkv
        rw [hkv]; dsimp only; decide
    · split at hkv
      · simp at hkv
      · simp only [List.mem_singleton] at hkv
        rw [hkv]; dsimp only; decide
  simpa using hne

/-- C11. Whenever `newIDToken clientID claims scopes nonce` returns a token, the token is
the signature of the marshalled claim set, and in that claim set: if `scopes` has no
cross-client scope, `aud` is `[clientID]` and `azp` is empty and left out of the JSON;
otherwise `aud` is the list of the peer ids of the cross-client scopes in scope order
and `azp` is `clientID`. If a cross-client scope names a peer that, by the stored
clients, does not trust `clientID`, `newIDToken` returns an error and no token. -/
theorem newIDToken_audience (s : Server) (clientID : String) (claims : storage.Claims)
    (scopes : List String) (nonce : String) (σ : World) :
    (∀ idToken expiry σ2,
      s.newIDToken clientID claims scopes nonce σ = (.ok (idToken, expiry), σ2) →
      ∃ tok keys σ1, s.newIDTokenClaims clientID claims scopes nonce σ = (.ok tok, σ1) ∧
        (s.storage.GetKeys σ1).1 = .ok keys ∧
        s.sign keys tok.Marshal = .ok idToken ∧
        (crossClientPeers scopes = [] →
          tok.Audience = [clientID] ∧ tok.AuthorizingParty = "" ∧
            tok.Marshal.field "azp" = none) ∧
        (crossClientPeers scopes ≠ [] →
          tok.Audience = crossClientPeers scopes ∧ tok.AuthorizingParty = clientID)) ∧
    ((∃ peerID ∈ crossClientPeers scopes,
        trusts s.storage σ.cluster clientID peerID = false) →
      ∃ err σ2, s.newIDToken clientID claims scopes nonce σ = (.error err, σ2) ∧
        ∀ idToken expiry σ3,
          s.newIDToken clientID claims scopes nonce σ ≠ (.ok (idToken, expiry), σ3)) := by
  have key : ∀ idToken expiry σ2,
      s.newIDToken clientID claims scopes nonce σ = (.ok (idToken, expiry), σ2) →
      ∃ tok keys σ1, s.newIDTokenClaims clientID claims scopes nonce σ = (.ok tok, σ1) ∧
        (s.storage.GetKeys σ1).1 = .ok keys ∧
        s.sign keys tok.Marshal = .ok idToken := by
    intro idToken expiry σ2 h
    unfold Server.newIDToken at h
    simp only at h
    rcases hc : s.newIDTokenClaims clientID claims scopes nonce σ with ⟨res, σ1⟩
    rw [hc] at h
    cases res with
    | error e => simp at h
    | ok tok =>
      simp only at h
      rcases hk : s.storage.GetKeys σ1 with ⟨kres, σk⟩
      rw [hk] at h
      cases kres with
      | error e => simp at h
      | ok keys =>
        simp only at h
        cases hs : s.sign keys tok.Marshal with
        | error e => rw [hs] at h; simp at h
        | ok t =>
          rw [hs] at h
          simp only [Prod.mk.injEq, Except.ok.injEq] at h
          exact ⟨tok, keys, σ1, rfl, by rw [hk], by rw [← h.1.1]; exact hs⟩
  constructor
  · intro idToken expiry σ2 h
    obtain ⟨tok, keys, σ1, hc, hk, hs⟩ := key idToken expiry σ2 h
    obtain ⟨h0, h1, -⟩ := newIDTokenClaims_ok s clientID claims scopes nonce σ σ1 tok hc
    exact ⟨tok, keys, σ1, hc, hk, hs,
      fun he => ⟨(h0 he).1, (h0 he).2, Marshal_azp_absent tok (h0 he).2⟩, h1⟩
  · rintro ⟨peerID, hmem, hnt⟩
    have hno : ∀ idToken expiry σ3,
        s.newIDToken clientID claims scopes nonce σ ≠ (.ok (idToken, expiry), σ3) := by
      intro idToken expiry σ3 h
      obtain ⟨tok, keys, σ1, hc, -, -⟩ := key idToken expiry σ3 h
      have := (newIDTokenClaims_ok s clientID claims scopes nonce σ σ1 tok hc).2.2 peerID hmem
      rw [hnt] at this
      exact Bool.false_ne_true this
    rcases hr : s.newIDToken clientID claims scopes nonce σ with ⟨res, σ2⟩
    cases res with
    | error e => exact ⟨e, σ2, rfl, fun _ _ _ h => by simp at h⟩
    | ok v =>
      exact absurd hr (hno v.1 v.2 σ2)

/-- Witness of C11: in the example deployment, an ID token for client `C2` with the
cross-client scope of its peer `C1`, which trusts `C2`, has `aud = ["C1"]` and
`azp = "C2"`; and for client `C1` with the scope of `C2`, which does not trust `C1`,
there is no token. -/
theorem newIDToken_audience_witness :
    (∃ tok keys σ1,
      example1.srv.newIDTokenClaims "C2" {} ["openid", "audience:server:client_id:C1"] ""
        example1.world = (.ok tok, σ1) ∧
      (example1.srv.storage.GetKeys σ1).1 = .ok keys ∧
      example1.srv.sign keys tok.Marshal = .ok "jws:" ∧
      (crossClientPeers ["openid", "audience:server:client_id:C1"] = [] →
        tok.Audience = ["C2"] ∧ tok.AuthorizingParty = "" ∧ tok.Marshal.field "azp" = none) ∧
      (crossClientPeers ["openid", "audience:server:client_id:C1"] ≠ [] →
        tok.Audience = crossClientPeers ["openid", "audience:server:client_id:C1"] ∧
          tok.AuthorizingParty = "C2")) ∧
    crossClientPeers ["openid", "audience:server:client_id:C1"] = ["C1"] ∧
    (example1.srv.newIDToken "C1" {} ["openid", "audience:server:client_id:C2"] ""
      example1.world).1 = .error (.other "peer (C2) does not trust client") :=
  ⟨(newIDToken_audience example1.srv "C2" {} ["openid", "audience:server:client_id:C1"] ""
      example1.world).1 "jws:" 3610 _ rfl, by decide, rfl⟩

end server

end Dex

namespace Dex

namespace server

open kubernetes

/-! ## The scope loop of `parseAuthorizationRequest`, for every scope list -/

theorem standardScope_not_crossClient (x : String) (h : standardScope x) :
    (parseCrossClientScope x).2 = false := by
  unfold standardScope at h
  rcases h with h | h | h | h | h <;> (rw [h]; decide)

/-- A served trust check whose lookup gives no error other than `ErrNotFound` is decided
by the clients of the cluster. -/
theorem validateCrossClientTrust_eq_trusts (s : Server) (clientID peerID : String)
    (σ : World) (hf : σ.fault = none)
    (hl : ∀ e, (s.storage.GetClient peerID σ).1 = .error e → e = .ErrNotFound) :
    (s.validateCrossClientTrust clientID peerID σ).1 =
      .ok (trusts s.storage σ.cluster clientID peerID) := by
  rw [validateCrossClientTrust_fst]
  unfold trusts
  by_cases hp : peerID = clientID
  · simp [hp]
  · simp only [hp, if_false]
    have hb : (peerID == clientID) = false := by simpa using hp
    rw [hb, Bool.false_or]
    rw [GetClient_fst, kubernetes.client.get_served _ _ _ _ hf] at hl ⊢
    simp only [resourceClient] at hl ⊢
    cases hfind : σ.cluster.oauth2clients.find?
        (fun o => o.ObjectMeta.Name == s.storage.idToName peerID) with
    | none => simp
    | some c =>
      rw [hfind] at hl
      simp only at hl ⊢
      by_cases hc : c.ID = peerID
      · simp [hc, toStorageClient]
      · have := hl (.other ("get client: ID " ++ quote peerID ++
          " mapped to client with ID " ++ quote c.ID)) (by simp [hc])
        cases this

/-- The result of the scope loop when every API call is served and no lookup of a peer
gives an error other than `ErrNotFound`. -/
theorem scopesLoop_served (s : Server) (clientID : String) (σ0 : World) (hs0 : served σ0)
    (scopes : List String) :
    ∀ (acc : scopeCheck) (σ : World), served σ → σ.cluster = σ0.cluster →
      (∀ p ∈ crossClientPeers scopes, ∀ e,
        (s.storage.GetClient p σ0).1 = .error e → e = .ErrNotFound) →
      ∃ σ1, served σ1 ∧ σ1.cluster = σ0.cluster ∧ σ1.entropy = σ.entropy ∧
        s.parseAuthorizationRequestScopes clientID scopes acc σ =
          (.ok { hasOpenIDScope := acc.hasOpenIDScope || scopes.contains scopeOpenID
                 unrecognized := acc.unrecognized ++ scopes.filter unrecognizedScope
                 invalidScopes := acc.invalidScopes ++
                   scopes.filter (untrustedScope s.storage σ0.cluster clientID) }, σ1) := by
  induction scopes with
  | nil =>
    intro acc σ hs hc _
    exact ⟨σ, hs, hc, rfl, by simp [Server.parseAuthorizationRequestScopes]⟩
  | cons x rest ih =>
    intro acc σ hs hc hl
    have hlrest : ∀ p ∈ crossClientPeers rest, ∀ e,
        (s.storage.GetClient p σ0).1 = .error e → e = .ErrNotFound := by
      intro p hp
      apply hl p
      rw [crossClientPeers_cons]
      exact List.mem_append_right _ hp
    by_cases hstd : standardScope x
    · have hpc := standardScope_not_crossClient x hstd
      have hu : unrecognizedScope x = false := by simp [unrecognizedScope, hstd]
      have hv : untrustedScope s.storage σ0.cluster clientID x = false := by
        simp [untrustedScope, hpc]
      by_cases ho : x = scopeOpenID
      · rw [ho, scopesLoop_openid]
        obtain ⟨σ1, h1, h2, h3, h4⟩ := ih { acc with hasOpenIDScope := true } σ hs hc hlrest
        rw [ho] at hu hv
        exact ⟨σ1, h1, h2, h3, by rw [h4]; simp [List.filter_cons, hu, hv]⟩
      · rw [scopesLoop_standard s clientID x rest acc σ hstd ho]
        obtain ⟨σ1, h1, h2, h3, h4⟩ := ih acc σ hs hc hlrest
        exact ⟨σ1, h1, h2, h3, by
          rw [h4]; simp [List.contains_cons, ho, Ne.symm ho, List.filter_cons, hu, hv]⟩
    · have ho : x ≠ scopeOpenID := fun h => hstd (Or.inl h)
      have h2 : ¬ (x = scopeOfflineAccess ∨ x = scopeEmail ∨ x = scopeProfile ∨
          x = scopeGroups) := fun h => hstd (Or.inr h)
      rw [Server.parseAuthorizationRequestScopes]
      simp only [ho, h2, if_false]
      rcases hpc : parseCrossClientScope x with ⟨peerID, ok⟩
      cases ok with
      | false =>
        simp only
        have hu : unrecognizedScope x = true := by simp [unrecognizedScope, hstd, hpc]
        have hv : untrustedScope s.storage σ0.cluster clientID x = false := by
          simp [untrustedScope, hpc]
        obtain ⟨σ1, h1, h2, h3, h4⟩ :=
          ih { acc with unrecognized := acc.unrecognized ++ [x] } σ hs hc hlrest
        exact ⟨σ1, h1, h2, h3, by
          rw [h4]; simp [List.contains_cons, ho, Ne.symm ho, List.filter_cons, hu, hv]⟩
      | true =>
        simp only
        have hu : unrecognizedScope x = false := by simp [unrecognizedScope, hpc]
        have hmem : peerID ∈ crossClientPeers (x :: rest) := by
          rw [crossClientPeers_cons, hpc]
          simp
        have hf := fault_none_of_served σ hs
        have hf0 := fault_none_of_served σ0 hs0
        have hget : (s.storage.GetClient peerID σ).1 = (s.storage.GetClient peerID σ0).1 :=
          GetClient_fst_congr s.storage peerID σ0 σ hf0 hf (by rw [hc])
        have hT := validateCrossClientTrust_eq_trusts s clientID peerID σ hf
          (by rw [hget]; exact hl peerID hmem)
        have hsv := served_validateCrossClientTrust s clientID peerID σ hs
        have hro := readsOnly_validateCrossClientTrust s clientID peerID σ
        rcases hvt : s.validateCrossClientTrust clientID peerID σ with ⟨res, σa⟩
        rw [hvt] at hT hsv hro
        simp only at hT hsv
        subst hT
        simp only
        have hca : σa.cluster = σ0.cluster := by rw [hro.1, hc]
        cases htr : trusts s.storage σ.cluster clientID peerID with
        | false =>
          have hv : untrustedScope s.storage σ0.cluster clientID x = true := by
            simp [untrustedScope, hpc, ← hc, htr]
          simp only [Bool.not_false, if_true]
          obtain ⟨σ1, h1, h2, h3, h4⟩ :=
            ih { acc with invalidScopes := acc.invalidScopes ++ [x] } σa hsv hca hlrest
          exact ⟨σ1, h1, h2, h3.trans hro.2.1, by
            rw [h4]; simp [List.contains_cons, ho, Ne.symm ho, List.filter_cons, hu, hv]⟩
        | true =>
          have hv : untrustedScope s.storage σ0.cluster clientID x = false := by
            simp [untrustedScope, hpc, ← hc, htr]
          simp only [Bool.not_true, Bool.false_eq_true, if_false]
          obtain ⟨σ1, h1, h2, h3, h4⟩ := ih acc σa hsv hca hlrest
          exact ⟨σ1, h1, h2, h3.trans hro.2.1, by
            rw [h4]; simp [List.contains_cons, ho, Ne.symm ho, List.filter_cons, hu, hv]⟩

/-- Whenever the scope loop ends with `hasOpenIDScope` set, it was set before or `openid`
is among the scopes. -/
theorem scopesLoop_hasOpenID (s : Server) (clientID : String) (scopes : List String) :
    ∀ (acc chk : scopeCheck) (σ σ1 : World),
      s.parseAuthorizationRequestScopes clientID scopes acc σ = (.ok chk, σ1) →
      chk.hasOpenIDScope = true → acc.hasOpenIDScope = true ∨ scopeOpenID ∈ scopes := by
  induction scopes with
  | nil =>
    intro acc chk σ σ1 h hchk
    simp only [Server.parseAuthorizationRequestScopes, Prod.mk.injEq, Except.ok.injEq] at h
    rw [h.1]
    exact Or.inl hchk
  | cons x rest ih =>
    intro acc chk σ σ1 h hchk
    by_cases ho : x = scopeOpenID
    · exact Or.inr (by rw [ho]; exact List.mem_cons_self _ _)
    · have keep : ∀ (acc1 : scopeCheck) (σa : World),
          acc1.hasOpenIDScope = acc.hasOpenIDScope →
          s.parseAuthorizationRequestScopes clientID rest acc1 σa = (.ok chk, σ1) →
          acc.hasOpenIDScope = true ∨ scopeOpenID ∈ x :: rest := by
        intro acc1 σa hacc hrun
        rcases ih acc1 chk σa σ1 hrun hchk with h1 | h1
        · exact Or.inl (hacc ▸ h1)
        · exact Or.inr (List.mem_cons_of_mem _ h1)
      rw [Server.parseAuthorizationRequestScopes] at h
      simp only [ho, if_false] at h
      split at h
      · exact keep _ _ (by rfl) h
      · split at h
        · exact keep _ _ (by rfl) h
        · split at h
          · simp at h
          · split at h
            · exact keep _ _ (by rfl) h
            · exact keep _ _ (by rfl) h

/-- The error of the loop over the response types has type `invalid_request`. -/
theorem responseTypes_error (supported : List String) (nonce redirectURI : String)
    (newErr : String → String → authErr) (responseTypes : List String) (e : authErr)
    (h : parseAuthorizationRequestResponseTypes supported nonce redirectURI newErr
      responseTypes = some e) :
    ∃ d, e = newErr "invalid_request" d := by
  induction responseTypes with
  | nil => simp [parseAuthorizationRequestResponseTypes] at h
  | cons x rest ih =>
    rw [parseAuthorizationRequestResponseTypes] at h
    split at h
    · exact ⟨_, (Option.some.inj h).symm⟩
    · split at h
      · exact ih h
      · split at h
        · split at h
          · exact ⟨_, (Option.some.inj h).symm⟩
          · split at h
            · exact ⟨_, (Option.some.inj h).symm⟩
            · exact ih h
        · exact ⟨_, (Option.some.inj h).symm⟩

end server

end Dex

namespace Dex

namespace server

open kubernetes

/-! ## Every `AuthRequest` that `parseAuthorizationRequest` returns -/

/-- Whether the loop over the response types returns an error does not depend on how the
error is built. -/
theorem responseTypes_none_indep (supported : List String) (nonce redirectURI : String)
    (newErr newErr1 : String → String → authErr) (responseTypes : List String)
    (h : parseAuthorizationRequestResponseTypes supported nonce redirectURI newErr
      responseTypes = none) :
    parseAuthorizationRequestResponseTypes supported nonce redirectURI newErr1
      responseTypes = none := by
  induction responseTypes with
  | nil => simp [parseAuthorizationRequestResponseTypes]
  | cons x rest ih =>
    rw [parseAuthorizationRequestResponseTypes] at h ⊢
    split at h
    · simp at h
    · rename_i h1
      simp only [h1, if_false]
      split at h
      · rename_i h2
        simp only [h2, if_true]
        exact ih h
      · rename_i h2
        simp only [h2, if_false]
        split at h
        · rename_i h3
          simp only [h3, if_true]
          split at h
          · simp at h
          · rename_i h4
            simp only [h4, if_false]
            split at h
            · simp at h
            · rename_i h5
              simp only [h5, if_false]
              exact ih h
        · simp at h

/-- The run of `parseAuthorizationRequest` behind a returned `AuthRequest`: every check
passed, in the order of the source. -/
theorem parseAuthorizationRequest_ok (s : Server) (supported : List String)
    (r : http.Request) (σ σ3 : World) (req : storage.AuthRequest)
    (h : s.parseAuthorizationRequest supported r σ = (.ok req, σ3)) :
    ∃ redirectURI client σ1 chk σ2,
      r.ParseFormErr = none ∧
      url.QueryUnescape (url.Values.Get r.Form "redirect_uri") = .ok redirectURI ∧
      s.storage.GetClient (url.Values.Get r.Form "client_id") σ = (.ok client, σ1) ∧
      validateRedirectURI client redirectURI = true ∧
      s.parseAuthorizationRequestScopes (url.Values.Get r.Form "client_id")
        (strings.Fields (url.Values.Get r.Form "scope")) {} σ1 = (.ok chk, σ2) ∧
      chk.hasOpenIDScope = true ∧ chk.unrecognized = [] ∧ chk.invalidScopes = [] ∧
      (∀ newErr, parseAuthorizationRequestResponseTypes supported
        (url.Values.Get r.Form "nonce") redirectURI newErr
        (strings.SplitSpace (url.Values.Get r.Form "response_type")) = none) ∧
      req = { ID := (storage.NewID σ2).1
              ClientID := client.ID
              State := url.Values.Get r.Form "state"
              Nonce := url.Values.Get r.Form "nonce"
              ForceApprovalPrompt := decide (url.Values.Get r.Form "approval_prompt" = "force")
              Scopes := strings.Fields (url.Values.Get r.Form "scope")
              RedirectURI := redirectURI
              ResponseTypes := strings.SplitSpace (url.Values.Get r.Form "response_type") } ∧
      σ3 = (storage.NewID σ2).2 := by
  unfold Server.parseAuthorizationRequest at h
  split at h
  · simp at h
  · rename_i hpf
    split at h
    · simp at h
    · rename_i redirectURI hru
      simp only at h
      split at h
      · split at h <;> simp at h
      · rename_i client σ1 hg
        split at h
        · simp at h
        · rename_i hvr
          split at h
          · simp at h
          · rename_i chk σ2 hloop
            split at h
            · simp at h
            · rename_i hopen
              split at h
              · simp at h
              · rename_i hun
                split at h
                · simp at h
                · rename_i hinv
                  split at h
                  · simp at h
                  · rename_i hrt
                    simp only [Prod.mk.injEq, Except.ok.injEq] at h
                    refine ⟨redirectURI, client, σ1, chk, σ2, hpf, hru, hg, by simpa using hvr,
                      hloop, by simpa using hopen, ?_, ?_, ?_, h.1.symm, h.2.symm⟩
                    · exact List.length_eq_zero.mp (by simpa using hun)
                    · exact List.length_eq_zero.mp (by simpa using hinv)
                    · intro newErr
                      exact responseTypes_none_indep _ _ _ _ newErr _ hrt

end server

end Dex

namespace Dex

namespace server

open kubernetes

/-- The result of `parseAuthorizationRequest` once the client is known, the redirect URI
is valid and the scope loop has ended without an error: it is decided by the scope
checks and then by the loop over the response types. -/
theorem parseAuthorizationRequest_checked (s : Server) (supported : List String)
    (r : http.Request) (σ σ1 σ2 : World) (redirectURI : String) (client : storage.Client)
    (chk : scopeCheck)
    (hpf : r.ParseFormErr = none)
    (hru : url.QueryUnescape (url.Values.Get r.Form "redirect_uri") = .ok redirectURI)
    (hg : s.storage.GetClient (url.Values.Get r.Form "client_id") σ = (.ok client, σ1))
    (hvr : validateRedirectURI client redirectURI = true)
    (hloop : s.parseAuthorizationRequestScopes (url.Values.Get r.Form "client_id")
      (strings.Fields (url.Values.Get r.Form "scope")) {} σ1 = (.ok chk, σ2)) :
    s.parseAuthorizationRequest supported r σ =
      if chk.hasOpenIDScope = false ∨ chk.unrecognized ≠ [] ∨ chk.invalidScopes ≠ [] then
        (.error ⟨r.FormValue "state", redirectURI, "invalid_scope",
          if chk.hasOpenIDScope = false then "Missing required scope(s) [\"openid\"]."
          else if chk.unrecognized ≠ [] then
            "Unrecognized scope(s) " ++ quoteList chk.unrecognized
          else "Client can't request scope(s) " ++ quoteList chk.invalidScopes⟩, σ2)
      else
        match parseAuthorizationRequestResponseTypes supported (url.Values.Get r.Form "nonce")
            redirectURI (fun typ description => ⟨r.FormValue "state", redirectURI, typ,
              description⟩)
            (strings.SplitSpace (url.Values.Get r.Form "response_type")) with
        | some e => (.error e, σ2)
        | none =>
          (.ok { ID := (storage.NewID σ2).1
                 ClientID := client.ID
                 State := url.Values.Get r.Form "state"
                 Nonce := url.Values.Get r.Form "nonce"
                 ForceApprovalPrompt :=
                   decide (url.Values.Get r.Form "approval_prompt" = "force")
                 Scopes := strings.Fields (url.Values.Get r.Form "scope")
                 RedirectURI := redirectURI
                 ResponseTypes :=
                   strings.SplitSpace (url.Values.Get r.Form "response_type") },
            (storage.NewID σ2).2) := by
  unfold Server.parseAuthorizationRequest
  simp only [hpf, hru, hg, hvr, hloop, Bool.not_true, Bool.false_eq_true, if_false]
  cases ho : chk.hasOpenIDScope with
  | false => simp
  | true =>
    simp only [Bool.not_true, Bool.false_eq_true, if_false, false_or]
    by_cases hu : chk.unrecognized = []
    · by_cases hi : chk.invalidScopes = []
      · simp [hu, hi]
      · have hlen : chk.invalidScopes.length > 0 := List.length_pos.mpr hi
        simp [hu, hi, hlen]
    · have hlen : chk.unrecognized.length > 0 := List.length_pos.mpr hu
      simp [hu, hlen]

end server

end Dex

namespace Dex

namespace server

open kubernetes

theorem filter_ne_nil_iff {α : Type} (p : α → Bool) (l : List α) :
    l.filter p ≠ [] ↔ ∃ x ∈ l, p x = true := by
  constructor
  · intro h
    obtain ⟨x, hx⟩ := List.exists_mem_of_ne_nil _ h
    rw [List.mem_filter] at hx
    exact ⟨x, hx.1, hx.2⟩
  · rintro ⟨x, hx, hp⟩
    exact List.ne_nil_of_mem (List.mem_filter.mpr ⟨hx, hp⟩)

/-- C14. For an authorization request of a known client with a valid redirect URI, when
every API call is served and no lookup of a peer gives an error other than `ErrNotFound`:
`parseAuthorizationRequest` returns an error of type `invalid_scope` exactly when the
scope list lacks `openid`, or has a scope that is neither known by name nor a cross-client
scope, or has a cross-client scope whose peer does not trust the client. And every
`AuthRequest` that `parseAuthorizationRequest` returns has `openid` among its scopes. -/
theorem parseAuthorizationRequest_invalid_scope (s : Server) (supported : List String)
    (r : http.Request) (σ : World) :
    (∀ (redirectURI : String) (client : storage.Client),
      r.ParseFormErr = none →
      url.QueryUnescape (url.Values.Get r.Form "redirect_uri") = .ok redirectURI →
      served σ →
      (s.storage.GetClient (url.Values.Get r.Form "client_id") σ).1 = .ok client →
      validateRedirectURI client redirectURI = true →
      (∀ p ∈ crossClientPeers (strings.Fields (url.Values.Get r.Form "scope")), ∀ e,
        (s.storage.GetClient p σ).1 = .error e → e = .ErrNotFound) →
      ((∃ e σ1, s.parseAuthorizationRequest supported r σ = (.error e, σ1) ∧
          e.Typ = errInvalidScope) ↔
        (scopeOpenID ∉ strings.Fields (url.Values.Get r.Form "scope") ∨
         (∃ x ∈ strings.Fields (url.Values.Get r.Form "scope"), unrecognizedScope x = true) ∨
         (∃ x ∈ strings.Fields (url.Values.Get r.Form "scope"),
            untrustedScope s.storage σ.cluster (url.Values.Get r.Form "client_id") x
              = true)))) ∧
    (∀ req σ1, s.parseAuthorizationRequest supported r σ = (.ok req, σ1) →
      scopeOpenID ∈ req.Scopes) := by
  constructor
  · intro redirectURI client hpf hru hs hcl hvr hl
    have hs1 := served_GetClient s.storage (url.Values.Get r.Form "client_id") σ hs
    have hro := readsOnly_GetClient s.storage (url.Values.Get r.Form "client_id") σ
    rcases hg : s.storage.GetClient (url.Values.Get r.Form "client_id") σ with ⟨res, σ1⟩
    rw [hg] at hcl hs1 hro
    simp only at hcl hs1 hro
    subst hcl
    have hl1 : ∀ p ∈ crossClientPeers (strings.Fields (url.Values.Get r.Form "scope")), ∀ e,
        (s.storage.GetClient p σ1).1 = .error e → e = .ErrNotFound := by
      intro p hp e he
      apply hl p hp e
      rw [← he]
      exact (GetClient_fst_congr s.storage p σ σ1 (fault_none_of_served σ hs)
        (fault_none_of_served σ1 hs1) (by rw [hro.1])).symm
    obtain ⟨σ2, -, -, -, hloop⟩ := scopesLoop_served s (url.Values.Get r.Form "client_id") σ1
      hs1 (strings.Fields (url.Values.Get r.Form "scope")) {} σ1 hs1 rfl hl1
    rw [parseAuthorizationRequest_checked s supported r σ σ1 σ2 redirectURI client _ hpf hru
      hg hvr hloop]
    simp only [Bool.false_or, List.nil_append, hro.1]
    have hiff : ((strings.Fields (url.Values.Get r.Form "scope")).contains scopeOpenID = false ∨
        (strings.Fields (url.Values.Get r.Form "scope")).filter unrecognizedScope ≠ [] ∨
        (strings.Fields (url.Values.Get r.Form "scope")).filter
          (untrustedScope s.storage σ.cluster (url.Values.Get r.Form "client_id")) ≠ []) ↔
        (scopeOpenID ∉ strings.Fields (url.Values.Get r.Form "scope") ∨
         (∃ x ∈ strings.Fields (url.Values.Get r.Form "scope"), unrecognizedScope x = true) ∨
         (∃ x ∈ strings.Fields (url.Values.Get r.Form "scope"),
            untrustedScope s.storage σ.cluster (url.Values.Get r.Form "client_id") x
              = true)) := by
      rw [filter_ne_nil_iff, filter_ne_nil_iff]
      have : (strings.Fields (url.Values.Get r.Form "scope")).contains scopeOpenID = false ↔
          scopeOpenID ∉ strings.Fields (url.Values.Get r.Form "scope") := by
        simp
      rw [this]
    rw [← hiff]
    by_cases hP : ((strings.Fields (url.Values.Get r.Form "scope")).contains scopeOpenID = false ∨
        (strings.Fields (url.Values.Get r.Form "scope")).filter unrecognizedScope ≠ [] ∨
        (strings.Fields (url.Values.Get r.Form "scope")).filter
          (untrustedScope s.storage σ.cluster (url.Values.Get r.Form "client_id")) ≠ [])
    · rw [if_pos hP]
      exact ⟨fun _ => hP, fun _ => ⟨_, _, rfl, rfl⟩⟩
    · rw [if_neg hP]
      refine ⟨fun h => ?_, fun h => absurd h hP⟩
      obtain ⟨e, σa, he, ht⟩ := h
      split at he
      · rename_i e1 hrt
        obtain ⟨d, hd⟩ := responseTypes_error _ _ _ _ _ _ hrt
        simp only [Prod.mk.injEq, Except.error.injEq] at he
        rw [← he.1, hd] at ht
        simp only at ht
        exact absurd ht (by decide)
      · simp at he
  · intro req σ3 h
    obtain ⟨redirectURI, client, σ1, chk, σ2, -, -, -, -, hloop, ho, -, -, -, hreq, -⟩ :=
      parseAuthorizationRequest_ok s supported r σ σ3 req h
    rw [hreq]
    rcases scopesLoop_hasOpenID s _ _ _ _ _ _ hloop ho with h1 | h1
    · simp at h1
    · exact h1

/-- Witness of C14: in the example deployment, the authorization request of `C1` for
the audience `C2`, which does not trust `C1`, is answered with `invalid_scope`; and the
request of `C2` for the audience `C1` is returned with `openid` among its scopes. -/
theorem parseAuthorizationRequest_invalid_scope_witness :
    (∃ e σ1, example1.srv.parseAuthorizationRequest ["code"] example1.crossClientUntrusted
        example1.world = (.error e, σ1) ∧ e.Typ = errInvalidScope) ∧
    (∃ req σ1, example1.srv.parseAuthorizationRequest ["code"] example1.crossClient
        example1.world = (.ok req, σ1) ∧ scopeOpenID ∈ req.Scopes) :=
  ⟨((parseAuthorizationRequest_invalid_scope example1.srv ["code"]
      example1.crossClientUntrusted example1.world).1 "https://app/cb" example1.c1 rfl rfl
      (by decide) rfl (by decide)
      (fun p hp e he => by
        have hp2 : p = "C2" := by
          have : crossClientPeers (strings.Fields (url.Values.Get
            example1.crossClientUntrusted.Form "scope")) = ["C2"] := by decide
          rw [this] at hp
          simpa using hp
        subst hp2
        have h2 : (example1.srv.storage.GetClient "C2" example1.world).1 =
            .ok example1.c2 := rfl
        rw [h2] at he
        cases he)).mpr (Or.inr (Or.inr ⟨"audience:server:client_id:C2", by decide, by decide⟩)),
   ⟨_, _, rfl, (parseAuthorizationRequest_invalid_scope example1.srv ["code"]
      example1.crossClient example1.world).2 _ _ rfl⟩⟩

end server

end Dex

namespace Dex

namespace server

open kubernetes

/-! ## The response types of an authorization request -/

/-- When the loop over the response types returns no error, every response type is
supported, and with `token` among them the nonce is not empty and the redirect URI is
not the OOB sentinel. -/
theorem responseTypes_none (supported : List String) (nonce redirectURI : String)
    (newErr : String → String → authErr) (responseTypes : List String)
    (h : parseAuthorizationRequestResponseTypes supported nonce redirectURI newErr
      responseTypes = none) :
    (∀ rt ∈ responseTypes, supported.contains rt = true) ∧
    (responseTypeToken ∈ responseTypes → nonce ≠ "" ∧ redirectURI ≠ redirectURIOOB) := by
  induction responseTypes with
  | nil => simp
  | cons x rest ih =>
    rw [parseAuthorizationRequestResponseTypes] at h
    split at h
    · simp at h
    · rename_i h1
      have hx : supported.contains x = true := by simpa using h1
      split at h
      · rename_i h2
        obtain ⟨ha, hb⟩ := ih h
        refine ⟨?_, ?_⟩
        · intro rt hrt
          rcases List.mem_cons.mp hrt with e | e
          · rw [e]; exact hx
          · exact ha rt e
        · intro hmem
          rcases List.mem_cons.mp hmem with e | e
          · rw [← e] at h2
            exact absurd h2 (by decide)
          · exact hb e
      · split at h
        · split at h
          · simp at h
          · rename_i h4
            split at h
            · simp at h
            · rename_i h5
              obtain ⟨ha, -⟩ := ih h
              refine ⟨?_, fun _ => ⟨h4, h5⟩⟩
              intro rt hrt
              rcases List.mem_cons.mp hrt with e | e
              · rw [e]; exact hx
              · exact ha rt e
        · simp at h

/-- C15. (1) For an authorization request that passes the checks of the client, of the
redirect URI and of the scopes, and has `token` among its response types:
`parseAuthorizationRequest` returns an error, of type `invalid_request` and for the
redirect URI, when the nonce is empty or the redirect URI is the OOB sentinel.
(2) Every `AuthRequest` that `parseAuthorizationRequest` returns with `token` among its
response types has a non-empty nonce and a redirect URI other than the OOB sentinel, and
every returned `AuthRequest` has only supported response types. -/
theorem parseAuthorizationRequest_token (s : Server) (supported : List String)
    (r : http.Request) (σ : World) :
    (∀ (redirectURI : String) (client : storage.Client) (σ1 σ2 : World) (chk : scopeCheck),
      r.ParseFormErr = none →
      url.QueryUnescape (url.Values.Get r.Form "redirect_uri") = .ok redirectURI →
      s.storage.GetClient (url.Values.Get r.Form "client_id") σ = (.ok client, σ1) →
      validateRedirectURI client redirectURI = true →
      s.parseAuthorizationRequestScopes (url.Values.Get r.Form "client_id")
        (strings.Fields (url.Values.Get r.Form "scope")) {} σ1 = (.ok chk, σ2) →
      chk.hasOpenIDScope = true → chk.unrecognized = [] → chk.invalidScopes = [] →
      responseTypeToken ∈ strings.SplitSpace (url.Values.Get r.Form "response_type") →
      (url.Values.Get r.Form "nonce" = "" ∨ redirectURI = redirectURIOOB) →
      ∃ e, s.parseAuthorizationRequest supported r σ = (.error e, σ2) ∧
        e.Typ = errInvalidRequest ∧ e.RedirectURI = redirectURI) ∧
    (∀ req σ3, s.parseAuthorizationRequest supported r σ = (.ok req, σ3) →
      (responseTypeToken ∈ req.ResponseTypes →
        req.Nonce ≠ "" ∧ req.RedirectURI ≠ redirectURIOOB) ∧
      ∀ rt ∈ req.ResponseTypes, supported.contains rt = true) := by
  constructor
  · intro redirectURI client σ1 σ2 chk hpf hru hg hvr hloop ho hu hi htok hbad
    rw [parseAuthorizationRequest_checked s supported r σ σ1 σ2 redirectURI client chk hpf hru
      hg hvr hloop]
    have hP : ¬ (chk.hasOpenIDScope = false ∨ chk.unrecognized ≠ [] ∨
        chk.invalidScopes ≠ []) := by
      simp [ho, hu, hi]
    rw [if_neg hP]
    cases hrt : parseAuthorizationRequestResponseTypes supported (url.Values.Get r.Form "nonce")
        redirectURI (fun typ description => ⟨r.FormValue "state", redirectURI, typ,
          description⟩)
        (strings.SplitSpace (url.Values.Get r.Form "response_type")) with
    | none =>
      have := (responseTypes_none _ _ _ _ _ hrt).2 htok
      rcases hbad with hb | hb
      · exact absurd hb this.1
      · exact absurd hb this.2
    | some e =>
      obtain ⟨d, hd⟩ := responseTypes_error _ _ _ _ _ _ hrt
      exact ⟨e, rfl, by rw [hd]; rfl, by rw [hd]⟩
  · intro req σ3 h
    obtain ⟨redirectURI, client, σ1, chk, σ2, -, -, -, -, -, -, -, -, hrt, hreq, -⟩ :=
      parseAuthorizationRequest_ok s supported r σ σ3 req h
    have := responseTypes_none _ _ _ _ _ (hrt (fun _ _ => ⟨"", "", "", ""⟩))
    rw [hreq]
    exact ⟨this.2, this.1⟩

/-- Witness of C15: with the response types `code` and `token` supported, the request of
`C2` for `code token` without a nonce is rejected with `invalid_request`. -/
theorem parseAuthorizationRequest_token_witness :
    ∃ e, example1.srv.parseAuthorizationRequest ["code", "token"] example1.implicit
        example1.world =
        (.error e, (example1.srv.storage.GetClient "C2" example1.world).2) ∧
      e.Typ = errInvalidRequest ∧ e.RedirectURI = "https://other/cb" :=
  (parseAuthorizationRequest_token example1.srv ["code", "token"] example1.implicit
    example1.world).1 "https://other/cb" example1.c2
    (example1.srv.storage.GetClient "C2" example1.world).2
    (example1.srv.storage.GetClient "C2" example1.world).2
    { hasOpenIDScope := true } rfl rfl rfl (by decide) rfl rfl rfl rfl (by decide)
    (Or.inl rfl)

end server

end Dex

namespace Dex

namespace server

open kubernetes

/-- C16, as amended. For an authorization request that passes the checks of the client,
of the redirect URI and of the scopes, and has a response type that the server does not
support: `parseAuthorizationRequest` returns an error of type `invalid_request`, for the
redirect URI and with the state of the request. -/
theorem parseAuthorizationRequest_unsupported (s : Server) (supported : List String)
    (r : http.Request) (σ σ1 σ2 : World) (redirectURI : String) (client : storage.Client)
    (chk : scopeCheck)
    (hpf : r.ParseFormErr = none)
    (hru : url.QueryUnescape (url.Values.Get r.Form "redirect_uri") = .ok redirectURI)
    (hg : s.storage.GetClient (url.Values.Get r.Form "client_id") σ = (.ok client, σ1))
    (hvr : validateRedirectURI client redirectURI = true)
    (hloop : s.parseAuthorizationRequestScopes (url.Values.Get r.Form "client_id")
      (strings.Fields (url.Values.Get r.Form "scope")) {} σ1 = (.ok chk, σ2))
    (ho : chk.hasOpenIDScope = true) (hu : chk.unrecognized = [])
    (hi : chk.invalidScopes = [])
    (hrt : ∃ rt ∈ strings.SplitSpace (url.Values.Get r.Form "response_type"),
      supported.contains rt = false) :
    ∃ e, s.parseAuthorizationRequest supported r σ = (.error e, σ2) ∧
      e.Typ = errInvalidRequest ∧ e.RedirectURI = redirectURI ∧
      e.State = r.FormValue "state" := by
  rw [parseAuthorizationRequest_checked s supported r σ σ1 σ2 redirectURI client chk hpf hru
    hg hvr hloop]
  have hP : ¬ (chk.hasOpenIDScope = false ∨ chk.unrecognized ≠ [] ∨
      chk.invalidScopes ≠ []) := by
    simp [ho, hu, hi]
  rw [if_neg hP]
  cases hres : parseAuthorizationRequestResponseTypes supported
      (url.Values.Get r.Form "nonce") redirectURI
      (fun typ description => ⟨r.FormValue "state", redirectURI, typ, description⟩)
      (strings.SplitSpace (url.Values.Get r.Form "response_type")) with
  | none =>
    obtain ⟨rt, hmem, hno⟩ := hrt
    have := (responseTypes_none _ _ _ _ _ hres).1 rt hmem
    rw [hno] at this
    exact absurd this (by decide)
  | some e =>
    obtain ⟨d, hd⟩ := responseTypes_error _ _ _ _ _ _ hres
    exact ⟨e, rfl, by rw [hd]; rfl, by rw [hd], by rw [hd]⟩

/-- Counterexample to C16 as stated: with only `code` supported, the request of `C2` for
`code token` passes the checks of the client, of the redirect URI and of the scopes, and
the error returned for the unsupported `token` has type `invalid_request`, not
`unsupported_response_type`. -/
theorem unsupported_response_type_not_returned :
    (example1.srv.storage.GetClient "C2" example1.world).1 = .ok example1.c2 ∧
    validateRedirectURI example1.c2 "https://other/cb" = true ∧
    (example1.srv.parseAuthorizationRequestScopes "C2" ["openid"] {} example1.world).1 =
      .ok { hasOpenIDScope := true } ∧
    "token" ∈ strings.SplitSpace "code token" ∧
    ["code"].contains "token" = false ∧
    (example1.srv.parseAuthorizationRequest ["code"] example1.implicit example1.world).1 =
      .error ⟨"xyz", "https://other/cb", "invalid_request", "Invalid response type \"token\""⟩ ∧
    "invalid_request" ≠ errUnsupportedResponseType :=
  ⟨rfl, by decide, rfl, by decide, by decide, rfl, by decide⟩

/-- Witness of C16 as amended: the same request. -/
theorem parseAuthorizationRequest_unsupported_witness :
    ∃ e, example1.srv.parseAuthorizationRequest ["code"] example1.implicit example1.world =
        (.error e, (example1.srv.storage.GetClient "C2" example1.world).2) ∧
      e.Typ = errInvalidRequest ∧ e.RedirectURI = "https://other/cb" ∧
      e.State = example1.implicit.FormValue "state" :=
  parseAuthorizationRequest_unsupported example1.srv ["code"] example1.implicit
    example1.world (example1.srv.storage.GetClient "C2" example1.world).2
    (example1.srv.storage.GetClient "C2" example1.world).2 "https://other/cb" example1.c2
    { hasOpenIDScope := true } rfl rfl rfl (by decide) rfl rfl rfl rfl
    ⟨"token", by decide, by decide⟩

end server

end Dex

namespace Dex

namespace server

open kubernetes

/-! ## The error responses of the token endpoint -/

theorem tokenEndpointResponse_server_error (s : Server) (w : http.ResponseWriter) :
    tokenEndpointResponse s w
      (s.tokenErrHelper w errServerError "" http.StatusInternalServerError) :=
  Or.inr ⟨_, _, _, rfl, Or.inr (Or.inr (Or.inr ⟨rfl, rfl⟩))⟩

theorem tokenEndpointResponse_invalid_request (s : Server) (w : http.ResponseWriter)
    (description : String) :
    tokenEndpointResponse s w
      (s.tokenErrHelper w errInvalidRequest description http.StatusBadRequest) :=
  Or.inr ⟨_, _, _, rfl, Or.inl ⟨rfl, rfl⟩⟩

theorem tokenEndpointResponse_invalid_client (s : Server) (w : http.ResponseWriter)
    (description : String) :
    tokenEndpointResponse s w
      (s.tokenErrHelper w errInvalidClient description http.StatusUnauthorized) :=
  Or.inr ⟨_, _, _, rfl, Or.inr (Or.inr (Or.inl ⟨rfl, rfl⟩))⟩

theorem tokenEndpointResponse_invalid_grant (s : Server) (w : http.ResponseWriter) :
    tokenEndpointResponse s w
      (s.tokenErrHelper w errInvalidGrant "" http.StatusBadRequest) :=
  Or.inr ⟨_, _, _, rfl, Or.inr (Or.inl ⟨rfl, rfl⟩)⟩

theorem tokenEndpointResponse_token (s : Server) (w : http.ResponseWriter)
    (idToken refreshToken : String) (expiry : Time) (σ : World) :
    tokenEndpointResponse s w (s.writeAccessToken w idToken refreshToken expiry σ).1 :=
  Or.inl ⟨_, _, _, _, rfl⟩

theorem tokenEndpointResponse_handleAuthCode (s : Server) (w : http.ResponseWriter)
    (r : http.Request) (client : storage.Client) (σ : World) :
    tokenEndpointResponse s w (s.handleAuthCode w r client σ).1 := by
  unfold Server.handleAuthCode
  simp only
  repeat' split
  all_goals first
    | exact tokenEndpointResponse_server_error s w
    | exact tokenEndpointResponse_invalid_request s w _
    | exact tokenEndpointResponse_token s w _ _ _ _

theorem tokenEndpointResponse_handleRefreshToken (s : Server) (w : http.ResponseWriter)
    (r : http.Request) (client : storage.Client) (σ : World) :
    tokenEndpointResponse s w (s.handleRefreshToken w r client σ).1 := by
  unfold Server.handleRefreshToken
  simp only
  repeat' split
  all_goals first
    | exact tokenEndpointResponse_server_error s w
    | exact tokenEndpointResponse_invalid_request s w _
    | exact tokenEndpointResponse_token s w _ _ _ _

theorem tokenEndpointResponse_handleToken (s : Server) (w : http.ResponseWriter)
    (r : http.Request) (σ : World) :
    tokenEndpointResponse s w (s.handleToken w r σ).1 := by
  have has : ∀ clientID clientSecret,
      tokenEndpointResponse s w (s.handleTokenAs w r clientID clientSecret σ).1 := by
    intro clientID clientSecret
    unfold Server.handleTokenAs
    split
    · split
      · exact tokenEndpointResponse_server_error s w
      · exact tokenEndpointResponse_invalid_client s w _
    · split
      · exact tokenEndpointResponse_invalid_client s w _
      · simp only
        split
        · exact tokenEndpointResponse_handleAuthCode s w r _ _
        · split
          · exact tokenEndpointResponse_handleRefreshToken s w r _ _
          · exact tokenEndpointResponse_invalid_grant s w
  unfold Server.handleToken
  split
  · split
    · exact tokenEndpointResponse_invalid_request s w _
    · split
      · exact tokenEndpointResponse_invalid_request s w _
      · exact has _ _
  · exact has _ _

end server

end Dex

namespace Dex

namespace server

open kubernetes

/-- C19. Every response of `handleToken`, `handleAuthCode` and `handleRefreshToken` is
the token response or an error response written by `tokenErr` with an error type and a
status that go together: `invalid_request` or `invalid_grant` with 400, `invalid_client`
with 401, `server_error` with 500. The error response is a JSON object with the field
`error`, and the field `error_description` only when the description is not empty; it is
not a token response; and on a writer whose header was not yet written its HTTP status is
the status given to `tokenErr`, which is not zero. -/
theorem token_error_responses (s : Server) (w : http.ResponseWriter) (r : http.Request)
    (client : storage.Client) (σ : World) :
    tokenEndpointResponse s w (s.handleToken w r σ).1 ∧
    tokenEndpointResponse s w (s.handleAuthCode w r client σ).1 ∧
    tokenEndpointResponse s w (s.handleRefreshToken w r client σ).1 ∧
    ∀ typ description statusCode,
      (tokenErr w typ description statusCode).Body.getLast? =
        some (.json ([("error", .str typ)] ++
          if description = "" then [] else [("error_description", .str description)])) ∧
      tokenResponse? (tokenErr w typ description statusCode) = none ∧
      (w.StatusCode = 0 → statusCode ≠ 0 →
        (tokenErr w typ description statusCode).StatusCode = statusCode) := by
  refine ⟨tokenEndpointResponse_handleToken s w r σ,
    tokenEndpointResponse_handleAuthCode s w r client σ,
    tokenEndpointResponse_handleRefreshToken s w r client σ, ?_⟩
  intro typ description statusCode
  refine ⟨?_, tokenResponse?_tokenErr w typ description statusCode, ?_⟩
  · simp [tokenErr, http.ResponseWriter.Write, http.ResponseWriter.WriteHeader,
      http.ResponseWriter.SetHeader, json.omitemptyStr]
  · intro h0 hc
    simp [tokenErr, http.ResponseWriter.Write, http.ResponseWriter.WriteHeader,
      http.ResponseWriter.SetHeader, h0, hc]

/-- Witness of C19: in the example deployment a wrong client secret is answered with the
error `invalid_client`, and the status of that response is 401. -/
theorem token_error_responses_witness :
    (example1.srv.handleToken {} example1.wrongSecret example1.world).1 =
      tokenErr {} errInvalidClient "Invalid client credentials." 401 ∧
    (tokenErr {} errInvalidClient "Invalid client credentials." 401).StatusCode = 401 :=
  ⟨rfl, ((token_error_responses example1.srv {} example1.wrongSecret example1.c1
    example1.world).2.2.2 errInvalidClient "Invalid client credentials." 401).2.2 rfl
    (by decide)⟩

end server

end Dex

namespace Dex

namespace server

open kubernetes

/-! ## What a garbage collection removes -/

/-- The storage after the second loop of `GarbageCollect`, when it ends without an error:
the auth codes that have the name of an expired auth code of the listing are gone. -/
theorem GarbageCollectAuthCodes_cluster (cli : kubernetes.client) (now : Time)
    (l : List kubernetes.AuthCode) :
    ∀ (acc : storage.GCResult × Option Error) (σ σ1 : World) (result : storage.GCResult),
      cli.GarbageCollectAuthCodes now l acc σ = ((result, none), σ1) →
      σ1.cluster = { σ.cluster with
        authcodes := σ.cluster.authcodes.filter (fun x =>
          !(l.any (fun a => now.After a.Expiry && (x.ObjectMeta.Name == a.ObjectMeta.Name)))) } := by
  induction l with
  | nil =>
    intro acc σ σ1 result h
    unfold kubernetes.client.GarbageCollectAuthCodes at h
    simp only [Prod.mk.injEq] at h
    rw [← h.2]
    simp
  | cons a rest ih =>
    intro acc σ σ1 result h
    obtain ⟨res0, delErr⟩ := acc
    unfold kubernetes.client.GarbageCollectAuthCodes at h
    split at h
    · rename_i hexp
      have hs := kubernetes.client.delete_spec cli resourceAuthCode a.ObjectMeta.Name σ
      split at h
      · rename_i err σ2 hd
        have := (GarbageCollectAuthCodes_ok cli now rest _ _ _ _ h).1
        simp at this
      · rename_i σ2 hd
        rw [hd] at hs
        simp only [if_true] at hs
        have hσ2 : σ2.cluster = { σ.cluster with
            authcodes := σ.cluster.authcodes.filter
              (fun x => !(x.ObjectMeta.Name == a.ObjectMeta.Name)) } := by
          rw [hs]; rfl
        rw [ih _ _ _ _ h, hσ2]
        simp only [List.filter_filter]
        congr 1
        apply List.filter_congr
        intro x _
        simp only [hexp, List.any_cons, Bool.true_and, Bool.not_or]
        exact Bool.and_comm _ _
    · rename_i hexp
      rw [ih _ _ _ _ h]
      dsimp only
      congr 1
      apply List.filter_congr
      intro x _
      simp [hexp, List.any_cons]

end server

end Dex

namespace Dex

namespace server

open kubernetes

/-- The storage after the first loop of `GarbageCollect`, when it ends without an error:
it started without one, and the auth requests that have the name of an expired auth
request of the listing are gone. -/
theorem GarbageCollectAuthRequests_cluster (cli : kubernetes.client) (now : Time)
    (l : List kubernetes.AuthRequest) :
    ∀ (acc : storage.GCResult × Option Error) (σ σ1 : World) (result : storage.GCResult),
      cli.GarbageCollectAuthRequests now l acc σ = ((result, none), σ1) →
      acc.2 = none ∧
      σ1.cluster = { σ.cluster with
        authrequests := σ.cluster.authrequests.filter (fun x =>
          !(l.any (fun a => now.After a.Expiry && (x.ObjectMeta.Name == a.ObjectMeta.Name)))) } := by
  induction l with
  | nil =>
    intro acc σ σ1 result h
    unfold kubernetes.client.GarbageCollectAuthRequests at h
    simp only [Prod.mk.injEq] at h
    rw [← h.2, h.1]
    simp
  | cons a rest ih =>
    intro acc σ σ1 result h
    obtain ⟨res0, delErr⟩ := acc
    unfold kubernetes.client.GarbageCollectAuthRequests at h
    split at h
    · rename_i hexp
      have hs := kubernetes.client.delete_spec cli resourceAuthRequest a.ObjectMeta.Name σ
      split at h
      · rename_i err σ2 hd
        have := (ih _ _ _ _ h).1
        simp at this
      · rename_i σ2 hd
        rw [hd] at hs
        simp only [if_true] at hs
        have hσ2 : σ2.cluster = { σ.cluster with
            authrequests := σ.cluster.authrequests.filter
              (fun x => !(x.ObjectMeta.Name == a.ObjectMeta.Name)) } := by
          rw [hs]; rfl
        obtain ⟨hacc, hcl⟩ := ih _ _ _ _ h
        refine ⟨hacc, ?_⟩
        rw [hcl, hσ2]
        simp only [List.filter_filter]
        congr 1
        apply List.filter_congr
        intro x _
        simp only [hexp, List.any_cons, Bool.true_and, Bool.not_or]
        exact Bool.and_comm _ _
    · rename_i hexp
      obtain ⟨hacc, hcl⟩ := ih _ _ _ _ h
      refine ⟨hacc, ?_⟩
      rw [hcl]
      dsimp only
      congr 1
      apply List.filter_congr
      intro x _
      simp [hexp, List.any_cons]

/-- Among objects with distinct names, the objects that have the name of an expired
object are the expired objects. -/
theorem filter_expired_names {α : Type} (name : α → String) (expired : α → Bool)
    (l : List α) (hnd : (l.map name).Nodup) :
    l.filter (fun x => !(l.any (fun a => expired a && (name x == name a)))) =
      l.filter (fun x => !expired x) := by
  apply List.filter_congr
  intro x hx
  congr 1
  cases hex : expired x with
  | true =>
    rw [List.any_eq_true]
    exact ⟨x, hx, by simp [hex]⟩
  | false =>
    rw [← Bool.not_eq_true, List.any_eq_true]
    rintro ⟨a, ha, hcond⟩
    simp only [Bool.and_eq_true, beq_iff_eq] at hcond
    have := List.inj_on_of_nodup_map hnd hx ha hcond.2
    rw [this, hcond.1] at hex
    exact Bool.noConfusion hex

end server

end Dex

namespace Dex

namespace server

open kubernetes

theorem served_step (σ : World) (ev : Event) (c : Cluster) (h : served σ) :
    served (σ.step ev c) := by
  intro f hf
  rw [World.step_faults] at hf
  exact h f (List.mem_of_mem_tail hf)

/-- A served `delete` of a name that is there succeeds. -/
theorem delete_served {α : Type} (cli : kubernetes.client) (r : Resource α) (name : String)
    (σ : World) (hs : served σ)
    (hname : (r.items σ.cluster).any (fun x => r.name x == name) = true) :
    ∃ σ1, cli.delete r name σ = (none, σ1) ∧ served σ1 ∧
      σ1.cluster = r.setItems ((r.items σ.cluster).filter (fun x => !(r.name x == name)))
        σ.cluster := by
  unfold kubernetes.client.delete
  rw [fault_none_of_served σ hs]
  simp only [hname, if_true]
  exact ⟨_, rfl, served_step _ _ _ hs, rfl⟩

/-- A served `list` returns the objects of the resource and leaves the storage as it is. -/
theorem list_served {α : Type} (cli : kubernetes.client) (r : Resource α) (σ : World)
    (hs : served σ) :
    ∃ σ1, cli.list r σ = (.ok (r.items σ.cluster), σ1) ∧ served σ1 ∧
      σ1.cluster = σ.cluster := by
  unfold kubernetes.client.list
  rw [fault_none_of_served σ hs]
  exact ⟨_, rfl, served_step _ _ _ hs, rfl⟩

/-- The second loop of `GarbageCollect` ends without an error when every call is served
and the expired auth codes of the listing, which have distinct names, are there. -/
theorem GarbageCollectAuthCodes_served (cli : kubernetes.client) (now : Time)
    (l : List kubernetes.AuthCode) :
    ∀ (acc : storage.GCResult × Option Error) (σ : World), served σ → acc.2 = none →
      (l.map (fun a => a.ObjectMeta.Name)).Nodup →
      (∀ a ∈ l, ∃ x ∈ σ.cluster.authcodes, x.ObjectMeta.Name = a.ObjectMeta.Name) →
      (cli.GarbageCollectAuthCodes now l acc σ).1.2 = none ∧
        served (cli.GarbageCollectAuthCodes now l acc σ).2 := by
  induction l with
  | nil =>
    intro acc σ hs hacc _ _
    exact ⟨hacc, hs⟩
  | cons a rest ih =>
    intro acc σ hs hacc hnd hthere
    obtain ⟨res0, delErr⟩ := acc
    simp only at hacc
    subst hacc
    rw [List.map_cons, List.nodup_cons] at hnd
    have hrest : ∀ b ∈ rest, ∃ x ∈ σ.cluster.authcodes,
        x.ObjectMeta.Name = b.ObjectMeta.Name :=
      fun b hb => hthere b (List.mem_cons_of_mem _ hb)
    unfold kubernetes.client.GarbageCollectAuthCodes
    split
    · obtain ⟨x, hx, hxn⟩ := hthere a (List.mem_cons_self _ _)
      have hname : (resourceAuthCode.items σ.cluster).any
          (fun x => resourceAuthCode.name x == a.ObjectMeta.Name) = true := by
        rw [List.any_eq_true]
        exact ⟨x, hx, by simpa [resourceAuthCode] using hxn⟩
      obtain ⟨σ1, hd, hs1, hc1⟩ := delete_served cli resourceAuthCode a.ObjectMeta.Name σ hs
        hname
      rw [hd]
      simp only
      apply ih _ σ1 hs1 rfl hnd.2
      intro b hb
      obtain ⟨y, hy, hyn⟩ := hrest b hb
      refine ⟨y, ?_, hyn⟩
      rw [hc1]
      simp only [resourceAuthCode]
      rw [List.mem_filter]
      refine ⟨hy, ?_⟩
      have hne : y.ObjectMeta.Name ≠ a.ObjectMeta.Name := by
        intro he
        apply hnd.1
        rw [← he, hyn]
        exact List.mem_map.mpr ⟨b, hb, rfl⟩
      simpa using hne
    · exact ih _ σ hs rfl hnd.2 hrest

/-- The first loop of `GarbageCollect` ends without an error when every call is served
and the expired auth requests of the listing, which have distinct names, are there. -/
theorem GarbageCollectAuthRequests_served (cli : kubernetes.client) (now : Time)
    (l : List kubernetes.AuthRequest) :
    ∀ (acc : storage.GCResult × Option Error) (σ : World), served σ → acc.2 = none →
      (l.map (fun a => a.ObjectMeta.Name)).Nodup →
      (∀ a ∈ l, ∃ x ∈ σ.cluster.authrequests, x.ObjectMeta.Name = a.ObjectMeta.Name) →
      (cli.GarbageCollectAuthRequests now l acc σ).1.2 = none ∧
        served (cli.GarbageCollectAuthRequests now l acc σ).2 := by
  induction l with
  | nil =>
    intro acc σ hs hacc _ _
    exact ⟨hacc, hs⟩
  | cons a rest ih =>
    intro acc σ hs hacc hnd hthere
    obtain ⟨res0, delErr⟩ := acc
    simp only at hacc
    subst hacc
    rw [List.map_cons, List.nodup_cons] at hnd
    have hrest : ∀ b ∈ rest, ∃ x ∈ σ.cluster.authrequests,
        x.ObjectMeta.Name = b.ObjectMeta.Name :=
      fun b hb => hthere b (List.mem_cons_of_mem _ hb)
    unfold kubernetes.client.GarbageCollectAuthRequests
    split
    · obtain ⟨x, hx, hxn⟩ := hthere a (List.mem_cons_self _ _)
      have hname : (resourceAuthRequest.items σ.cluster).any
          (fun x => resourceAuthRequest.name x == a.ObjectMeta.Name) = true := by
        rw [List.any_eq_true]
        exact ⟨x, hx, by simpa [resourceAuthRequest] using hxn⟩
      obtain ⟨σ1, hd, hs1, hc1⟩ := delete_served cli resourceAuthRequest a.ObjectMeta.Name σ
        hs hname
      rw [hd]
      simp only
      apply ih _ σ1 hs1 rfl hnd.2
      intro b hb
      obtain ⟨y, hy, hyn⟩ := hrest b hb
      refine ⟨y, ?_, hyn⟩
      rw [hc1]
      simp only [resourceAuthRequest]
      rw [List.mem_filter]
      refine ⟨hy, ?_⟩
      have hne : y.ObjectMeta.Name ≠ a.ObjectMeta.Name := by
        intro he
        apply hnd.1
        rw [← he, hyn]
        exact List.mem_map.mpr ⟨b, hb, rfl⟩
      simpa using hne
    · exact ih _ σ hs rfl hnd.2 hrest

end server

end Dex

namespace Dex

namespace server

open kubernetes

/-- A `list` that succeeds returns the objects of the resource and leaves the storage as
it is. -/
theorem list_ok {α : Type} (cli : kubernetes.client) (r : Resource α) (σ σ1 : World)
    (l : List α) (h : cli.list r σ = (.ok l, σ1)) :
    l = r.items σ.cluster ∧ σ1.cluster = σ.cluster := by
  unfold kubernetes.client.list at h
  split at h
  · simp at h
  · simp only [Prod.mk.injEq, Except.ok.injEq] at h
    obtain ⟨h1, h2⟩ := h
    subst h1 h2
    exact ⟨rfl, rfl⟩

/-- C20, as amended. In a storage whose auth requests and whose auth codes have distinct
names: when every API call is served, `GarbageCollect now` returns no error; and whenever
it returns no error, it has removed exactly the auth requests and the auth codes whose
expiry is before `now`: those with `now ≤ expiry` are all left, in their order, and the
other resources are as they were. -/
theorem GarbageCollect_removes_expired (cli : kubernetes.client) (now : Time) (σ : World)
    (hreq : (σ.cluster.authrequests.map (fun a => a.ObjectMeta.Name)).Nodup)
    (hcodes : (σ.cluster.authcodes.map (fun a => a.ObjectMeta.Name)).Nodup) :
    (served σ → (cli.GarbageCollect now σ).1.2 = none) ∧
    ((cli.GarbageCollect now σ).1.2 = none →
      (cli.GarbageCollect now σ).2.cluster = { σ.cluster with
        authrequests := σ.cluster.authrequests.filter (fun x => decide (now ≤ x.Expiry))
        authcodes := σ.cluster.authcodes.filter (fun x => decide (now ≤ x.Expiry)) }) := by
  have hnot : ∀ e : Time, (!now.After e) = decide (now ≤ e) := by
    intro e
    unfold Time.After
    by_cases h : e < now
    · have h2 : ¬ now ≤ e := not_le.mpr h
      simp [h, h2]
    · have h2 : now ≤ e := not_lt.mp h
      simp [h, h2]
  constructor
  · intro hs
    unfold kubernetes.client.GarbageCollect
    obtain ⟨σa, hl, hsa, hca⟩ := list_served cli resourceAuthRequest σ hs
    rw [hl]
    simp only
    have h1 := GarbageCollectAuthRequests_served cli now (resourceAuthRequest.items σ.cluster)
      ({}, none) σa hsa rfl hreq (fun a ha => ⟨a, by rw [hca]; exact ha, rfl⟩)
    have hcodes1 := GarbageCollectAuthRequests_authcodes cli now
      (resourceAuthRequest.items σ.cluster) ({}, none) σa
    rcases hg : cli.GarbageCollectAuthRequests now (resourceAuthRequest.items σ.cluster)
      ({}, none) σa with ⟨⟨res1, e1⟩, σb⟩
    rw [hg] at h1 hcodes1
    simp only at h1 hcodes1
    obtain ⟨he1, hsb⟩ := h1
    subst he1
    simp only
    obtain ⟨σc, hlc, hsc, hcc⟩ := list_served cli resourceAuthCode σb hsb
    rw [hlc]
    simp only
    have hitems : resourceAuthCode.items σb.cluster = σ.cluster.authcodes := by
      simp only [resourceAuthCode]
      rw [hcodes1, hca]
    rw [hitems]
    exact (GarbageCollectAuthCodes_served cli now σ.cluster.authcodes (res1, none) σc hsc rfl
      hcodes (fun a ha => ⟨a, by rw [hcc, hcodes1, hca]; exact ha, rfl⟩)).1
  · intro hnone
    rcases hgc : cli.GarbageCollect now σ with ⟨⟨result, err⟩, σ1⟩
    rw [hgc] at hnone
    simp only at hnone
    subst hnone
    simp only
    unfold kubernetes.client.GarbageCollect at hgc
    split at hgc
    · simp at hgc
    · rename_i authRequests σa hl
      obtain ⟨hlist, hca⟩ := list_ok cli resourceAuthRequest σ σa authRequests hl
      split at hgc
      · simp at hgc
      · rename_i res2 σb hgr
        obtain ⟨-, hcb⟩ := GarbageCollectAuthRequests_cluster cli now authRequests _ σa σb
          res2 hgr
        split at hgc
        · simp at hgc
        · rename_i authCodes σc hlc
          obtain ⟨hlist2, hcc⟩ := list_ok cli resourceAuthCode σb σc authCodes hlc
          have hfin := GarbageCollectAuthCodes_cluster cli now authCodes _ σc σ1 result hgc
          have hcodesb : σb.cluster.authcodes = σ.cluster.authcodes := by
            rw [hcb, hca]
          have hl1 : authRequests = σ.cluster.authrequests := by
            rw [hlist]; rfl
          have hl2 : authCodes = σ.cluster.authcodes := by
            rw [hlist2]
            simp only [resourceAuthCode]
            exact hcodesb
          rw [hfin, hcc, hcb, hca, hl1, hl2]
          have e1 := filter_expired_names (fun a : kubernetes.AuthRequest => a.ObjectMeta.Name)
            (fun a => now.After a.Expiry) σ.cluster.authrequests hreq
          have e2 := filter_expired_names (fun a : kubernetes.AuthCode => a.ObjectMeta.Name)
            (fun a => now.After a.Expiry) σ.cluster.authcodes hcodes
          simp only [hnot] at e1 e2
          simp only [e1, e2]

end server

end Dex

namespace Dex

namespace server

open kubernetes

/-- Counterexample to C20 as stated: in the example deployment the auth code `K` expires
at time 100, and a garbage collection at time 100, which returns no error, leaves it in
the storage. -/
theorem GarbageCollect_keeps_expiry_now :
    example1.code.Expiry ≤ 100 ∧
    (example1.srv.storage.GarbageCollect 100 example1.world).1.2 = none ∧
    example1.srv.storage.fromStorageAuthCode example1.code ∈
      (example1.srv.storage.GarbageCollect 100 example1.world).2.cluster.authcodes := by
  decide

/-- Witness of C20 as amended: in the example deployment a garbage collection at time 101
returns no error and removes the auth code `K`, which expires at time 100. -/
theorem GarbageCollect_removes_expired_witness :
    (example1.srv.storage.GarbageCollect 101 example1.world).1.2 = none ∧
    (example1.srv.storage.GarbageCollect 101 example1.world).2.cluster =
      { example1.world.cluster with
        authrequests :=
          example1.world.cluster.authrequests.filter (fun x => decide ((101 : Time) ≤ x.Expiry))
        authcodes :=
          example1.world.cluster.authcodes.filter (fun x => decide ((101 : Time) ≤ x.Expiry)) } ∧
    (example1.srv.storage.GarbageCollect 101 example1.world).2.cluster.authcodes = [] :=
  ⟨(GarbageCollect_removes_expired example1.srv.storage 101 example1.world (by decide)
      (by decide)).1 (by decide),
   (GarbageCollect_removes_expired example1.srv.storage 101 example1.world (by decide)
      (by decide)).2 (by decide),
   by decide⟩

end server

end Dex

namespace Dex

namespace server

open kubernetes

/-! ## The redirect of an authorization error -/

theorem HeaderGet_SetHeader (w : http.ResponseWriter) (key value : String) :
    (w.SetHeader key value).HeaderGet key = value := by
  unfold http.ResponseWriter.HeaderGet http.ResponseWriter.SetHeader
  have hnone : (w.Header.filter (fun kv => !(kv.1 == key))).find? (fun kv => kv.1 == key) =
      none := by
    rw [List.find?_eq_none]
    intro x hx
    have := (List.mem_filter.mp hx).2
    simpa using this
  simp only [List.find?_append, hnone, Option.none_or, List.find?_cons, beq_self_eq_true]

theorem WriteHeader_Header (w : http.ResponseWriter) (code : Nat) :
    (w.WriteHeader code).Header = w.Header := by
  unfold http.ResponseWriter.WriteHeader
  split <;> rfl

theorem Write_Header (w : http.ResponseWriter) (c : http.Content) :
    (w.Write c).Header = w.Header := by
  unfold http.ResponseWriter.Write
  exact WriteHeader_Header w http.StatusOK

/-- The query that `authErr.ServeHTTP` adds: the parameters sorted by key. -/
theorem Encode_authErr (state typ description : String) :
    url.Values.Encode
      (if description ≠ "" then
        url.Values.Add (url.Values.Add (url.Values.Add [] "state" state) "error" typ)
          "error_description" description
       else url.Values.Add (url.Values.Add [] "state" state) "error" typ) =
      "error=" ++ url.QueryEscape typ ++
        (if description = "" then ""
         else "&error_description=" ++ url.QueryEscape description) ++
        "&state=" ++ url.QueryEscape state := by
  have k1 : url.QueryEscape "error" = "error" := by decide
  have k2 : url.QueryEscape "state" = "state" := by decide
  have k3 : url.QueryEscape "error_description" = "error_description" := by decide
  have c1 : strings.Less "error" "state" = true := by decide
  have c2 : strings.Less "error_description" "error" = false := by decide
  have c3 : strings.Less "error_description" "state" = true := by decide
  by_cases hd : description = ""
  · simp only [hd, ne_eq, not_true_eq_false, if_false, if_true, url.Values.Add,
      url.Values.Encode, url.sortByKey, List.nil_append, List.cons_append, List.foldl_cons,
      List.foldl_nil, url.insertByKey, c1, List.map_cons, List.map_nil, k1, k2]
    simp only [String.intercalate, String.intercalate.go, String.append_assoc,
      String.append_empty, String.empty_append]
    rfl
  · simp only [hd, ne_eq, not_false_eq_true, if_false, if_true, url.Values.Add,
      url.Values.Encode, url.sortByKey, List.nil_append, List.cons_append, List.foldl_cons,
      List.foldl_nil, url.insertByKey, c1, c2, c3, Bool.false_eq_true, List.map_cons,
      List.map_nil, k1, k2, k3]
    simp only [String.intercalate, String.intercalate.go, String.append_assoc,
      String.append_empty, String.empty_append]
    rfl

end server

end Dex

namespace Dex

namespace server

open kubernetes

/-! ## The errors of the authorization endpoint -/

/-- C17: what the source does. Whenever `parseAuthorizationRequest` returns an error,
whatever its type and whether or not it carries a redirect URI, `handleAuthorization`
renders the error page with the text of status 500 and the message "Failed to connect to
the database.", and sets no header: there is no redirect to the redirect URI. -/
theorem handleAuthorization_renders_parse_error (s : Server) (w : http.ResponseWriter)
    (r : http.Request) (σ σ1 : World) (e : authErr)
    (h : s.parseAuthorizationRequest s.supportedResponseTypes r σ = (.error e, σ1)) :
    s.handleAuthorization w r σ =
      (s.renderError w http.StatusInternalServerError "Failed to connect to the database.",
        σ1) ∧
    (s.handleAuthorization w r σ).1.Header = w.Header ∧
    (s.handleAuthorization w r σ).1.Body =
      w.Body ++ [.html "error" ["Internal Server Error", "Failed to connect to the database."]]
      := by
  have h1 : s.handleAuthorization w r σ =
      (s.renderError w http.StatusInternalServerError "Failed to connect to the database.",
        σ1) := by
    unfold Server.handleAuthorization
    rw [h]
  rw [h1]
  refine ⟨rfl, ?_, ?_⟩
  · exact Write_Header w _
  · simp only [Server.renderError, templates.err, http.ResponseWriter.Write,
      http.ResponseWriter.WriteHeader]
    split <;> rfl

/-- The failing input of C17: in the example deployment, the authorization request of the
known client `C1` with its registered redirect URI and a scope that `C2` does not allow
gets the error `invalid_scope` for that redirect URI; the response of
`handleAuthorization` is the error page, without a `Location` header, and not the
redirect of `authErr.ServeHTTP`. -/
theorem handleAuthorization_renders_parse_error_witness :
    (example1.srv.parseAuthorizationRequest example1.srv.supportedResponseTypes
      example1.crossClientUntrusted example1.world).1 =
      .error ⟨"xyz", "https://app/cb", "invalid_scope",
        "Client can't request scope(s) [\"audience:server:client_id:C2\"]"⟩ ∧
    (example1.srv.handleAuthorization {} example1.crossClientUntrusted example1.world).1 =
      { Header := []
        StatusCode := 200
        Body := [.html "error" ["Internal Server Error",
          "Failed to connect to the database."]] } ∧
    (example1.srv.handleAuthorization {} example1.crossClientUntrusted
      example1.world).1.HeaderGet "Location" = "" ∧
    (authErr.ServeHTTP ⟨"xyz", "https://app/cb", "invalid_scope",
        "Client can't request scope(s) [\"audience:server:client_id:C2\"]"⟩ {}
      example1.crossClientUntrusted).HeaderGet "Location" =
      "https://app/cb?error=invalid_scope&error_description=" ++
        "Client+can%27t+request+scope%28s%29+%5B%22audience%3Aserver%3Aclient_id%3AC2%22%5D" ++
        "&state=xyz" :=
  ⟨rfl,
   congrArg Prod.fst (handleAuthorization_renders_parse_error example1.srv {}
      example1.crossClientUntrusted example1.world _ _ rfl).1,
   by decide, by decide⟩

end server

end Dex

namespace Dex

namespace server

open kubernetes

/-! ## The localhost branch of `validateRedirectURI` -/

/-- A string that begins with `http://localhost:` is left as it is by the trim of
`https://localhost:`, and is not a decimal integer. -/
theorem localhost_not_a_number (u : String)
    (h : strings.HasPrefix u "http://localhost:" = true) :
    strings.TrimPrefix u "https://localhost:" = u ∧ strconv.Atoi u = none := by
  unfold strings.HasPrefix at h
  rw [List.isPrefixOf_iff_prefix] at h
  obtain ⟨t, ht⟩ := h
  have hd : u.data = Char.ofNat 104 :: Char.ofNat 116 :: Char.ofNat 116 :: Char.ofNat 112 ::
      Char.ofNat 58 :: ("//localhost:".data ++ t) := by
    rw [← ht]
    rfl
  constructor
  · have hnp : strings.HasPrefix u "https://localhost:" = false := by
      unfold strings.HasPrefix
      rw [hd]
      have : "https://localhost:".data = Char.ofNat 104 :: Char.ofNat 116 :: Char.ofNat 116 ::
          Char.ofNat 112 :: Char.ofNat 115 :: "://localhost:".data := rfl
      rw [this]
      simp [List.isPrefixOf]
    unfold strings.TrimPrefix
    rw [hnp]
    rfl
  · unfold strconv.Atoi
    rw [hd]
    have h1 : Char.ofNat 104 ≠ Char.ofNat 45 := by decide
    have h2 : Char.ofNat 104 ≠ Char.ofNat 43 := by decide
    have h3 : strconv.digit? (Char.ofNat 104) = none := by decide
    simp [h1, h2, strconv.digits?, h3]

/-- C28. For a public client, `validateRedirectURI` accepts a redirect URI exactly when it
is the OOB sentinel `urn:ietf:wg:oauth:2.0:oob`. The localhost branch never succeeds:
a URI that begins with `http://localhost:` is left unchanged by the trim of
`https://localhost:`, is then not a decimal integer, and is rejected. -/
theorem validateRedirectURI_public_iff_oob (client : storage.Client) (u : String)
    (h : client.Public = true) :
    (validateRedirectURI client u = true ↔ u = redirectURIOOB) ∧
    (strings.HasPrefix u "http://localhost:" = true →
      strings.TrimPrefix u "https://localhost:" = u ∧ strconv.Atoi u = none ∧
        validateRedirectURI client u = false) := by
  have key : strings.HasPrefix u "http://localhost:" = true →
      validateRedirectURI client u = false := by
    intro hp
    have hne : u ≠ redirectURIOOB := by
      intro he
      rw [he] at hp
      exact absurd hp (by decide)
    obtain ⟨ht, ha⟩ := localhost_not_a_number u hp
    unfold validateRedirectURI
    simp only [h, Bool.not_true, Bool.false_eq_true, if_false, hne, hp, ht, ha]
  constructor
  · constructor
    · intro hv
      by_contra hne
      by_cases hp : strings.HasPrefix u "http://localhost:" = true
      · rw [key hp] at hv
        exact Bool.false_ne_true hv
      · unfold validateRedirectURI at hv
        simp [h, hne, hp] at hv
    · intro he
      unfold validateRedirectURI
      simp [h, he]
  · intro hp
    exact ⟨(localhost_not_a_number u hp).1, (localhost_not_a_number u hp).2, key hp⟩

/-- Witness of C28: the public client of the example rejects `http://localhost:8000`. -/
theorem validateRedirectURI_public_iff_oob_witness :
    strings.TrimPrefix "http://localhost:8000" "https://localhost:" = "http://localhost:8000" ∧
    strconv.Atoi "http://localhost:8000" = none ∧
    validateRedirectURI example1.publicClient "http://localhost:8000" = false :=
  (validateRedirectURI_public_iff_oob example1.publicClient "http://localhost:8000" rfl).2
    (by decide)

end server

end Dex

namespace Dex

namespace server

open kubernetes

/-! ## What a refresh stores -/

/-- The scope loop of `newIDToken` leaves the subject as it is. -/
theorem newIDTokenScopes_subject (s : Server) (clientID : String) (claims : storage.Claims)
    (scopes : List String) :
    ∀ (tok tok1 : idTokenClaims) (σ σ1 : World),
      s.newIDTokenScopes clientID claims scopes tok σ = (.ok tok1, σ1) →
      tok1.Subject = tok.Subject := by
  induction scopes with
  | nil =>
    intro tok tok1 σ σ1 h
    simp only [Server.newIDTokenScopes, Prod.mk.injEq, Except.ok.injEq] at h
    rw [← h.1]
  | cons scope scopes ih =>
    intro tok tok1 σ σ1 h
    unfold Server.newIDTokenScopes at h
    split at h
    · (have h2 := ih _ _ _ _ h; exact h2)
    · split at h
      · (have h2 := ih _ _ _ _ h; exact h2)
      · split at h
        · (have h2 := ih _ _ _ _ h; exact h2)
        · split at h
          · (have h2 := ih _ _ _ _ h; exact h2)
          · split at h
            · simp at h
            · simp at h
            · (have h2 := ih _ _ _ _ h; exact h2)

/-- The subject of the claim set of `newIDToken` is the user id of the claims. -/
theorem newIDTokenClaims_subject (s : Server) (clientID : String) (claims : storage.Claims)
    (scopes : List String) (nonce : String) (σ σ1 : World) (tok : idTokenClaims)
    (h : s.newIDTokenClaims clientID claims scopes nonce σ = (.ok tok, σ1)) :
    tok.Subject = claims.UserID := by
  unfold Server.newIDTokenClaims at h
  simp only at h
  split at h
  · simp at h
  · rename_i tok0 σa hl
    have hs := newIDTokenScopes_subject s clientID claims scopes _ _ _ _ hl
    simp only at hs
    split at h
    · simp only [Prod.mk.injEq, Except.ok.injEq] at h
      rw [← h.1]
      exact hs
    · simp only [Prod.mk.injEq, Except.ok.injEq] at h
      rw [← h.1]
      exact hs

/-- A token returned by `newIDToken` is the signature of the marshalled claim set. -/
theorem newIDToken_ok (s : Server) (clientID : String) (claims : storage.Claims)
    (scopes : List String) (nonce : String) (σ σ2 : World) (idToken : String) (expiry : Time)
    (h : s.newIDToken clientID claims scopes nonce σ = (.ok (idToken, expiry), σ2)) :
    ∃ tok keys σ1, s.newIDTokenClaims clientID claims scopes nonce σ = (.ok tok, σ1) ∧
      (s.storage.GetKeys σ1).1 = .ok keys ∧ s.sign keys tok.Marshal = .ok idToken := by
  unfold Server.newIDToken at h
  simp only at h
  rcases hc : s.newIDTokenClaims clientID claims scopes nonce σ with ⟨res, σ1⟩
  rw [hc] at h
  cases res with
  | error e => simp at h
  | ok tok =>
    simp only at h
    rcases hk : s.storage.GetKeys σ1 with ⟨kres, σk⟩
    rw [hk] at h
    cases kres with
    | error e => simp at h
    | ok keys =>
      simp only at h
      cases hs : s.sign keys tok.Marshal with
      | error e => rw [hs] at h; simp at h
      | ok t =>
        rw [hs] at h
        simp only [Prod.mk.injEq, Except.ok.injEq] at h
        exact ⟨tok, keys, σ1, rfl, by rw [hk], by rw [← h.1.1]; exact hs⟩

/-- The refresh token that a successful refresh stores: the object posted for the
refreshed token under the new id, which is the only object of that name. -/
theorem handleRefreshToken_stored (s : Server) (w : http.ResponseWriter) (r : http.Request)
    (client : storage.Client) (σ : World) (o : json.Object)
    (h : tokenResponse? (s.handleRefreshToken w r client σ).1 = some o) :
    ∃ stored σ1 conn refresh idToken expiry σ2,
      s.storage.GetRefresh (r.PostFormValue "refresh_token") σ = (.ok stored, σ1) ∧
      s.connector? stored.ConnectorID = some conn ∧
      refreshedBy conn (refreshScopes (r.PostFormValue "scope") stored) stored = .ok refresh ∧
      s.newIDToken client.ID refresh.Claims (refreshScopes (r.PostFormValue "scope") stored)
        refresh.Nonce σ1 = (.ok (idToken, expiry), σ2) ∧
      refreshObject s.storage { refresh with RefreshToken := (storage.NewID σ).1 } ∈
        (s.handleRefreshToken w r client σ).2.cluster.refreshtokens ∧
      (∀ x ∈ (s.handleRefreshToken w r client σ).2.cluster.refreshtokens,
        x.ObjectMeta.Name = (storage.NewID σ).1 →
        x = refreshObject s.storage { refresh with RefreshToken := (storage.NewID σ).1 }) ∧
      o.field "refresh_token" = some (.str (storage.NewID σ).1) ∧
      o.field "id_token" = some (.str idToken) := by
  obtain ⟨stored, σ1, conn, refresh, idToken, expiry, σ2, accessToken, -, hget, -, -, hconn,
    href, hnew, hcl, hfree, ho⟩ := handleRefreshToken_token s w r client σ o h
  refine ⟨stored, σ1, conn, refresh, idToken, expiry, σ2, hget, hconn, href, hnew, ?_, ?_, ?_,
    ?_⟩
  · rw [hcl]
    simp
  · intro x hx hname
    rw [hcl] at hx
    simp only [List.mem_append, List.mem_singleton] at hx
    rcases hx with hx | hx
    · have := List.any_eq_false.mp hfree x hx
      simp [hname] at this
    · exact hx
  · rw [ho]
    rfl
  · rw [ho]
    rfl

end server

end Dex

namespace Dex

namespace server

open kubernetes

/-- C29. For every successful refresh-token exchange, whatever `scope` parameter was
supplied: the newly stored refresh token, which is the only one under the new id and the
one named in the response, has the scopes, client id, connector id and nonce of the old
refresh token as it was read; the ID token of the response is minted for the scopes of
the request, which are those of the `scope` parameter when it is not empty. -/
theorem refresh_scope_not_persisted (s : Server) (w : http.ResponseWriter) (r : http.Request)
    (client : storage.Client) (σ : World) (o : json.Object)
    (h : tokenResponse? (s.handleRefreshToken w r client σ).1 = some o) :
    ∃ (stored : storage.RefreshToken) (σ1 σ2 : World) (newToken : kubernetes.RefreshToken)
      (claims : storage.Claims) (idToken : String) (expiry : Time),
      s.storage.GetRefresh (r.PostFormValue "refresh_token") σ = (.ok stored, σ1) ∧
      newToken ∈ (s.handleRefreshToken w r client σ).2.cluster.refreshtokens ∧
      newToken.ObjectMeta.Name = (storage.NewID σ).1 ∧
      (∀ x ∈ (s.handleRefreshToken w r client σ).2.cluster.refreshtokens,
        x.ObjectMeta.Name = (storage.NewID σ).1 → x = newToken) ∧
      o.field "refresh_token" = some (.str (storage.NewID σ).1) ∧
      newToken.Scopes = stored.Scopes ∧ newToken.ClientID = stored.ClientID ∧
      newToken.ConnectorID = stored.ConnectorID ∧ newToken.Nonce = stored.Nonce ∧
      s.newIDToken client.ID claims
        (if r.PostFormValue "scope" ≠ "" then strings.Fields (r.PostFormValue "scope")
         else stored.Scopes) stored.Nonce σ1 = (.ok (idToken, expiry), σ2) ∧
      o.field "id_token" = some (.str idToken) := by
  obtain ⟨stored, σ1, conn, refresh, idToken, expiry, σ2, hget, -, href, hnew, hmem, honly,
    ho1, ho2⟩ := handleRefreshToken_stored s w r client σ o h
  obtain ⟨-, hc, hconn, hsc, hn, -⟩ := refreshedBy_ok conn _ stored refresh href
  rw [hn] at hnew
  exact ⟨stored, σ1, σ2, _, refresh.Claims, idToken, expiry, hget, hmem, rfl, honly, ho1,
    hsc, hc, hconn, hn, hnew, ho2⟩

/-- Witness of C29: in the example deployment the refresh of `R1` with `scope=openid`
stores a refresh token with the three scopes of `R1`. -/
theorem refresh_scope_not_persisted_witness :
    ∃ (stored : storage.RefreshToken) (σ1 σ2 : World) (newToken : kubernetes.RefreshToken)
      (claims : storage.Claims) (idToken : String) (expiry : Time),
      example1.srv.storage.GetRefresh
        ((example1.refreshRequest "openid").PostFormValue "refresh_token") example1.world =
        (.ok stored, σ1) ∧
      newToken ∈ (example1.srv.handleRefreshToken {} (example1.refreshRequest "openid")
        example1.c1 example1.world).2.cluster.refreshtokens ∧
      newToken.ObjectMeta.Name = (storage.NewID example1.world).1 ∧
      (∀ x ∈ (example1.srv.handleRefreshToken {} (example1.refreshRequest "openid")
          example1.c1 example1.world).2.cluster.refreshtokens,
        x.ObjectMeta.Name = (storage.NewID example1.world).1 → x = newToken) ∧
      json.Object.field
        [("access_token", .str "gaaaaaaaaaaaaaaaaaaaaaaaaa"), ("token_type", .str "bearer"),
          ("expires_in", .num 3600), ("refresh_token", .str "faaaaaaaaaaaaaaaaaaaaaaaaa"),
          ("id_token", .str "jws:u1")] "refresh_token" =
        some (.str (storage.NewID example1.world).1) ∧
      newToken.Scopes = stored.Scopes ∧ newToken.ClientID = stored.ClientID ∧
      newToken.ConnectorID = stored.ConnectorID ∧ newToken.Nonce = stored.Nonce ∧
      example1.srv.newIDToken example1.c1.ID claims
        (if (example1.refreshRequest "openid").PostFormValue "scope" ≠ "" then
          strings.Fields ((example1.refreshRequest "openid").PostFormValue "scope")
         else stored.Scopes) stored.Nonce σ1 = (.ok (idToken, expiry), σ2) ∧
      json.Object.field
        [("access_token", .str "gaaaaaaaaaaaaaaaaaaaaaaaaa"), ("token_type", .str "bearer"),
          ("expires_in", .num 3600), ("refresh_token", .str "faaaaaaaaaaaaaaaaaaaaaaaaa"),
          ("id_token", .str "jws:u1")] "id_token" = some (.str idToken) :=
  refresh_scope_not_persisted example1.srv {} (example1.refreshRequest "openid") example1.c1
    example1.world
    [("access_token", .str "gaaaaaaaaaaaaaaaaaaaaaaaaa"), ("token_type", .str "bearer"),
      ("expires_in", .num 3600), ("refresh_token", .str "faaaaaaaaaaaaaaaaaaaaaaaaa"),
      ("id_token", .str "jws:u1")] (by decide)

end server

end Dex

namespace Dex

namespace server

open kubernetes

/-- The refreshed token when the connector implements `Refresh`: the identity the
connector returned for the stored claims, copied but for the user id. -/
theorem refreshedBy_refresh (conn : Connector) (scopes : List String)
    (stored refresh : storage.RefreshToken) (refreshConn : connector.RefreshConnector)
    (hc : conn.Connector.refresh = some refreshConn)
    (h : refreshedBy conn scopes stored = .ok refresh) :
    ∃ ident,
      refreshConn.Refresh (parseScopes scopes)
        { UserID := stored.Claims.UserID
          Username := stored.Claims.Username
          Email := stored.Claims.Email
          EmailVerified := stored.Claims.EmailVerified
          Groups := stored.Claims.Groups
          ConnectorData := stored.ConnectorData } = .ok ident ∧
      refresh.Claims.Username = ident.Username ∧ refresh.Claims.Email = ident.Email ∧
      refresh.Claims.EmailVerified = ident.EmailVerified ∧
      refresh.Claims.Groups = ident.Groups ∧
      refresh.Claims.UserID = stored.Claims.UserID := by
  unfold refreshedBy at h
  rw [hc] at h
  simp only at h
  split at h
  · simp at h
  · rename_i ident hr
    simp only [Except.ok.injEq] at h
    subst h
    exact ⟨ident, hr, rfl, rfl, rfl, rfl, rfl⟩

/-- C25. When a refresh-token exchange succeeds and the connector of the refresh token
implements `Refresh`: the connector was asked with the stored claims, the newly stored
refresh token has the username, email, email_verified and groups of the identity the
connector returned and the user id of the old refresh token, whatever user id the
connector returned; and the ID token of the response is the signature of a claim set
whose `sub` is that unchanged user id. -/
theorem refresh_claims_from_connector (s : Server) (w : http.ResponseWriter)
    (r : http.Request) (client : storage.Client) (σ : World) (o : json.Object)
    (h : tokenResponse? (s.handleRefreshToken w r client σ).1 = some o) :
    ∃ (stored : storage.RefreshToken) (σ1 : World) (conn : Connector),
      s.storage.GetRefresh (r.PostFormValue "refresh_token") σ = (.ok stored, σ1) ∧
      s.connector? stored.ConnectorID = some conn ∧
      ∀ refreshConn, conn.Connector.refresh = some refreshConn →
        ∃ (ident : connector.Identity) (newToken : kubernetes.RefreshToken)
          (tok : idTokenClaims) (keys : storage.Keys) (idToken : String),
          refreshConn.Refresh (parseScopes (refreshScopes (r.PostFormValue "scope") stored))
            { UserID := stored.Claims.UserID
              Username := stored.Claims.Username
              Email := stored.Claims.Email
              EmailVerified := stored.Claims.EmailVerified
              Groups := stored.Claims.Groups
              ConnectorData := stored.ConnectorData } = .ok ident ∧
          newToken ∈ (s.handleRefreshToken w r client σ).2.cluster.refreshtokens ∧
          newToken.ObjectMeta.Name = (storage.NewID σ).1 ∧
          (∀ x ∈ (s.handleRefreshToken w r client σ).2.cluster.refreshtokens,
            x.ObjectMeta.Name = (storage.NewID σ).1 → x = newToken) ∧
          o.field "refresh_token" = some (.str (storage.NewID σ).1) ∧
          newToken.Claims.Username = ident.Username ∧
          newToken.Claims.Email = ident.Email ∧
          newToken.Claims.EmailVerified = ident.EmailVerified ∧
          newToken.Claims.Groups = ident.Groups ∧
          newToken.Claims.UserID = stored.Claims.UserID ∧
          tok.Subject = stored.Claims.UserID ∧
          s.sign keys tok.Marshal = .ok idToken ∧
          o.field "id_token" = some (.str idToken) := by
  obtain ⟨stored, σ1, conn, refresh, idToken, expiry, σ2, hget, hconn, href, hnew, hmem, honly,
    ho1, ho2⟩ := handleRefreshToken_stored s w r client σ o h
  refine ⟨stored, σ1, conn, hget, hconn, ?_⟩
  intro refreshConn hrc
  obtain ⟨ident, hid, h1, h2, h3, h4, h5⟩ := refreshedBy_refresh conn _ stored refresh
    refreshConn hrc href
  obtain ⟨tok, keys, σa, hclaims, -, hsign⟩ := newIDToken_ok s _ _ _ _ _ _ _ _ hnew
  have hsub := newIDTokenClaims_subject s _ _ _ _ _ _ _ hclaims
  exact ⟨ident, _, tok, keys, idToken, hid, hmem, rfl, honly, ho1, h1, h2, h3, h4, h5,
    hsub.trans h5, hsign, ho2⟩

/-- Witness of C25: in the example deployment with a connector whose `Refresh` reports
the user id `u2`, the name `Jane` and the address `jane@b`, the refresh of `R1` stores a
token with that name and address and with the user id `u1`, and the ID token is the
one signed for the subject `u1`. -/
theorem refresh_claims_from_connector_witness :
    ∃ (stored : storage.RefreshToken) (σ1 : World) (conn : Connector),
      example1.refreshingSrv.storage.GetRefresh
        ((example1.refreshRequest "").PostFormValue "refresh_token") example1.world =
        (.ok stored, σ1) ∧
      example1.refreshingSrv.connector? stored.ConnectorID = some conn ∧
      ∀ refreshConn, conn.Connector.refresh = some refreshConn →
        ∃ (ident : connector.Identity) (newToken : kubernetes.RefreshToken)
          (tok : idTokenClaims) (keys : storage.Keys) (idToken : String),
          refreshConn.Refresh
            (parseScopes (refreshScopes ((example1.refreshRequest "").PostFormValue "scope")
              stored))
            { UserID := stored.Claims.UserID
              Username := stored.Claims.Username
              Email := stored.Claims.Email
              EmailVerified := stored.Claims.EmailVerified
              Groups := stored.Claims.Groups
              ConnectorData := stored.ConnectorData } = .ok ident ∧
          newToken ∈ (example1.refreshingSrv.handleRefreshToken {}
            (example1.refreshRequest "") example1.c1 example1.world).2.cluster.refreshtokens ∧
          newToken.ObjectMeta.Name = (storage.NewID example1.world).1 ∧
          (∀ x ∈ (example1.refreshingSrv.handleRefreshToken {} (example1.refreshRequest "")
              example1.c1 example1.world).2.cluster.refreshtokens,
            x.ObjectMeta.Name = (storage.NewID example1.world).1 → x = newToken) ∧
          json.Object.field
            [("access_token", .str "gaaaaaaaaaaaaaaaaaaaaaaaaa"), ("token_type", .str "bearer"),
              ("expires_in", .num 3600), ("refresh_token", .str "faaaaaaaaaaaaaaaaaaaaaaaaa"),
              ("id_token", .str "jws:u1")] "refresh_token" =
            some (.str (storage.NewID example1.world).1) ∧
          newToken.Claims.Username = ident.Username ∧
          newToken.Claims.Email = ident.Email ∧
          newToken.Claims.EmailVerified = ident.EmailVerified ∧
          newToken.Claims.Groups = ident.Groups ∧
          newToken.Claims.UserID = stored.Claims.UserID ∧
          tok.Subject = stored.Claims.UserID ∧
          example1.refreshingSrv.sign keys tok.Marshal = .ok idToken ∧
          json.Object.field
            [("access_token", .str "gaaaaaaaaaaaaaaaaaaaaaaaaa"), ("token_type", .str "bearer"),
              ("expires_in", .num 3600), ("refresh_token", .str "faaaaaaaaaaaaaaaaaaaaaaaaa"),
              ("id_token", .str "jws:u1")] "id_token" = some (.str idToken) :=
  refresh_claims_from_connector example1.refreshingSrv {} (example1.refreshRequest "")
    example1.c1 example1.world
    [("access_token", .str "gaaaaaaaaaaaaaaaaaaaaaaaaa"), ("token_type", .str "bearer"),
      ("expires_in", .num 3600), ("refresh_token", .str "faaaaaaaaaaaaaaaaaaaaaaaaa"),
      ("id_token", .str "jws:u1")] (by decide)

end server

end Dex

namespace Dex

namespace server

open kubernetes

/-! ## Storing a refresh token and reading it back -/

/-- A served `post` under a free name succeeds and adds the object. -/
theorem post_served {α : Type} (cli : kubernetes.client) (r : Resource α) (o : α) (σ : World)
    (hs : served σ) (hfree : (r.items σ.cluster).any (fun x => r.name x == r.name o) = false) :
    ∃ σ1, cli.post r o σ = (none, σ1) ∧ served σ1 ∧
      σ1.cluster = r.setItems (r.items σ.cluster ++ [o]) σ.cluster := by
  unfold kubernetes.client.post
  rw [fault_none_of_served σ hs]
  simp only [hfree, Bool.false_eq_true, if_false]
  exact ⟨_, rfl, served_step _ _ _ hs, rfl⟩

/-- C22: what the source does. When every API call is served and no refresh token is
stored under the id of `r`, `CreateRefresh r` succeeds and `GetRefresh` under that id
returns `r` without its connector data: the token read back is equal to `r` exactly when
the connector data of `r` is empty. -/
theorem CreateRefresh_GetRefresh (cli : kubernetes.client) (r : storage.RefreshToken)
    (σ : World) (hs : served σ)
    (hfree : σ.cluster.refreshtokens.any (fun x => x.ObjectMeta.Name == r.RefreshToken)
      = false) :
    (cli.CreateRefresh r σ).1 = none ∧
    (cli.GetRefresh r.RefreshToken (cli.CreateRefresh r σ).2).1 =
      .ok { r with ConnectorData := [] } ∧
    ((cli.GetRefresh r.RefreshToken (cli.CreateRefresh r σ).2).1 = .ok r ↔
      r.ConnectorData = []) := by
  obtain ⟨σ1, hp, hs1, hc1⟩ := post_served cli resourceRefreshToken (refreshObject cli r) σ hs
    (by simpa [resourceRefreshToken, refreshObject] using hfree)
  have hcr : cli.CreateRefresh r σ = (none, σ1) := by
    rw [CreateRefresh_eq]
    exact hp
  have hfind : (resourceRefreshToken.items σ1.cluster).find?
      (fun o => resourceRefreshToken.name o == r.RefreshToken) = some (refreshObject cli r) := by
    rw [hc1]
    simp only [resourceRefreshToken]
    rw [List.find?_append]
    have hnone : σ.cluster.refreshtokens.find?
        (fun o => o.ObjectMeta.Name == r.RefreshToken) = none := by
      rw [List.find?_eq_none]
      intro x hx
      have := List.any_eq_false.mp hfree x hx
      simpa using this
    rw [hnone]
    simp [refreshObject]
  have hget : (cli.GetRefresh r.RefreshToken σ1).1 = .ok { r with ConnectorData := [] } := by
    rw [GetRefresh_fst, kubernetes.client.get_served _ _ _ _ (fault_none_of_served σ1 hs1),
      hfind]
    simp [refreshObject, toStorageClaims, fromStorageClaims]
  rw [hcr]
  refine ⟨rfl, hget, ?_⟩
  simp only
  rw [hget]
  constructor
  · intro h
    have := congrArg storage.RefreshToken.ConnectorData (Except.ok.inj h)
    exact this.symm
  · intro h
    rw [← h]

/-- The failing input of C22: in the example deployment, a refresh token with the
connector data `[1, 2, 3]` is stored without an error and read back without its
connector data. -/
theorem CreateRefresh_GetRefresh_witness :
    example1.refreshWithData.ConnectorData = [1, 2, 3] ∧
    (example1.srv.storage.CreateRefresh example1.refreshWithData example1.world).1 = none ∧
    (example1.srv.storage.GetRefresh "R2"
      (example1.srv.storage.CreateRefresh example1.refreshWithData example1.world).2).1 =
      .ok { example1.refreshWithData with ConnectorData := [] } :=
  ⟨rfl,
   (CreateRefresh_GetRefresh example1.srv.storage example1.refreshWithData example1.world
      (by decide) (by decide)).1,
   (CreateRefresh_GetRefresh example1.srv.storage example1.refreshWithData example1.world
      (by decide) (by decide)).2.1⟩

end server

end Dex

namespace Dex

namespace server

open kubernetes

/-! ## A delete that fails during a garbage collection -/

/-- The API call logged by a `delete`. -/
theorem delete_trace {α : Type} (cli : kubernetes.client) (r : Resource α) (name : String)
    (σ : World) :
    (cli.delete r name σ).2.trace =
      σ.trace ++ [⟨.delete, r.path, name, (cli.delete r name σ).1⟩] := by
  rw [kubernetes.client.delete_spec]
  rfl

/-- The API call logged by a `list`. -/
theorem list_trace {α : Type} (cli : kubernetes.client) (r : Resource α) (σ : World) :
    (cli.list r σ).2.trace = σ.trace ++ [⟨.list, r.path, "", errOf (cli.list r σ).1⟩] := by
  unfold kubernetes.client.list
  split <;> rfl

/-- The calls of the first loop of `GarbageCollect`: deletes of auth requests; when the
loop ends without an error it started without one and none of the deletes failed. -/
theorem GarbageCollectAuthRequests_trace (cli : kubernetes.client) (now : Time)
    (l : List kubernetes.AuthRequest) :
    ∀ (acc : storage.GCResult × Option Error) (σ : World),
      ∃ evs, (cli.GarbageCollectAuthRequests now l acc σ).2.trace = σ.trace ++ evs ∧
        (∀ e ∈ evs, e.verb = .delete ∧ e.resource = "authrequests") ∧
        ((cli.GarbageCollectAuthRequests now l acc σ).1.2 = none →
          acc.2 = none ∧ ∀ e ∈ evs, e.err = none) := by
  induction l with
  | nil =>
    intro acc σ
    exact ⟨[], by simp [kubernetes.client.GarbageCollectAuthRequests],
      by simp, fun h => ⟨h, by simp⟩⟩
  | cons a rest ih =>
    intro acc σ
    obtain ⟨res0, delErr⟩ := acc
    unfold kubernetes.client.GarbageCollectAuthRequests
    split
    · have ht := delete_trace cli resourceAuthRequest a.ObjectMeta.Name σ
      split
      · rename_i err σ1 hd
        rw [hd] at ht
        simp only at ht
        obtain ⟨evs, h1, h2, h3⟩ := ih
          ({ res0 with AuthRequests := res0.AuthRequests + 1 },
            some (.other ("failed to delete auth request: " ++ err.toString))) σ1
        refine ⟨⟨.delete, resourceAuthRequest.path, a.ObjectMeta.Name, some err⟩ :: evs,
          by rw [h1, ht]; simp, ?_, ?_⟩
        · intro e he
          rcases List.mem_cons.mp he with h | h
          · rw [h]; exact ⟨rfl, rfl⟩
          · exact h2 e h
        · intro hn
          have := (h3 hn).1
          simp at this
      · rename_i σ1 hd
        rw [hd] at ht
        simp only at ht
        obtain ⟨evs, h1, h2, h3⟩ := ih
          ({ res0 with AuthRequests := res0.AuthRequests + 1 }, delErr) σ1
        refine ⟨⟨.delete, resourceAuthRequest.path, a.ObjectMeta.Name, none⟩ :: evs,
          by rw [h1, ht]; simp, ?_, ?_⟩
        · intro e he
          rcases List.mem_cons.mp he with h | h
          · rw [h]; exact ⟨rfl, rfl⟩
          · exact h2 e h
        · intro hn
          obtain ⟨ha, hall⟩ := h3 hn
          refine ⟨ha, ?_⟩
          intro e he
          rcases List.mem_cons.mp he with h | h
          · rw [h]
          · exact hall e h
    · exact ih _ _

/-- The calls of the second loop of `GarbageCollect`: deletes of auth codes; when the
loop ends without an error it started without one and none of the deletes failed. -/
theorem GarbageCollectAuthCodes_trace (cli : kubernetes.client) (now : Time)
    (l : List kubernetes.AuthCode) :
    ∀ (acc : storage.GCResult × Option Error) (σ : World),
      ∃ evs, (cli.GarbageCollectAuthCodes now l acc σ).2.trace = σ.trace ++ evs ∧
        (∀ e ∈ evs, e.verb = .delete ∧ e.resource = "authcodes") ∧
        ((cli.GarbageCollectAuthCodes now l acc σ).1.2 = none →
          acc.2 = none ∧ ∀ e ∈ evs, e.err = none) := by
  induction l with
  | nil =>
    intro acc σ
    exact ⟨[], by simp [kubernetes.client.GarbageCollectAuthCodes],
      by simp, fun h => ⟨h, by simp⟩⟩
  | cons a rest ih =>
    intro acc σ
    obtain ⟨res0, delErr⟩ := acc
    unfold kubernetes.client.GarbageCollectAuthCodes
    split
    · have ht := delete_trace cli resourceAuthCode a.ObjectMeta.Name σ
      split
      · rename_i err σ1 hd
        rw [hd] at ht
        simp only at ht
        obtain ⟨evs, h1, h2, h3⟩ := ih
          ({ res0 with AuthCodes := res0.AuthCodes + 1 },
            some (.other ("failed to delete auth code: " ++ err.toString))) σ1
        refine ⟨⟨.delete, resourceAuthCode.path, a.ObjectMeta.Name, some err⟩ :: evs,
          by rw [h1, ht]; simp, ?_, ?_⟩
        · intro e he
          rcases List.mem_cons.mp he with h | h
          · rw [h]; exact ⟨rfl, rfl⟩
          · exact h2 e h
        · intro hn
          have := (h3 hn).1
          simp at this
      · rename_i σ1 hd
        rw [hd] at ht
        simp only at ht
        obtain ⟨evs, h1, h2, h3⟩ := ih
          ({ res0 with AuthCodes := res0.AuthCodes + 1 }, delErr) σ1
        refine ⟨⟨.delete, resourceAuthCode.path, a.ObjectMeta.Name, none⟩ :: evs,
          by rw [h1, ht]; simp, ?_, ?_⟩
        · intro e he
          rcases List.mem_cons.mp he with h | h
          · rw [h]; exact ⟨rfl, rfl⟩
          · exact h2 e h
        · intro hn
          obtain ⟨ha, hall⟩ := h3 hn
          refine ⟨ha, ?_⟩
          intro e he
          rcases List.mem_cons.mp he with h | h
          · rw [h]
          · exact hall e h
    · exact ih _ _

end server

end Dex

namespace Dex

namespace server

open kubernetes

/-- The runs of `GarbageCollect`, by the calls it made: it stops after the listing of the
auth requests or after the first loop, having called only on auth requests and left the
auth codes as they were, with an error; or it goes on to the auth codes, no delete of an
auth request having failed, and then returns no error only if no delete of an auth code
failed. -/
theorem GarbageCollect_calls (cli : kubernetes.client) (now : Time) (σ : World) :
    ((cli.GarbageCollect now σ).1.2 ≠ none ∧
      (cli.GarbageCollect now σ).2.cluster.authcodes = σ.cluster.authcodes ∧
      ∀ ev ∈ callsSince σ (cli.GarbageCollect now σ).2, ev.resource = "authrequests") ∨
    ((∀ ev ∈ callsSince σ (cli.GarbageCollect now σ).2,
        ev.resource = "authrequests" → ev.verb = .delete → ev.err = none) ∧
      ((cli.GarbageCollect now σ).1.2 = none →
        ∀ ev ∈ callsSince σ (cli.GarbageCollect now σ).2, ev.verb = .delete →
          ev.err = none)) := by
  unfold kubernetes.client.GarbageCollect
  have hlt := list_trace cli resourceAuthRequest σ
  have hlc : (cli.list resourceAuthRequest σ).2.cluster = σ.cluster := by
    unfold kubernetes.client.list
    split <;> rfl
  rcases hl : cli.list resourceAuthRequest σ with ⟨lres, σa⟩
  rw [hl] at hlt hlc
  simp only at hlt hlc
  cases lres with
  | error e =>
    left
    simp only
    refine ⟨by simp, by rw [hlc], ?_⟩
    rw [callsSince_of_append σ σa _ hlt]
    intro ev hev
    rw [List.mem_singleton.mp hev]
    rfl
  | ok authRequests =>
    simp only
    obtain ⟨evs1, ht1, hr1, hn1⟩ :=
      GarbageCollectAuthRequests_trace cli now authRequests ({}, none) σa
    have hc1 := GarbageCollectAuthRequests_authcodes cli now authRequests ({}, none) σa
    rcases hg : cli.GarbageCollectAuthRequests now authRequests ({}, none) σa with
      ⟨⟨res1, e1⟩, σb⟩
    rw [hg] at ht1 hn1 hc1
    simp only at ht1 hn1 hc1
    have htb : σb.trace = σ.trace ++
        (⟨.list, resourceAuthRequest.path, "", none⟩ :: evs1) := by
      rw [ht1, hlt]
      simp [errOf]
    cases e1 with
    | some delErr =>
      left
      simp only
      refine ⟨by simp, by rw [hc1, hlc], ?_⟩
      rw [callsSince_of_append σ σb _ htb]
      intro ev hev
      rcases List.mem_cons.mp hev with h | h
      · rw [h]; rfl
      · exact (hr1 ev h).2
    | none =>
      right
      simp only
      have hall1 := (hn1 rfl).2
      have hlt2 := list_trace cli resourceAuthCode σb
      rcases hl2 : cli.list resourceAuthCode σb with ⟨lres2, σc⟩
      rw [hl2] at hlt2
      simp only at hlt2
      cases lres2 with
      | error e =>
        simp only
        have htc : σc.trace = σ.trace ++
            (⟨.list, resourceAuthRequest.path, "", none⟩ :: evs1 ++
              [⟨.list, resourceAuthCode.path, "", some e⟩]) := by
          rw [hlt2, htb]
          simp [errOf]
        rw [callsSince_of_append σ σc _ htc]
        refine ⟨?_, fun h => by simp at h⟩
        intro ev hev _ hverb
        simp only [List.cons_append, List.mem_cons, List.mem_append, List.mem_singleton,
          List.mem_nil_iff, or_false] at hev
        rcases hev with h | h | h
        · rw [h] at hverb; exact Verb.noConfusion hverb
        · exact hall1 ev h
        · rw [h] at hverb; exact Verb.noConfusion hverb
      | ok authCodes =>
        simp only
        obtain ⟨evs2, ht2, hr2, hn2⟩ :=
          GarbageCollectAuthCodes_trace cli now authCodes (res1, none) σc
        have htd : (cli.GarbageCollectAuthCodes now authCodes (res1, none) σc).2.trace =
            σ.trace ++ (⟨.list, resourceAuthRequest.path, "", none⟩ :: evs1 ++
              [⟨.list, resourceAuthCode.path, "", none⟩] ++ evs2) := by
          rw [ht2, hlt2, htb]
          simp [errOf]
        rw [callsSince_of_append σ _ _ htd]
        refine ⟨?_, ?_⟩
        · intro ev hev hres hverb
          simp only [List.cons_append, List.mem_cons, List.mem_append, List.mem_singleton,
            List.append_assoc, List.nil_append, List.mem_nil_iff, or_false] at hev
          rcases hev with h | h | h | h
          · rw [h] at hverb; exact Verb.noConfusion hverb
          · exact hall1 ev h
          · rw [h] at hverb; exact Verb.noConfusion hverb
          · have := (hr2 ev h).2
            rw [this] at hres
            exact absurd hres (by decide)
        · intro hnone ev hev hverb
          simp only [List.cons_append, List.mem_cons, List.mem_append, List.mem_singleton,
            List.append_assoc, List.nil_append, List.mem_nil_iff, or_false] at hev
          rcases hev with h | h | h | h
          · rw [h] at hverb; exact Verb.noConfusion hverb
          · exact hall1 ev h
          · rw [h] at hverb; exact Verb.noConfusion hverb
          · exact (hn2 hnone).2 ev h

end server

end Dex

namespace Dex

namespace server

open kubernetes

/-- C21, as amended. If a delete issued by `GarbageCollect` fails, with `NotFound` or with
another error, `GarbageCollect` returns an error. If the delete that failed was of an
auth request, `GarbageCollect` returns after the loop over the auth requests: it has
made no call on auth codes and the auth codes are as they were. -/
theorem GarbageCollect_reports_failed_delete (cli : kubernetes.client) (now : Time)
    (σ : World) :
    ((∃ ev ∈ callsSince σ (cli.GarbageCollect now σ).2, ev.verb = .delete ∧ ev.err ≠ none) →
      (cli.GarbageCollect now σ).1.2 ≠ none) ∧
    ((∃ ev ∈ callsSince σ (cli.GarbageCollect now σ).2, failed .delete "authrequests" ev) →
      (cli.GarbageCollect now σ).1.2 ≠ none ∧
      (cli.GarbageCollect now σ).2.cluster.authcodes = σ.cluster.authcodes ∧
      ∀ ev ∈ callsSince σ (cli.GarbageCollect now σ).2, ev.resource = "authrequests") := by
  rcases GarbageCollect_calls cli now σ with ⟨h1, h2, h3⟩ | ⟨h1, h2⟩
  · exact ⟨fun _ => h1, fun _ => ⟨h1, h2, h3⟩⟩
  · constructor
    · rintro ⟨ev, hev, hverb, herr⟩ hnone
      exact herr (h2 hnone ev hev hverb)
    · rintro ⟨ev, hev, hverb, hres, herr⟩
      exact absurd (h1 ev hev hres hverb) herr

/-- Counterexample to C21 as stated: in the example deployment, at a time when the
authorization request `A` and the code `K` have expired, the delete of `A` is answered
with `NotFound`; `GarbageCollect` returns an error, and the expired code `K` is still in
the storage. -/
theorem GarbageCollect_NotFound_is_an_error :
    callsSince example1.raceWorld
        (example1.srv.storage.GarbageCollect 2000 example1.raceWorld).2 =
      [⟨.list, "authrequests", "", none⟩, ⟨.delete, "authrequests", "A", some .ErrNotFound⟩] ∧
    (example1.srv.storage.GarbageCollect 2000 example1.raceWorld).1.2 =
      some (.other "failed to delete auth request: not found") ∧
    example1.code.Expiry ≤ 2000 ∧
    example1.srv.storage.fromStorageAuthCode example1.code ∈
      (example1.srv.storage.GarbageCollect 2000 example1.raceWorld).2.cluster.authcodes := by
  decide

/-- Witness of C21 as amended: the same collection. -/
theorem GarbageCollect_reports_failed_delete_witness :
    (example1.srv.storage.GarbageCollect 2000 example1.raceWorld).1.2 ≠ none ∧
    (example1.srv.storage.GarbageCollect 2000 example1.raceWorld).2.cluster.authcodes =
      example1.raceWorld.cluster.authcodes ∧
    ∀ ev ∈ callsSince example1.raceWorld
        (example1.srv.storage.GarbageCollect 2000 example1.raceWorld).2,
      ev.resource = "authrequests" :=
  (GarbageCollect_reports_failed_delete example1.srv.storage 2000 example1.raceWorld).2
    ⟨⟨.delete, "authrequests", "A", some .ErrNotFound⟩, by decide,
      ⟨rfl, rfl, by decide⟩⟩

end server

end Dex

namespace Dex

namespace server

open kubernetes

/-! ## The update methods write back under the original key -/

theorem toLower_toLower (c : Char) : strings.toLower (strings.toLower c) = strings.toLower c := by
  unfold strings.toLower
  by_cases h : 65 ≤ c.toNat ∧ c.toNat ≤ 90
  · simp only [h, and_self, if_true]
    have hc : c = Char.ofNat c.toNat := (Char.ofNat_toNat c).symm
    obtain ⟨h1, h2⟩ := h
    generalize c.toNat = n at h1 h2
    interval_cases n <;> decide
  · simp only [h, if_false]

theorem ToLower_ToLower (s : String) :
    strings.ToLower (strings.ToLower s) = strings.ToLower s := by
  unfold strings.ToLower
  simp only [List.map_map]
  congr 1
  apply List.map_congr_left
  intro c _
  exact toLower_toLower c

/-- A `put` that succeeds replaced the objects of that name. -/
theorem put_ok {α : Type} (cli : kubernetes.client) (r : Resource α) (name : String) (o : α)
    (σ : World) (h : (cli.put r name o σ).1 = none) :
    (cli.put r name o σ).2.cluster =
      r.setItems ((r.items σ.cluster).map (fun x => if r.name x == name then o else x))
        σ.cluster := by
  unfold kubernetes.client.put at h ⊢
  split at h
  · simp at h
  · split at h
    · rename_i hany
      simp only [hany, if_true]
      rfl
    · simp at h

/-- The objects of a name after a replacement by an object of that name: the names are as
they were, and the objects of that name are the new object. -/
theorem map_replace {α : Type} (nameOf : α → String) (key : String) (o : α) (l : List α)
    (ho : nameOf o = key) :
    (l.map (fun x => if nameOf x == key then o else x)).map nameOf = l.map nameOf ∧
    ∀ x ∈ l.map (fun x => if nameOf x == key then o else x), nameOf x = key → x = o := by
  constructor
  · rw [List.map_map]
    apply List.map_congr_left
    intro x _
    by_cases hx : nameOf x = key
    · simp [hx, ho]
    · simp [hx]
  · intro x hx hname
    rw [List.mem_map] at hx
    obtain ⟨y, -, hy⟩ := hx
    by_cases hyk : nameOf y = key
    · simp [hyk] at hy
      exact hy.symm
    · simp [hyk] at hy
      rw [← hy] at hname
      exact absurd hname hyk

/-- A `get` that succeeds found the object among those of the resource, under the name
asked for, and left the storage as it was. -/
theorem get_mem {α : Type} (cli : kubernetes.client) (r : Resource α) (name : String)
    (σ σ1 : World) (o : α) (h : cli.get r name σ = (.ok o, σ1)) :
    o ∈ r.items σ.cluster ∧ r.name o = name ∧ σ1.cluster = σ.cluster := by
  have h1 : (cli.get r name σ).1 = .ok o := by rw [h]
  obtain ⟨-, hfind⟩ := kubernetes.client.get_ok cli r name σ o h1
  have hs := kubernetes.client.get_spec cli r name σ
  rw [h] at hs
  simp only at hs
  refine ⟨List.mem_of_find?_eq_some hfind, ?_, by rw [hs]; rfl⟩
  have := List.find?_some hfind
  simpa using this

end server

end Dex

namespace Dex

namespace server

open kubernetes

/-- A successful `UpdateClient`: the client found under the name of `id`, which has that
id, is replaced by the result of the mutator with the id and the metadata set back. -/
theorem UpdateClient_ok (cli : kubernetes.client) (id : String)
    (updater : storage.Client → Except Error storage.Client) (σ : World)
    (h : (cli.UpdateClient id updater σ).1 = none) :
    ∃ c updated, c ∈ σ.cluster.oauth2clients ∧ c.ObjectMeta.Name = cli.idToName id ∧
      c.ID = id ∧ updater (toStorageClient c) = .ok updated ∧
      (cli.UpdateClient id updater σ).2.cluster = { σ.cluster with
        oauth2clients := σ.cluster.oauth2clients.map (fun x =>
          if x.ObjectMeta.Name == cli.idToName id then
            { cli.fromStorageClient { updated with ID := id } with ObjectMeta := c.ObjectMeta }
          else x) } := by
  unfold kubernetes.client.UpdateClient at h ⊢
  rcases hg : cli.getClient id σ with ⟨res, σ1⟩
  rw [hg] at h
  cases res with
  | error e => simp at h
  | ok c =>
    simp only at h ⊢
    unfold kubernetes.client.getClient at hg
    simp only at hg
    rcases hget : cli.get resourceClient (cli.idToName id) σ with ⟨gres, σg⟩
    rw [hget] at hg
    cases gres with
    | error e => simp at hg
    | ok c0 =>
      simp only at hg
      split at hg
      · simp at hg
      · rename_i hid
        simp only [Prod.mk.injEq, Except.ok.injEq] at hg
        obtain ⟨hc, hσ⟩ := hg
        subst hc hσ
        have hcid : c0.ID = id := by simpa using hid
        obtain ⟨hmem, hname, hcl⟩ := get_mem cli resourceClient _ σ σg c0 hget
        cases hu : updater (toStorageClient c0) with
        | error e => rw [hu] at h; simp at h
        | ok updated =>
          rw [hu] at h
          simp only at h ⊢
          refine ⟨c0, updated, hmem, hname, hcid, hu, ?_⟩
          rw [put_ok cli resourceClient _ _ σg h, hcl]
          have hn : c0.ObjectMeta.Name = cli.idToName id := hname
          simp only [resourceClient, hn, hcid]

/-- A successful `UpdatePassword`: the password found under the name of the address,
which has that address, is replaced by the result of the mutator with the address and
the metadata set back. -/
theorem UpdatePassword_ok (cli : kubernetes.client) (email : String)
    (updater : storage.Password → Except Error storage.Password) (σ : World)
    (h : (cli.UpdatePassword email updater σ).1 = none) :
    ∃ p updated, p ∈ σ.cluster.passwords ∧
      p.ObjectMeta.Name = cli.idToName (strings.ToLower email) ∧
      p.Email = strings.ToLower email ∧ updater (toStoragePassword p) = .ok updated ∧
      (cli.UpdatePassword email updater σ).2.cluster = { σ.cluster with
        passwords := σ.cluster.passwords.map (fun x =>
          if x.ObjectMeta.Name == cli.idToName (strings.ToLower email) then
            { cli.fromStoragePassword { updated with Email := strings.ToLower email } with
              ObjectMeta := p.ObjectMeta }
          else x) } := by
  unfold kubernetes.client.UpdatePassword at h ⊢
  rcases hg : cli.getPassword email σ with ⟨res, σ1⟩
  rw [hg] at h
  cases res with
  | error e => simp at h
  | ok p =>
    simp only at h ⊢
    unfold kubernetes.client.getPassword at hg
    simp only at hg
    rcases hget : cli.get resourcePassword (cli.idToName (strings.ToLower email)) σ with
      ⟨gres, σg⟩
    rw [hget] at hg
    cases gres with
    | error e => simp at hg
    | ok p0 =>
      simp only at hg
      split at hg
      · simp at hg
      · rename_i hid
        simp only [Prod.mk.injEq, Except.ok.injEq] at hg
        obtain ⟨hc, hσ⟩ := hg
        subst hc hσ
        have hpe : p0.Email = strings.ToLower email := by
          have : strings.ToLower email = p0.Email := by simpa using hid
          exact this.symm
        obtain ⟨hmem, hname, hcl⟩ := get_mem cli resourcePassword _ σ σg p0 hget
        cases hu : updater (toStoragePassword p0) with
        | error e => rw [hu] at h; simp at h
        | ok updated =>
          rw [hu] at h
          simp only at h ⊢
          refine ⟨p0, updated, hmem, hname, hpe, hu, ?_⟩
          rw [put_ok cli resourcePassword _ _ σg h, hcl]
          have hn : p0.ObjectMeta.Name = cli.idToName (strings.ToLower email) := hname
          simp only [resourcePassword, hn, hpe]

/-- A successful `UpdateAuthRequest`: the authorization request found under `id` is
replaced by the result of the mutator with the metadata set back. -/
theorem UpdateAuthRequest_ok (cli : kubernetes.client) (id : String)
    (updater : storage.AuthRequest → Except Error storage.AuthRequest) (σ : World)
    (h : (cli.UpdateAuthRequest id updater σ).1 = none) :
    ∃ req updated, req ∈ σ.cluster.authrequests ∧ req.ObjectMeta.Name = id ∧
      updater (toStorageAuthRequest req) = .ok updated ∧
      (cli.UpdateAuthRequest id updater σ).2.cluster = { σ.cluster with
        authrequests := σ.cluster.authrequests.map (fun x =>
          if x.ObjectMeta.Name == id then
            { cli.fromStorageAuthRequest updated with ObjectMeta := req.ObjectMeta }
          else x) } := by
  unfold kubernetes.client.UpdateAuthRequest at h ⊢
  rcases hget : cli.get resourceAuthRequest id σ with ⟨gres, σg⟩
  rw [hget] at h
  cases gres with
  | error e => simp at h
  | ok req =>
    simp only at h ⊢
    obtain ⟨hmem, hname, hcl⟩ := get_mem cli resourceAuthRequest _ σ σg req hget
    cases hu : updater (toStorageAuthRequest req) with
    | error e => rw [hu] at h; simp at h
    | ok updated =>
      rw [hu] at h
      simp only at h ⊢
      refine ⟨req, updated, hmem, hname, hu, ?_⟩
      rw [put_ok cli resourceAuthRequest _ _ σg h, hcl]
      rfl

end server

end Dex

namespace Dex

namespace server

open kubernetes

/-- C23. For every mutator, also one that returns an entity with another id (for a
password, another email): after a successful `UpdateClient`, `UpdatePassword` or
`UpdateAuthRequest`, the names under which the entities are stored are as they were, so
no entity is created under the id the mutator set; an entity is stored under the original
key; and every entity stored under the original key has the original id (email) and
otherwise is the result of the mutator. -/
theorem update_keeps_key (cli : kubernetes.client) (σ : World) :
    (∀ id updater, (cli.UpdateClient id updater σ).1 = none →
      ∃ updated,
        (∃ c ∈ σ.cluster.oauth2clients, c.ObjectMeta.Name = cli.idToName id ∧ c.ID = id ∧
          updater (toStorageClient c) = .ok updated) ∧
        (cli.UpdateClient id updater σ).2.cluster.oauth2clients.map
            (fun x => x.ObjectMeta.Name) =
          σ.cluster.oauth2clients.map (fun x => x.ObjectMeta.Name) ∧
        (∃ x ∈ (cli.UpdateClient id updater σ).2.cluster.oauth2clients,
          x.ObjectMeta.Name = cli.idToName id) ∧
        ∀ x ∈ (cli.UpdateClient id updater σ).2.cluster.oauth2clients,
          x.ObjectMeta.Name = cli.idToName id →
          x.ID = id ∧ toStorageClient x = { updated with ID := id }) ∧
    (∀ email updater, (cli.UpdatePassword email updater σ).1 = none →
      ∃ updated,
        (∃ p ∈ σ.cluster.passwords,
          p.ObjectMeta.Name = cli.idToName (strings.ToLower email) ∧
          p.Email = strings.ToLower email ∧ updater (toStoragePassword p) = .ok updated) ∧
        (cli.UpdatePassword email updater σ).2.cluster.passwords.map
            (fun x => x.ObjectMeta.Name) =
          σ.cluster.passwords.map (fun x => x.ObjectMeta.Name) ∧
        (∃ x ∈ (cli.UpdatePassword email updater σ).2.cluster.passwords,
          x.ObjectMeta.Name = cli.idToName (strings.ToLower email)) ∧
        ∀ x ∈ (cli.UpdatePassword email updater σ).2.cluster.passwords,
          x.ObjectMeta.Name = cli.idToName (strings.ToLower email) →
          x.Email = strings.ToLower email ∧
            toStoragePassword x = { updated with Email := strings.ToLower email }) ∧
    (∀ id updater, (cli.UpdateAuthRequest id updater σ).1 = none →
      ∃ updated,
        (∃ req ∈ σ.cluster.authrequests, req.ObjectMeta.Name = id ∧
          updater (toStorageAuthRequest req) = .ok updated) ∧
        (cli.UpdateAuthRequest id updater σ).2.cluster.authrequests.map
            (fun x => x.ObjectMeta.Name) =
          σ.cluster.authrequests.map (fun x => x.ObjectMeta.Name) ∧
        (∃ x ∈ (cli.UpdateAuthRequest id updater σ).2.cluster.authrequests,
          x.ObjectMeta.Name = id) ∧
        ∀ x ∈ (cli.UpdateAuthRequest id updater σ).2.cluster.authrequests,
          x.ObjectMeta.Name = id →
          (toStorageAuthRequest x).ID = id ∧
            toStorageAuthRequest x = { updated with ID := id }) := by
  refine ⟨?_, ?_, ?_⟩
  · intro id updater h
    obtain ⟨c, updated, hmem, hname, hid, hu, hcl⟩ := UpdateClient_ok cli id updater σ h
    have hrep := map_replace (fun x : kubernetes.Client => x.ObjectMeta.Name)
      (cli.idToName id)
      { cli.fromStorageClient { updated with ID := id } with ObjectMeta := c.ObjectMeta }
      σ.cluster.oauth2clients hname
    rw [hcl]
    refine ⟨updated, ⟨c, hmem, hname, hid, hu⟩, hrep.1, ?_, ?_⟩
    · refine ⟨_, List.mem_map.mpr ⟨c, hmem, rfl⟩, ?_⟩
      simp [hname]
    · intro x hx hn
      rw [hrep.2 x hx hn]
      exact ⟨rfl, rfl⟩
  · intro email updater h
    obtain ⟨p, updated, hmem, hname, hpe, hu, hcl⟩ := UpdatePassword_ok cli email updater σ h
    have hrep := map_replace (fun x : kubernetes.Password => x.ObjectMeta.Name)
      (cli.idToName (strings.ToLower email))
      { cli.fromStoragePassword { updated with Email := strings.ToLower email } with
        ObjectMeta := p.ObjectMeta }
      σ.cluster.passwords hname
    rw [hcl]
    refine ⟨updated, ⟨p, hmem, hname, hpe, hu⟩, hrep.1, ?_, ?_⟩
    · refine ⟨_, List.mem_map.mpr ⟨p, hmem, rfl⟩, ?_⟩
      simp [hname]
    · intro x hx hn
      rw [hrep.2 x hx hn]
      simp [kubernetes.client.fromStoragePassword, toStoragePassword, ToLower_ToLower]
  · intro id updater h
    obtain ⟨req, updated, hmem, hname, hu, hcl⟩ := UpdateAuthRequest_ok cli id updater σ h
    have hrep := map_replace (fun x : kubernetes.AuthRequest => x.ObjectMeta.Name) id
      { cli.fromStorageAuthRequest updated with ObjectMeta := req.ObjectMeta }
      σ.cluster.authrequests hname
    rw [hcl]
    refine ⟨updated, ⟨req, hmem, hname, hu⟩, hrep.1, ?_, ?_⟩
    · refine ⟨_, List.mem_map.mpr ⟨req, hmem, rfl⟩, ?_⟩
      simp [hname]
    · intro x hx hn
      rw [hrep.2 x hx hn]
      simp [kubernetes.client.fromStorageAuthRequest, toStorageAuthRequest, hname,
        toStorageClaims, fromStorageClaims]

/-- Witness of C23: in the example deployment, an update of client `C1` by a mutator that
sets the id `evil` succeeds; the client stored under `C1` still has the id `C1`, and the
names of the stored clients are as they were. -/
theorem update_keeps_key_witness :
    (example1.srv.storage.UpdateClient "C1" example1.rename example1.world).1 = none ∧
    (example1.srv.storage.UpdateClient "C1" example1.rename
      example1.world).2.cluster.oauth2clients.map (fun x => x.ObjectMeta.Name) = ["C1", "C2"] ∧
    ∀ x ∈ (example1.srv.storage.UpdateClient "C1" example1.rename
        example1.world).2.cluster.oauth2clients,
      x.ObjectMeta.Name = "C1" → x.ID = "C1" :=
  ⟨by decide, by decide, fun x hx hn => by
    obtain ⟨updated, -, -, -, hall⟩ :=
      (update_keeps_key example1.srv.storage example1.world).1 "C1" example1.rename
        (by decide)
    exact (hall x hx hn).1⟩

end server

end Dex

namespace Dex

namespace server

open kubernetes

/-! ## The approval endpoint -/

theorem readsOnly_GetAuthRequest (cli : kubernetes.client) (id : String) (σ : World) :
    readsOnly σ (cli.GetAuthRequest id σ).2 := by
  have h := readsOnly_get cli resourceAuthRequest id σ
  unfold kubernetes.client.GetAuthRequest
  split <;> simp_all

/-- An authorization request that `GetAuthRequest` returns is one of the stored ones,
under the id asked for. -/
theorem GetAuthRequest_ok (cli : kubernetes.client) (id : String) (σ σ1 : World)
    (a : storage.AuthRequest) (h : cli.GetAuthRequest id σ = (.ok a, σ1)) :
    ∃ req ∈ σ.cluster.authrequests, req.ObjectMeta.Name = id ∧ a = toStorageAuthRequest req := by
  unfold kubernetes.client.GetAuthRequest at h
  split at h
  · simp at h
  · rename_i req σg hget
    simp only [Prod.mk.injEq, Except.ok.injEq] at h
    obtain ⟨hmem, hname, -⟩ := get_mem cli resourceAuthRequest id σ σg req hget
    exact ⟨req, hmem, hname, h.1.symm⟩

/-- The only API call of a `GetAuthRequest`. -/
theorem GetAuthRequest_trace (cli : kubernetes.client) (id : String) (σ : World) :
    (cli.GetAuthRequest id σ).2.trace =
      σ.trace ++ [⟨.get, "authrequests", id, errOf (cli.GetAuthRequest id σ).1⟩] := by
  have hs := kubernetes.client.get_spec cli resourceAuthRequest id σ
  unfold kubernetes.client.GetAuthRequest
  rcases hg : cli.get resourceAuthRequest id σ with ⟨res, σ1⟩
  rw [hg] at hs
  simp only at hs
  cases res with
  | error e => simp only [hs, errOf]; rfl
  | ok req => simp only [hs, errOf]; rfl

/-- C26. For every request to `handleApproval`, with any method, with or without
`skip_approval` and `approval=approve`, that addresses an authorization request whose
`logged_in` flag is false: the handler only reads the authorization request, so that no
auth code is created and the authorization request is not deleted; it renders an error
page, sets no header, so that there is no redirect, and writes no token. -/
theorem handleApproval_not_logged_in (s : Server) (w : http.ResponseWriter) (r : http.Request)
    (σ : World)
    (h : ∀ x ∈ σ.cluster.authrequests, x.ObjectMeta.Name = r.FormValue "req" →
      x.LoggedIn = false) :
    (s.handleApproval w r σ).2.cluster = σ.cluster ∧
    (∃ e, callsSince σ (s.handleApproval w r σ).2 =
      [⟨.get, "authrequests", r.FormValue "req", e⟩]) ∧
    (∃ description, (s.handleApproval w r σ).1 =
      s.renderError w http.StatusInternalServerError description) ∧
    (s.handleApproval w r σ).1.Header = w.Header ∧
    (s.handleApproval w r σ).1.Body.getLast? ≠ none ∧
    (∀ c, (s.handleApproval w r σ).1.Body.getLast? = some c →
      ∃ description, c = .html "error" ["Internal Server Error", description]) := by
  have hro := readsOnly_GetAuthRequest s.storage (r.FormValue "req") σ
  have htr := GetAuthRequest_trace s.storage (r.FormValue "req") σ
  have hout : ∃ description, s.handleApproval w r σ =
      (s.renderError w http.StatusInternalServerError description,
        (s.storage.GetAuthRequest (r.FormValue "req") σ).2) := by
    unfold Server.handleApproval
    rcases hg : s.storage.GetAuthRequest (r.FormValue "req") σ with ⟨res, σ1⟩
    cases res with
    | error e => exact ⟨_, rfl⟩
    | ok authReq =>
      obtain ⟨req, hmem, hname, ha⟩ := GetAuthRequest_ok s.storage _ σ σ1 authReq hg
      have hl : authReq.LoggedIn = false := by
        rw [ha]
        exact h req hmem hname
      simp only [hl, Bool.not_false, if_true]
      exact ⟨_, rfl⟩
  obtain ⟨description, hd⟩ := hout
  rw [hd]
  have hbody : (s.renderError w http.StatusInternalServerError description).Body =
      w.Body ++ [.html "error" ["Internal Server Error", description]] := by
    simp only [Server.renderError, templates.err, http.ResponseWriter.Write,
      http.ResponseWriter.WriteHeader]
    split <;> rfl
  refine ⟨hro.1, ⟨_, callsSince_of_append σ _ _ htr⟩, ⟨description, rfl⟩, Write_Header w _, ?_,
    ?_⟩
  · simp only [hbody]
    simp
  · intro c hc
    simp only [hbody] at hc
    simp at hc
    exact ⟨description, hc.symm⟩

/-- Witness of C26: in the example deployment without a consent page, the approval of
the authorization request `A`, which is not logged in, leaves the storage as it is. -/
theorem handleApproval_not_logged_in_witness :
    (example1.loginSrv.handleApproval {} example1.approve example1.loginWorld).2.cluster =
      example1.loginWorld.cluster ∧
    (example1.loginSrv.handleApproval {} example1.approve example1.loginWorld).1 =
      { Header := []
        StatusCode := 200
        Body := [.html "error" ["Internal Server Error",
          "Login process not yet finalized."]] } :=
  ⟨(handleApproval_not_logged_in example1.loginSrv {} example1.approve example1.loginWorld
      (by decide)).1, by decide⟩

end server

end Dex

namespace Dex

namespace server

open kubernetes

/-! ## The order of the delete and the create in `sendCodeResponse` -/

/-- A `CreateAuthCode` leaves the authorization requests as they are. -/
theorem CreateAuthCode_authrequests (cli : kubernetes.client) (c : storage.AuthCode)
    (σ : World) :
    (cli.CreateAuthCode c σ).2.cluster.authrequests = σ.cluster.authrequests := by
  unfold kubernetes.client.CreateAuthCode
  rw [kubernetes.client.post_spec]
  simp only [World.step_cluster]
  split <;> rfl

/-- The loop of `sendCodeResponse` leaves the authorization requests as they are. -/
theorem sendCodeResponseLoop_authrequests (s : Server) (w : http.ResponseWriter)
    (authReq : storage.AuthRequest) (responseTypes : List String) :
    ∀ (q : url.Values) (fragment : String) (σ : World),
      (s.sendCodeResponseLoop w authReq responseTypes q fragment σ).2.cluster.authrequests =
        σ.cluster.authrequests := by
  induction responseTypes with
  | nil => intro q fragment σ; rfl
  | cons rt rest ih =>
    intro q fragment σ
    unfold Server.sendCodeResponseLoop
    split
    · simp only
      have hc := CreateAuthCode_authrequests s.storage
        { ID := (storage.NewID σ).1
          ClientID := authReq.ClientID
          ConnectorID := authReq.ConnectorID
          Nonce := authReq.Nonce
          Scopes := authReq.Scopes
          Claims := authReq.Claims
          Expiry := s.now + Minute * 30
          RedirectURI := authReq.RedirectURI
          ConnectorData := authReq.ConnectorData } (storage.NewID σ).2
      rw [NewID_cluster] at hc
      split
      · rename_i hcr
        rw [hcr] at hc
        exact hc
      · rename_i hcr
        rw [hcr] at hc
        split
        · exact hc
        · rw [ih]
          exact hc
    · split
      · have hro := readsOnly_newIDToken s authReq.ClientID authReq.Claims authReq.Scopes
          authReq.Nonce σ
        split
        · rename_i hn
          rw [hn] at hro
          simp only
          rw [hro.1]
        · rename_i hn
          rw [hn] at hro
          simp only
          rw [ih, NewID_cluster, hro.1]
      · exact ih _ _ _

end server

end Dex

namespace Dex

namespace server

open kubernetes

/-- The loop of `sendCodeResponse` only adds to the log of API calls. -/
theorem sendCodeResponseLoop_trace (s : Server) (w : http.ResponseWriter)
    (authReq : storage.AuthRequest) (responseTypes : List String) :
    ∀ (q : url.Values) (fragment : String) (σ : World),
      ∃ evs, (s.sendCodeResponseLoop w authReq responseTypes q fragment σ).2.trace =
        σ.trace ++ evs := by
  induction responseTypes with
  | nil => intro q fragment σ; exact ⟨[], by simp [Server.sendCodeResponseLoop]⟩
  | cons rt rest ih =>
    intro q fragment σ
    unfold Server.sendCodeResponseLoop
    split
    · simp only
      have hp := kubernetes.client.post_spec s.storage resourceAuthCode
        (s.storage.fromStorageAuthCode
          { ID := (storage.NewID σ).1
            ClientID := authReq.ClientID
            ConnectorID := authReq.ConnectorID
            Nonce := authReq.Nonce
            Scopes := authReq.Scopes
            Claims := authReq.Claims
            Expiry := s.now + Minute * 30
            RedirectURI := authReq.RedirectURI
            ConnectorData := authReq.ConnectorData }) (storage.NewID σ).2
      have ht := congrArg World.trace hp
      rw [World.step_trace, NewID_trace] at ht
      unfold kubernetes.client.CreateAuthCode
      split
      · rename_i hcr
        rw [hcr] at ht
        exact ⟨_, ht⟩
      · rename_i hcr
        rw [hcr] at ht
        split
        · exact ⟨_, ht⟩
        · obtain ⟨evs, he⟩ := ih (q.Set "code" (storage.NewID σ).1) fragment _
          rw [he]
          simp only at ht
          rw [ht, List.append_assoc]
          exact ⟨_, rfl⟩
    · split
      · have hro := readsOnly_newIDToken s authReq.ClientID authReq.Claims authReq.Scopes
          authReq.Nonce σ
        obtain ⟨-, -, evs0, he0, -⟩ := hro
        split
        · rename_i hn
          rw [hn] at he0
          exact ⟨evs0, he0⟩
        · rename_i hn
          rw [hn] at he0
          simp only at he0 ⊢
          obtain ⟨evs, he⟩ := ih q
            (url.Values.Encode
              (url.Values.Set (url.Values.Set (url.Values.Set (url.Values.Set
                (url.Values.Set [] "access_token" (storage.NewID _).1) "token_type" "bearer")
                "id_token" _) "state" authReq.State)
                "expires_in" (strconv.Itoa (_ - s.now)))) (storage.NewID _).2
          rw [he, NewID_trace, he0, List.append_assoc]
          exact ⟨_, rfl⟩
      · exact ih _ _ _

end server

end Dex

namespace Dex

namespace server

open kubernetes

/-- The runs of `sendCodeResponse`: it returns before the loop over the response types,
having made no call or only the delete of the authorization request; or the delete has
succeeded, it is the first call, and no authorization request is stored under that id when
the handler returns. -/
theorem sendCodeResponse_cases (s : Server) (w : http.ResponseWriter) (r : http.Request)
    (authReq : storage.AuthRequest) (σ : World) :
    (∀ ev ∈ callsSince σ (s.sendCodeResponse w r authReq σ).2,
      ev.verb = .delete ∧ ev.resource = "authrequests") ∨
    ((s.storage.DeleteAuthRequest authReq.ID σ).1 = none ∧
      (callsSince σ (s.sendCodeResponse w r authReq σ).2).head? =
        some ⟨.delete, "authrequests", authReq.ID, none⟩ ∧
      ∀ x ∈ (s.sendCodeResponse w r authReq σ).2.cluster.authrequests,
        x.ObjectMeta.Name ≠ authReq.ID) := by
  unfold Server.sendCodeResponse
  split
  · left
    intro ev hev
    simp [callsSince] at hev
  · have ht := delete_trace s.storage resourceAuthRequest authReq.ID σ
    have hs := kubernetes.client.delete_spec s.storage resourceAuthRequest authReq.ID σ
    unfold kubernetes.client.DeleteAuthRequest
    rcases hd : s.storage.delete resourceAuthRequest authReq.ID σ with ⟨res, σ1⟩
    rw [hd] at ht hs
    simp only at ht hs
    have honly : ∀ ev ∈ callsSince σ σ1, ev.verb = .delete ∧ ev.resource = "authrequests" := by
      rw [callsSince_of_append σ σ1 _ ht]
      intro ev hev
      rw [List.mem_singleton.mp hev]
      exact ⟨rfl, rfl⟩
    cases res with
    | some err =>
      left
      simp only
      split <;> exact honly
    | none =>
      simp only
      have hgone : ∀ x ∈ σ1.cluster.authrequests, x.ObjectMeta.Name ≠ authReq.ID := by
        intro x hx
        rw [hs] at hx
        simp only [if_true, World.step_cluster, resourceAuthRequest] at hx
        have := (List.mem_filter.mp hx).2
        simpa using this
      split
      · left
        exact honly
      · rename_i u hu
        right
        refine ⟨trivial, ?_⟩
        have hla := sendCodeResponseLoop_authrequests s w authReq authReq.ResponseTypes u.Query
          u.Fragment σ1
        obtain ⟨evs, hlt⟩ := sendCodeResponseLoop_trace s w authReq authReq.ResponseTypes
          u.Query u.Fragment σ1
        rcases hloop : s.sendCodeResponseLoop w authReq authReq.ResponseTypes u.Query
          u.Fragment σ1 with ⟨res2, σ2⟩
        rw [hloop] at hla hlt
        simp only at hla hlt
        have htr : σ2.trace = σ.trace ++
            (⟨.delete, resourceAuthRequest.path, authReq.ID, none⟩ :: evs) := by
          rw [hlt, ht]
          simp
        have hfin : (callsSince σ σ2).head? =
            some ⟨.delete, "authrequests", authReq.ID, none⟩ ∧
            ∀ x ∈ σ2.cluster.authrequests, x.ObjectMeta.Name ≠ authReq.ID := by
          rw [callsSince_of_append σ σ2 _ htr, hla]
          exact ⟨rfl, hgone⟩
        cases res2 with
        | error w1 => exact hfin
        | ok v => exact hfin

/-- C24, as amended. In `sendCodeResponse` the authorization request is deleted before
the auth code is created: whenever `sendCodeResponse` has called `CreateAuthCode`, with or
without success, its first API call was the delete of the authorization request, which
succeeded, and no authorization request is stored under that id when the handler
returns. -/
theorem sendCodeResponse_deletes_first (s : Server) (w : http.ResponseWriter)
    (r : http.Request) (authReq : storage.AuthRequest) (σ : World)
    (h : ∃ ev ∈ callsSince σ (s.sendCodeResponse w r authReq σ).2,
      ev.verb = .post ∧ ev.resource = "authcodes") :
    (s.storage.DeleteAuthRequest authReq.ID σ).1 = none ∧
    (callsSince σ (s.sendCodeResponse w r authReq σ).2).head? =
      some ⟨.delete, "authrequests", authReq.ID, none⟩ ∧
    ∀ x ∈ (s.sendCodeResponse w r authReq σ).2.cluster.authrequests,
      x.ObjectMeta.Name ≠ authReq.ID := by
  rcases sendCodeResponse_cases s w r authReq σ with hearly | hlate
  · obtain ⟨ev, hev, hverb, -⟩ := h
    have := (hearly ev hev).1
    rw [this] at hverb
    exact Verb.noConfusion hverb
  · exact hlate

/-- Counterexample to C24 as stated: in the example deployment the authorization request
`A`, logged in and with the response type `code`, is approved while the creation of the
auth code fails; the authorization request was in the storage before and is no longer
there afterwards. -/
theorem sendCodeResponse_request_gone :
    example1.approvalWorld.cluster.authrequests.map (fun x => x.ObjectMeta.Name) = ["A"] ∧
    callsSince example1.approvalWorld
        (example1.loginSrv.handleApproval {} example1.approve example1.approvalWorld).2 =
      [⟨.get, "authrequests", "A", none⟩, ⟨.delete, "authrequests", "A", none⟩,
       ⟨.post, "authcodes", "faaaaaaaaaaaaaaaaaaaaaaaaa", some (.other "timeout")⟩] ∧
    (example1.loginSrv.handleApproval {} example1.approve
      example1.approvalWorld).2.cluster.authrequests = [] ∧
    (example1.loginSrv.handleApproval {} example1.approve
      example1.approvalWorld).2.cluster.authcodes = example1.approvalWorld.cluster.authcodes := by
  decide

/-- Witness of C24 as amended: in the example deployment, `sendCodeResponse` for the
authorization request `A` creates an auth code after it has deleted `A`. -/
theorem sendCodeResponse_deletes_first_witness :
    (example1.loginSrv.storage.DeleteAuthRequest example1.loggedIn.ID
      example1.approvalWorld).1 = none ∧
    (callsSince example1.approvalWorld
      (example1.loginSrv.sendCodeResponse {} example1.approve example1.loggedIn
        example1.approvalWorld).2).head? = some ⟨.delete, "authrequests", "A", none⟩ ∧
    ∀ x ∈ (example1.loginSrv.sendCodeResponse {} example1.approve example1.loggedIn
        example1.approvalWorld).2.cluster.authrequests,
      x.ObjectMeta.Name ≠ example1.loggedIn.ID :=
  sendCodeResponse_deletes_first example1.loginSrv {} example1.approve example1.loggedIn
    example1.approvalWorld
    ⟨⟨.post, "authcodes", "faaaaaaaaaaaaaaaaaaaaaaaaa", none⟩, by decide, rfl, rfl⟩

end server

end Dex

namespace Dex

namespace server

open kubernetes

/-! ## The connector of a login -/

/-- A `put` that fails leaves the storage as it is. -/
theorem put_fail {α : Type} (cli : kubernetes.client) (r : Resource α) (name : String) (o : α)
    (σ : World) (h : (cli.put r name o σ).1 ≠ none) :
    (cli.put r name o σ).2.cluster = σ.cluster := by
  unfold kubernetes.client.put at h ⊢
  split
  · rfl
  · split
    · rename_i hf hany
      rw [hf] at h
      simp [hany] at h
    · rfl

/-- The authorization requests after an `UpdateAuthRequest`: each was there before, or is
the result of the mutator on a request stored under `id`, with the metadata set back. -/
theorem UpdateAuthRequest_authrequests (cli : kubernetes.client) (id : String)
    (updater : storage.AuthRequest → Except Error storage.AuthRequest) (σ : World) :
    ∀ x ∈ (cli.UpdateAuthRequest id updater σ).2.cluster.authrequests,
      x ∈ σ.cluster.authrequests ∨
      ∃ req ∈ σ.cluster.authrequests, ∃ updated, req.ObjectMeta.Name = id ∧
        updater (toStorageAuthRequest req) = .ok updated ∧
        x = { cli.fromStorageAuthRequest updated with ObjectMeta := req.ObjectMeta } := by
  intro x hx
  by_cases hok : (cli.UpdateAuthRequest id updater σ).1 = none
  · obtain ⟨req, updated, hmem, hname, hu, hcl⟩ := UpdateAuthRequest_ok cli id updater σ hok
    rw [hcl] at hx
    simp only [List.mem_map] at hx
    obtain ⟨y, hy, hxy⟩ := hx
    by_cases hn : y.ObjectMeta.Name = id
    · right
      simp only [hn, beq_self_eq_true, if_true] at hxy
      exact ⟨req, hmem, updated, hname, hu, hxy.symm⟩
    · left
      have : (y.ObjectMeta.Name == id) = false := by simpa using hn
      simp only [this, Bool.false_eq_true, if_false] at hxy
      rw [← hxy]
      exact hy
  · left
    have hcl : (cli.UpdateAuthRequest id updater σ).2.cluster = σ.cluster := by
      unfold kubernetes.client.UpdateAuthRequest at hok ⊢
      have hro := readsOnly_get cli resourceAuthRequest id σ
      rcases hget : cli.get resourceAuthRequest id σ with ⟨gres, σg⟩
      rw [hget] at hok hro
      cases gres with
      | error e => exact hro.1
      | ok req =>
        simp only at hok ⊢
        cases hu : updater (toStorageAuthRequest req) with
        | error e => exact hro.1
        | ok updated =>
          rw [hu] at hok
          simp only at hok ⊢
          rw [put_fail cli resourceAuthRequest _ _ σg hok]
          exact hro.1
    rw [hcl] at hx
    exact hx

/-- The authorization requests after `finalizeLogin`: each has the name and the connector
id of a request that was there before. -/
theorem finalizeLogin_connector (s : Server) (identity : connector.Identity)
    (authReq : storage.AuthRequest) (conn : connector.Connector) (σ : World) :
    ∀ x ∈ (s.finalizeLogin identity authReq conn σ).2.cluster.authrequests,
      ∃ y ∈ σ.cluster.authrequests, y.ObjectMeta.Name = x.ObjectMeta.Name ∧
        x.ConnectorID = y.ConnectorID := by
  intro x hx
  have hup := UpdateAuthRequest_authrequests s.storage authReq.ID
    (fun a => .ok { a with
      LoggedIn := true
      Claims :=
        { UserID := identity.UserID
          Username := identity.Username
          Email := identity.Email
          EmailVerified := identity.EmailVerified
          Groups := identity.Groups }
      ConnectorData := identity.ConnectorData }) σ x
  have hw : (s.finalizeLogin identity authReq conn σ).2 =
      (s.storage.UpdateAuthRequest authReq.ID
        (fun a => .ok { a with
          LoggedIn := true
          Claims :=
            { UserID := identity.UserID
              Username := identity.Username
              Email := identity.Email
              EmailVerified := identity.EmailVerified
              Groups := identity.Groups }
          ConnectorData := identity.ConnectorData }) σ).2 := by
    unfold Server.finalizeLogin
    simp only
    split <;> simp_all
  rw [hw] at hx
  rcases hup hx with h | ⟨req, hreq, updated, -, hu, hxe⟩
  · exact ⟨x, h, rfl, rfl⟩
  · simp only [Except.ok.injEq] at hu
    refine ⟨req, hreq, ?_, ?_⟩
    · rw [hxe]
    · rw [hxe, ← hu]
      rfl

/-- C27: what the source does. A `POST` to `/auth/{connector}` never sets the connector
id: after the handler, every stored authorization request has the name and the connector
id of a request that was stored before, also when the handler has logged the user in
through the connector of the URL. -/
theorem handleConnectorLogin_POST_keeps_connector (s : Server) (w : http.ResponseWriter)
    (r : http.Request) (σ : World) (hm : r.Method = "POST") :
    ∀ x ∈ (s.handleConnectorLogin w r σ).2.cluster.authrequests,
      ∃ y ∈ σ.cluster.authrequests, y.ObjectMeta.Name = x.ObjectMeta.Name ∧
        x.ConnectorID = y.ConnectorID := by
  have hne : ¬ r.Method = "GET" := by
    rw [hm]
    decide
  have same : ∀ σ1 : World, σ1.cluster = σ.cluster →
      ∀ x ∈ σ1.cluster.authrequests,
        ∃ y ∈ σ.cluster.authrequests, y.ObjectMeta.Name = x.ObjectMeta.Name ∧
          x.ConnectorID = y.ConnectorID := by
    intro σ1 hc x hx
    rw [hc] at hx
    exact ⟨x, hx, rfl, rfl⟩
  unfold Server.handleConnectorLogin
  simp only
  split
  · exact same σ rfl
  · rename_i conn hconn
    have hro := readsOnly_GetAuthRequest s.storage (r.FormValue "req") σ
    rcases hg : s.storage.GetAuthRequest (r.FormValue "req") σ with ⟨res, σ1⟩
    rw [hg] at hro
    cases res with
    | error e => exact same σ1 hro.1
    | ok authReq =>
      simp only
      rw [if_neg hne, if_pos hm]
      split
      · exact same σ1 hro.1
      · rename_i passwordConnector hp
        split
        · exact same σ1 hro.1
        · rename_i identity ok hlogin
          split
          · exact same σ1 hro.1
          · have hfin := finalizeLogin_connector s identity authReq conn.Connector σ1
            rw [hro.1] at hfin
            split
            · rename_i hf
              rw [hf] at hfin
              exact hfin
            · rename_i hf
              rw [hf] at hfin
              exact hfin

/-- The failing input of C27: in the example deployment with the connectors `mock` and
`ldap`, the password form of `ldap` is posted for the fresh authorization request `A`,
whose connector id is empty. The connector `ldap` logs the user in and the handler
redirects to the approval; the stored request is logged in with the empty connector id,
which is the id of no registered connector. -/
theorem handleConnectorLogin_POST_keeps_connector_witness :
    (example1.loginSrv.handleConnectorLogin {} example1.passwordLogin
      example1.loginWorld).1.HeaderGet "Location" = "/approval?req=A" ∧
    (example1.loginSrv.handleConnectorLogin {} example1.passwordLogin
      example1.loginWorld).2.cluster.authrequests.map
        (fun x => (x.ObjectMeta.Name, x.LoggedIn, x.ConnectorID)) = [("A", true, "")] ∧
    url.Values.Get example1.passwordLogin.Vars "connector" = "ldap" ∧
    (example1.loginSrv.connector? "ldap").isSome = true ∧
    (example1.loginSrv.connector? "").isSome = false ∧
    ∀ x ∈ (example1.loginSrv.handleConnectorLogin {} example1.passwordLogin
        example1.loginWorld).2.cluster.authrequests,
      ∃ y ∈ example1.loginWorld.cluster.authrequests,
        y.ObjectMeta.Name = x.ObjectMeta.Name ∧ x.ConnectorID = y.ConnectorID :=
  ⟨by decide, by decide, by decide, rfl, rfl,
   handleConnectorLogin_POST_keeps_connector example1.loginSrv {} example1.passwordLogin
     example1.loginWorld rfl⟩

end server

end Dex

namespace Dex

namespace server

open kubernetes

/-! ## The OpenID Connect connector -/

/-- C30: what the source does. Every connector returned by a successful `Config.Open` has
no cancel function: the struct literal of `Open` sets neither `ctx` nor `cancel`, so that
`Close` calls a `nil` function and panics instead of returning `nil`. -/
theorem oidc_Close_panics (c : oidc.Config) (newProvider : String → Except Error oidc.Provider)
    (conn : oidc.oidcConnector) (h : c.Open newProvider = .ok conn) :
    conn.cancel = none ∧ conn.ctx = none ∧
    conn.Close = .panicked "invalid memory address or nil pointer dereference" ∧
    conn.Close ≠ .returned none := by
  unfold oidc.Config.Open at h
  simp only at h
  split at h
  · simp at h
  · simp only [Except.ok.injEq] at h
    subst h
    refine ⟨rfl, rfl, rfl, ?_⟩
    intro hc
    simp [oidc.oidcConnector.Close] at hc

/-- The failing input of C30: the connector opened for a provider whose discovery
succeeds panics on `Close`. -/
theorem oidc_Close_panics_witness :
    ∃ conn, example1.upstream.Open example1.discovery = .ok conn ∧
      conn.cancel = none ∧ conn.ctx = none ∧
      conn.Close = .panicked "invalid memory address or nil pointer dereference" ∧
      conn.Close ≠ .returned none :=
  ⟨_, rfl, oidc_Close_panics example1.upstream example1.discovery _ rfl⟩

end server

end Dex

namespace Dex

namespace server

open kubernetes

/-! ## What `http.Redirect` sends -/

/-- Setting a header leaves the other headers as they are. -/
theorem HeaderGet_SetHeader_ne (w : http.ResponseWriter) (key other value : String)
    (hne : other ≠ key) : (w.SetHeader other value).HeaderGet key = w.HeaderGet key := by
  unfold http.ResponseWriter.HeaderGet http.ResponseWriter.SetHeader
  have hfind : ∀ l : List (String × String),
      (l.filter (fun kv => !(kv.1 == other)) ++ [(other, value)]).find?
        (fun kv => kv.1 == key) = l.find? (fun kv => kv.1 == key) := by
    intro l
    induction l with
    | nil =>
      have hb : (other == key) = false := by simpa using hne
      simp [List.find?, hb]
    | cons x xs ih =>
      rw [List.filter_cons]
      by_cases hxo : x.1 = other
      · have hb1 : (x.1 == other) = true := by simpa using hxo
        have hb2 : (x.1 == key) = false := by
          rw [hxo]
          simpa using hne
        simp only [hb1, Bool.not_true, Bool.false_eq_true, if_false]
        rw [ih, List.find?_cons, hb2]
      · have hb1 : (x.1 == other) = false := by simpa using hxo
        simp only [hb1, Bool.not_false, if_true, List.cons_append]
        rw [List.find?_cons, List.find?_cons, ih]
  simp only
  rw [hfind]

theorem WriteHeader_HeaderGet (w : http.ResponseWriter) (code : Nat) (key : String) :
    (w.WriteHeader code).HeaderGet key = w.HeaderGet key := by
  unfold http.ResponseWriter.HeaderGet
  rw [WriteHeader_Header]

theorem Write_HeaderGet (w : http.ResponseWriter) (c : http.Content) (key : String) :
    (w.Write c).HeaderGet key = w.HeaderGet key := by
  unfold http.ResponseWriter.HeaderGet
  rw [Write_Header]

theorem Redirect_Location (w : http.ResponseWriter) (r : http.Request) (urlStr : String)
    (code : Nat) :
    (http.Redirect w r urlStr code).HeaderGet "Location" =
      http.hexEscapeNonASCII (http.redirectURL r.Path urlStr) := by
  have h := HeaderGet_SetHeader w "Location"
    (http.hexEscapeNonASCII (http.redirectURL r.Path urlStr))
  have h2 := HeaderGet_SetHeader_ne
    (w.SetHeader "Location" (http.hexEscapeNonASCII (http.redirectURL r.Path urlStr)))
    "Location" "Content-Type" "text/html; charset=utf-8" (by decide)
  unfold http.Redirect
  simp only
  split
  · rw [Write_HeaderGet, WriteHeader_HeaderGet]
    split
    · rw [h2, h]
    · exact h
  · rw [WriteHeader_HeaderGet]
    split
    · rw [h2, h]
    · exact h

theorem SetHeader_StatusCode (w : http.ResponseWriter) (key value : String) :
    (w.SetHeader key value).StatusCode = w.StatusCode := rfl

theorem Write_StatusCode (w : http.ResponseWriter) (c : http.Content)
    (h : w.StatusCode ≠ 0) : (w.Write c).StatusCode = w.StatusCode := by
  unfold http.ResponseWriter.Write http.ResponseWriter.WriteHeader
  simp [h]

theorem WriteHeader_StatusCode (w : http.ResponseWriter) (code : Nat)
    (h : w.StatusCode = 0) : (w.WriteHeader code).StatusCode = code := by
  unfold http.ResponseWriter.WriteHeader
  simp [h]

theorem Redirect_StatusCode (w : http.ResponseWriter) (r : http.Request) (urlStr : String)
    (code : Nat) (h0 : w.StatusCode = 0) (hc : code ≠ 0) :
    (http.Redirect w r urlStr code).StatusCode = code := by
  unfold http.Redirect
  simp only
  split
  · rw [Write_StatusCode]
    · rw [WriteHeader_StatusCode]
      split <;> simp [SetHeader_StatusCode, h0]
    · rw [WriteHeader_StatusCode]
      · exact hc
      · split <;> simp [SetHeader_StatusCode, h0]
  · rw [WriteHeader_StatusCode]
    split <;> simp [SetHeader_StatusCode, h0]

/-- A scheme read by `getScheme` is read as well when more text follows. -/
theorem getSchemeAux_append (raw raw2 t : List Char) :
    ∀ (cs seen scheme rest : List Char),
      url.getSchemeAux raw seen cs = some (scheme, rest) → scheme ≠ [] →
      url.getSchemeAux raw2 seen (cs ++ t) = some (scheme, rest ++ t) := by
  intro cs
  induction cs with
  | nil =>
    intro seen scheme rest h hne
    simp only [url.getSchemeAux, Option.some.injEq, Prod.mk.injEq] at h
    exact absurd h.1.symm hne
  | cons c cs ih =>
    intro seen scheme rest h hne
    rw [List.cons_append]
    unfold url.getSchemeAux at h ⊢
    split
    · rename_i hl
      rw [if_pos hl] at h
      exact ih _ _ _ h hne
    · rename_i hl
      rw [if_neg hl] at h
      split
      · rename_i hd
        rw [if_pos hd] at h
        split
        · rename_i hs
          rw [if_pos hs] at h
          simp only [Option.some.injEq, Prod.mk.injEq] at h
          exact absurd h.1.symm hne
        · rename_i hs
          rw [if_neg hs] at h
          exact ih _ _ _ h hne
      · rename_i hd
        rw [if_neg hd] at h
        split
        · rename_i hcol
          rw [if_pos hcol] at h
          split
          · rename_i hs
            rw [if_pos hs] at h
            simp at h
          · rename_i hs
            rw [if_neg hs] at h
            simp only [Option.some.injEq, Prod.mk.injEq] at h
            rw [← h.1, ← h.2]
        · rename_i hcol
          rw [if_neg hcol] at h
          simp only [Option.some.injEq, Prod.mk.injEq] at h
          exact absurd h.1.symm hne

/-- A scheme read by `getScheme` lies before the fragment. -/
theorem getSchemeAux_takeWhile (raw raw2 : List Char) :
    ∀ (cs seen scheme rest : List Char),
      url.getSchemeAux raw seen cs = some (scheme, rest) → scheme ≠ [] →
      ∃ rest2, url.getSchemeAux raw2 seen (cs.takeWhile (fun c => c != Char.ofNat 35)) =
        some (scheme, rest2) := by
  intro cs
  induction cs with
  | nil =>
    intro seen scheme rest h hne
    simp only [url.getSchemeAux, Option.some.injEq, Prod.mk.injEq] at h
    exact absurd h.1.symm hne
  | cons c cs ih =>
    intro seen scheme rest h hne
    by_cases h35 : c = Char.ofNat 35
    · subst h35
      exfalso
      unfold url.getSchemeAux at h
      rw [if_neg (by decide), if_neg (by decide), if_neg (by decide)] at h
      simp only [Option.some.injEq, Prod.mk.injEq] at h
      exact hne h.1.symm
    · have htw : (c :: cs).takeWhile (fun c => c != Char.ofNat 35) =
          c :: cs.takeWhile (fun c => c != Char.ofNat 35) := by
        have hb : (c != Char.ofNat 35) = true := by simpa using h35
        simp [List.takeWhile, hb]
      rw [htw]
      unfold url.getSchemeAux at h ⊢
      split
      · rename_i hl
        rw [if_pos hl] at h
        exact ih _ _ _ h hne
      · rename_i hl
        rw [if_neg hl] at h
        split
        · rename_i hd
          rw [if_pos hd] at h
          split
          · rename_i hs
            rw [if_pos hs] at h
            simp only [Option.some.injEq, Prod.mk.injEq] at h
            exact absurd h.1.symm hne
          · rename_i hs
            rw [if_neg hs] at h
            exact ih _ _ _ h hne
        · rename_i hd
          rw [if_neg hd] at h
          split
          · rename_i hcol
            rw [if_pos hcol] at h
            split
            · rename_i hs
              rw [if_pos hs] at h
              simp at h
            · rename_i hs
              rw [if_neg hs] at h
              simp only [Option.some.injEq, Prod.mk.injEq] at h
              exact ⟨_, by rw [← h.1]⟩
          · rename_i hcol
            rw [if_neg hcol] at h
            simp only [Option.some.injEq, Prod.mk.injEq] at h
            exact absurd h.1.symm hne

/-- The scheme of a URL that `url.Parse` accepts is the scheme read by `getScheme`, in
lower case. -/
theorem Parse_Scheme (rawurl : String) (u : url.URL) (h : url.Parse rawurl = .ok u) :
    ∃ scheme rest, url.getScheme (url.cut (Char.ofNat 35) rawurl.data).1 = some (scheme, rest) ∧
      u.Scheme = strings.ToLower (String.mk scheme) := by
  unfold url.Parse at h
  simp only at h
  split at h
  · simp at h
  · split at h
    · simp at h
    · rename_i scheme rest hs
      refine ⟨scheme, rest, hs, ?_⟩
      split at h
      · simp at h
      · rename_i v hv
        split at h
        · simp at h
        · simp only [Except.ok.injEq] at h
          subst h
          split at hv
          · simp only [Except.ok.injEq] at hv
            rw [← hv]
          · split at hv
            · simp at hv
            · split at hv
              · split at hv
                · simp at hv
                · split at hv
                  · simp at hv
                  · simp only [Except.ok.injEq] at hv
                    rw [← hv]
              · split at hv
                · simp at hv
                · simp only [Except.ok.injEq] at hv
                  rw [← hv]

theorem ToLower_eq_empty (cs : List Char) (h : strings.ToLower (String.mk cs) = "") :
    cs = [] := by
  unfold strings.ToLower at h
  have := congrArg String.data h
  simpa using this

/-- A URL that begins with a scheme is sent as it is, whatever follows it. -/
theorem redirectURL_of_scheme (oldpath urlStr more : String)
    (h : url.hasScheme urlStr = true) :
    http.redirectURL oldpath (urlStr ++ more) = urlStr ++ more := by
  unfold http.redirectURL
  cases hp : url.Parse (urlStr ++ more) with
  | error e => rfl
  | ok u =>
    simp only
    obtain ⟨scheme, rest, hs, hsch⟩ := Parse_Scheme _ _ hp
    unfold url.hasScheme at h
    cases hg : url.getScheme urlStr.data with
    | none => rw [hg] at h; simp at h
    | some pr =>
      obtain ⟨scheme0, rest0⟩ := pr
      rw [hg] at h
      simp only [Bool.not_eq_true', List.isEmpty_eq_false] at h
      have hne : scheme0 ≠ [] := by
        intro h0
        rw [h0] at h
        simp at h
      unfold url.getScheme at hg hs
      have h1 := getSchemeAux_append urlStr.data (urlStr ++ more).data more.data _ _ _ _ hg hne
      rw [← String.data_append] at h1
      obtain ⟨rest2, h2⟩ := getSchemeAux_takeWhile (urlStr ++ more).data
        (url.cut (Char.ofNat 35) (urlStr ++ more).data).1 _ _ _ _ h1 hne
      have hcut : (url.cut (Char.ofNat 35) (urlStr ++ more).data).1 =
          (urlStr ++ more).data.takeWhile (fun c => c != Char.ofNat 35) := rfl
      rw [hcut] at hs
      rw [hcut] at h2
      rw [h2] at hs
      simp only [Option.some.injEq, Prod.mk.injEq] at hs
      have hsne : u.Scheme ≠ "" := by
        intro h0
        rw [hsch] at h0
        have := ToLower_eq_empty _ h0
        exact hne (hs.1.trans this)
      simp [hsne]

/-- ASCII text has no byte for `hexEscapeNonASCII` to escape. -/
theorem hexEscapeNonASCII_of_isASCII (s : String) (h : strings.isASCII s = true) :
    http.hexEscapeNonASCII s = s := by
  unfold strings.isASCII at h
  unfold http.hexEscapeNonASCII
  have key : ∀ l : List Char, l.all (fun c => decide (c.toNat < 128)) = true →
      (l.map (fun c =>
        if c.toNat < 128 then [c]
        else ((url.utf8 c).map (fun b =>
          [Char.ofNat 37, http.lowerhex (b / 16), http.lowerhex (b % 16)])).flatten)).flatten
        = l := by
    intro l
    induction l with
    | nil => intro _; rfl
    | cons c cs ih =>
      intro hl
      simp only [List.all_cons, Bool.and_eq_true, decide_eq_true_eq] at hl
      simp only [List.map_cons, List.flatten_cons, hl.1, if_true, List.singleton_append]
      rw [ih hl.2]
  rw [key _ h]

theorem isASCII_append (a b : String) :
    strings.isASCII (a ++ b) = (strings.isASCII a && strings.isASCII b) := by
  unfold strings.isASCII
  rw [String.data_append, List.all_append]

/-- The bytes of a character are bytes. -/
theorem utf8_lt (c : Char) : ∀ b ∈ url.utf8 c, b < 256 := by
  have hv : c.toNat < 1114112 := by
    have := c.valid
    unfold Char.toNat
    rcases this with h | h
    · have : c.val.toNat < 55296 := h
      omega
    · exact h.2
  intro b hb
  unfold url.utf8 at hb
  simp only at hb
  split at hb
  · simp only [List.mem_singleton] at hb
    omega
  · split at hb
    · simp only [List.mem_cons, List.mem_singleton, List.mem_nil_iff, or_false] at hb
      omega
    · split at hb
      · simp only [List.mem_cons, List.mem_singleton, List.mem_nil_iff, or_false] at hb
        omega
      · simp only [List.mem_cons, List.mem_singleton, List.mem_nil_iff, or_false] at hb
        omega

set_option maxRecDepth 100000 in
/-- An escaped byte is written in ASCII. -/
theorem escapeByte_ascii : ∀ b < 256, (url.escapeByte b).all (fun c => c.toNat < 128) = true := by
  decide

/-- The output of `QueryEscape` is ASCII. -/
theorem QueryEscape_isASCII (s : String) : strings.isASCII (url.QueryEscape s) = true := by
  unfold strings.isASCII url.QueryEscape
  rw [List.all_eq_true]
  intro x hx
  simp only [List.mem_flatten, List.mem_map] at hx
  obtain ⟨l, ⟨c, _, hl⟩, hx⟩ := hx
  subst hl
  simp only [List.mem_flatten, List.mem_map] at hx
  obtain ⟨l2, ⟨b, hb, hl2⟩, hx⟩ := hx
  subst hl2
  have := escapeByte_ascii b (utf8_lt c b hb)
  rw [List.all_eq_true] at this
  exact this x hx

end server

end Dex

namespace Dex

namespace server

open kubernetes

/-! ## The redirect of an authorization error -/

/-- The parameters that `authErr.ServeHTTP` adds are written in ASCII. -/
theorem authErr_query_isASCII (e : authErr) :
    strings.isASCII ((if strings.Contains e.RedirectURI "?" then "&" else "?") ++
      ("error=" ++ url.QueryEscape e.Typ ++
        (if e.Description = "" then ""
         else "&error_description=" ++ url.QueryEscape e.Description) ++
        "&state=" ++ url.QueryEscape e.State)) = true := by
  have h1 : strings.isASCII (if strings.Contains e.RedirectURI "?" then "&" else "?") = true := by
    split <;> decide
  have h2 : strings.isASCII (if e.Description = "" then ""
      else "&error_description=" ++ url.QueryEscape e.Description) = true := by
    split
    · decide
    · rw [isASCII_append, QueryEscape_isASCII]
      decide
  have h3 : strings.isASCII "error=" = true := by decide
  have h4 : strings.isASCII "&state=" = true := by decide
  simp only [isASCII_append, h1, h2, h3, h4, QueryEscape_isASCII, Bool.and_self]

/-- C18, amended. For every `authErr` `e`, the response of `e.ServeHTTP` has the header
`Location` that `http.Redirect` makes of `e.RedirectURI`, followed by `&` if
`e.RedirectURI` contains `?` and by `?` otherwise, followed by the URL-encoded parameters
`error = e.Type`, `error_description = e.Description` (only when the description is not
empty) and `state = e.State`. When `e.RedirectURI` begins with a scheme and is written in
ASCII, `Location` is that very string, so `e.RedirectURI`, with the query it has, is
at the head of `Location`. On a writer whose header was not yet written the status is
303. -/
theorem authErr_ServeHTTP_redirect (e : authErr) (w : http.ResponseWriter)
    (r : http.Request) :
    (e.ServeHTTP w r).HeaderGet "Location" =
      http.hexEscapeNonASCII (http.redirectURL r.Path
        (e.RedirectURI ++ (if strings.Contains e.RedirectURI "?" then "&" else "?") ++
          ("error=" ++ url.QueryEscape e.Typ ++
            (if e.Description = "" then ""
             else "&error_description=" ++ url.QueryEscape e.Description) ++
            "&state=" ++ url.QueryEscape e.State))) ∧
    (url.hasScheme e.RedirectURI = true → strings.isASCII e.RedirectURI = true →
      (e.ServeHTTP w r).HeaderGet "Location" =
        e.RedirectURI ++ (if strings.Contains e.RedirectURI "?" then "&" else "?") ++
          ("error=" ++ url.QueryEscape e.Typ ++
            (if e.Description = "" then ""
             else "&error_description=" ++ url.QueryEscape e.Description) ++
            "&state=" ++ url.QueryEscape e.State) ∧
      strings.HasPrefix ((e.ServeHTTP w r).HeaderGet "Location") e.RedirectURI = true) ∧
    (w.StatusCode = 0 → (e.ServeHTTP w r).StatusCode = 303) := by
  have hloc : (e.ServeHTTP w r).HeaderGet "Location" =
      http.hexEscapeNonASCII (http.redirectURL r.Path
        (e.RedirectURI ++ (if strings.Contains e.RedirectURI "?" then "&" else "?") ++
          ("error=" ++ url.QueryEscape e.Typ ++
            (if e.Description = "" then ""
             else "&error_description=" ++ url.QueryEscape e.Description) ++
            "&state=" ++ url.QueryEscape e.State))) := by
    unfold authErr.ServeHTTP
    simp only
    rw [Redirect_Location, Encode_authErr]
    split <;> rfl
  refine ⟨hloc, ?_, ?_⟩
  · intro habs hascii
    have heq : (e.ServeHTTP w r).HeaderGet "Location" =
        e.RedirectURI ++ (if strings.Contains e.RedirectURI "?" then "&" else "?") ++
          ("error=" ++ url.QueryEscape e.Typ ++
            (if e.Description = "" then ""
             else "&error_description=" ++ url.QueryEscape e.Description) ++
            "&state=" ++ url.QueryEscape e.State) := by
      rw [hloc, String.append_assoc e.RedirectURI, redirectURL_of_scheme _ _ _ habs,
        hexEscapeNonASCII_of_isASCII]
      rw [isASCII_append, hascii, authErr_query_isASCII]
      rfl
    refine ⟨heq, ?_⟩
    rw [heq]
    unfold strings.HasPrefix
    rw [List.isPrefixOf_iff_prefix, String.data_append, String.data_append, List.append_assoc]
    exact List.prefix_append _ _
  · intro h0
    unfold authErr.ServeHTTP
    simp only
    exact Redirect_StatusCode w r _ http.StatusSeeOther h0 (by decide)

/-- Witness of C18: the redirect of an `invalid_scope` error to a redirect URI that has a
query. -/
theorem authErr_ServeHTTP_redirect_witness :
    url.hasScheme "https://app/cb?x=1" = true ∧ strings.isASCII "https://app/cb?x=1" = true ∧
    (authErr.ServeHTTP ⟨"xyz", "https://app/cb?x=1", "invalid_scope", "bad"⟩ {}
      { Path := "/auth" }).StatusCode = 303 ∧
    (authErr.ServeHTTP ⟨"xyz", "https://app/cb?x=1", "invalid_scope", "bad"⟩ {}
      { Path := "/auth" }).HeaderGet "Location" =
      "https://app/cb?x=1&error=invalid_scope&error_description=bad&state=xyz" ∧
    strings.HasPrefix
      ((authErr.ServeHTTP ⟨"xyz", "https://app/cb?x=1", "invalid_scope", "bad"⟩ {}
        { Path := "/auth" }).HeaderGet "Location") "https://app/cb?x=1" = true :=
  ⟨by decide, by decide,
   (authErr_ServeHTTP_redirect ⟨"xyz", "https://app/cb?x=1", "invalid_scope", "bad"⟩ {}
      { Path := "/auth" }).2.2 rfl,
   by decide,
   ((authErr_ServeHTTP_redirect ⟨"xyz", "https://app/cb?x=1", "invalid_scope", "bad"⟩ {}
      { Path := "/auth" }).2.1 (by decide) (by decide)).2⟩

/-- C18 as it was stated does not hold for every `authErr`: a redirect URI that is a
relative path is made an absolute path by `http.Redirect`. On a request to `/auth`, the
redirect URI `cb` gives the `Location` `/cb?...`, and the empty redirect URI, with which
`parseAuthorizationRequest` builds its first errors, gives `/?...`: the redirect URI
followed by `?` and the parameters is not the `Location`, and `cb` is not at its head. -/
theorem authErr_ServeHTTP_relative :
    (authErr.ServeHTTP ⟨"xyz", "cb", "invalid_scope", ""⟩ {}
      { Path := "/auth" }).HeaderGet "Location" = "/cb?error=invalid_scope&state=xyz" ∧
    (authErr.ServeHTTP ⟨"xyz", "cb", "invalid_scope", ""⟩ {}
      { Path := "/auth" }).HeaderGet "Location" ≠
      "cb" ++ "?" ++ ("error=" ++ url.QueryEscape "invalid_scope" ++ "" ++
        "&state=" ++ url.QueryEscape "xyz") ∧
    strings.HasPrefix
      ((authErr.ServeHTTP ⟨"xyz", "cb", "invalid_scope", ""⟩ {}
        { Path := "/auth" }).HeaderGet "Location") "cb" = false ∧
    (authErr.ServeHTTP ⟨"xyz", "", "invalid_request", ""⟩ {}
      { Path := "/auth" }).HeaderGet "Location" = "/?error=invalid_request&state=xyz" ∧
    (authErr.ServeHTTP ⟨"xyz", "/a/../cb", "invalid_scope", ""⟩ {}
      { Path := "/auth" }).HeaderGet "Location" = "/cb?error=invalid_scope&state=xyz" := by
  decide

end server

end Dex

namespace Dex

namespace server

open kubernetes

/-! ## A refresh that proceeds -/

theorem served_get {α : Type} (cli : kubernetes.client) (r : Resource α) (name : String)
    (σ : World) (h : served σ) : served (cli.get r name σ).2 := by
  rw [kubernetes.client.get_spec]
  exact served_step _ _ _ h

theorem served_GetRefresh (cli : kubernetes.client) (id : String) (σ : World)
    (h : served σ) : served (cli.GetRefresh id σ).2 := by
  have h1 := served_get cli resourceRefreshToken id σ h
  unfold kubernetes.client.GetRefresh
  split <;> simp_all

theorem served_GetKeys (cli : kubernetes.client) (σ : World) (h : served σ) :
    served (cli.GetKeys σ).2 := by
  have h1 := served_get cli resourceKeys keysName σ h
  unfold kubernetes.client.GetKeys
  split <;> simp_all

theorem served_newIDTokenScopes (s : Server) (clientID : String) (claims : storage.Claims)
    (scopes : List String) :
    ∀ (tok : idTokenClaims) (σ : World), served σ →
      served (s.newIDTokenScopes clientID claims scopes tok σ).2 := by
  induction scopes with
  | nil => intro tok σ h; exact h
  | cons scope scopes ih =>
    intro tok σ hs
    unfold Server.newIDTokenScopes
    split
    · exact ih _ _ hs
    · split
      · exact ih _ _ hs
      · split
        · exact ih _ _ hs
        · split
          · exact ih _ _ hs
          · have h := served_validateCrossClientTrust s clientID ‹String› σ hs
            split
            · simp_all
            · simp_all
            · rename_i hv
              rw [hv] at h
              exact ih _ _ h

theorem served_newIDTokenClaims (s : Server) (clientID : String) (claims : storage.Claims)
    (scopes : List String) (nonce : String) (σ : World) (hs : served σ) :
    served (s.newIDTokenClaims clientID claims scopes nonce σ).2 := by
  have h := served_newIDTokenScopes s clientID claims scopes
    { Issuer := s.issuerURL, Subject := claims.UserID, Nonce := nonce,
      Expiry := s.now + s.idTokensValidFor, IssuedAt := s.now } σ hs
  unfold Server.newIDTokenClaims
  simp only
  split
  · simp_all
  · split <;> simp_all

theorem served_newIDToken (s : Server) (clientID : String) (claims : storage.Claims)
    (scopes : List String) (nonce : String) (σ : World) (hs : served σ) :
    served (s.newIDToken clientID claims scopes nonce σ).2 := by
  have h := served_newIDTokenClaims s clientID claims scopes nonce σ hs
  unfold Server.newIDToken
  simp only
  split
  · simp_all
  · rename_i tok σ1 hc
    rw [hc] at h
    have h2 := served_GetKeys s.storage σ1 h
    split
    · rename_i hk
      rw [hk] at h2
      exact h2
    · rename_i hk
      rw [hk] at h2
      split
      · exact h2
      · exact h2

/-- The run of `handleRefreshToken` in which every step succeeds ends with the token
response. -/
theorem handleRefreshToken_proceeds (s : Server) (w : http.ResponseWriter) (r : http.Request)
    (client : storage.Client) (σ σ1 σ2 σ3 σ5 : World) (stored refresh : storage.RefreshToken)
    (conn : Connector) (idToken : String) (expiry : Time)
    (hcode : r.PostFormValue "refresh_token" ≠ "")
    (hget : s.storage.GetRefresh (r.PostFormValue "refresh_token") σ = (.ok stored, σ1))
    (hcl : stored.ClientID = client.ID)
    (hun : r.PostFormValue "scope" ≠ "" →
      unauthorizedScopes (r.PostFormValue "scope") stored = [])
    (hconn : s.connector? stored.ConnectorID = some conn)
    (href : refreshedBy conn (refreshScopes (r.PostFormValue "scope") stored) stored =
      .ok refresh)
    (hnew : s.newIDToken client.ID refresh.Claims
      (refreshScopes (r.PostFormValue "scope") stored) refresh.Nonce σ1 =
        (.ok (idToken, expiry), σ2))
    (hdel : s.storage.DeleteRefresh (r.PostFormValue "refresh_token") σ2 = (none, σ3))
    (hcr : s.storage.CreateRefresh { refresh with RefreshToken := (storage.NewID σ3).1 }
      (storage.NewID σ3).2 = (none, σ5)) :
    s.handleRefreshToken w r client σ =
      s.writeAccessToken w idToken (storage.NewID σ3).1 expiry σ5 := by
  rcases handleRefreshToken_cases s w r client σ with
    ⟨typ, d, c, hout, -⟩ |
    ⟨stored0, σ10, conn0, refresh0, idToken0, expiry0, σ20, -, hget0, -, -, hconn0, href0, hnew0,
      hrest⟩
  · exfalso
    revert hout
    unfold Server.handleRefreshToken
    simp only [hcode, if_false, hget, errOf, valOf, hcl, ne_eq, not_true_eq_false, or_self,
      hconn]
    have hlen : ¬ (¬ r.PostFormValue "scope" = "" ∧
        (List.filter (fun s => !stored.Scopes.any fun scope => s == scope)
          (strings.Fields (r.PostFormValue "scope"))).length > 0) := by
      rintro ⟨h1, h2⟩
      have := hun h1
      unfold unauthorizedScopes at this
      rw [this] at h2
      simp at h2
    simp only [hlen, if_false]
    have hsc : (if ¬ r.PostFormValue "scope" = "" then
        strings.Fields (r.PostFormValue "scope") else stored.Scopes) =
        refreshScopes (r.PostFormValue "scope") stored := rfl
    rw [hsc]
    have href2 := href
    unfold refreshedBy at href2
    simp only [hcl] at href2
    simp only [href2, hnew, hdel, hcr]
    intro hout
    have h1 := tokenResponse?_tokenErr w typ d c
    rw [← hout, tokenResponse?_writeAccessToken] at h1
    simp at h1
  · rw [hget] at hget0
    simp only [Prod.mk.injEq, Except.ok.injEq] at hget0
    obtain ⟨hst, hσ1⟩ := hget0
    subst hst
    subst hσ1
    rw [hconn] at hconn0
    have hc0 := Option.some.inj hconn0
    subst hc0
    rw [href] at href0
    have hr0 := Except.ok.inj href0
    subst hr0
    rw [hnew] at hnew0
    simp only [Prod.mk.injEq, Except.ok.injEq] at hnew0
    obtain ⟨⟨hid, hex⟩, hσ2⟩ := hnew0
    subst hid
    subst hex
    subst hσ2
    rcases hrest with ⟨e1, hd, -⟩ | ⟨σ30, hdel0, hrest⟩
    · rw [hdel] at hd
      simp at hd
    · rw [hdel] at hdel0
      simp only [Prod.mk.injEq, true_and] at hdel0
      subst hdel0
      rcases hrest with ⟨e1, hc1, -⟩ | ⟨σ50, hcr0, hout⟩
      · rw [hcr] at hc1
        simp at hc1
      · rw [hcr] at hcr0
        simp only [Prod.mk.injEq, true_and] at hcr0
        subst hcr0
        exact hout

end server

end Dex

namespace Dex

namespace server

open kubernetes

/-- C5. In `handleRefreshToken`, a refresh of a stored token of the client proceeds when
the `scope` parameter is empty or every requested scope is one of the stored scopes:
when every API call is served, the connector of the token refreshes the claims,
`newIDToken` returns an ID token for the refreshed claims and for the scopes of the
request (the stored scopes when `scope` is empty, the requested scopes otherwise) and the
new id is not the id of another stored token, the answer is a token response that
carries that ID token. Conversely every token response carries an ID token minted by
`newIDToken` for those scopes, and when `scope` is supplied every requested scope is one
of the stored scopes. A refresh of a stored token of the client that asks for a scope
that is not among the stored ones is answered with HTTP 400 and `invalid_request`, and
the storage is left unchanged. -/
theorem handleRefreshToken_scope (s : Server) (w : http.ResponseWriter) (r : http.Request)
    (client : storage.Client) (σ : World) :
    (∀ stored σ1 conn refresh idToken expiry,
      served σ →
      r.PostFormValue "refresh_token" ≠ "" →
      s.storage.GetRefresh (r.PostFormValue "refresh_token") σ = (.ok stored, σ1) →
      stored.ClientID = client.ID →
      (r.PostFormValue "scope" ≠ "" →
        ∀ x ∈ strings.Fields (r.PostFormValue "scope"), x ∈ stored.Scopes) →
      s.connector? stored.ConnectorID = some conn →
      refreshedBy conn
        (if r.PostFormValue "scope" = "" then stored.Scopes
          else strings.Fields (r.PostFormValue "scope")) stored = .ok refresh →
      (s.newIDToken client.ID refresh.Claims
        (if r.PostFormValue "scope" = "" then stored.Scopes
          else strings.Fields (r.PostFormValue "scope"))
        refresh.Nonce σ1).1 = .ok (idToken, expiry) →
      (σ.cluster.refreshtokens.filter
          (fun x => !(x.ObjectMeta.Name == r.PostFormValue "refresh_token"))).any
        (fun x => x.ObjectMeta.Name == (storage.NewID σ).1) = false →
      ∃ o, tokenResponse? (s.handleRefreshToken w r client σ).1 = some o ∧
        o.field "id_token" = some (.str idToken)) ∧
    (∀ o, tokenResponse? (s.handleRefreshToken w r client σ).1 = some o →
      ∃ (stored : storage.RefreshToken) (σ1 : World) (conn : Connector)
          (refresh : storage.RefreshToken) (idToken : String) (expiry : Time) (σ2 : World),
        s.storage.GetRefresh (r.PostFormValue "refresh_token") σ = (.ok stored, σ1) ∧
        (r.PostFormValue "scope" ≠ "" →
          ∀ x ∈ strings.Fields (r.PostFormValue "scope"), x ∈ stored.Scopes) ∧
        s.connector? stored.ConnectorID = some conn ∧
        refreshedBy conn
          (if r.PostFormValue "scope" = "" then stored.Scopes
            else strings.Fields (r.PostFormValue "scope")) stored = .ok refresh ∧
        s.newIDToken client.ID refresh.Claims
          (if r.PostFormValue "scope" = "" then stored.Scopes
            else strings.Fields (r.PostFormValue "scope"))
          refresh.Nonce σ1 = (.ok (idToken, expiry), σ2) ∧
        o.field "id_token" = some (.str idToken)) ∧
    (∀ stored σ1,
      r.PostFormValue "refresh_token" ≠ "" →
      s.storage.GetRefresh (r.PostFormValue "refresh_token") σ = (.ok stored, σ1) →
      stored.ClientID = client.ID →
      r.PostFormValue "scope" ≠ "" →
      (∃ x ∈ strings.Fields (r.PostFormValue "scope"), x ∉ stored.Scopes) →
      (∃ description,
        (s.handleRefreshToken w r client σ).1 =
          tokenErr w errInvalidRequest description http.StatusBadRequest) ∧
      tokenResponse? (s.handleRefreshToken w r client σ).1 = none ∧
      (s.handleRefreshToken w r client σ).2.cluster = σ.cluster) := by
  have hsc : ∀ stored : storage.RefreshToken,
      refreshScopes (r.PostFormValue "scope") stored =
        (if r.PostFormValue "scope" = "" then stored.Scopes
          else strings.Fields (r.PostFormValue "scope")) := by
    intro stored
    unfold refreshScopes
    by_cases hs : r.PostFormValue "scope" = "" <;> simp [hs]
  refine ⟨?_, ?_, ?_⟩
  · intro stored σ1 conn refresh idToken expiry hs hcode hget hcl hsub hconn href hnew hfresh
    rw [← hsc] at href hnew
    have hun : r.PostFormValue "scope" ≠ "" →
        unauthorizedScopes (r.PostFormValue "scope") stored = [] := by
      intro hne
      unfold unauthorizedScopes
      rw [List.filter_eq_nil_iff]
      intro x hx
      have := hsub hne x hx
      simp only [Bool.not_eq_true', Bool.not_eq_false, List.any_eq_true, beq_iff_eq]
      exact ⟨x, this, rfl⟩
    have hs1 : served σ1 := by
      have := served_GetRefresh s.storage (r.PostFormValue "refresh_token") σ hs
      rwa [hget] at this
    have hr1 : readsOnly σ σ1 := by
      have := readsOnly_GetRefresh s.storage (r.PostFormValue "refresh_token") σ
      rwa [hget] at this
    have hname : σ.cluster.refreshtokens.any
        (fun x => x.ObjectMeta.Name == r.PostFormValue "refresh_token") = true := by
      have h1 := GetRefresh_fst s.storage (r.PostFormValue "refresh_token") σ
      rw [hget] at h1
      simp only at h1
      cases hg : (s.storage.get resourceRefreshToken (r.PostFormValue "refresh_token") σ).1 with
      | error e => rw [hg] at h1; simp at h1
      | ok o =>
        have h2 := (kubernetes.client.get_ok _ _ _ _ _ hg).2
        rw [List.any_eq_true]
        exact ⟨o, List.mem_of_find?_eq_some h2, by
          have := List.find?_some h2
          simpa [resourceRefreshToken] using this⟩
    rcases hn : s.newIDToken client.ID refresh.Claims
      (refreshScopes (r.PostFormValue "scope") stored) refresh.Nonce σ1 with ⟨res, σ2⟩
    rw [hn] at hnew
    simp only at hnew
    subst hnew
    have hs2 : served σ2 := by
      have := served_newIDToken s client.ID refresh.Claims
        (refreshScopes (r.PostFormValue "scope") stored) refresh.Nonce σ1 hs1
      rwa [hn] at this
    have hr2 : readsOnly σ1 σ2 := by
      have := readsOnly_newIDToken s client.ID refresh.Claims
        (refreshScopes (r.PostFormValue "scope") stored) refresh.Nonce σ1
      rwa [hn] at this
    have hr := hr1.trans hr2
    obtain ⟨σ3, hdel, hs3, hc3⟩ := delete_served s.storage resourceRefreshToken
      (r.PostFormValue "refresh_token") σ2 hs2 (by
        rw [hr.1]
        exact hname)
    have hdel2 : s.storage.DeleteRefresh (r.PostFormValue "refresh_token") σ2 = (none, σ3) :=
      hdel
    have he3 : σ3.entropy = σ.entropy := by
      rw [(DeleteRefresh_ok s.storage _ σ2 σ3 hdel2).2, hr.2.1]
    have hid : (storage.NewID σ3).1 = (storage.NewID σ).1 := NewID_fst_congr σ3 σ he3
    have hs4 : served (storage.NewID σ3).2 := by
      intro f hf
      rw [NewID_faults] at hf
      exact hs3 f hf
    obtain ⟨σ5, hpost, -, -⟩ := post_served s.storage resourceRefreshToken
      (refreshObject s.storage { refresh with RefreshToken := (storage.NewID σ3).1 })
      (storage.NewID σ3).2 hs4 (by
        simp only [NewID_cluster, hc3, hr.1, hid]
        simpa [resourceRefreshToken, refreshObject] using hfresh)
    have hcr : s.storage.CreateRefresh { refresh with RefreshToken := (storage.NewID σ3).1 }
        (storage.NewID σ3).2 = (none, σ5) := by
      rw [CreateRefresh_eq]
      exact hpost
    rw [handleRefreshToken_proceeds s w r client σ σ1 σ2 σ3 σ5 stored refresh conn idToken
      expiry hcode hget hcl hun hconn href hn hdel2 hcr, tokenResponse?_writeAccessToken]
    refine ⟨_, rfl, ?_⟩
    simp [json.Object.field, json.omitemptyStr, NewID_ne_empty, List.find?]
  · intro o h
    obtain ⟨stored, σ1, conn, refresh, idToken, expiry, σ2, accessToken, -, hget, -, hun, hconn,
      href, hnew, -, -, ho⟩ := handleRefreshToken_token s w r client σ o h
    refine ⟨stored, σ1, conn, refresh, idToken, expiry, σ2, hget, ?_, hconn, hsc stored ▸ href,
      ?_, ?_⟩
    · intro hs x hx
      have := hun hs
      unfold unauthorizedScopes at this
      rw [List.filter_eq_nil_iff] at this
      have hx2 := this x hx
      simp only [Bool.not_eq_true', Bool.not_eq_false, List.any_eq_true, beq_iff_eq] at hx2
      obtain ⟨y, hy, hxy⟩ := hx2
      exact hxy ▸ hy
    · rw [← hsc]
      exact hnew
    · rw [ho]
      simp [json.Object.field, List.find?]
  · intro stored σ1 hcode hget hcl hscope hun
    have hout := handleRefreshToken_unauthorized s w r client σ σ1 stored hcode hget hcl hscope
      hun
    rw [hout]
    refine ⟨⟨_, rfl⟩, tokenResponse?_tokenErr _ _ _ _, ?_⟩
    have := readsOnly_GetRefresh s.storage (r.PostFormValue "refresh_token") σ
    rw [hget] at this
    exact this.1

/-- Witness of C5: in the example deployment, where the stored token has the scopes
`openid`, `email` and `offline_access`, the refresh without a `scope` parameter and the
refresh with `scope=openid` are both answered with a token response that carries the ID
token, and the refresh with `scope=openid groups`, where `groups` was not granted, is
answered with `invalid_request` and status 400, the storage left as it was. -/
theorem handleRefreshToken_scope_witness :
    (∃ o, tokenResponse? (example1.srv.handleRefreshToken {} (example1.refreshRequest "")
        example1.c1 example1.world).1 = some o ∧
      o.field "id_token" = some (.str "jws:u1")) ∧
    (∃ o, tokenResponse? (example1.srv.handleRefreshToken {} (example1.refreshRequest "openid")
        example1.c1 example1.world).1 = some o ∧
      o.field "id_token" = some (.str "jws:u1")) ∧
    (example1.srv.handleRefreshToken {} (example1.refreshRequest "openid groups")
      example1.c1 example1.world).1.StatusCode = 400 ∧
    tokenResponse? (example1.srv.handleRefreshToken {} (example1.refreshRequest "openid groups")
      example1.c1 example1.world).1 = none ∧
    (example1.srv.handleRefreshToken {} (example1.refreshRequest "openid groups")
      example1.c1 example1.world).2.cluster = example1.world.cluster :=
  ⟨(handleRefreshToken_scope example1.srv {} (example1.refreshRequest "") example1.c1
      example1.world).1 example1.refresh _ {} example1.refresh "jws:u1" 3610 (by decide)
      (by decide) rfl rfl (by decide) rfl rfl rfl (by decide),
   (handleRefreshToken_scope example1.srv {} (example1.refreshRequest "openid") example1.c1
      example1.world).1 example1.refresh _ {} example1.refresh "jws:u1" 3610 (by decide)
      (by decide) rfl rfl (by decide) rfl rfl rfl (by decide),
   by decide,
   ((handleRefreshToken_scope example1.srv {} (example1.refreshRequest "openid groups")
      example1.c1 example1.world).2.2 example1.refresh _ (by decide) rfl rfl (by decide)
      ⟨"groups", by decide, by decide⟩).2.1,
   ((handleRefreshToken_scope example1.srv {} (example1.refreshRequest "openid groups")
      example1.c1 example1.world).2.2 example1.refresh _ (by decide) rfl rfl (by decide)
      ⟨"groups", by decide, by decide⟩).2.2⟩

end server

end Dex
